import Mathlib

/-!
# serprog driver (flashrom, `serprog.c`): shallow embedding

The driver keeps its session in file-level statics and talks to the programmer
through `serialport_read` / `serialport_write`.  Here the statics become the
fields of `State`, every C function becomes a function that takes the state and
returns its C return value together with the new state, and the serial channel
is a script of what the device will answer together with the bytes written so
far.

Conventions.
* `int` variables are `Int`; `uint16_t` / `uint32_t` / `uint8_t` variables are
  `Nat`.  The lengths and counters of the driver stay far below their wrapping
  points; the one `uint32_t` sum that can really wrap,
  `sp_write_n_addr + sp_write_n_bytes`, is reduced modulo `2 ^ 32`.
* `sp_pass_writen`, `sp_execute_opbuf_noflush` and `sp_check_opbuf_usage` call
  each other.  They, and the functions that call them, take a `fuel : Nat`
  bounding the call depth, and return `none` when it is exhausted.
* `msg_perr` / `msg_pwarn` diagnostics and the local sleep are recorded in
  `State.log`.
-/

namespace Serprog

/-! ## Protocol constants -/

/-- Modelled from the spec: `serprog.h` is not part of the sources; the positive
acknowledgement byte is `0x06`. -/
def S_ACK : Nat := 0x06

/-- Modelled from the spec: `serprog.h` is not part of the sources; the negative
acknowledgement byte is `0x15`. -/
def S_NAK : Nat := 0x15

/-- The command opcodes of `serprog.h` used by the chip operations.  The header
is not part of the sources, so the numeric values are a parameter. -/
structure Opcodes where
  S_CMD_R_BYTE : Nat
  S_CMD_R_NBYTES : Nat
  S_CMD_O_WRITEB : Nat
  S_CMD_O_WRITEN : Nat
  S_CMD_O_DELAY : Nat
  S_CMD_O_EXEC : Nat
  S_CMD_O_SPIOP : Nat
  S_CMD_O_POLL : Nat
  S_CMD_O_POLL_DLY : Nat
deriving DecidableEq, Repr

/-- One assignment of opcode values (those of the published serprog protocol,
with `0x16` / `0x17` for the two poll commands), used to evaluate the model on
concrete inputs. -/
def serprog_h : Opcodes :=
  { S_CMD_R_BYTE := 0x09, S_CMD_R_NBYTES := 0x0A, S_CMD_O_WRITEB := 0x0C,
    S_CMD_O_WRITEN := 0x0D, S_CMD_O_DELAY := 0x0E, S_CMD_O_EXEC := 0x0F,
    S_CMD_O_SPIOP := 0x13, S_CMD_O_POLL := 0x16, S_CMD_O_POLL_DLY := 0x17 }

/-! `enum stream_operation_id` -/

def OPID_NONE : Nat := 0
def OPID_WRITEB : Nat := 1
def OPID_WRITEN : Nat := 2
def OPID_UDELAY : Nat := 3
def OPID_READN : Nat := 4
def OPID_READB : Nat := 5
def OPID_POLL : Nat := 6
def OPID_POLLD : Nat := 7
def OPID_EXEC_OPBUF : Nat := 8
def OPID_SPIOP : Nat := 9

def STREAMOP_SIZE (x : Nat) : Nat := x &&& 0x3ffffff

def STREAMOP_TYPE (x : Nat) : Nat := x >>> 26

/-! ## The serial channel -/

/-- Modelled from the spec: the transport (`serialport_read`,
`serialport_write`) is an external byte channel.  `rx` scripts the results of
the coming one-byte reads (`some b`: the byte `b` arrives, `none`: the read
fails; an exhausted script is a failed read), `wfail` scripts the results of
the coming non-empty writes (`true`: the write fails and transmits nothing; an
exhausted script means the write succeeds), `tx` is everything written so far,
in order. -/
structure Chan where
  rx : List (Option Nat)
  wfail : List Bool
  tx : List Nat
deriving DecidableEq, Repr

/-- Host-side events: the diagnostics the driver prints with `msg_perr` /
`msg_pwarn` (and the availability warning), and its local sleep. -/
inductive Event where
  | cmdcheck_failed (cmd : Nat)
  | put_not_allocated
  | get_not_allocated
  | get_empty_fifo
  | flush_read_error
  | stream_nak (optype : Nat)
  | stream_invalid_reply (c : Nat) (optype : Nat)
  | accounting_error (bytes : Int)
  | cannot_write_command
  | cannot_write_writen_command
  | cannot_write_writen_data
  | could_not_transfer_write_buffer
  | could_not_execute_command_buffer
  | early_execute_warning
  | could_not_flush_command_buffer
  | readb_byteread
  | cannot_read_readn_data
  | spi_could_not_execute
  | spi_reply_read_failed
  | internal_delay (usecs : Nat)
  | cannot_write_op_code
  | cannot_write_parameters
  | cannot_read_from_device
  | invalid_response (c : Nat) (command : Nat)
  | cannot_read_return_parameters
  | could_not_disable_output_buffers
  | free_ops_info
  | free_write_n_buf
  | serialport_shutdown
deriving DecidableEq, Repr

/-- The file-level statics of `serprog.c`, the channel and the event log. -/
structure State where
  sp_device_serbuf_size : Nat
  sp_device_opbuf_size : Nat
  sp_cmdmap : List Nat
  sp_prev_was_write : Bool
  sp_write_n_addr : Nat
  sp_max_write_n : Nat
  sp_max_read_n : Nat
  sp_write_n_buf : List Nat
  sp_write_n_bytes : Nat
  sp_streamed_transmit_ops : Int
  sp_streamed_transmit_bytes : Int
  sp_streamed_ops_info : Option (List Nat)
  sp_streamed_ops_woff : Nat
  sp_streamed_ops_roff : Nat
  sp_opbuf_usage : Int
  sp_check_avail_automatic : Bool
  chan : Chan
  log : List Event
deriving DecidableEq, Repr

def State.msg (s : State) (e : Event) : State := { s with log := s.log ++ [e] }

/-- `serialport_write(buf, len)`: a write of no bytes succeeds at once. -/
def serialport_write (buf : List Nat) (s : State) : Nat × State :=
  match buf, s.chan.wfail with
  | [], _ => (0, s)
  | _ :: _, true :: w => (1, { s with chan := { s.chan with wfail := w } })
  | _ :: _, false :: w => (0, { s with chan := { s.chan with wfail := w, tx := s.chan.tx ++ buf } })
  | _ :: _, [] => (0, { s with chan := { s.chan with tx := s.chan.tx ++ buf } })

/-- `serialport_read(&c, 1)`: the return value, the byte read (if any) and the
new state. -/
def serialport_read1 (s : State) : Nat × Option Nat × State :=
  match s.chan.rx with
  | [] => (1, none, s)
  | none :: r => (1, none, { s with chan := { s.chan with rx := r } })
  | some b :: r => (0, some b, { s with chan := { s.chan with rx := r } })

/-- `serialport_read(buf, len)`: reads `len` bytes one after the other and
stops at the first failure; returns the bytes obtained. -/
def serialport_read : Nat → State → Nat × List Nat × State
  | 0, s => (0, [], s)
  | len + 1, s =>
    match serialport_read1 s with
    | (0, some b, s1) =>
      match serialport_read len s1 with
      | (ret, bs, s2) => (ret, b :: bs, s2)
    | (_, _, s1) => (1, [], s1)

/-! ## Command map -/

def sp_check_commandavail (command : Nat) (s : State) : Nat :=
  let byteoffs := command / 8
  let bitoffs := command % 8
  if (s.sp_cmdmap.getD byteoffs 0) &&& (1 <<< bitoffs) ≠ 0 then 1 else 0

def sp_automatic_cmdcheck (cmd : Nat) (s : State) : Nat × State :=
  if s.sp_check_avail_automatic ∧ sp_check_commandavail cmd s = 0 then
    (1, s.msg (Event.cmdcheck_failed cmd))
  else (0, s)

/-! ## Stream window -/

def sp_streamop_put (id : Nat) (len : Nat) (s : State) : State :=
  let streamop := ((id <<< 26) ||| len) % 2 ^ 32
  match s.sp_streamed_ops_info with
  | none => s.msg Event.put_not_allocated
  | some info =>
    let woff1 := s.sp_streamed_ops_woff + 1
    { s with
      sp_streamed_ops_info := some (info.set s.sp_streamed_ops_woff streamop)
      sp_streamed_ops_woff := if woff1 ≥ s.sp_device_serbuf_size then 0 else woff1
      sp_streamed_transmit_ops := s.sp_streamed_transmit_ops + 1
      sp_streamed_transmit_bytes := s.sp_streamed_transmit_bytes + len }

def sp_streamop_get (s : State) : Nat × State :=
  match s.sp_streamed_ops_info with
  | none => (1, s.msg Event.get_not_allocated)
  | some info =>
    if s.sp_streamed_ops_roff = s.sp_streamed_ops_woff then
      (1, s.msg Event.get_empty_fifo)
    else
      let op := info.getD s.sp_streamed_ops_roff 0
      let roff1 := s.sp_streamed_ops_roff + 1
      (op, { s with
        sp_streamed_ops_roff := if roff1 ≥ s.sp_device_serbuf_size then 0 else roff1
        sp_streamed_transmit_ops := s.sp_streamed_transmit_ops - 1
        sp_streamed_transmit_bytes := s.sp_streamed_transmit_bytes - STREAMOP_SIZE op })

/-- The `do { ... } while (sp_streamed_transmit_ops)` loop of
`sp_check_stream_free`.  Every iteration starts with a one-byte read; the first
argument is the input still to come (the caller passes `s.chan.rx`), so the
loop is a recursion on it.  Returns `1` where the C code returns `1` from
inside the loop and `0` where it leaves the loop. -/
def sp_check_stream_free_loop (streamed_bytes_target : Int) :
    List (Option Nat) → State → Nat × State
  | [], s => (1, s.msg Event.flush_read_error)
  | none :: r, s =>
    (1, ({ s with chan := { s.chan with rx := r } } : State).msg Event.flush_read_error)
  | some c :: r, s =>
    let s1 : State := { s with chan := { s.chan with rx := r } }
    match sp_streamop_get s1 with
    | (op, s2) =>
      if c = S_NAK then (1, s2.msg (Event.stream_nak (STREAMOP_TYPE op)))
      else if c ≠ S_ACK then (1, s2.msg (Event.stream_invalid_reply c (STREAMOP_TYPE op)))
      else if s2.sp_streamed_transmit_bytes ≤ streamed_bytes_target then (0, s2)
      else if s2.sp_streamed_transmit_ops ≠ 0 then
        sp_check_stream_free_loop streamed_bytes_target r s2
      else (0, s2)

def sp_check_stream_free (len_to_be_sent : Int) (s : State) : Nat × State :=
  let t0 : Int := (s.sp_device_serbuf_size : Int) - len_to_be_sent
  let streamed_bytes_target : Int := if t0 < 0 then 0 else t0
  let r : Nat × State :=
    if streamed_bytes_target < s.sp_streamed_transmit_bytes ∧ s.sp_streamed_transmit_ops ≠ 0 then
      sp_check_stream_free_loop streamed_bytes_target s.chan.rx s
    else (0, s)
  match r with
  | (0, s1) =>
    if s1.sp_streamed_transmit_ops = 0 then
      let s2 := if s1.sp_streamed_transmit_bytes ≠ 0 then
        s1.msg (Event.accounting_error s1.sp_streamed_transmit_bytes) else s1
      (0, { s2 with sp_streamed_transmit_bytes := 0 })
    else (0, s1)
  | (_, s1) => (1, s1)

def sp_flush_stream (s : State) : Nat × State :=
  sp_check_stream_free s.sp_device_serbuf_size s

def sp_stream_buffer_op (cmd : Nat) (parmlen : Nat) (parms : List Nat) (opid : Nat)
    (s : State) : Nat × State :=
  match sp_automatic_cmdcheck cmd s with
  | (0, s0) =>
    let sp := cmd :: parms.take parmlen
    match sp_check_stream_free ((1 + parmlen : Nat) : Int) s0 with
    | (0, s1) =>
      match serialport_write sp s1 with
      | (0, s2) => (0, sp_streamop_put opid (1 + parmlen) s2)
      | (_, s2) => (1, s2.msg Event.cannot_write_command)
    | (_, s1) => (1, s1)
  | (_, s0) => (1, s0)

/-! ## Opbuf manager and write coalescer -/

mutual

/-- Move the write-n run buffered in the host to the on-device operation
buffer. -/
def sp_pass_writen (oc : Opcodes) : Nat → State → Option (Nat × State)
  | 0, _ => none
  | fuel + 1, s =>
    match sp_check_stream_free ((7 + s.sp_write_n_bytes : Nat) : Int) s with
    | (0, s1) =>
      if s1.sp_write_n_bytes = 1 then
        match sp_check_opbuf_usage oc fuel 5 s1 with
        | none => none
        | some (_, s2) =>
          let s3 : State := { s2 with sp_write_n_bytes := 0 }
          let header := [(s3.sp_write_n_addr >>> 0) &&& 0xFF,
                         (s3.sp_write_n_addr >>> 8) &&& 0xFF,
                         (s3.sp_write_n_addr >>> 16) &&& 0xFF,
                         s3.sp_write_n_buf.getD 0 0]
          match sp_stream_buffer_op oc.S_CMD_O_WRITEB 4 header OPID_WRITEB s3 with
          | (0, s4) => some (0, { s4 with sp_opbuf_usage := s4.sp_opbuf_usage + 5 })
          | (_, s4) => some (1, s4)
      else
        match sp_check_opbuf_usage oc fuel ((7 + s1.sp_write_n_bytes : Nat) : Int) s1 with
        | none => none
        | some (_, s2) =>
          let header := [oc.S_CMD_O_WRITEN,
                         (s2.sp_write_n_bytes >>> 0) &&& 0xFF,
                         (s2.sp_write_n_bytes >>> 8) &&& 0xFF,
                         (s2.sp_write_n_bytes >>> 16) &&& 0xFF,
                         (s2.sp_write_n_addr >>> 0) &&& 0xFF,
                         (s2.sp_write_n_addr >>> 8) &&& 0xFF,
                         (s2.sp_write_n_addr >>> 16) &&& 0xFF]
          match serialport_write header s2 with
          | (0, s3) =>
            match serialport_write (s3.sp_write_n_buf.take s3.sp_write_n_bytes) s3 with
            | (0, s4) =>
              let s5 := sp_streamop_put OPID_WRITEN (7 + s4.sp_write_n_bytes) s4
              some (0, { s5 with
                sp_opbuf_usage := s5.sp_opbuf_usage + ((7 + s5.sp_write_n_bytes : Nat) : Int)
                sp_write_n_bytes := 0
                sp_prev_was_write := false })
            | (_, s4) => some (1, s4.msg Event.cannot_write_writen_data)
          | (_, s3) => some (1, s3.msg Event.cannot_write_writen_command)
    | (_, s1) => some (1, s1)

def sp_execute_opbuf_noflush (oc : Opcodes) : Nat → State → Option (Nat × State)
  | 0, _ => none
  | fuel + 1, s =>
    let r : Option (Nat × State) :=
      if s.sp_max_write_n ≠ 0 ∧ s.sp_write_n_bytes ≠ 0 then sp_pass_writen oc fuel s
      else some (0, s)
    match r with
    | none => none
    | some (0, s1) =>
      match sp_stream_buffer_op oc.S_CMD_O_EXEC 0 [] OPID_EXEC_OPBUF s1 with
      | (0, s2) => some (0, { s2 with sp_opbuf_usage := 0, sp_prev_was_write := false })
      | (_, s2) => some (1, s2.msg Event.could_not_execute_command_buffer)
    | some (_, s1) => some (1, s1.msg Event.could_not_transfer_write_buffer)

def sp_check_opbuf_usage (oc : Opcodes) : Nat → Int → State → Option (Nat × State)
  | 0, _, _ => none
  | fuel + 1, bytes_to_be_added, s =>
    if (s.sp_device_opbuf_size : Int) ≤ s.sp_opbuf_usage + bytes_to_be_added then
      match sp_execute_opbuf_noflush oc fuel (s.msg Event.early_execute_warning) with
      | none => none
      | some (0, s1) => some (0, s1)
      | some (_, s1) => some (1, s1)
    else some (0, s)

end

def sp_execute_opbuf (oc : Opcodes) (fuel : Nat) (s : State) : Option (Nat × State) :=
  match sp_execute_opbuf_noflush oc fuel s with
  | none => none
  | some (0, s1) =>
    match sp_flush_stream s1 with
    | (0, s2) => some (0, s2)
    | (_, s2) => some (1, s2)
  | some (_, s1) => some (1, s1)

/-! ## Chip operations -/

def serprog_chip_writeb (oc : Opcodes) (fuel : Nat) (val : Nat) (addr : Nat) (s : State) :
    Option State :=
  if s.sp_max_write_n ≠ 0 then
    let r : Option State :=
      if s.sp_prev_was_write ∧ addr = (s.sp_write_n_addr + s.sp_write_n_bytes) % 2 ^ 32 then
        some { s with
          sp_write_n_buf := s.sp_write_n_buf.set s.sp_write_n_bytes val
          sp_write_n_bytes := s.sp_write_n_bytes + 1 }
      else
        let r0 : Option State :=
          if s.sp_prev_was_write ∧ s.sp_write_n_bytes ≠ 0 then
            match sp_pass_writen oc fuel s with
            | none => none
            | some (_, s0) => some s0
          else some s
        match r0 with
        | none => none
        | some s0 =>
          some { s0 with
            sp_prev_was_write := true
            sp_write_n_addr := addr % 2 ^ 32
            sp_write_n_bytes := 1
            sp_write_n_buf := s0.sp_write_n_buf.set 0 val }
    match r with
    | none => none
    | some s1 =>
      match sp_check_opbuf_usage oc fuel ((7 + s1.sp_write_n_bytes : Nat) : Int) s1 with
      | none => none
      | some (_, s2) =>
        if s2.sp_write_n_bytes ≥ s2.sp_max_write_n then
          match sp_pass_writen oc fuel s2 with
          | none => none
          | some (_, s3) => some s3
        else some s2
  else
    match sp_check_opbuf_usage oc fuel 5 s with
    | none => none
    | some (_, s1) =>
      let writeb_parm := [(addr >>> 0) &&& 0xFF, (addr >>> 8) &&& 0xFF,
                          (addr >>> 16) &&& 0xFF, val]
      match sp_stream_buffer_op oc.S_CMD_O_WRITEB 4 writeb_parm OPID_WRITEB s1 with
      | (_, s2) => some { s2 with sp_opbuf_usage := s2.sp_opbuf_usage + 5 }

/-- The first statement of `serprog_chip_readb`, `sp_do_read_n` (and, with its
return value used, of `serprog_spi_send_command`): execute the opbuf when
something is queued or buffered.  The state it returns is the state in which
the read command is then submitted. -/
def sp_execute_before_read (oc : Opcodes) (fuel : Nat) (s : State) : Option (Nat × State) :=
  if s.sp_opbuf_usage ≠ 0 ∨ (s.sp_max_write_n ≠ 0 ∧ s.sp_write_n_bytes ≠ 0) then
    sp_execute_opbuf_noflush oc fuel s
  else some (0, s)

/-- Returns the byte `c`; `none` stands for the uninitialised `c` that is
returned when the final read fails. -/
def serprog_chip_readb (oc : Opcodes) (fuel : Nat) (addr : Nat) (s : State) :
    Option (Option Nat × State) :=
  match sp_execute_before_read oc fuel s with
  | none => none
  | some (_, s1) =>
    let buf := [(addr >>> 0) &&& 0xFF, (addr >>> 8) &&& 0xFF, (addr >>> 16) &&& 0xFF]
    match sp_stream_buffer_op oc.S_CMD_R_BYTE 3 buf OPID_READB s1 with
    | (_, s2) =>
      match sp_flush_stream s2 with
      | (_, s3) =>
        match serialport_read1 s3 with
        | (0, c, s4) => some (c, s4)
        | (_, c, s4) => some (c, s4.msg Event.readb_byteread)

/-- Returns the C return value, the bytes read into `buf` and the new state. -/
def sp_do_read_n (oc : Opcodes) (fuel : Nat) (addr : Nat) (len : Nat) (s : State) :
    Option (Nat × List Nat × State) :=
  match sp_execute_before_read oc fuel s with
  | none => none
  | some (_, s1) =>
    let sbuf := [(addr >>> 0) &&& 0xFF, (addr >>> 8) &&& 0xFF, (addr >>> 16) &&& 0xFF,
                 (len >>> 0) &&& 0xFF, (len >>> 8) &&& 0xFF, (len >>> 16) &&& 0xFF]
    match sp_stream_buffer_op oc.S_CMD_R_NBYTES 6 sbuf OPID_READN s1 with
    | (_, s2) =>
      match sp_flush_stream s2 with
      | (0, s3) =>
        match serialport_read len s3 with
        | (0, data, s4) => some (0, data, s4)
        | (_, data, s4) => some (1, data, s4.msg Event.cannot_read_readn_data)
      | (_, s3) => some (1, [], s3)

/-- Store `data` into `buf` from index `off` on, as a read into `&buf[off]`
does. -/
def buf_store (buf : List Nat) (off : Nat) (data : List Nat) : List Nat :=
  buf.take off ++ data ++ buf.drop (off + data.length)

/-- The body of `serprog_chip_readn` from its `while` loop on, with the loop
variables `addrm`, `lenm` as arguments; one unit of fuel per iteration. -/
def serprog_chip_readn_loop (oc : Opcodes) (addr : Nat) :
    Nat → Nat → Nat → List Nat → State → Option (List Nat × State)
  | 0, _, _, _, _ => none
  | fuel + 1, addrm, lenm, buf, s =>
    if s.sp_max_read_n ≠ 0 ∧ lenm > s.sp_max_read_n then
      match sp_do_read_n oc fuel addrm s.sp_max_read_n s with
      | none => none
      | some (_, data, s1) =>
        serprog_chip_readn_loop oc addr fuel (addrm + s.sp_max_read_n) (lenm - s.sp_max_read_n)
          (buf_store buf (addrm - addr) data) s1
    else if lenm ≠ 0 then
      match sp_do_read_n oc fuel addrm lenm s with
      | none => none
      | some (_, data, s1) => some (buf_store buf (addrm - addr) data, s1)
    else some (buf, s)

def serprog_chip_readn (oc : Opcodes) (fuel : Nat) (buf : List Nat) (addr : Nat) (len : Nat)
    (s : State) : Option (List Nat × State) :=
  serprog_chip_readn_loop oc addr fuel addr len buf s

/-- The `for` loop at the head of `serprog_chip_poll` that looks for the single
set bit of the mask: the arguments are the loop counter `i`, the number of
iterations left and `lmask`; the result is the final `shift`. -/
def poll_shift_loop : Nat → Nat → Nat → Int
  | _, 0, _ => -1
  | i, left + 1, lmask =>
    if lmask &&& 1 ≠ 0 then
      if lmask &&& 0xFE ≠ 0 then -1
      else (i : Int)
    else poll_shift_loop (i + 1) left (lmask >>> 1)

def poll_shift (mask : Nat) : Int := poll_shift_loop 0 8 mask

/-- The flags byte `pbuf[0]` of `serprog_chip_poll`, from the caller's
`data_or_toggle`, the mask and the shift found. -/
def poll_flags (mask : Nat) (data_or_toggle : Int) (shift : Int) : Nat :=
  let data_or_toggle : Int :=
    if data_or_toggle > 0 then ((data_or_toggle.toNat &&& mask : Nat) : Int) else data_or_toggle
  ((if data_or_toggle < 0 then 0x10 else 0) ||| (if data_or_toggle > 0 then 0x20 else 0)
    ||| shift.toNat) % 256

/-- The software fallback `fallback_chip_poll` is an external collaborator; it
is the parameter `fallback`, which receives the arguments and the state at the
moment of the call. -/
def serprog_chip_poll (oc : Opcodes)
    (fallback : Nat → Nat → Int → Nat → State → Option State)
    (fuel : Nat) (addr : Nat) (mask : Nat) (data_or_toggle : Int) (delay : Nat) (s : State) :
    Option State :=
  let shift := poll_shift mask
  if sp_check_commandavail (if delay ≠ 0 then oc.S_CMD_O_POLL_DLY else oc.S_CMD_O_POLL) s = 0
      ∨ shift < 0 then
    fallback addr mask data_or_toggle delay s
  else
    let r : Option (Nat × State) :=
      if s.sp_max_write_n ≠ 0 ∧ s.sp_write_n_bytes ≠ 0 then sp_pass_writen oc fuel s
      else some (0, s)
    match r with
    | none => none
    | some (0, s1) =>
      let pbuf := [poll_flags mask data_or_toggle shift,
                   (addr >>> 0) &&& 0xFF, (addr >>> 8) &&& 0xFF, (addr >>> 16) &&& 0xFF]
      let r2 : Option State :=
        if delay ≠ 0 then
          match sp_check_opbuf_usage oc fuel 9 s1 with
          | none => none
          | some (_, s2) =>
            let pbuf := pbuf ++ [(delay >>> 0) &&& 0xFF, (delay >>> 8) &&& 0xFF,
                                 (delay >>> 16) &&& 0xFF, (delay >>> 24) &&& 0xFF]
            match sp_stream_buffer_op oc.S_CMD_O_POLL_DLY 8 pbuf OPID_POLLD s2 with
            | (_, s3) => some { s3 with sp_opbuf_usage := s3.sp_opbuf_usage + 9 }
        else
          match sp_check_opbuf_usage oc fuel 5 s1 with
          | none => none
          | some (_, s2) =>
            match sp_stream_buffer_op oc.S_CMD_O_POLL 4 pbuf OPID_POLL s2 with
            | (_, s3) => some { s3 with sp_opbuf_usage := s3.sp_opbuf_usage + 5 }
      match r2 with
      | none => none
      | some s4 =>
        if s4.sp_opbuf_usage ≥ ((s4.sp_device_opbuf_size / 3 : Nat) : Int) then
          match sp_execute_opbuf_noflush oc fuel s4 with
          | none => none
          | some (_, s5) => some s5
        else some s4
    | some (_, s1) => some (s1.msg Event.could_not_transfer_write_buffer)

def serprog_delay (oc : Opcodes) (fuel : Nat) (usecs : Nat) (s : State) : Option State :=
  let r : Option State :=
    if s.sp_max_write_n ≠ 0 ∧ s.sp_write_n_bytes ≠ 0 then
      match sp_pass_writen oc fuel s with
      | none => none
      | some (_, s0) => some s0
    else some s
  match r with
  | none => none
  | some s0 =>
    let s1 : State := { s0 with sp_prev_was_write := false }
    if sp_check_commandavail oc.S_CMD_O_DELAY s1 = 0 then
      let r2 : Option State :=
        if s1.sp_opbuf_usage ≠ 0 then
          match sp_execute_opbuf oc fuel s1 with
          | none => none
          | some (_, s2) => some s2
        else some s1
      match r2 with
      | none => none
      | some s2 => some (s2.msg (Event.internal_delay usecs))
    else
      match sp_check_opbuf_usage oc fuel 5 s1 with
      | none => none
      | some (_, s2) =>
        let buf := [(usecs >>> 0) &&& 0xFF, (usecs >>> 8) &&& 0xFF,
                    (usecs >>> 16) &&& 0xFF, (usecs >>> 24) &&& 0xFF]
        match sp_stream_buffer_op oc.S_CMD_O_DELAY 4 buf OPID_UDELAY s2 with
        | (_, s3) => some { s3 with sp_opbuf_usage := s3.sp_opbuf_usage + 5 }

/-! ## SPI operation -/

/-- Returns the C return value, the bytes stored into `readarr` and the new
state. -/
def serprog_spi_send_command (oc : Opcodes) (fuel : Nat) (writecnt readcnt : Nat)
    (writearr : List Nat) (s : State) : Option (Nat × List Nat × State) :=
  match sp_execute_before_read oc fuel s with
  | none => none
  | some (0, s1) =>
    let parmbuf := [(writecnt >>> 0) &&& 0xFF, (writecnt >>> 8) &&& 0xFF,
                    (writecnt >>> 16) &&& 0xFF, (readcnt >>> 0) &&& 0xFF,
                    (readcnt >>> 8) &&& 0xFF, (readcnt >>> 16) &&& 0xFF]
                   ++ writearr.take writecnt
    match sp_stream_buffer_op oc.S_CMD_O_SPIOP (writecnt + 6) parmbuf OPID_SPIOP s1 with
    | (0, s2) =>
      if readcnt ≠ 0 then
        match sp_flush_stream s2 with
        | (0, s3) =>
          match serialport_read readcnt s3 with
          | (0, data, s4) => some (0, data, s4)
          | (_, data, s4) => some (1, data, s4.msg Event.spi_reply_read_failed)
        | (_, s3) => some (1, [], s3)
      else some (0, [], s2)
    | (ret, s2) => some (ret, [], s2)
  | some (_, s1) => some (1, [], s1.msg Event.spi_could_not_execute)

end Serprog

/-! ## Specification-level notions

Nothing below is code of the driver: these are the predicates and functions in
which the properties of the driver are stated. -/

namespace Serprog

/-- The ring index after `x`: what `if (off >= sp_device_serbuf_size) off = 0`
computes from `off = x + 1`. -/
def ring_next (cap x : Nat) : Nat := if x + 1 ≥ cap then 0 else x + 1

/-- The word that `sp_streamop_put id len` stores. -/
def streamop (id len : Nat) : Nat := ((id <<< 26) ||| len) % 2 ^ 32

/-- Sum of the size fields of a list of stream words. -/
def sizes_sum (q : List Nat) : Int := (((q.map STREAMOP_SIZE).sum : Nat) : Int)

/-- The ring `info` of capacity `cap` holds exactly the words `q`, oldest first,
from index `roff` up to (excluding) `woff`. -/
def RingHolds (cap : Nat) (info : List Nat) (roff woff : Nat) (q : List Nat) : Prop :=
  info.length = cap ∧ roff < cap ∧ q.length < cap ∧ woff = (roff + q.length) % cap ∧
    ∀ i, i < q.length → info.getD ((roff + i) % cap) 0 = q.getD i 0

/-- The accounting invariant of the stream window: the FIFO is allocated, the
words in flight are `q` (oldest first), each stands for at least one byte,
`sp_streamed_transmit_ops` is their number and `sp_streamed_transmit_bytes` the
sum of their sizes. -/
def StreamOK (s : State) (q : List Nat) : Prop :=
  (∃ info, s.sp_streamed_ops_info = some info ∧
    RingHolds s.sp_device_serbuf_size info s.sp_streamed_ops_roff s.sp_streamed_ops_woff q) ∧
  (∀ w ∈ q, 1 ≤ STREAMOP_SIZE w) ∧
  s.sp_streamed_transmit_ops = (q.length : Int) ∧
  s.sp_streamed_transmit_bytes = sizes_sum q

/-- The target of `sp_check_stream_free`: `sp_device_serbuf_size - len`, but
not below zero. -/
def stream_target (s : State) (len : Int) : Int :=
  if (s.sp_device_serbuf_size : Int) - len < 0 then 0 else (s.sp_device_serbuf_size : Int) - len

/-- Number of acknowledgements `sp_check_stream_free` reads when the words in
flight are `q`: entries are dropped from the front until the sizes of the rest
sum to at most `target`, or nothing is left. -/
def drain_count (target : Int) : List Nat → Nat
  | [] => 0
  | w :: q => if sizes_sum (w :: q) ≤ target then 0 else 1 + drain_count target q

/-- The state after `j` acknowledgements have been read and the `j` oldest
entries popped, `q` being the words that stay in flight. -/
def State.drained (s : State) (j : Nat) (q : List Nat) : State :=
  { s with
    sp_streamed_ops_roff := (s.sp_streamed_ops_roff + j) % s.sp_device_serbuf_size
    sp_streamed_transmit_ops := (q.length : Int)
    sp_streamed_transmit_bytes := sizes_sum q
    chan := { s.chan with rx := s.chan.rx.drop j } }

/-- The state after the bytes `bs` have been written to the channel. -/
def State.sent (s : State) (bs : List Nat) : State :=
  { s with chan := { s.chan with tx := s.chan.tx ++ bs } }

/-- Every command is refused by no availability check: the check is off, or the
bit of `cmd` is set in the command map. -/
def Avail (cmd : Nat) (s : State) : Prop :=
  s.sp_check_avail_automatic = false ∨ sp_check_commandavail cmd s = 1

/-- The next `c` reads of the channel each deliver an `S_ACK`. -/
def Acks (c : Nat) (rx : List (Option Nat)) : Prop :=
  ∃ rest, rx = List.replicate c (some S_ACK) ++ rest

/-- What a streamed submission never touches: the configuration of the session
(buffer sizes, command map, limits), the base address and the contents of the
write-n buffer, and the script of write results. -/
structure Frame (s s' : State) : Prop where
  serbuf : s'.sp_device_serbuf_size = s.sp_device_serbuf_size
  opbuf : s'.sp_device_opbuf_size = s.sp_device_opbuf_size
  cmdmap : s'.sp_cmdmap = s.sp_cmdmap
  auto : s'.sp_check_avail_automatic = s.sp_check_avail_automatic
  max_write_n : s'.sp_max_write_n = s.sp_max_write_n
  max_read_n : s'.sp_max_read_n = s.sp_max_read_n
  addr : s'.sp_write_n_addr = s.sp_write_n_addr
  buf : s'.sp_write_n_buf = s.sp_write_n_buf
  wfail : s'.chan.wfail = s.chan.wfail

/-- The three bytes of a 24-bit wire field, low byte first. -/
def le24 (x : Nat) : List Nat := [(x >>> 0) &&& 0xFF, (x >>> 8) &&& 0xFF, (x >>> 16) &&& 0xFF]

/-- The four bytes of a 32-bit wire field, low byte first. -/
def le32 (x : Nat) : List Nat :=
  [(x >>> 0) &&& 0xFF, (x >>> 8) &&& 0xFF, (x >>> 16) &&& 0xFF, (x >>> 24) &&& 0xFF]

/-- The state `s'` is `s` after `j` acknowledgements have been read and the
bytes `bs` written, with nothing logged. -/
structure Wire (s s' : State) (j : Nat) (bs : List Nat) : Prop where
  frame : Frame s s'
  tx : s'.chan.tx = s.chan.tx ++ bs
  rx : s'.chan.rx = s.chan.rx.drop j
  log : s'.log = s.log

/-- The command that carries the pending write-n run of `s` to the device: an
`O_WRITEB` for a run of one byte, an `O_WRITEN` otherwise. -/
def run_wire (oc : Opcodes) (s : State) : List Nat :=
  if s.sp_write_n_bytes = 1 then
    oc.S_CMD_O_WRITEB :: (le24 s.sp_write_n_addr ++ [s.sp_write_n_buf.getD 0 0])
  else
    oc.S_CMD_O_WRITEN :: (le24 s.sp_write_n_bytes ++ le24 s.sp_write_n_addr
      ++ s.sp_write_n_buf.take s.sp_write_n_bytes)

/-- The number of bytes of `run_wire`, which is also what it adds to
`sp_opbuf_usage`. -/
def run_cost (s : State) : Nat :=
  if s.sp_write_n_bytes = 1 then 5 else 7 + s.sp_write_n_bytes

/-- The stream word recorded for `run_wire`. -/
def run_word (s : State) : Nat :=
  if s.sp_write_n_bytes = 1 then streamop OPID_WRITEB 5
  else streamop OPID_WRITEN (7 + s.sp_write_n_bytes)

/-- A command map in which every command is available. -/
def cmdmap_all : List Nat := List.replicate 32 0xFF

/-- The session as `serprog_init` leaves it for a programmer with the given
buffer sizes and write-n limit that supports every command: nothing in flight,
nothing queued, no run pending, an allocated FIFO and write-n buffer; `rx` is
what the device is going to send. -/
def init_state (serbuf opbuf max_write_n : Nat) (rx : List (Option Nat)) : State :=
  { sp_device_serbuf_size := serbuf
    sp_device_opbuf_size := opbuf
    sp_cmdmap := cmdmap_all
    sp_prev_was_write := false
    sp_write_n_addr := 0
    sp_max_write_n := max_write_n
    sp_max_read_n := 0
    sp_write_n_buf := List.replicate max_write_n 0
    sp_write_n_bytes := 0
    sp_streamed_transmit_ops := 0
    sp_streamed_transmit_bytes := 0
    sp_streamed_ops_info := some (List.replicate serbuf 0)
    sp_streamed_ops_woff := 0
    sp_streamed_ops_roff := 0
    sp_opbuf_usage := 0
    sp_check_avail_automatic := true
    chan := { rx := rx, wfail := [], tx := [] }
    log := [] }

/-- A software poll fallback that does nothing, to evaluate `serprog_chip_poll`
on concrete inputs. -/
def fallback_none (_addr _mask : Nat) (_data_or_toggle : Int) (_delay : Nat) (s : State) :
    Option State := some s

/-- The calls `writeb(a, v_0)`, `writeb(a + 1, v_1)`, ... one after the other. -/
def writeb_seq (oc : Opcodes) (fuel : Nat) : Nat → List Nat → State → Option State
  | _, [], s => some s
  | a, v :: vs, s =>
    match serprog_chip_writeb oc fuel v a s with
    | none => none
    | some s1 => writeb_seq oc fuel (a + 1) vs s1

/-- The buffer `buf` after `vs` has been stored in it from index `m` on. -/
def buf_fill : List Nat → Nat → List Nat → List Nat
  | buf, _, [] => buf
  | buf, m, v :: vs => buf_fill (buf.set m v) (m + 1) vs

/-- A state in which the early execute cannot come to an end: nothing is in
flight, a write-n run is pending, and the reservation that `sp_pass_writen`
makes for that run already reaches `sp_device_opbuf_size`. -/
def Diverging (s : State) : Prop :=
  s.sp_max_write_n ≠ 0 ∧ s.sp_streamed_transmit_ops = 0 ∧ s.sp_streamed_transmit_bytes = 0 ∧
  ((s.sp_write_n_bytes = 1 ∧ (s.sp_device_opbuf_size : Int) ≤ s.sp_opbuf_usage + 5) ∨
   (s.sp_write_n_bytes ≠ 1 ∧ s.sp_write_n_bytes ≠ 0 ∧
     (s.sp_device_opbuf_size : Int) ≤ s.sp_opbuf_usage + ((7 + s.sp_write_n_bytes : Nat) : Int)))

/-- The session of scenario S4 with write-n enabled: `sp_device_opbuf_size = 10`,
`sp_max_write_n = 256`, after `writeb(0x100, 1)`, `writeb(0x101, 2)` and the
store of the third byte by `writeb(0x102, 3)`, at the moment that call makes its
reservation `sp_check_opbuf_usage(7 + 3)`. -/
def s4_state : State :=
  { init_state 16 10 256 [] with
    sp_prev_was_write := true
    sp_write_n_addr := 0x100
    sp_write_n_bytes := 3
    sp_write_n_buf := buf_fill (List.replicate 256 0) 0 [1, 2, 3] }

/-- A write-n run is pending in `s` (as the driver tests it). -/
def Pending (s : State) : Prop := s.sp_max_write_n ≠ 0 ∧ s.sp_write_n_bytes ≠ 0

instance (s : State) : Decidable (Pending s) := by unfold Pending; infer_instance

/-- The number of commands a read has to submit before its read command: the
pending run and `O_EXEC`, or `O_EXEC` alone when only the opbuf holds
something, or nothing. -/
def queued_cmds (s : State) : Nat :=
  if Pending s then 2 else if s.sp_opbuf_usage ≠ 0 then 1 else 0

/-- The bytes of those commands. -/
def queued_wire (oc : Opcodes) (s : State) : List Nat :=
  if Pending s then run_wire oc s ++ [oc.S_CMD_O_EXEC]
  else if s.sp_opbuf_usage ≠ 0 then [oc.S_CMD_O_EXEC] else []

/-- A session without write-n in which the second write to the channel is going
to fail, while the device acknowledges what it receives and then sends the
byte `0x77`. -/
def failing_write_state : State :=
  { init_state 16 300 0 [some 0x06, some 0x06, some 0x77] with
    chan := { rx := [some 0x06, some 0x06, some 0x77], wfail := [false, true], tx := [] } }

/-- A session with a pending run of three bytes whose device acknowledges three
commands and then sends the bytes `0x77`, `0x78`. -/
def s4_state_acked : State :=
  { init_state 16 300 256 [] with
    sp_prev_was_write := true
    sp_write_n_addr := 0x100
    sp_write_n_bytes := 3
    sp_write_n_buf := buf_fill (List.replicate 256 0) 0 [1, 2, 3]
    chan := { rx := [some 0x06, some 0x06, some 0x06, some 0x77, some 0x78], wfail := [], tx := [] } }

/-! ### Stores and delays: the calls of the chip API and their reading off the wire -/

/-- A call of the chip API that ends up in the opbuf: `chip_writeb(addr, val)`
or `delay(usecs)`. -/
inductive Call where
  | writeb (addr val : Nat)
  | delay (usecs : Nat)
deriving DecidableEq, Repr

/-- The calls `cs` made one after the other. -/
def run_calls (oc : Opcodes) (fuel : Nat) : List Call → State → Option State
  | [], s => some s
  | Call.writeb addr val :: cs, s =>
    match serprog_chip_writeb oc fuel val addr s with
    | none => none
    | some s1 => run_calls oc fuel cs s1
  | Call.delay usecs :: cs, s =>
    match serprog_delay oc fuel usecs s with
    | none => none
    | some s1 => run_calls oc fuel cs s1

/-- The value of a 24-bit little-endian wire field. -/
def of_le24 (b0 b1 b2 : Nat) : Nat := b0 + 256 * b1 + 65536 * b2

/-- The value of a 32-bit little-endian wire field. -/
def of_le32 (b0 b1 b2 b3 : Nat) : Nat := b0 + 256 * b1 + 65536 * b2 + 16777216 * b3

/-- Stores of `data[i]` at `addr + i`, in order. -/
def stores (addr : Nat) : List Nat → List Call
  | [] => []
  | d :: ds => Call.writeb addr d :: stores (addr + 1) ds

/-- Decoding of the bytes written to the channel, as the specification words
it: `O_WRITEB addr val` is one store, `O_WRITEN len addr data` is the stores of
`data[i]` at `addr + i` for `i < len`, `O_DELAY usecs` is one delay; anything
else does not decode.  The first argument bounds the number of commands. -/
def decode_wire (oc : Opcodes) : Nat → List Nat → Option (List Call)
  | _, [] => some []
  | 0, _ :: _ => none
  | fuel + 1, c :: bs =>
    if c = oc.S_CMD_O_WRITEB then
      match bs with
      | a0 :: a1 :: a2 :: v :: rest =>
        (decode_wire oc fuel rest).map (fun l => Call.writeb (of_le24 a0 a1 a2) v :: l)
      | _ => none
    else if c = oc.S_CMD_O_WRITEN then
      match bs with
      | l0 :: l1 :: l2 :: a0 :: a1 :: a2 :: rest =>
        if rest.length < of_le24 l0 l1 l2 then none
        else
          (decode_wire oc fuel (rest.drop (of_le24 l0 l1 l2))).map
            (fun l => stores (of_le24 a0 a1 a2) (rest.take (of_le24 l0 l1 l2)) ++ l)
      | _ => none
    else if c = oc.S_CMD_O_DELAY then
      match bs with
      | u0 :: u1 :: u2 :: u3 :: rest =>
        (decode_wire oc fuel rest).map (fun l => Call.delay (of_le32 u0 u1 u2 u3) :: l)
      | _ => none
    else none

/-- Decoding of a whole transcript (no command has fewer than one byte). -/
def decode (oc : Opcodes) (bs : List Nat) : Option (List Call) := decode_wire oc bs.length bs

/-- The run still pending in the coalescer: the stores of `sp_write_n_buf[i]` at
`sp_write_n_addr + i` for `i < sp_write_n_bytes`. -/
def pending_stores (s : State) : List Call :=
  stores s.sp_write_n_addr (s.sp_write_n_buf.take s.sp_write_n_bytes)

/-- The calls are well-formed for the wire: addresses of 24 bits, delays of 32
bits. -/
def Call.Fits : Call → Prop
  | Call.writeb addr _ => addr < 2 ^ 24
  | Call.delay usecs => usecs < 2 ^ 32

/-- A session on a good transport: the stream is consistent with `q` in flight,
the next `c` bytes from the device are acknowledgements, writes succeed, the
ring has at least two entries and the commands of the chip operations are
available. -/
structure Session (oc : Opcodes) (s : State) (q : List Nat) (c : Nat) : Prop where
  stream : StreamOK s q
  acks : Acks c s.chan.rx
  serbuf : 2 ≤ s.sp_device_serbuf_size
  wfail : s.chan.wfail = []
  av_writeb : sp_check_commandavail oc.S_CMD_O_WRITEB s = 1
  av_delay : sp_check_commandavail oc.S_CMD_O_DELAY s = 1
  av_exec : sp_check_commandavail oc.S_CMD_O_EXEC s = 1
  av_rbyte : sp_check_commandavail oc.S_CMD_R_BYTE s = 1
  av_rnbytes : sp_check_commandavail oc.S_CMD_R_NBYTES s = 1
  av_spiop : sp_check_commandavail oc.S_CMD_O_SPIOP s = 1

/-- The invariant of a run of `writeb` / `delay` calls in which no early execute
occurs: `done` are the calls made so far, `rem` the number of calls still to
come.  What has been written decodes to a list that, followed by the pending
run, is `done`; the opbuf has room for all the calls; the device is going to
acknowledge every command. -/
structure CoalInv (oc : Opcodes) (s : State) (done : List Call) (rem : Nat) : Prop where
  sess : ∃ q c, Session oc s q c ∧
    q.length + (if s.sp_write_n_bytes = 0 then 0 else 1) + rem ≤ c
  maxw : s.sp_max_write_n ≠ 0
  buflen : s.sp_write_n_buf.length = s.sp_max_write_n
  opbuf : 8 * (done.length + rem) < s.sp_device_opbuf_size
  opbuf16 : s.sp_device_opbuf_size < 2 ^ 16
  usage : s.sp_opbuf_usage +
    (if s.sp_write_n_bytes = 0 then 0 else ((7 + s.sp_write_n_bytes : Nat) : Int))
      ≤ 8 * (done.length : Int)
  nmax : s.sp_write_n_bytes ≤ s.sp_max_write_n
  nle : s.sp_write_n_bytes ≤ done.length
  prev_of_n : s.sp_write_n_bytes ≠ 0 → s.sp_prev_was_write = true
  addr : s.sp_prev_was_write = true →
    s.sp_write_n_addr + s.sp_write_n_bytes ≤ 2 ^ 24 ∧ s.sp_write_n_addr < 2 ^ 24
  wire : ∃ l, decode oc s.chan.tx = some l ∧ l ++ pending_stores s = done

/-- The invariant of the same run with write-n disabled: what has been written
decodes to the calls made so far. -/
structure PlainInv (oc : Opcodes) (s : State) (done : List Call) (rem : Nat) : Prop where
  sess : ∃ q c, Session oc s q c ∧ q.length + rem ≤ c
  maxw : s.sp_max_write_n = 0
  opbuf : 8 * (done.length + rem) < s.sp_device_opbuf_size
  usage : s.sp_opbuf_usage ≤ 8 * (done.length : Int)
  wire : decode oc s.chan.tx = some done

/-- The execute of the operation buffer has been reported failed: the two
diagnostics of `sp_execute_opbuf_noflush` (the first is also the one of
`serprog_chip_poll`). -/
def Event.exec_failed : Event → Bool
  | Event.could_not_transfer_write_buffer => true
  | Event.could_not_execute_command_buffer => true
  | _ => false

/-- No execute of the operation buffer has been reported failed so far. -/
def NoExecFailure (s : State) : Prop := ∀ e ∈ s.log, e.exec_failed = false

/-- The opbuf bound: the device buffer has at least `lo` bytes and the usage
is below its size. -/
def OpbufOK (lo : Nat) (s : State) : Prop :=
  lo ≤ s.sp_device_opbuf_size ∧ s.sp_opbuf_usage < (s.sp_device_opbuf_size : Int)

/-- From `s` to `s'` the opbuf size and the write-n and read-n limits are unchanged
and the log has only been appended to. -/
structure Grows (s s' : State) : Prop where
  opbuf : s'.sp_device_opbuf_size = s.sp_device_opbuf_size
  maxw : s'.sp_max_write_n = s.sp_max_write_n
  maxr : s'.sp_max_read_n = s.sp_max_read_n
  log : ∃ evs, s'.log = s.log ++ evs

/-- As `Grows`, and the opbuf usage and the length of the pending run are
unchanged too. -/
structure Keeps (s s' : State) : Prop where
  opbuf : s'.sp_device_opbuf_size = s.sp_device_opbuf_size
  maxw : s'.sp_max_write_n = s.sp_max_write_n
  maxr : s'.sp_max_read_n = s.sp_max_read_n
  usage : s'.sp_opbuf_usage = s.sp_opbuf_usage
  n : s'.sp_write_n_bytes = s.sp_write_n_bytes
  log : ∃ evs, s'.log = s.log ++ evs

instance (s : State) : Decidable (NoExecFailure s) := by
  unfold NoExecFailure
  infer_instance

/-- Returns the C return value, the bytes stored into `retparms` and the new
state. -/
def sp_docommand (command parmlen : Nat) (params : List Nat) (retlen : Nat) (s : State) :
    Nat × List Nat × State :=
  match sp_automatic_cmdcheck command s with
  | (0, s0) =>
    match serialport_write [command] s0 with
    | (0, s1) =>
      match serialport_write (params.take parmlen) s1 with
      | (0, s2) =>
        match serialport_read1 s2 with
        | (0, some c, s3) =>
          if c = S_NAK then (1, [], s3)
          else if c ≠ S_ACK then (1, [], s3.msg (Event.invalid_response c command))
          else if retlen ≠ 0 then
            match serialport_read retlen s3 with
            | (0, data, s4) => (0, data, s4)
            | (_, data, s4) => (1, data, s4.msg Event.cannot_read_return_parameters)
          else (0, [], s3)
        | (_, _, s3) => (1, [], s3.msg Event.cannot_read_from_device)
      | (_, s2) => (1, [], s2.msg Event.cannot_write_parameters)
    | (_, s1) => (1, [], s1.msg Event.cannot_write_op_code)
  | (_, s0) => (1, [], s0)

/-- The `S_CMD_Q_WRNMAXLEN` block of the non-SPI branch of `serprog_init`; the
allocation of the write-n buffer is taken to succeed, and the fresh buffer to
hold zeros. -/
def init_query_wrnmaxlen (S_CMD_Q_WRNMAXLEN : Nat) (s : State) : State :=
  match sp_docommand S_CMD_Q_WRNMAXLEN 0 [] 3 s with
  | (0, rbuf, s1) =>
    let v := ((rbuf.getD 0 0) <<< 0) ||| ((rbuf.getD 1 0) <<< 8) ||| ((rbuf.getD 2 0) <<< 16)
    let v := if v = 0 then 1 <<< 24 else v
    { s1 with
      sp_max_write_n := v
      sp_write_n_buf := List.replicate v 0
      sp_write_n_bytes := 0 }
  | (_, _, s1) => { s1 with sp_max_write_n := 0 }

/-- The frees and the closing of the port are recorded in the log: `free` of
the FIFO is a no-op once the pointer is `NULL`, `sp_write_n_buf` is freed
whenever `sp_max_write_n` is non-zero. -/
def serprog_shutdown (oc : Opcodes) (S_CMD_S_PIN_STATE : Nat) (fuel : Nat) (s : State) :
    Option (Nat × State) :=
  let r : Option State :=
    if s.sp_opbuf_usage ≠ 0 ∨ (s.sp_max_write_n ≠ 0 ∧ s.sp_write_n_bytes ≠ 0) then
      match sp_execute_opbuf oc fuel s with
      | none => none
      | some (0, s1) => some s1
      | some (_, s1) => some (s1.msg Event.could_not_flush_command_buffer)
    else some s
  match r with
  | none => none
  | some s1 =>
    let s2 : State :=
      if sp_check_commandavail S_CMD_S_PIN_STATE s1 ≠ 0 then
        match sp_docommand S_CMD_S_PIN_STATE 1 [0] 0 s1 with
        | (0, _, s2) => s2
        | (_, _, s2) => s2.msg Event.could_not_disable_output_buffers
      else s1
    let s3 : State :=
      match s2.sp_streamed_ops_info with
      | some _ => { (s2.msg Event.free_ops_info) with sp_streamed_ops_info := none }
      | none => s2
    let s4 := s3.msg Event.serialport_shutdown
    let s5 := if s4.sp_max_write_n ≠ 0 then s4.msg Event.free_write_n_buf else s4
    some (0, s5)

/-- Modelled from the spec: the outcome of one `serialport_read_nonblock` of a
single byte: a byte arrives (return 0), the timeout expires (return > 0), or the
read fails (return < 0). -/
inductive NbRead where
  | byte (c : Nat)
  | timeout
  | error
deriving DecidableEq, Repr

/-- What the synchroniser does on the port, in order. -/
inductive SyncEv where
  | wrote (bs : List Nat)
  | write_failed (bs : List Nat)
  | read (r : NbRead) (timeout_ms : Nat)
  | delay (usecs : Nat)
  | flush_incoming
  | cannot_synchronize
deriving DecidableEq, Repr

/-- Modelled from the spec: the port as the synchroniser sees it.  `reads`
scripts the outcomes of the coming non-blocking reads (an exhausted script is a
timeout: nothing arrives), `wfail` the results of the coming writes (`true`:
the write fails; exhausted: it succeeds), `trace` is what has happened so far.
What `sp_flush_incoming` discards is not part of `reads`. -/
structure SyncChan where
  reads : List NbRead
  wfail : List Bool
  trace : List SyncEv
deriving DecidableEq, Repr

def SyncChan.ev (ch : SyncChan) (e : SyncEv) : SyncChan := { ch with trace := ch.trace ++ [e] }

/-- `serialport_write_nonblock(buf, len, 1, NULL)`. -/
def serialport_write_nonblock (bs : List Nat) (ch : SyncChan) : Nat × SyncChan :=
  match ch.wfail with
  | true :: w => (1, { ch with wfail := w, trace := ch.trace ++ [SyncEv.write_failed bs] })
  | false :: w => (0, { ch with wfail := w, trace := ch.trace ++ [SyncEv.wrote bs] })
  | [] => (0, { ch with trace := ch.trace ++ [SyncEv.wrote bs] })

/-- `serialport_read_nonblock(&c, 1, timeout_ms, NULL)`. -/
def serialport_read_nonblock (timeout_ms : Nat) (ch : SyncChan) : NbRead × SyncChan :=
  match ch.reads with
  | [] => (NbRead.timeout, { ch with trace := ch.trace ++ [SyncEv.read NbRead.timeout timeout_ms] })
  | r :: rs => (r, { ch with reads := rs, trace := ch.trace ++ [SyncEv.read r timeout_ms] })

/-- How one pass through the body of the inner `for (n ...)` loop of
`sp_synchronize` ends. -/
inductive SyncStep where
  | synced
  | err_out
  | next_try
deriving DecidableEq, Repr

/-- The inner loop `for (n = 0; n < 10; n++)` of `sp_synchronize`, with the
number of iterations left as argument; `next_try` is the `break` and the normal
end of the loop. -/
def sp_synchronize_inner (S_CMD_SYNCNOP : Nat) : Nat → SyncChan → SyncStep × SyncChan
  | 0, ch => (SyncStep.next_try, ch)
  | n + 1, ch =>
    match serialport_read_nonblock 50 ch with
    | (NbRead.error, ch1) => (SyncStep.err_out, ch1)
    | (NbRead.timeout, ch1) => sp_synchronize_inner S_CMD_SYNCNOP n ch1
    | (NbRead.byte c, ch1) =>
      if c ≠ S_NAK then sp_synchronize_inner S_CMD_SYNCNOP n ch1
      else
        match serialport_read_nonblock 20 ch1 with
        | (NbRead.error, ch2) => (SyncStep.err_out, ch2)
        | (NbRead.timeout, ch2) => sp_synchronize_inner S_CMD_SYNCNOP n ch2
        | (NbRead.byte c, ch2) =>
          if c ≠ S_ACK then sp_synchronize_inner S_CMD_SYNCNOP n ch2
          else
            match serialport_write_nonblock [S_CMD_SYNCNOP] ch2 with
            | (0, ch3) =>
              match serialport_read_nonblock 500 ch3 with
              | (NbRead.error, ch4) => (SyncStep.err_out, ch4)
              | (NbRead.timeout, ch4) => (SyncStep.next_try, ch4)
              | (NbRead.byte c, ch4) =>
                if c ≠ S_NAK then (SyncStep.next_try, ch4)
                else
                  match serialport_read_nonblock 100 ch4 with
                  | (NbRead.byte c, ch5) =>
                    if c ≠ S_ACK then (SyncStep.next_try, ch5) else (SyncStep.synced, ch5)
                  | (_, ch5) => (SyncStep.err_out, ch5)
            | (_, ch3) => (SyncStep.err_out, ch3)

/-- The outer loop `for (i = 0; i < 8; i++)` of `sp_synchronize`, with the
number of attempts left as argument. -/
def sp_synchronize_outer (S_CMD_SYNCNOP : Nat) : Nat → SyncChan → Nat × SyncChan
  | 0, ch => (1, ch.ev SyncEv.cannot_synchronize)
  | i + 1, ch =>
    match serialport_write_nonblock [S_CMD_SYNCNOP] ch with
    | (0, ch1) =>
      match sp_synchronize_inner S_CMD_SYNCNOP 10 ch1 with
      | (SyncStep.synced, ch2) => (0, ch2)
      | (SyncStep.err_out, ch2) => (1, ch2.ev SyncEv.cannot_synchronize)
      | (SyncStep.next_try, ch2) => sp_synchronize_outer S_CMD_SYNCNOP i ch2
    | (_, ch1) => (1, ch1.ev SyncEv.cannot_synchronize)

def sp_synchronize (S_CMD_NOP S_CMD_SYNCNOP : Nat) (ch : SyncChan) : Nat × SyncChan :=
  match serialport_write_nonblock (List.replicate 8 S_CMD_NOP) ch with
  | (0, ch1) =>
    sp_synchronize_outer S_CMD_SYNCNOP 8
      ((ch1.ev (SyncEv.delay (1000 * 1000))).ev SyncEv.flush_incoming)
  | (_, ch1) => (1, ch1.ev SyncEv.cannot_synchronize)

/-! ## Further specification-level notions -/

/-- Number of `S_ACK` bytes at the head of the input. -/
def ack_run : List (Option Nat) → Nat
  | some c :: r => if c = S_ACK then ack_run r + 1 else 0
  | _ => 0

/-- The state in which `sp_check_stream_free` gives up when the input, after
`m` acknowledgements, does not go on with an `S_ACK`: on a failed read the `m`
oldest entries of `q` have been popped; on a byte that is not `S_ACK` the entry
paired with it, `q[m]`, has been popped as well and its type is named in the
diagnostic. -/
def drain_fail (s : State) (q : List Nat) (m : Nat) : State :=
  match s.chan.rx.drop m with
  | [] => (s.drained m (q.drop m)).msg Event.flush_read_error
  | none :: _ =>
    ({ s.drained m (q.drop m) with
      chan := { s.chan with rx := s.chan.rx.drop (m + 1) } } : State).msg Event.flush_read_error
  | some c :: _ =>
    (s.drained (m + 1) (q.drop (m + 1))).msg
      (if c = S_NAK then Event.stream_nak (STREAMOP_TYPE (q.getD m 0))
       else Event.stream_invalid_reply c (STREAMOP_TYPE (q.getD m 0)))

/-- The stream accounting invariant in the words of the specification: the
FIFO is allocated, `sp_streamed_transmit_ops` is the number of entries between
`roff` and `woff`, that is `(woff - roff) mod serbuf_size`,
`sp_streamed_transmit_bytes` is the sum of the size fields of those entries,
and both are non-negative. -/
def Accounted (s : State) : Prop :=
  ∃ info, s.sp_streamed_ops_info = some info ∧
    s.sp_streamed_transmit_ops =
      (((s.sp_streamed_ops_woff + s.sp_device_serbuf_size - s.sp_streamed_ops_roff)
        % s.sp_device_serbuf_size : Nat) : Int) ∧
    s.sp_streamed_transmit_bytes =
      ((((List.range ((s.sp_streamed_ops_woff + s.sp_device_serbuf_size
            - s.sp_streamed_ops_roff) % s.sp_device_serbuf_size)).map
          (fun i => STREAMOP_SIZE
            (info.getD ((s.sp_streamed_ops_roff + i) % s.sp_device_serbuf_size) 0))).sum
        : Nat) : Int) ∧
    0 ≤ s.sp_streamed_transmit_ops ∧ 0 ≤ s.sp_streamed_transmit_bytes

/-- The states reached from `s0` by the five stream functions, as long as every
entry put stands for 1 to `2 ^ 26 - 1` bytes and no put fills the ring, that is,
leaves `serbuf_size` entries in flight. -/
inductive StreamReach (s0 : State) : State → Prop where
  | start : StreamReach s0 s0
  | put (s : State) (id len : Nat) : StreamReach s0 s → 1 ≤ len → len < 2 ^ 26 →
      (sp_streamop_put id len s).sp_streamed_transmit_ops < (s.sp_device_serbuf_size : Int) →
      StreamReach s0 (sp_streamop_put id len s)
  | get (s : State) : StreamReach s0 s → StreamReach s0 (sp_streamop_get s).2
  | check_free (s : State) (len : Int) : StreamReach s0 s →
      StreamReach s0 (sp_check_stream_free len s).2
  | flush (s : State) : StreamReach s0 s → StreamReach s0 (sp_flush_stream s).2
  | buffer_op (s : State) (cmd parmlen : Nat) (parms : List Nat) (opid : Nat) :
      StreamReach s0 s → 1 + parmlen < 2 ^ 26 →
      (sp_stream_buffer_op cmd parmlen parms opid s).2.sp_streamed_transmit_ops
        < (s.sp_device_serbuf_size : Int) →
      StreamReach s0 (sp_stream_buffer_op cmd parmlen parms opid s).2

/-- The entries `es` (id, length) put one after the other. -/
def put_seq : List (Nat × Nat) → State → State
  | [], s => s
  | (id, len) :: es, s => put_seq es (sp_streamop_put id len s)

/-- The results of `k` calls of `sp_streamop_get`, in order, and the state
after them. -/
def get_seq : Nat → State → List Nat × State
  | 0, s => ([], s)
  | k + 1, s =>
    match sp_streamop_get s with
    | (op, s1) =>
      match get_seq k s1 with
      | (ops, s2) => (op :: ops, s2)

/-- The (address, length) pairs of the specification of `chip_readn` for a
read-n limit `m > 0`: `len / m` full chunks and the remainder, when there is
one. -/
def read_chunks (addr len m : Nat) : List (Nat × Nat) :=
  (List.range (len / m)).map (fun i => (addr + i * m, m)) ++
    (if len % m ≠ 0 then [(addr + (len / m) * m, len % m)] else [])

/-- One `sp_do_read_n` per pair of `cs`, in order, each storing what it read at
`buf[a - addr ..]`; the call depth allowed goes down by one per pair, as in
`serprog_chip_readn_loop`. -/
def run_chunks (oc : Opcodes) (addr : Nat) :
    Nat → List (Nat × Nat) → List Nat → State → Option (List Nat × State)
  | _, [], buf, s => some (buf, s)
  | 0, _ :: _, _, _ => none
  | fuel + 1, (a, l) :: cs, buf, s =>
    match sp_do_read_n oc fuel a l s with
    | none => none
    | some (_, data, s1) => run_chunks oc addr fuel cs (buf_store buf (a - addr) data) s1

/-- A session with write-n (`sp_max_write_n = 256`, opbuf of 300 bytes) after
`writeb(0x100, 1)`: a run of one byte is pending. -/
def one_byte_state : State :=
  { init_state 16 300 256 [] with
    sp_prev_was_write := true
    sp_write_n_addr := 0x100
    sp_write_n_bytes := 1
    sp_write_n_buf := buf_fill (List.replicate 256 0) 0 [1] }

/-- The session of scenario S4 with write-n enabled (`sp_device_opbuf_size = 10`,
`sp_max_write_n = 256`) after `writeb(0x100, 1)`, `writeb(0x101, 2)`. -/
def s4_two_bytes : State :=
  { init_state 16 10 256 [] with
    sp_prev_was_write := true
    sp_write_n_addr := 0x100
    sp_write_n_bytes := 2
    sp_write_n_buf := buf_fill (List.replicate 256 0) 0 [1, 2] }

/-- A fresh session with `sp_max_write_n = 2` on a channel whose next two
writes fail. -/
def failing_header_state : State :=
  { init_state 16 300 2 [] with chan := { rx := [], wfail := [true, true], tx := [] } }

/-- The state `failing_header_state` is in after `writeb(0x100, 1)`,
`writeb(0x101, 2)`: the run is full, its emission has failed on the write of the
`O_WRITEN` header, and the run is still pending. -/
def full_run_state : State :=
  { init_state 16 300 2 [] with
    sp_prev_was_write := true
    sp_write_n_addr := 0x100
    sp_write_n_bytes := 2
    sp_write_n_buf := [1, 2]
    log := [Event.cannot_write_writen_command]
    chan := { rx := [], wfail := [true], tx := [] } }

end Serprog

namespace Serprog

/-! ## Arithmetic of the ring and of the stream words -/

theorem ring_next_eq_mod {cap x : Nat} (h : x < cap) : ring_next cap x = (x + 1) % cap := by
  unfold ring_next
  split
  · have : x + 1 = cap := by omega
    rw [this, Nat.mod_self]
  · rw [Nat.mod_eq_of_lt (by omega)]

theorem STREAMOP_SIZE_eq_mod (x : Nat) : STREAMOP_SIZE x = x % 2 ^ 26 := by
  unfold STREAMOP_SIZE
  have h1 : (0x3ffffff : Nat) = 2 ^ 26 - 1 := by norm_num
  rw [h1, Nat.and_pow_two_sub_one_eq_mod]

theorem STREAMOP_SIZE_streamop (id len : Nat) (h : len < 2 ^ 26) :
    STREAMOP_SIZE (streamop id len) = len := by
  rw [STREAMOP_SIZE_eq_mod]
  unfold streamop
  rw [Nat.mod_mod_of_dvd _ (by norm_num : 2 ^ 26 ∣ 2 ^ 32)]
  apply Nat.eq_of_testBit_eq
  intro i
  rw [Nat.testBit_mod_two_pow]
  by_cases hi : i < 26
  · simp only [hi, decide_True, Bool.true_and, Nat.testBit_or, Nat.testBit_shiftLeft]
    have : ¬ (i ≥ 26) := by omega
    simp [this]
  · simp only [hi, decide_False, Bool.false_and]
    symm
    apply Nat.testBit_lt_two_pow
    calc len < 2 ^ 26 := h
      _ ≤ 2 ^ i := Nat.pow_le_pow_right (by norm_num) (by omega)

theorem ring_index_ne {cap roff i k : Nat} (hi : i < k) (hk : k < cap) :
    (roff + i) % cap ≠ (roff + k) % cap := by
  intro h
  have h1 : i % cap = k % cap := Nat.ModEq.add_left_cancel' roff h
  rw [Nat.mod_eq_of_lt (by omega), Nat.mod_eq_of_lt hk] at h1
  omega

theorem sizes_sum_nil : sizes_sum [] = 0 := by simp [sizes_sum]

theorem sizes_sum_cons (w : Nat) (q : List Nat) :
    sizes_sum (w :: q) = (STREAMOP_SIZE w : Int) + sizes_sum q := by
  simp [sizes_sum]

theorem sizes_sum_append (q r : List Nat) : sizes_sum (q ++ r) = sizes_sum q + sizes_sum r := by
  simp [sizes_sum]

theorem sizes_sum_nonneg (q : List Nat) : 0 ≤ sizes_sum q := by
  unfold sizes_sum; exact Int.ofNat_nonneg _

theorem length_le_sizes_sum (q : List Nat) (h : ∀ w ∈ q, 1 ≤ STREAMOP_SIZE w) :
    (q.length : Int) ≤ sizes_sum q := by
  induction q with
  | nil => simp [sizes_sum]
  | cons w q ih =>
    rw [sizes_sum_cons]
    have h1 := h w (List.mem_cons_self _ _)
    have h2 := ih (fun x hx => h x (List.mem_cons_of_mem _ hx))
    simp only [List.length_cons, Nat.cast_add, Nat.cast_one]
    omega

/-! ## The ring as a queue -/

theorem RingHolds_put {cap : Nat} {info : List Nat} {roff woff : Nat} {q : List Nat}
    (h : RingHolds cap info roff woff q) (w : Nat) (hcap : q.length + 1 < cap) :
    RingHolds cap (info.set woff w) roff (ring_next cap woff) (q ++ [w]) := by
  obtain ⟨hlen, hroff, _, hwoff, hget⟩ := h
  have hcap0 : 0 < cap := by omega
  have hwlt : woff < cap := by rw [hwoff]; exact Nat.mod_lt _ hcap0
  refine ⟨by simp [hlen], hroff, by simpa using hcap, ?_, ?_⟩
  · rw [ring_next_eq_mod hwlt, hwoff]
    simp only [List.length_append, List.length_singleton]
    rw [Nat.mod_add_mod, Nat.add_assoc]
  · intro i hi
    simp only [List.length_append, List.length_singleton] at hi
    by_cases hiq : i < q.length
    · have hne : woff ≠ (roff + i) % cap := by
        rw [hwoff]; exact (ring_index_ne hiq (by omega)).symm
      rw [List.getD_eq_getElem?_getD, List.getElem?_set_ne hne, ← List.getD_eq_getElem?_getD,
        hget i hiq]
      simp [List.getD_eq_getElem?_getD, List.getElem?_append_left hiq]
    · have hieq : i = q.length := by omega
      subst hieq
      rw [← hwoff, List.getD_eq_getElem?_getD, List.getElem?_set_eq_of_lt _ (by omega)]
      simp [List.getD_eq_getElem?_getD]

theorem RingHolds_head {cap : Nat} {info : List Nat} {roff woff w : Nat} {q : List Nat}
    (h : RingHolds cap info roff woff (w :: q)) :
    roff ≠ woff ∧ info.getD roff 0 = w := by
  obtain ⟨_, hroff, hq, hwoff, hget⟩ := h
  constructor
  · intro heq
    have h1 := @ring_index_ne cap roff 0 (w :: q).length
      (by simp) hq
    rw [← hwoff, Nat.add_zero, Nat.mod_eq_of_lt hroff] at h1
    exact h1 heq
  · have := hget 0 (by simp)
    rw [Nat.add_zero, Nat.mod_eq_of_lt hroff] at this
    simpa using this

theorem RingHolds_pop {cap : Nat} {info : List Nat} {roff woff w : Nat} {q : List Nat}
    (h : RingHolds cap info roff woff (w :: q)) :
    RingHolds cap info (ring_next cap roff) woff q := by
  obtain ⟨hlen, hroff, hq, hwoff, hget⟩ := h
  have hcap0 : 0 < cap := by omega
  simp only [List.length_cons] at hq hwoff
  rw [ring_next_eq_mod hroff]
  refine ⟨hlen, Nat.mod_lt _ hcap0, by omega, ?_, ?_⟩
  · rw [hwoff, Nat.mod_add_mod]; congr 1; omega
  · intro i hi
    have := hget (i + 1) (by simp; omega)
    rw [Nat.mod_add_mod]
    have e : roff + 1 + i = roff + (i + 1) := by omega
    rw [e, this]
    simp

end Serprog

namespace Serprog

/-! ## `sp_streamop_put`, `sp_streamop_get`, `sp_check_stream_free` on a consistent stream -/

theorem drained_zero {s : State} {q : List Nat} (h : StreamOK s q) : s.drained 0 q = s := by
  obtain ⟨⟨info, _, hr⟩, _, hops, hbytes⟩ := h
  obtain ⟨_, hroff, _, _, _⟩ := hr
  cases s
  simp only [State.drained, Nat.add_zero, List.drop_zero] at *
  simp [Nat.mod_eq_of_lt hroff, hops, hbytes]

theorem StreamOK_nil_drop {s : State} {q : List Nat} (h : StreamOK s q) (j : Nat)
    (hj : j ≤ q.length) : StreamOK (s.drained j (q.drop j)) (q.drop j) := by
  induction j generalizing s q with
  | zero => simpa [drained_zero h] using h
  | succ j ih =>
    cases q with
    | nil => simp at hj
    | cons w q =>
      obtain ⟨⟨info, hinfo, hr⟩, hpos, hops, hbytes⟩ := h
      have hr1 := RingHolds_pop hr
      have hroff := hr.2.1
      have hs1 : StreamOK (s.drained 1 q) q := by
        refine ⟨⟨info, by simpa [State.drained] using hinfo, ?_⟩,
          fun x hx => hpos x (List.mem_cons_of_mem _ hx), by simp [State.drained],
          by simp [State.drained]⟩
        simpa [State.drained, ring_next_eq_mod hroff] using hr1
      have := ih hs1 (by simpa using hj)
      have e : (s.drained 1 q).drained j (q.drop j) = s.drained (j + 1) (q.drop j) := by
        simp only [State.drained, List.drop_drop, Nat.mod_add_mod]
        congr 2
        · omega
        · congr 1; omega
      rw [e] at this
      simpa using this

theorem sp_streamop_get_ok {s : State} {w : Nat} {q : List Nat} (h : StreamOK s (w :: q)) :
    sp_streamop_get s = (w, { s with
      sp_streamed_ops_roff := (s.sp_streamed_ops_roff + 1) % s.sp_device_serbuf_size
      sp_streamed_transmit_ops := (q.length : Int)
      sp_streamed_transmit_bytes := sizes_sum q }) := by
  obtain ⟨⟨info, hinfo, hr⟩, _, hops, hbytes⟩ := h
  obtain ⟨hne, hhead⟩ := RingHolds_head hr
  have hroff := hr.2.1
  have hn := ring_next_eq_mod hroff
  unfold ring_next at hn
  unfold sp_streamop_get
  rw [hinfo]
  simp only [hne, if_false, hhead, hn, hops, hbytes, sizes_sum_cons]
  congr 2
  · simp
  · omega

theorem sp_streamop_put_ok {s : State} {q : List Nat} (h : StreamOK s q) (id len : Nat)
    (hlen : 1 ≤ len) (hlen2 : len < 2 ^ 26) (hcap : q.length + 1 < s.sp_device_serbuf_size) :
    StreamOK (sp_streamop_put id len s) (q ++ [streamop id len]) := by
  obtain ⟨⟨info, hinfo, hr⟩, hpos, hops, hbytes⟩ := h
  have hr1 := RingHolds_put hr (streamop id len) hcap
  unfold sp_streamop_put
  rw [hinfo]
  refine ⟨⟨_, rfl, ?_⟩, ?_, ?_, ?_⟩
  · simpa [ring_next, streamop] using hr1
  · intro x hx
    rcases List.mem_append.1 hx with hx | hx
    · exact hpos x hx
    · simp only [List.mem_singleton] at hx
      rw [hx, STREAMOP_SIZE_streamop id len hlen2]; exact hlen
  · simp [hops]
  · simp [hbytes, sizes_sum_append, sizes_sum_cons, sizes_sum_nil,
      STREAMOP_SIZE_streamop id len hlen2]

theorem drain_count_le (target : Int) (q : List Nat) : drain_count target q ≤ q.length := by
  induction q with
  | nil => simp [drain_count]
  | cons w q ih =>
    unfold drain_count
    split
    · omega
    · simp only [List.length_cons]; omega

/-- What is left in flight after draining satisfies the target, or is empty. -/
theorem drain_count_spec (target : Int) (q : List Nat) :
    q.drop (drain_count target q) = [] ∨ sizes_sum (q.drop (drain_count target q)) ≤ target := by
  induction q with
  | nil => simp [drain_count]
  | cons w q ih =>
    unfold drain_count
    split
    · right; simpa using ‹_›
    · have e : 1 + drain_count target q = drain_count target q + 1 := by omega
      rw [e, List.drop_succ_cons]; exact ih

theorem sp_check_stream_free_loop_ok (target : Int) :
    ∀ (q : List Nat) (s : State) (rest : List (Option Nat)), StreamOK s q → q ≠ [] →
      target < sizes_sum q →
      s.chan.rx = List.replicate (drain_count target q) (some S_ACK) ++ rest →
      sp_check_stream_free_loop target s.chan.rx s =
        (0, s.drained (drain_count target q) (q.drop (drain_count target q))) := by
  intro q
  induction q with
  | nil => intro s rest _ h; exact absurd rfl h
  | cons w q ih =>
    intro s rest hs _ htgt hrx
    have hdc : drain_count target (w :: q) = drain_count target q + 1 := by
      have e : drain_count target (w :: q) =
          if sizes_sum (w :: q) ≤ target then 0 else 1 + drain_count target q := rfl
      rw [e, if_neg (by omega)]; omega
    rw [hdc] at hrx ⊢
    rw [List.replicate_succ, List.cons_append] at hrx
    rw [hrx]
    unfold sp_check_stream_free_loop
    have hs1 : StreamOK ({ s with chan := { s.chan with
        rx := List.replicate (drain_count target q) (some S_ACK) ++ rest } } : State)
        (w :: q) := hs
    have hg := sp_streamop_get_ok hs1
    dsimp only at hg ⊢
    rw [hg]
    have hd1 : ({ s with
        chan := { s.chan with rx := List.replicate (drain_count target q) (some S_ACK) ++ rest }
        sp_streamed_ops_roff := (s.sp_streamed_ops_roff + 1) % s.sp_device_serbuf_size
        sp_streamed_transmit_ops := (q.length : Int)
        sp_streamed_transmit_bytes := sizes_sum q } : State) = s.drained 1 q := by
      simp [State.drained, hrx]
    have hs2 : StreamOK (s.drained 1 q) q := by
      have := StreamOK_nil_drop hs 1 (by simp)
      simpa using this
    have hrx2 : (s.drained 1 q).chan.rx =
        List.replicate (drain_count target q) (some S_ACK) ++ rest := by
      simp [State.drained, hrx]
    have hcomp : ∀ j, (s.drained 1 q).drained j (q.drop j) = s.drained (j + 1) (q.drop j) := by
      intro j
      simp only [State.drained, List.drop_drop, Nat.mod_add_mod]
      congr 2
      · omega
      · congr 1; omega
    dsimp only at hd1
    rw [hd1]
    simp only [List.drop_succ_cons]
    have hnak : S_ACK ≠ S_NAK := by decide
    rw [if_neg hnak, if_neg (by simp)]
    by_cases hb : sizes_sum q ≤ target
    · have h0 : drain_count target q = 0 := by
        cases q with
        | nil => rfl
        | cons x q =>
          have e : drain_count target (x :: q) =
              if sizes_sum (x :: q) ≤ target then 0 else 1 + drain_count target q := rfl
          rw [e, if_pos hb]
      have : (s.drained 1 q).sp_streamed_transmit_bytes ≤ target := by
        simpa [State.drained] using hb
      rw [if_pos this, h0]
      simp
    · have : ¬ (s.drained 1 q).sp_streamed_transmit_bytes ≤ target := by
        simpa [State.drained] using hb
      rw [if_neg this]
      by_cases hq : q = []
      · subst hq
        simp [State.drained, drain_count]
      · have hops : (s.drained 1 q).sp_streamed_transmit_ops ≠ 0 := by
          simp [State.drained, hq]
        rw [if_pos hops, ← hrx2, ih (s.drained 1 q) rest hs2 hq (by omega) hrx2, hcomp]

end Serprog

namespace Serprog

theorem stream_target_nonneg (s : State) (len : Int) : 0 ≤ stream_target s len := by
  unfold stream_target; split <;> omega

theorem drain_count_eq_zero {target : Int} {q : List Nat}
    (h : q = [] ∨ sizes_sum q ≤ target) : drain_count target q = 0 := by
  cases q with
  | nil => rfl
  | cons w q =>
    have e : drain_count target (w :: q) =
        if sizes_sum (w :: q) ≤ target then 0 else 1 + drain_count target q := rfl
    rcases h with h | h
    · exact absurd h (by simp)
    · rw [e, if_pos h]

theorem sp_check_stream_free_ok {s : State} {q : List Nat} (h : StreamOK s q) (len : Int)
    (rest : List (Option Nat))
    (hrx : s.chan.rx =
      List.replicate (drain_count (stream_target s len) q) (some S_ACK) ++ rest) :
    sp_check_stream_free len s =
      (0, s.drained (drain_count (stream_target s len) q)
        (q.drop (drain_count (stream_target s len) q))) := by
  have hops := h.2.2.1
  have hbytes := h.2.2.2
  have hOK := StreamOK_nil_drop h _ (drain_count_le (stream_target s len) q)
  -- the accounting block after the loop changes nothing on a consistent stream
  have hpost : ∀ (t : State) (q' : List Nat), StreamOK t q' →
      (if t.sp_streamed_transmit_ops = 0 then
        ((0 : Nat), ({ (if t.sp_streamed_transmit_bytes ≠ 0 then
          t.msg (Event.accounting_error t.sp_streamed_transmit_bytes) else t) with
          sp_streamed_transmit_bytes := 0 } : State))
       else (0, t)) = (0, t) := by
    intro t q' ht
    split
    · rename_i h0
      have hq : q' = [] := by
        have := ht.2.2.1
        rw [this] at h0
        exact List.length_eq_zero.1 (by exact_mod_cast h0)
      have hb : t.sp_streamed_transmit_bytes = 0 := by
        rw [ht.2.2.2, hq, sizes_sum_nil]
      simp only [hb, ne_eq, not_true_eq_false, if_false]
      cases t
      simp_all
    · rfl
  unfold sp_check_stream_free
  have htgt : (if (s.sp_device_serbuf_size : Int) - len < 0 then (0 : Int)
      else (s.sp_device_serbuf_size : Int) - len) = stream_target s len := rfl
  simp only [htgt]
  by_cases hc : stream_target s len < s.sp_streamed_transmit_bytes ∧
      s.sp_streamed_transmit_ops ≠ 0
  · rw [if_pos hc]
    have hq : q ≠ [] := by
      intro hq; apply hc.2; rw [hops, hq]; rfl
    rw [sp_check_stream_free_loop_ok _ q s rest h hq (by rw [← hbytes]; exact hc.1) hrx]
    exact hpost _ _ hOK
  · rw [if_neg hc]
    have h0 : drain_count (stream_target s len) q = 0 := by
      apply drain_count_eq_zero
      by_cases hq : q = []
      · exact Or.inl hq
      · right
        have : s.sp_streamed_transmit_ops ≠ 0 := by
          rw [hops]; intro h0; exact hq (List.length_eq_zero.1 (by exact_mod_cast h0))
        rw [← hbytes]
        by_contra hlt
        exact hc ⟨by omega, this⟩
    rw [h0, List.drop_zero, drained_zero h]
    exact hpost _ _ h

/-! Fields that the stream functions leave alone. -/

section fields
variable (s : State) (j : Nat) (q bs : List Nat) (id len : Nat)

@[simp] theorem drained_opbuf_usage : (s.drained j q).sp_opbuf_usage = s.sp_opbuf_usage := rfl
@[simp] theorem drained_serbuf : (s.drained j q).sp_device_serbuf_size = s.sp_device_serbuf_size := rfl
@[simp] theorem drained_opbuf_size : (s.drained j q).sp_device_opbuf_size = s.sp_device_opbuf_size := rfl
@[simp] theorem drained_cmdmap : (s.drained j q).sp_cmdmap = s.sp_cmdmap := rfl
@[simp] theorem drained_prev : (s.drained j q).sp_prev_was_write = s.sp_prev_was_write := rfl
@[simp] theorem drained_addr : (s.drained j q).sp_write_n_addr = s.sp_write_n_addr := rfl
@[simp] theorem drained_max_write_n : (s.drained j q).sp_max_write_n = s.sp_max_write_n := rfl
@[simp] theorem drained_max_read_n : (s.drained j q).sp_max_read_n = s.sp_max_read_n := rfl
@[simp] theorem drained_buf : (s.drained j q).sp_write_n_buf = s.sp_write_n_buf := rfl
@[simp] theorem drained_bytes : (s.drained j q).sp_write_n_bytes = s.sp_write_n_bytes := rfl
@[simp] theorem drained_auto : (s.drained j q).sp_check_avail_automatic = s.sp_check_avail_automatic := rfl
@[simp] theorem drained_log : (s.drained j q).log = s.log := rfl
@[simp] theorem drained_tx : (s.drained j q).chan.tx = s.chan.tx := rfl
@[simp] theorem drained_wfail : (s.drained j q).chan.wfail = s.chan.wfail := rfl
@[simp] theorem drained_rx : (s.drained j q).chan.rx = s.chan.rx.drop j := rfl
@[simp] theorem drained_ops : (s.drained j q).sp_streamed_transmit_ops = (q.length : Int) := rfl
@[simp] theorem drained_tbytes : (s.drained j q).sp_streamed_transmit_bytes = sizes_sum q := rfl

@[simp] theorem sent_opbuf_usage : (s.sent bs).sp_opbuf_usage = s.sp_opbuf_usage := rfl
@[simp] theorem sent_serbuf : (s.sent bs).sp_device_serbuf_size = s.sp_device_serbuf_size := rfl
@[simp] theorem sent_opbuf_size : (s.sent bs).sp_device_opbuf_size = s.sp_device_opbuf_size := rfl
@[simp] theorem sent_cmdmap : (s.sent bs).sp_cmdmap = s.sp_cmdmap := rfl
@[simp] theorem sent_prev : (s.sent bs).sp_prev_was_write = s.sp_prev_was_write := rfl
@[simp] theorem sent_addr : (s.sent bs).sp_write_n_addr = s.sp_write_n_addr := rfl
@[simp] theorem sent_max_write_n : (s.sent bs).sp_max_write_n = s.sp_max_write_n := rfl
@[simp] theorem sent_max_read_n : (s.sent bs).sp_max_read_n = s.sp_max_read_n := rfl
@[simp] theorem sent_buf : (s.sent bs).sp_write_n_buf = s.sp_write_n_buf := rfl
@[simp] theorem sent_bytes : (s.sent bs).sp_write_n_bytes = s.sp_write_n_bytes := rfl
@[simp] theorem sent_auto : (s.sent bs).sp_check_avail_automatic = s.sp_check_avail_automatic := rfl
@[simp] theorem sent_log : (s.sent bs).log = s.log := rfl
@[simp] theorem sent_tx : (s.sent bs).chan.tx = s.chan.tx ++ bs := rfl
@[simp] theorem sent_wfail : (s.sent bs).chan.wfail = s.chan.wfail := rfl
@[simp] theorem sent_rx : (s.sent bs).chan.rx = s.chan.rx := rfl
@[simp] theorem sent_ops : (s.sent bs).sp_streamed_transmit_ops = s.sp_streamed_transmit_ops := rfl
@[simp] theorem sent_tbytes : (s.sent bs).sp_streamed_transmit_bytes = s.sp_streamed_transmit_bytes := rfl

@[simp] theorem put_opbuf_usage : (sp_streamop_put id len s).sp_opbuf_usage = s.sp_opbuf_usage := by
  unfold sp_streamop_put; cases s.sp_streamed_ops_info <;> rfl
@[simp] theorem put_serbuf : (sp_streamop_put id len s).sp_device_serbuf_size = s.sp_device_serbuf_size := by
  unfold sp_streamop_put; cases s.sp_streamed_ops_info <;> rfl
@[simp] theorem put_opbuf_size : (sp_streamop_put id len s).sp_device_opbuf_size = s.sp_device_opbuf_size := by
  unfold sp_streamop_put; cases s.sp_streamed_ops_info <;> rfl
@[simp] theorem put_cmdmap : (sp_streamop_put id len s).sp_cmdmap = s.sp_cmdmap := by
  unfold sp_streamop_put; cases s.sp_streamed_ops_info <;> rfl
@[simp] theorem put_prev : (sp_streamop_put id len s).sp_prev_was_write = s.sp_prev_was_write := by
  unfold sp_streamop_put; cases s.sp_streamed_ops_info <;> rfl
@[simp] theorem put_addr : (sp_streamop_put id len s).sp_write_n_addr = s.sp_write_n_addr := by
  unfold sp_streamop_put; cases s.sp_streamed_ops_info <;> rfl
@[simp] theorem put_max_write_n : (sp_streamop_put id len s).sp_max_write_n = s.sp_max_write_n := by
  unfold sp_streamop_put; cases s.sp_streamed_ops_info <;> rfl
@[simp] theorem put_max_read_n : (sp_streamop_put id len s).sp_max_read_n = s.sp_max_read_n := by
  unfold sp_streamop_put; cases s.sp_streamed_ops_info <;> rfl
@[simp] theorem put_buf : (sp_streamop_put id len s).sp_write_n_buf = s.sp_write_n_buf := by
  unfold sp_streamop_put; cases s.sp_streamed_ops_info <;> rfl
@[simp] theorem put_bytes : (sp_streamop_put id len s).sp_write_n_bytes = s.sp_write_n_bytes := by
  unfold sp_streamop_put; cases s.sp_streamed_ops_info <;> rfl
@[simp] theorem put_auto : (sp_streamop_put id len s).sp_check_avail_automatic = s.sp_check_avail_automatic := by
  unfold sp_streamop_put; cases s.sp_streamed_ops_info <;> rfl
@[simp] theorem put_chan : (sp_streamop_put id len s).chan = s.chan := by
  unfold sp_streamop_put; cases s.sp_streamed_ops_info <;> rfl

end fields

theorem put_log_of_StreamOK {s : State} {q : List Nat} (h : StreamOK s q) (id len : Nat) :
    (sp_streamop_put id len s).log = s.log := by
  obtain ⟨⟨info, hinfo, _⟩, _⟩ := h
  unfold sp_streamop_put; rw [hinfo]

theorem StreamOK_sent {s : State} {q : List Nat} (h : StreamOK s q) (bs : List Nat) :
    StreamOK (s.sent bs) q := h

end Serprog

namespace Serprog

theorem sp_automatic_cmdcheck_ok {cmd : Nat} {s : State} (h : Avail cmd s) :
    sp_automatic_cmdcheck cmd s = (0, s) := by
  unfold sp_automatic_cmdcheck
  rcases h with h | h
  · simp [h]
  · simp [h]

theorem serialport_write_ok {s : State} (h : s.chan.wfail = []) (b : Nat) (bs : List Nat) :
    serialport_write (b :: bs) s = (0, s.sent (b :: bs)) := by
  unfold serialport_write
  rw [h]
  rfl

/-- After draining for a command of at least two bytes there is room in the
ring for its entry. -/
theorem drained_room {s : State} {q : List Nat} (h : StreamOK s q) (len : Nat) (hlen : 2 ≤ len)
    (hcap : 2 ≤ s.sp_device_serbuf_size) :
    (q.drop (drain_count (stream_target s len) q)).length + 1 < s.sp_device_serbuf_size := by
  generalize hj : drain_count (stream_target s len) q = j
  rcases drain_count_spec (stream_target s len) q with h0 | h0
  · rw [hj] at h0; rw [h0]; simpa using hcap
  · rw [hj] at h0
    have hpos : ∀ w ∈ q.drop j, 1 ≤ STREAMOP_SIZE w :=
      fun w hw => h.2.1 w (List.mem_of_mem_drop hw)
    have h1 := length_le_sizes_sum _ hpos
    unfold stream_target at h0
    split at h0 <;> omega

/-- After draining for a one-byte command there is room in the ring when what
stays in flight ends with an entry of at least two bytes. -/
theorem drained_room_one {s : State} {q : List Nat} (h : StreamOK s q)
    (hcap : 2 ≤ s.sp_device_serbuf_size)
    (hlast : ∀ w, q.getLast? = some w → 2 ≤ STREAMOP_SIZE w) :
    (q.drop (drain_count (stream_target s (1 : Nat)) q)).length + 1 < s.sp_device_serbuf_size := by
  generalize hj : drain_count (stream_target s (1 : Nat)) q = j
  rcases drain_count_spec (stream_target s (1 : Nat)) q with h0 | h0
  · rw [hj] at h0; rw [h0]; simpa using hcap
  · rw [hj] at h0
    by_cases hnil : q.drop j = []
    · rw [hnil]; simpa using hcap
    · have hpos : ∀ w ∈ q.drop j, 1 ≤ STREAMOP_SIZE w :=
        fun w hw => h.2.1 w (List.mem_of_mem_drop hw)
      -- the last entry of the rest is the last entry of `q`
      have hjl : j < q.length := by
        by_contra hc
        exact hnil (List.drop_eq_nil_of_le (by omega))
      obtain ⟨l, w, hlw⟩ : ∃ l w, q.drop j = l ++ [w] := by
        refine ⟨(q.drop j).dropLast, (q.drop j).getLast hnil, ?_⟩
        exact (List.dropLast_append_getLast hnil).symm
      have hq : q = q.take j ++ l ++ [w] := by
        rw [List.append_assoc, ← hlw, List.take_append_drop]
      have hw : 2 ≤ STREAMOP_SIZE w := by
        apply hlast
        rw [hq]; simp
      have h1 := length_le_sizes_sum l (fun x hx => hpos x (by rw [hlw]; simp [hx]))
      rw [hlw, sizes_sum_append, sizes_sum_cons, sizes_sum_nil] at h0
      rw [hlw]
      simp only [List.length_append, List.length_singleton]
      unfold stream_target at h0
      split at h0 <;> omega

/-- A successful submission of `cmd` with its parameters through the stream:
the acknowledgements that must be read are there, the write succeeds and there
is room in the ring. -/
theorem sp_stream_buffer_op_ok {s : State} {q : List Nat} (h : StreamOK s q)
    (cmd parmlen : Nat) (parms : List Nat) (opid : Nat)
    (havail : Avail cmd s) (hw : s.chan.wfail = []) (hlen : 1 + parmlen < 2 ^ 26)
    (rest : List (Option Nat))
    (hrx : s.chan.rx = List.replicate
      (drain_count (stream_target s ((1 + parmlen : Nat) : Int)) q) (some S_ACK) ++ rest)
    (hroom : (q.drop (drain_count (stream_target s ((1 + parmlen : Nat) : Int)) q)).length + 1
      < s.sp_device_serbuf_size) :
    sp_stream_buffer_op cmd parmlen parms opid s =
      (0, sp_streamop_put opid (1 + parmlen)
        ((s.drained (drain_count (stream_target s ((1 + parmlen : Nat) : Int)) q)
          (q.drop (drain_count (stream_target s ((1 + parmlen : Nat) : Int)) q))).sent
          (cmd :: parms.take parmlen))) ∧
    StreamOK (sp_streamop_put opid (1 + parmlen)
        ((s.drained (drain_count (stream_target s ((1 + parmlen : Nat) : Int)) q)
          (q.drop (drain_count (stream_target s ((1 + parmlen : Nat) : Int)) q))).sent
          (cmd :: parms.take parmlen)))
      (q.drop (drain_count (stream_target s ((1 + parmlen : Nat) : Int)) q)
        ++ [streamop opid (1 + parmlen)]) := by
  generalize hj : drain_count (stream_target s ((1 + parmlen : Nat) : Int)) q = j at *
  have hOK : StreamOK (s.drained j (q.drop j)) (q.drop j) :=
    StreamOK_nil_drop h j (by rw [← hj]; exact drain_count_le _ _)
  constructor
  · unfold sp_stream_buffer_op
    rw [sp_automatic_cmdcheck_ok havail]
    dsimp only
    have := sp_check_stream_free_ok h ((1 + parmlen : Nat) : Int) rest (by rw [hj]; exact hrx)
    rw [hj] at this
    rw [this]
    dsimp only
    rw [serialport_write_ok (by simpa using hw)]
  · exact sp_streamop_put_ok (StreamOK_sent hOK _) opid (1 + parmlen) (by omega) hlen
      (by simpa using hroom)

end Serprog

namespace Serprog

theorem Frame_refl (s : State) : Frame s s := ⟨rfl, rfl, rfl, rfl, rfl, rfl, rfl, rfl, rfl⟩

theorem Frame_trans {s s1 s2 : State} (h1 : Frame s s1) (h2 : Frame s1 s2) : Frame s s2 :=
  ⟨h2.serbuf.trans h1.serbuf, h2.opbuf.trans h1.opbuf, h2.cmdmap.trans h1.cmdmap,
   h2.auto.trans h1.auto, h2.max_write_n.trans h1.max_write_n,
   h2.max_read_n.trans h1.max_read_n, h2.addr.trans h1.addr, h2.buf.trans h1.buf,
   h2.wfail.trans h1.wfail⟩

theorem Wire_refl (s : State) : Wire s s 0 [] :=
  ⟨Frame_refl s, by simp, by simp, rfl⟩

theorem Wire_trans {s s1 s2 : State} {j1 j2 : Nat} {b1 b2 : List Nat}
    (h1 : Wire s s1 j1 b1) (h2 : Wire s1 s2 j2 b2) : Wire s s2 (j1 + j2) (b1 ++ b2) :=
  ⟨Frame_trans h1.frame h2.frame, by rw [h2.tx, h1.tx, List.append_assoc],
   by rw [h2.rx, h1.rx, List.drop_drop, Nat.add_comm], h2.log.trans h1.log⟩

theorem Avail_of_Frame {s s' : State} (h : Frame s s') {cmd : Nat} (ha : Avail cmd s) :
    Avail cmd s' := by
  unfold Avail sp_check_commandavail at *
  rw [h.auto, h.cmdmap]; exact ha

theorem Acks_split {c : Nat} {rx : List (Option Nat)} (h : Acks c rx) {j : Nat} (hj : j ≤ c) :
    rx = List.replicate j (some S_ACK) ++ rx.drop j ∧ Acks (c - j) (rx.drop j) := by
  obtain ⟨rest, rfl⟩ := h
  have e : List.replicate c (some S_ACK) =
      List.replicate j (some S_ACK) ++ List.replicate (c - j) (some S_ACK) := by
    rw [← List.replicate_add]; congr 1; omega
  have hd : (List.replicate c (some S_ACK) ++ rest).drop j =
      List.replicate (c - j) (some S_ACK) ++ rest := by
    rw [e, List.append_assoc, List.drop_left' (by simp)]
  rw [hd]
  refine ⟨?_, rest, rfl⟩
  rw [← List.append_assoc, ← e]

theorem Acks_mono {c c' : Nat} {rx : List (Option Nat)} (h : Acks c rx) (hc : c' ≤ c) :
    Acks c' rx := by
  have := (Acks_split h hc).1
  exact ⟨_, this⟩

theorem Acks_of_Wire {s s' : State} {j : Nat} {bs : List Nat} (h : Wire s s' j bs) {c : Nat}
    (ha : Acks c s.chan.rx) (hj : j ≤ c) : Acks (c - j) s'.chan.rx := by
  rw [h.rx]; exact (Acks_split ha hj).2

/-- `sp_check_stream_free` on a consistent stream whose in-flight operations
are all going to be acknowledged. -/
theorem sp_check_stream_free_acked {s : State} {q : List Nat} (h : StreamOK s q) (len : Int)
    {c : Nat} (hacks : Acks c s.chan.rx) (hqc : q.length ≤ c) :
    ∃ j s', j ≤ q.length ∧ j = drain_count (stream_target s len) q ∧
      sp_check_stream_free len s = (0, s') ∧
      s' = s.drained j (q.drop j) ∧ Wire s s' j [] ∧ StreamOK s' (q.drop j) ∧
      s'.sp_opbuf_usage = s.sp_opbuf_usage ∧ s'.sp_write_n_bytes = s.sp_write_n_bytes ∧
      s'.sp_prev_was_write = s.sp_prev_was_write := by
  have hj := drain_count_le (stream_target s len) q
  refine ⟨_, _, hj, rfl, sp_check_stream_free_ok h len _
    (Acks_split hacks (Nat.le_trans hj hqc)).1, rfl, ?_, StreamOK_nil_drop h _ hj, rfl, rfl, rfl⟩
  exact ⟨⟨rfl, rfl, rfl, rfl, rfl, rfl, rfl, rfl, rfl⟩, by simp, rfl, rfl⟩

/-- `sp_stream_buffer_op` on a consistent stream with an acknowledging device,
a working write channel and an available command. -/
theorem sp_stream_buffer_op_acked {s : State} {q : List Nat} (h : StreamOK s q)
    (cmd parmlen : Nat) (parms : List Nat) (opid : Nat)
    (havail : Avail cmd s) (hw : s.chan.wfail = []) (hlen : 1 + parmlen < 2 ^ 26)
    {c : Nat} (hacks : Acks c s.chan.rx) (hqc : q.length ≤ c)
    (hroom : (q.drop (drain_count (stream_target s ((1 + parmlen : Nat) : Int)) q)).length + 1
      < s.sp_device_serbuf_size) :
    ∃ j s', j ≤ q.length ∧ sp_stream_buffer_op cmd parmlen parms opid s = (0, s') ∧
      Wire s s' j (cmd :: parms.take parmlen) ∧
      StreamOK s' (q.drop j ++ [streamop opid (1 + parmlen)]) ∧
      s'.sp_opbuf_usage = s.sp_opbuf_usage ∧ s'.sp_write_n_bytes = s.sp_write_n_bytes ∧
      s'.sp_prev_was_write = s.sp_prev_was_write := by
  have hj := drain_count_le (stream_target s ((1 + parmlen : Nat) : Int)) q
  obtain ⟨h1, h2⟩ := sp_stream_buffer_op_ok h cmd parmlen parms opid havail hw hlen _
    (Acks_split hacks (Nat.le_trans hj hqc)).1 hroom
  refine ⟨_, _, hj, h1, ?_, h2, by simp, by simp, by simp⟩
  have hOK := StreamOK_sent (StreamOK_nil_drop h _ hj) (cmd :: parms.take parmlen)
  refine ⟨⟨by simp, by simp, by simp, by simp, by simp, by simp, by simp, by simp, by simp⟩,
    by simp, by simp, ?_⟩
  rw [put_log_of_StreamOK hOK]; simp

/-- `sp_flush_stream` reads one acknowledgement for every operation in
flight. -/
theorem sp_flush_stream_acked {s : State} {q : List Nat} (h : StreamOK s q)
    {c : Nat} (hacks : Acks c s.chan.rx) (hqc : q.length ≤ c) :
    ∃ s', sp_flush_stream s = (0, s') ∧ Wire s s' q.length [] ∧ StreamOK s' [] ∧
      s'.sp_streamed_transmit_ops = 0 ∧ s'.sp_streamed_transmit_bytes = 0 ∧
      s'.sp_opbuf_usage = s.sp_opbuf_usage ∧ s'.sp_write_n_bytes = s.sp_write_n_bytes ∧
      s'.sp_prev_was_write = s.sp_prev_was_write := by
  obtain ⟨j, s', hj, hjd, he, hs', hwire, hOK, hu, hn, hp⟩ :=
    sp_check_stream_free_acked h (s.sp_device_serbuf_size : Int) hacks hqc
  have htz : stream_target s (s.sp_device_serbuf_size : Int) = 0 := by
    unfold stream_target; simp
  rw [htz] at hjd
  have hnil : q.drop j = [] := by
    rcases drain_count_spec 0 q with h0 | h0
    · rw [hjd]; exact h0
    · rw [← hjd] at h0
      have hpos : ∀ w ∈ q.drop j, 1 ≤ STREAMOP_SIZE w :=
        fun w hw => h.2.1 w (List.mem_of_mem_drop hw)
      have := length_le_sizes_sum _ hpos
      exact List.length_eq_zero.1 (by omega)
  have hjq : j = q.length := by
    have := List.drop_eq_nil_iff.1 hnil
    omega
  rw [hnil] at hOK
  refine ⟨s', he, hjq ▸ hwire, hOK, ?_, ?_, hu, hn, hp⟩
  · rw [hOK.2.2.1]; rfl
  · rw [hOK.2.2.2]; exact sizes_sum_nil

end Serprog

namespace Serprog

theorem sp_check_opbuf_usage_skip (oc : Opcodes) (fuel : Nat) (b : Int) (s : State)
    (h : s.sp_opbuf_usage + b < s.sp_device_opbuf_size) :
    sp_check_opbuf_usage oc (fuel + 1) b s = some (0, s) := by
  rw [sp_check_opbuf_usage]
  rw [if_neg (by omega)]

/-- `Wire` only looks at the configuration, the write-n buffer, the channel and
the log of the final state. -/
theorem Wire_congr {s s1 : State} {j : Nat} {bs : List Nat} (h : Wire s s1 j bs) (s2 : State)
    (e1 : s2.sp_device_serbuf_size = s1.sp_device_serbuf_size)
    (e2 : s2.sp_device_opbuf_size = s1.sp_device_opbuf_size)
    (e3 : s2.sp_cmdmap = s1.sp_cmdmap)
    (e4 : s2.sp_check_avail_automatic = s1.sp_check_avail_automatic)
    (e5 : s2.sp_max_write_n = s1.sp_max_write_n)
    (e6 : s2.sp_max_read_n = s1.sp_max_read_n)
    (e7 : s2.sp_write_n_addr = s1.sp_write_n_addr)
    (e8 : s2.sp_write_n_buf = s1.sp_write_n_buf)
    (e9 : s2.chan = s1.chan) (e10 : s2.log = s1.log) : Wire s s2 j bs :=
  ⟨⟨e1.trans h.frame.serbuf, e2.trans h.frame.opbuf, e3.trans h.frame.cmdmap,
    e4.trans h.frame.auto, e5.trans h.frame.max_write_n, e6.trans h.frame.max_read_n,
    e7.trans h.frame.addr, e8.trans h.frame.buf, by rw [e9]; exact h.frame.wfail⟩,
   by rw [e9]; exact h.tx, by rw [e9]; exact h.rx, e10.trans h.log⟩

theorem sent_nil (s : State) : s.sent [] = s := by
  cases s; simp [State.sent]

theorem serialport_write_any {s : State} (h : s.chan.wfail = []) (bs : List Nat) :
    serialport_write bs s = (0, s.sent bs) := by
  cases bs with
  | nil => rw [sent_nil]; rfl
  | cons b bs => exact serialport_write_ok h b bs

/-- A pending run of one byte goes out as `O_WRITEB`. -/
theorem sp_pass_writen_one (oc : Opcodes) (fuel : Nat) {s : State} {q : List Nat}
    (h : StreamOK s q) (hn : s.sp_write_n_bytes = 1)
    (hu : s.sp_opbuf_usage + 5 < s.sp_device_opbuf_size)
    (havail : Avail oc.S_CMD_O_WRITEB s) (hw : s.chan.wfail = [])
    (hcap : 2 ≤ s.sp_device_serbuf_size)
    {c : Nat} (hacks : Acks c s.chan.rx) (hqc : q.length ≤ c) :
    ∃ j s', j ≤ q.length ∧ sp_pass_writen oc (fuel + 2) s = some (0, s') ∧
      Wire s s' j (oc.S_CMD_O_WRITEB :: (le24 s.sp_write_n_addr ++ [s.sp_write_n_buf.getD 0 0])) ∧
      StreamOK s' (q.drop j ++ [streamop OPID_WRITEB 5]) ∧
      s'.sp_opbuf_usage = s.sp_opbuf_usage + 5 ∧ s'.sp_write_n_bytes = 0 ∧
      s'.sp_prev_was_write = s.sp_prev_was_write := by
  obtain ⟨j1, s1, hj1, -, he1, hs1, hwire1, hOK1, hu1, hn1, hp1⟩ :=
    sp_check_stream_free_acked h ((7 + s.sp_write_n_bytes : Nat) : Int) hacks hqc
  have hacks1 := Acks_of_Wire hwire1 hacks (Nat.le_trans hj1 hqc)
  have hq1 : (q.drop j1).length ≤ c - j1 := by simp; omega
  let s3 : State := { s1 with sp_write_n_bytes := 0 }
  have hOK3 : StreamOK s3 (q.drop j1) := hOK1
  have havail3 : Avail oc.S_CMD_O_WRITEB s3 := Avail_of_Frame hwire1.frame havail
  have hw3 : s3.chan.wfail = [] := by show s1.chan.wfail = []; rw [hwire1.frame.wfail, hw]
  have hcap3 : 2 ≤ s3.sp_device_serbuf_size := by
    show 2 ≤ s1.sp_device_serbuf_size; rw [hwire1.frame.serbuf]; exact hcap
  obtain ⟨j2, s4, hj2, he4, hwire4, hOK4, hu4, hn4, hp4⟩ :=
    sp_stream_buffer_op_acked hOK3 oc.S_CMD_O_WRITEB 4
      [(s3.sp_write_n_addr >>> 0) &&& 0xFF, (s3.sp_write_n_addr >>> 8) &&& 0xFF,
       (s3.sp_write_n_addr >>> 16) &&& 0xFF, s3.sp_write_n_buf.getD 0 0] OPID_WRITEB
      havail3 hw3 (by norm_num) (c := c - j1) hacks1 hq1
      (drained_room hOK3 (1 + 4) (by norm_num) hcap3)
  have hwire3 : Wire s s3 j1 [] := Wire_congr hwire1 s3 rfl rfl rfl rfl rfl rfl rfl rfl rfl rfl
  refine ⟨j1 + j2, { s4 with sp_opbuf_usage := s4.sp_opbuf_usage + 5 }, ?_, ?_, ?_, ?_, ?_, ?_, ?_⟩
  · simp at hj2; omega
  · rw [sp_pass_writen, he1]
    dsimp only
    rw [if_pos (by rw [hn1, hn]),
      sp_check_opbuf_usage_skip oc fuel 5 s1 (by rw [hu1, hwire1.frame.opbuf]; exact hu)]
    dsimp only
    rw [he4]
  · have := Wire_congr (Wire_trans hwire3 hwire4) ({ s4 with sp_opbuf_usage := s4.sp_opbuf_usage + 5 })
      rfl rfl rfl rfl rfl rfl rfl rfl rfl rfl
    have e : s3.sp_write_n_addr = s.sp_write_n_addr := hwire1.frame.addr
    have e2 : s3.sp_write_n_buf = s.sp_write_n_buf := hwire1.frame.buf
    rw [e, e2] at this
    simpa [le24] using this
  · rw [List.drop_drop] at hOK4
    exact hOK4
  · show s4.sp_opbuf_usage + 5 = _
    rw [hu4]; show s1.sp_opbuf_usage + 5 = _; rw [hu1]
  · show s4.sp_write_n_bytes = 0
    rw [hn4]
  · show s4.sp_prev_was_write = _
    rw [hp4]; exact hp1

/-- A pending run of several bytes goes out as `O_WRITEN`. -/
theorem sp_pass_writen_many (oc : Opcodes) (fuel : Nat) {s : State} {q : List Nat}
    (h : StreamOK s q) (hn : s.sp_write_n_bytes ≠ 1) (hn2 : 7 + s.sp_write_n_bytes < 2 ^ 26)
    (hu : s.sp_opbuf_usage + ((7 + s.sp_write_n_bytes : Nat) : Int) < s.sp_device_opbuf_size)
    (hw : s.chan.wfail = []) (hcap : 2 ≤ s.sp_device_serbuf_size)
    {c : Nat} (hacks : Acks c s.chan.rx) (hqc : q.length ≤ c) :
    ∃ j s', j ≤ q.length ∧ sp_pass_writen oc (fuel + 2) s = some (0, s') ∧
      Wire s s' j (oc.S_CMD_O_WRITEN :: (le24 s.sp_write_n_bytes ++ le24 s.sp_write_n_addr
        ++ s.sp_write_n_buf.take s.sp_write_n_bytes)) ∧
      StreamOK s' (q.drop j ++ [streamop OPID_WRITEN (7 + s.sp_write_n_bytes)]) ∧
      s'.sp_opbuf_usage = s.sp_opbuf_usage + ((7 + s.sp_write_n_bytes : Nat) : Int) ∧
      s'.sp_write_n_bytes = 0 ∧ s'.sp_prev_was_write = false := by
  obtain ⟨j1, s1, hj1, hjd, he1, hs1, hwire1, hOK1, hu1, hn1, hp1⟩ :=
    sp_check_stream_free_acked h ((7 + s.sp_write_n_bytes : Nat) : Int) hacks hqc
  have hw1 : s1.chan.wfail = [] := by rw [hwire1.frame.wfail, hw]
  have hroom := drained_room h (7 + s.sp_write_n_bytes) (by omega) hcap
  rw [← hjd] at hroom
  let hdr : List Nat := [oc.S_CMD_O_WRITEN, (s1.sp_write_n_bytes >>> 0) &&& 0xFF,
    (s1.sp_write_n_bytes >>> 8) &&& 0xFF, (s1.sp_write_n_bytes >>> 16) &&& 0xFF,
    (s1.sp_write_n_addr >>> 0) &&& 0xFF, (s1.sp_write_n_addr >>> 8) &&& 0xFF,
    (s1.sp_write_n_addr >>> 16) &&& 0xFF]
  let s4 : State := (s1.sent hdr).sent (s1.sp_write_n_buf.take s1.sp_write_n_bytes)
  have hOK4 : StreamOK s4 (q.drop j1) := hOK1
  have hput := sp_streamop_put_ok hOK4 OPID_WRITEN (7 + s1.sp_write_n_bytes) (by omega)
    (by rw [hn1]; exact hn2) (by show _ < s1.sp_device_serbuf_size; rw [hwire1.frame.serbuf]; exact hroom)
  refine ⟨j1, { sp_streamop_put OPID_WRITEN (7 + s1.sp_write_n_bytes) s4 with
      sp_opbuf_usage := (sp_streamop_put OPID_WRITEN (7 + s1.sp_write_n_bytes) s4).sp_opbuf_usage
        + ((7 + (sp_streamop_put OPID_WRITEN (7 + s1.sp_write_n_bytes) s4).sp_write_n_bytes : Nat) : Int)
      sp_write_n_bytes := 0
      sp_prev_was_write := false }, hj1, ?_, ?_, ?_, ?_, rfl, rfl⟩
  · rw [sp_pass_writen, he1]
    dsimp only
    rw [if_neg (by rw [hn1]; exact hn),
      sp_check_opbuf_usage_skip oc fuel _ s1 (by rw [hu1, hn1, hwire1.frame.opbuf]; exact hu)]
    dsimp only
    rw [serialport_write_ok hw1]
    dsimp only
    rw [serialport_write_any (by simpa using hw1)]
    rfl
  · refine ⟨⟨?_, ?_, ?_, ?_, ?_, ?_, ?_, ?_, ?_⟩, ?_, ?_, ?_⟩
    · show (sp_streamop_put _ _ s4).sp_device_serbuf_size = _; simp [s4, hwire1.frame.serbuf]
    · show (sp_streamop_put _ _ s4).sp_device_opbuf_size = _; simp [s4, hwire1.frame.opbuf]
    · show (sp_streamop_put _ _ s4).sp_cmdmap = _; simp [s4, hwire1.frame.cmdmap]
    · show (sp_streamop_put _ _ s4).sp_check_avail_automatic = _; simp [s4, hwire1.frame.auto]
    · show (sp_streamop_put _ _ s4).sp_max_write_n = _; simp [s4, hwire1.frame.max_write_n]
    · show (sp_streamop_put _ _ s4).sp_max_read_n = _; simp [s4, hwire1.frame.max_read_n]
    · show (sp_streamop_put _ _ s4).sp_write_n_addr = _; simp [s4, hwire1.frame.addr]
    · show (sp_streamop_put _ _ s4).sp_write_n_buf = _; simp [s4, hwire1.frame.buf]
    · show (sp_streamop_put _ _ s4).chan.wfail = _; simp [s4, hwire1.frame.wfail]
    · show (sp_streamop_put _ _ s4).chan.tx = _
      simp [s4, hdr, hwire1.tx, hn1, hwire1.frame.addr, hwire1.frame.buf, le24]
    · show (sp_streamop_put _ _ s4).chan.rx = _; simp [s4, hwire1.rx]
    · show (sp_streamop_put _ _ s4).log = _
      rw [put_log_of_StreamOK hOK4]; simp [s4, hwire1.log]
  · have e : streamop OPID_WRITEN (7 + s1.sp_write_n_bytes) =
        streamop OPID_WRITEN (7 + s.sp_write_n_bytes) := by rw [hn1]
    rw [e] at hput; exact hput
  · show (sp_streamop_put _ _ s4).sp_opbuf_usage + _ = _
    simp [s4, hu1, hn1]

end Serprog

namespace Serprog

/-- `sp_pass_writen` with a pending run, when no early execute is due. -/
theorem sp_pass_writen_ok (oc : Opcodes) (fuel : Nat) {s : State} {q : List Nat}
    (h : StreamOK s q) (hn2 : 7 + s.sp_write_n_bytes < 2 ^ 26)
    (hu : s.sp_opbuf_usage + (run_cost s : Int) < s.sp_device_opbuf_size)
    (havail : Avail oc.S_CMD_O_WRITEB s) (hw : s.chan.wfail = [])
    (hcap : 2 ≤ s.sp_device_serbuf_size)
    {c : Nat} (hacks : Acks c s.chan.rx) (hqc : q.length ≤ c) :
    ∃ j s', j ≤ q.length ∧ sp_pass_writen oc (fuel + 2) s = some (0, s') ∧
      Wire s s' j (run_wire oc s) ∧
      StreamOK s' (q.drop j ++ [run_word s]) ∧ 2 ≤ STREAMOP_SIZE (run_word s) ∧
      s'.sp_opbuf_usage = s.sp_opbuf_usage + (run_cost s : Int) ∧ s'.sp_write_n_bytes = 0 ∧
      s'.sp_prev_was_write = (s.sp_prev_was_write && decide (s.sp_write_n_bytes = 1)) := by
  by_cases hn : s.sp_write_n_bytes = 1
  · have hu' : s.sp_opbuf_usage + 5 < s.sp_device_opbuf_size := by
      simpa [run_cost, hn] using hu
    obtain ⟨j, s', hj, he, hwire, hOK, hu1, hn1, hp1⟩ :=
      sp_pass_writen_one oc fuel h hn hu' havail hw hcap hacks hqc
    refine ⟨j, s', hj, he, ?_, ?_, ?_, ?_, hn1, ?_⟩
    · simpa [run_wire, hn] using hwire
    · simpa [run_word, hn] using hOK
    · simp only [run_word, hn, if_true]
      rw [STREAMOP_SIZE_streamop _ _ (by norm_num)]; norm_num
    · simpa [run_cost, hn] using hu1
    · simpa [hn] using hp1
  · have hu' : s.sp_opbuf_usage + ((7 + s.sp_write_n_bytes : Nat) : Int)
        < s.sp_device_opbuf_size := by
      simpa [run_cost, hn] using hu
    obtain ⟨j, s', hj, he, hwire, hOK, hu1, hn1, hp1⟩ :=
      sp_pass_writen_many oc fuel h hn hn2 hu' hw hcap hacks hqc
    refine ⟨j, s', hj, he, ?_, ?_, ?_, ?_, hn1, ?_⟩
    · simpa [run_wire, hn] using hwire
    · simpa [run_word, hn] using hOK
    · simp only [run_word, hn, if_false]
      rw [STREAMOP_SIZE_streamop _ _ hn2]; omega
    · simpa [run_cost, hn] using hu1
    · simpa [hn] using hp1

theorem getLast?_drop_append_singleton (q : List Nat) (j w : Nat) :
    (q.drop j ++ [w]).getLast? = some w := by simp

/-- `sp_execute_opbuf_noflush` when no write-n run is pending: one `O_EXEC`. -/
theorem sp_execute_opbuf_noflush_idle (oc : Opcodes) (fuel : Nat) {s : State} {q : List Nat}
    (h : StreamOK s q) (hidle : s.sp_max_write_n = 0 ∨ s.sp_write_n_bytes = 0)
    (havail : Avail oc.S_CMD_O_EXEC s) (hw : s.chan.wfail = [])
    (hcap : 2 ≤ s.sp_device_serbuf_size)
    (hlast : ∀ w, q.getLast? = some w → 2 ≤ STREAMOP_SIZE w)
    {c : Nat} (hacks : Acks c s.chan.rx) (hqc : q.length ≤ c) :
    ∃ j s', j ≤ q.length ∧ sp_execute_opbuf_noflush oc (fuel + 1) s = some (0, s') ∧
      Wire s s' j [oc.S_CMD_O_EXEC] ∧
      StreamOK s' (q.drop j ++ [streamop OPID_EXEC_OPBUF 1]) ∧
      s'.sp_opbuf_usage = 0 ∧ s'.sp_write_n_bytes = s.sp_write_n_bytes ∧
      s'.sp_prev_was_write = false := by
  obtain ⟨j, s2, hj, he, hwire, hOK, hu2, hn2, hp2⟩ :=
    sp_stream_buffer_op_acked h oc.S_CMD_O_EXEC 0 [] OPID_EXEC_OPBUF havail hw (by norm_num)
      hacks hqc (drained_room_one h hcap hlast)
  refine ⟨j, { s2 with sp_opbuf_usage := 0, sp_prev_was_write := false }, hj, ?_, ?_, hOK, rfl,
    hn2, rfl⟩
  · rw [sp_execute_opbuf_noflush]
    have hc : ¬ (s.sp_max_write_n ≠ 0 ∧ s.sp_write_n_bytes ≠ 0) := by
      rcases hidle with h0 | h0 <;> simp [h0]
    simp only [hc, if_false]
    rw [he]
  · have := Wire_congr hwire ({ s2 with sp_opbuf_usage := 0, sp_prev_was_write := false })
      rfl rfl rfl rfl rfl rfl rfl rfl rfl rfl
    simpa using this

/-- `sp_execute_opbuf_noflush` with a pending write-n run: the run, then one
`O_EXEC`. -/
theorem sp_execute_opbuf_noflush_pending (oc : Opcodes) (fuel : Nat) {s : State} {q : List Nat}
    (h : StreamOK s q) (hmax : s.sp_max_write_n ≠ 0) (hn : s.sp_write_n_bytes ≠ 0)
    (hn2 : 7 + s.sp_write_n_bytes < 2 ^ 26)
    (hu : s.sp_opbuf_usage + (run_cost s : Int) < s.sp_device_opbuf_size)
    (havailw : Avail oc.S_CMD_O_WRITEB s) (havail : Avail oc.S_CMD_O_EXEC s)
    (hw : s.chan.wfail = []) (hcap : 2 ≤ s.sp_device_serbuf_size)
    {c : Nat} (hacks : Acks c s.chan.rx) (hqc : q.length + 1 ≤ c) :
    ∃ j s', j ≤ q.length + 1 ∧ sp_execute_opbuf_noflush oc (fuel + 3) s = some (0, s') ∧
      Wire s s' j (run_wire oc s ++ [oc.S_CMD_O_EXEC]) ∧
      StreamOK s' ((q ++ [run_word s]).drop j ++ [streamop OPID_EXEC_OPBUF 1]) ∧
      s'.sp_opbuf_usage = 0 ∧ s'.sp_write_n_bytes = 0 ∧ s'.sp_prev_was_write = false := by
  obtain ⟨j1, s1, hj1, he1, hwire1, hOK1, hbig, hu1, hn1, hp1⟩ :=
    sp_pass_writen_ok oc fuel h hn2 hu havailw hw hcap hacks (by omega)
  have hacks1 := Acks_of_Wire hwire1 hacks (by omega)
  obtain ⟨j2, s2, hj2, he2, hwire2, hOK2, hu2, hn2', hp2⟩ :=
    sp_execute_opbuf_noflush_idle oc 0 hOK1 (Or.inr hn1) (Avail_of_Frame hwire1.frame havail)
      (by rw [hwire1.frame.wfail, hw]) (by rw [hwire1.frame.serbuf]; exact hcap)
      (by intro w hw'; simp at hw'; rw [← hw']; exact hbig)
      hacks1 (by simp; omega)
  have hdrop : (q.drop j1 ++ [run_word s]).drop j2 = (q ++ [run_word s]).drop (j1 + j2) := by
    rw [← List.drop_drop, List.drop_append_of_le_length hj1]
  refine ⟨j1 + j2, s2, ?_, ?_, Wire_trans hwire1 hwire2, ?_, hu2, by rw [hn2', hn1], hp2⟩
  · simp at hj2; omega
  · rw [sp_execute_opbuf_noflush]
    simp only [hmax, hn, ne_eq, not_false_eq_true, and_self, if_true]
    rw [he1]
    dsimp only
    rw [sp_execute_opbuf_noflush, if_neg (by rw [hn1]; simp)] at he2
    dsimp only at he2
    generalize sp_stream_buffer_op oc.S_CMD_O_EXEC 0 [] OPID_EXEC_OPBUF s1 = r at he2 ⊢
    exact he2
  · rw [hdrop] at hOK2; exact hOK2

end Serprog

namespace Serprog

theorem StreamOK_empty {s : State} (info : List Nat)
    (hinfo : s.sp_streamed_ops_info = some info)
    (hlen : info.length = s.sp_device_serbuf_size)
    (hroff : s.sp_streamed_ops_roff < s.sp_device_serbuf_size)
    (hwoff : s.sp_streamed_ops_woff = s.sp_streamed_ops_roff)
    (hops : s.sp_streamed_transmit_ops = 0) (hbytes : s.sp_streamed_transmit_bytes = 0) :
    StreamOK s [] := by
  refine ⟨⟨info, hinfo, hlen, hroff, by simpa using (by omega : 0 < s.sp_device_serbuf_size),
    ?_, ?_⟩, by simp, by simpa using hops, by simpa [sizes_sum] using hbytes⟩
  · rw [hwoff]; simp [Nat.mod_eq_of_lt hroff]
  · intro i hi; simp at hi

theorem StreamOK_init (serbuf opbuf maxw : Nat) (rx : List (Option Nat)) (h : 0 < serbuf) :
    StreamOK (init_state serbuf opbuf maxw rx) [] :=
  StreamOK_empty (List.replicate serbuf 0) rfl (by simp [init_state]) h rfl rfl rfl

theorem Acks_zero (rx : List (Option Nat)) : Acks 0 rx := ⟨rx, by simp⟩

theorem Avail_init (cmd : Nat) (hcmd : cmd < 256) (serbuf opbuf maxw : Nat)
    (rx : List (Option Nat)) : Avail cmd (init_state serbuf opbuf maxw rx) := by
  right
  unfold sp_check_commandavail init_state cmdmap_all
  have h1 : cmd / 8 < 32 := by omega
  have h2 : cmd % 8 < 8 := Nat.mod_lt _ (by norm_num)
  simp only [List.getD_eq_getElem?_getD, List.getElem?_replicate, h1, if_true, Option.getD_some]
  generalize cmd % 8 = b at h2
  interval_cases b <;> decide

/-! ## What the stream functions never do: take bytes back from the channel -/

theorem sp_streamop_get_chan (s : State) : (sp_streamop_get s).2.chan = s.chan := by
  unfold sp_streamop_get
  cases s.sp_streamed_ops_info with
  | none => rfl
  | some info => dsimp only; split <;> rfl

theorem sp_check_stream_free_loop_tx (target : Int) :
    ∀ (rx : List (Option Nat)) (s : State),
      (sp_check_stream_free_loop target rx s).2.chan.tx = s.chan.tx ∧
      (sp_check_stream_free_loop target rx s).2.chan.wfail = s.chan.wfail := by
  intro rx
  induction rx with
  | nil => intro s; exact ⟨rfl, rfl⟩
  | cons x r ih =>
    intro s
    cases x with
    | none => exact ⟨rfl, rfl⟩
    | some c =>
      rw [sp_check_stream_free_loop]
      dsimp only
      have hg := sp_streamop_get_chan
        ({ s with chan := { s.chan with rx := r } } : State)
      generalize sp_streamop_get ({ s with chan := { s.chan with rx := r } } : State) = g at hg ⊢
      obtain ⟨op, s2⟩ := g
      dsimp only at hg ⊢
      have htx : s2.chan.tx = s.chan.tx := by rw [hg]
      have hwf : s2.chan.wfail = s.chan.wfail := by rw [hg]
      split
      · exact ⟨htx, hwf⟩
      · split
        · exact ⟨htx, hwf⟩
        · split
          · exact ⟨htx, hwf⟩
          · split
            · have := ih s2
              exact ⟨this.1.trans htx, this.2.trans hwf⟩
            · exact ⟨htx, hwf⟩

theorem sp_check_stream_free_tx (len : Int) (s : State) :
    (sp_check_stream_free len s).2.chan.tx = s.chan.tx ∧
    (sp_check_stream_free len s).2.chan.wfail = s.chan.wfail := by
  unfold sp_check_stream_free
  dsimp only
  generalize (if (s.sp_device_serbuf_size : Int) - len < 0 then (0 : Int)
    else (s.sp_device_serbuf_size : Int) - len) = target
  have hl := sp_check_stream_free_loop_tx target s.chan.rx s
  have hr : ∀ r : Nat × State, r.2.chan.tx = s.chan.tx ∧ r.2.chan.wfail = s.chan.wfail →
      (match r with
        | (0, s1) =>
          if s1.sp_streamed_transmit_ops = 0 then
            ((0 : Nat), ({ (if s1.sp_streamed_transmit_bytes ≠ 0 then
              s1.msg (Event.accounting_error s1.sp_streamed_transmit_bytes) else s1) with
              sp_streamed_transmit_bytes := 0 } : State))
          else (0, s1)
        | (_, s1) => (1, s1)).2.chan.tx = s.chan.tx ∧
      (match r with
        | (0, s1) =>
          if s1.sp_streamed_transmit_ops = 0 then
            ((0 : Nat), ({ (if s1.sp_streamed_transmit_bytes ≠ 0 then
              s1.msg (Event.accounting_error s1.sp_streamed_transmit_bytes) else s1) with
              sp_streamed_transmit_bytes := 0 } : State))
          else (0, s1)
        | (_, s1) => (1, s1)).2.chan.wfail = s.chan.wfail := by
    rintro ⟨ret, s1⟩ h1
    rcases ret with _ | ret
    · dsimp only
      by_cases h0 : s1.sp_streamed_transmit_ops = 0
      · rw [if_pos h0]
        by_cases hb : s1.sp_streamed_transmit_bytes ≠ 0
        · rw [if_pos hb]; exact h1
        · rw [if_neg hb]; exact h1
      · rw [if_neg h0]; exact h1
    · exact h1
  by_cases hc : target < s.sp_streamed_transmit_bytes ∧ s.sp_streamed_transmit_ops ≠ 0
  · rw [if_pos hc]; exact hr _ hl
  · rw [if_neg hc]; exact hr (0, s) ⟨rfl, rfl⟩

theorem sp_automatic_cmdcheck_chan (cmd : Nat) (s : State) :
    (sp_automatic_cmdcheck cmd s).2.chan = s.chan := by
  unfold sp_automatic_cmdcheck; split <;> rfl

theorem serialport_write_tx (bs : List Nat) (s : State) :
    ∃ tail, (serialport_write bs s).2.chan.tx = s.chan.tx ++ tail := by
  unfold serialport_write
  split
  · exact ⟨[], by simp⟩
  · exact ⟨[], by simp⟩
  · exact ⟨_, rfl⟩
  · exact ⟨_, rfl⟩

/-- Whatever the device does, `sp_stream_buffer_op` only appends to what has
been written. -/
theorem sp_stream_buffer_op_tx (cmd parmlen : Nat) (parms : List Nat) (opid : Nat) (s : State) :
    ∃ tail, (sp_stream_buffer_op cmd parmlen parms opid s).2.chan.tx = s.chan.tx ++ tail := by
  unfold sp_stream_buffer_op
  have h0 := sp_automatic_cmdcheck_chan cmd s
  generalize sp_automatic_cmdcheck cmd s = r0 at h0 ⊢
  obtain ⟨ret0, s0⟩ := r0
  dsimp only at h0
  rcases ret0 with _ | ret0
  · dsimp only
    have hc := (sp_check_stream_free_tx ((1 + parmlen : Nat) : Int) s0).1
    generalize sp_check_stream_free ((1 + parmlen : Nat) : Int) s0 = r at hc ⊢
    obtain ⟨ret, s1⟩ := r
    dsimp only at hc
    rcases ret with _ | ret
    · dsimp only
      obtain ⟨tail, ht⟩ := serialport_write_tx (cmd :: List.take parmlen parms) s1
      generalize serialport_write (cmd :: List.take parmlen parms) s1 = r2 at ht ⊢
      obtain ⟨ret2, s2⟩ := r2
      dsimp only at ht
      rcases ret2 with _ | ret2
      · exact ⟨tail, by simp [ht, hc, h0]⟩
      · exact ⟨tail, by simp [State.msg, ht, hc, h0]⟩
    · exact ⟨[], by simp [hc, h0]⟩
  · exact ⟨[], by simp [h0]⟩

end Serprog

namespace Serprog

/-- C4: with write-n disabled (`sp_max_write_n = 0`) `serprog_chip_writeb` does
not coalesce.  In every state with `sp_opbuf_usage + 5 < sp_device_opbuf_size`
whose stream window is consistent (`q` in flight, a ring of at least two
entries), with `O_WRITEB` available, a working write channel and a device that
acknowledges what is in flight, the call returns, has written exactly the five
bytes `O_WRITEB, addr & 0xFF, (addr >> 8) & 0xFF, (addr >> 16) & 0xFF, val`, has
pushed one `(WRITEB, 5)` entry behind what is still in flight, has added exactly
5 to `sp_opbuf_usage` and has left `sp_write_n_bytes`, `sp_write_n_addr` and
`sp_prev_was_write` unchanged. -/
theorem C4_writeb_without_write_n (oc : Opcodes) (fuel : Nat) (val addr : Nat) (s : State)
    (q : List Nat) (c : Nat)
    (hmax : s.sp_max_write_n = 0)
    (hu : s.sp_opbuf_usage + 5 < s.sp_device_opbuf_size)
    (hstream : StreamOK s q) (hcap : 2 ≤ s.sp_device_serbuf_size)
    (havail : Avail oc.S_CMD_O_WRITEB s) (hw : s.chan.wfail = [])
    (hacks : Acks c s.chan.rx) (hqc : q.length ≤ c) :
    ∃ j s', j ≤ q.length ∧ serprog_chip_writeb oc (fuel + 1) val addr s = some s' ∧
      s'.chan.tx = s.chan.tx ++
        [oc.S_CMD_O_WRITEB, addr &&& 0xFF, (addr >>> 8) &&& 0xFF, (addr >>> 16) &&& 0xFF, val] ∧
      s'.chan.rx = s.chan.rx.drop j ∧
      StreamOK s' (q.drop j ++ [streamop OPID_WRITEB 5]) ∧
      STREAMOP_TYPE (streamop OPID_WRITEB 5) = OPID_WRITEB ∧
      STREAMOP_SIZE (streamop OPID_WRITEB 5) = 5 ∧
      s'.sp_opbuf_usage = s.sp_opbuf_usage + 5 ∧
      s'.sp_write_n_bytes = s.sp_write_n_bytes ∧ s'.sp_write_n_addr = s.sp_write_n_addr ∧
      s'.sp_prev_was_write = s.sp_prev_was_write := by
  obtain ⟨j, s2, hj, he, hwire, hOK, hu2, hn2, hp2⟩ :=
    sp_stream_buffer_op_acked hstream oc.S_CMD_O_WRITEB 4
      [(addr >>> 0) &&& 0xFF, (addr >>> 8) &&& 0xFF, (addr >>> 16) &&& 0xFF, val] OPID_WRITEB
      havail hw (by norm_num) hacks hqc (drained_room hstream (1 + 4) (by norm_num) hcap)
  refine ⟨j, { s2 with sp_opbuf_usage := s2.sp_opbuf_usage + 5 }, hj, ?_, ?_, hwire.rx, hOK,
    by decide, by decide, ?_, hn2, hwire.frame.addr, hp2⟩
  · unfold serprog_chip_writeb
    rw [if_neg (by simp [hmax]), sp_check_opbuf_usage_skip oc fuel 5 s hu]
    dsimp only
    rw [he]
  · show s2.chan.tx = _
    rw [hwire.tx]; simp
  · show s2.sp_opbuf_usage + 5 = _
    rw [hu2]

/-- C4, evaluated: on a fresh session without write-n, `writeb(0x123456, 0xAB)`
puts `0C 56 34 12 AB` on the wire. -/
theorem C4_writeb_without_write_n_witness :
    ∃ j s', j ≤ 0 ∧
      serprog_chip_writeb serprog_h 1 0xAB 0x123456 (init_state 16 300 0 []) = some s' ∧
      s'.chan.tx = [] ++ [0x0C, 0x123456 &&& 0xFF, (0x123456 >>> 8) &&& 0xFF,
        (0x123456 >>> 16) &&& 0xFF, 0xAB] ∧
      s'.chan.rx = ([] : List (Option Nat)).drop j ∧
      StreamOK s' (([] : List Nat).drop j ++ [streamop OPID_WRITEB 5]) ∧
      STREAMOP_TYPE (streamop OPID_WRITEB 5) = OPID_WRITEB ∧
      STREAMOP_SIZE (streamop OPID_WRITEB 5) = 5 ∧
      s'.sp_opbuf_usage = 0 + 5 ∧
      s'.sp_write_n_bytes = 0 ∧ s'.sp_write_n_addr = 0 ∧ s'.sp_prev_was_write = false :=
  C4_writeb_without_write_n serprog_h 0 0xAB 0x123456 (init_state 16 300 0 []) [] 0 rfl
    (by decide) (StreamOK_init 16 300 0 [] (by decide)) (by decide)
    (Avail_init _ (by decide) _ _ _ _) rfl (Acks_zero _) (Nat.le_refl _)

set_option maxRecDepth 100000 in
/-- The shift search on every 8-bit mask, by enumeration. -/
theorem poll_shift_spec : ∀ m, m < 256 →
    ((0 ≤ poll_shift m ↔ ∃ k : Nat, k < 8 ∧ m = 2 ^ k) ∧
      (∀ k : Nat, k < 8 → m = 2 ^ k → poll_shift m = (k : Int))) := by
  decide

/-- C6: the shift search of `serprog_chip_poll` ends with `shift >= 0` exactly
for the masks with a single bit set, and `shift` is then the index of that bit;
and when the mask has no or several bits set, or the poll opcode needed
(`O_POLL_DLY` if `delay != 0`, else `O_POLL`) is not available, the call is
handed as it is to the software fallback, which receives the unchanged state:
the driver itself writes nothing and changes neither `sp_opbuf_usage` nor the
coalescer. -/
theorem C6_poll_acceleration_predicate (oc : Opcodes)
    (fallback : Nat → Nat → Int → Nat → State → Option State)
    (fuel addr : Nat) (mask : Nat) (data_or_toggle : Int) (delay : Nat) (s : State)
    (hmask : mask < 256) :
    (0 ≤ poll_shift mask ↔ ∃ k : Nat, k < 8 ∧ mask = 2 ^ k) ∧
    (∀ k : Nat, k < 8 → mask = 2 ^ k → poll_shift mask = (k : Int)) ∧
    ((¬ ∃ k : Nat, k < 8 ∧ mask = 2 ^ k) ∨
      sp_check_commandavail (if delay ≠ 0 then oc.S_CMD_O_POLL_DLY else oc.S_CMD_O_POLL) s = 0 →
      serprog_chip_poll oc fallback fuel addr mask data_or_toggle delay s =
        fallback addr mask data_or_toggle delay s) := by
  obtain ⟨ha, hb⟩ := poll_shift_spec mask hmask
  refine ⟨ha, hb, ?_⟩
  intro h
  unfold serprog_chip_poll
  dsimp only
  rw [if_pos]
  rcases h with h | h
  · right
    by_contra hc
    exact h (ha.1 (by omega))
  · left; exact h

/-- C6, evaluated: the two-bit mask `0x0C` is not accelerated. -/
theorem C6_poll_acceleration_predicate_witness :
    (0 ≤ poll_shift 0x0C ↔ ∃ k : Nat, k < 8 ∧ 0x0C = 2 ^ k) ∧
    (∀ k : Nat, k < 8 → 0x0C = 2 ^ k → poll_shift 0x0C = (k : Int)) ∧
    ((¬ ∃ k : Nat, k < 8 ∧ 0x0C = 2 ^ k) ∨
      sp_check_commandavail (if (0 : Nat) ≠ 0 then serprog_h.S_CMD_O_POLL_DLY
        else serprog_h.S_CMD_O_POLL) (init_state 16 300 256 []) = 0 →
      serprog_chip_poll serprog_h fallback_none 1 0x1234 0x0C 1 0 (init_state 16 300 256 []) =
        fallback_none 0x1234 0x0C 1 0 (init_state 16 300 256 [])) :=
  C6_poll_acceleration_predicate serprog_h fallback_none 1 0x1234 0x0C 1 0
    (init_state 16 300 256 []) (by decide)



/-- C3: non-contiguous writes are emitted separately.  With `sp_max_write_n > 1`
(and its buffer allocated), an empty stream and opbuf, a coalescer that holds
no run, room in the opbuf, `O_WRITEB` available and a working channel: for all
32-bit addresses `a`, `b` where `b` is not the address after `a`, the call
`writeb(a, v1)` writes nothing, and the following `writeb(b, v2)` writes exactly
the five bytes `O_WRITEB`, `a` as three little-endian bytes, `v1`, adds 5 to
`sp_opbuf_usage` and leaves the coalescer with the new run `sp_write_n_addr = b`,
`sp_write_n_bytes = 1`, `sp_write_n_buf[0] = v2`, `sp_prev_was_write = true`. -/
theorem C3_noncontiguous_writes (oc : Opcodes) (fuel : Nat) (a b v1 v2 : Nat) (s : State)
    (hmax : 1 < s.sp_max_write_n) (hbuf : s.sp_write_n_buf.length = s.sp_max_write_n)
    (hstream : StreamOK s []) (hcap : 2 ≤ s.sp_device_serbuf_size)
    (husage : s.sp_opbuf_usage = 0) (hprev : s.sp_prev_was_write = false)
    (hopbuf : 13 < s.sp_device_opbuf_size)
    (havail : Avail oc.S_CMD_O_WRITEB s) (hw : s.chan.wfail = [])
    (ha : a < 2 ^ 32) (hb : b < 2 ^ 32) (hab : b ≠ (a + 1) % 2 ^ 32) :
    ∃ s1 s2, serprog_chip_writeb oc (fuel + 2) v1 a s = some s1 ∧ s1.chan.tx = s.chan.tx ∧
      serprog_chip_writeb oc (fuel + 2) v2 b s1 = some s2 ∧
      s2.chan.tx = s1.chan.tx ++
        [oc.S_CMD_O_WRITEB, a &&& 0xFF, (a >>> 8) &&& 0xFF, (a >>> 16) &&& 0xFF, v1] ∧
      s2.sp_opbuf_usage = s1.sp_opbuf_usage + 5 ∧
      s2.sp_write_n_addr = b ∧ s2.sp_write_n_bytes = 1 ∧ s2.sp_write_n_buf.getD 0 0 = v2 ∧
      s2.sp_prev_was_write = true := by
  have hmax0 : s.sp_max_write_n ≠ 0 := by omega
  -- the state after the first call
  let s1 : State := { s with
    sp_prev_was_write := true, sp_write_n_addr := a % 2 ^ 32, sp_write_n_bytes := 1,
    sp_write_n_buf := s.sp_write_n_buf.set 0 v1 }
  have h1 : serprog_chip_writeb oc (fuel + 2) v1 a s = some s1 := by
    unfold serprog_chip_writeb
    rw [if_pos hmax0]
    simp only [hprev, Bool.false_eq_true, false_and, if_false]
    rw [sp_check_opbuf_usage_skip oc (fuel + 1) _ _ (by simp [husage]; omega)]
    simp only [ge_iff_le]
    rw [if_neg (by omega)]
  have hOK1 : StreamOK s1 [] := hstream
  have hav1 : Avail oc.S_CMD_O_WRITEB s1 := havail
  obtain ⟨j, s2, hj, he2, hwire2, hOK2, hu2, hn2, hp2⟩ :=
    sp_pass_writen_one oc fuel hOK1 (rfl : s1.sp_write_n_bytes = 1)
      (by show s.sp_opbuf_usage + 5 < (s.sp_device_opbuf_size : Int); rw [husage]; omega)
      hav1 hw hcap (Acks_zero _)
      (Nat.le_refl _)
  let s3 : State := { s2 with
    sp_prev_was_write := true, sp_write_n_addr := b % 2 ^ 32, sp_write_n_bytes := 1,
    sp_write_n_buf := s2.sp_write_n_buf.set 0 v2 }
  have h2 : serprog_chip_writeb oc (fuel + 2) v2 b s1 = some s3 := by
    unfold serprog_chip_writeb
    have hm1 : s1.sp_max_write_n ≠ 0 := hmax0
    rw [if_pos hm1]
    have hc : ¬ (s1.sp_prev_was_write = true ∧
        b = (s1.sp_write_n_addr + s1.sp_write_n_bytes) % 2 ^ 32) := by
      show ¬ (true = true ∧ b = (a % 2 ^ 32 + 1) % 2 ^ 32)
      rw [Nat.mod_eq_of_lt ha]
      exact fun h => hab h.2
    have hc2 : s1.sp_prev_was_write = true ∧ s1.sp_write_n_bytes ≠ 0 :=
      ⟨rfl, by show (1 : Nat) ≠ 0; decide⟩
    rw [if_neg hc, if_pos hc2, he2]
    dsimp only
    rw [sp_check_opbuf_usage_skip oc (fuel + 1) _ _ (by
      show s2.sp_opbuf_usage + ((7 + 1 : Nat) : Int) < (s2.sp_device_opbuf_size : Int)
      rw [hu2, hwire2.frame.opbuf]
      show s.sp_opbuf_usage + 5 + _ < (s.sp_device_opbuf_size : Int)
      rw [husage]; push_cast; omega)]
    dsimp only
    rw [if_neg (by
      show ¬ (1 ≥ s2.sp_max_write_n)
      rw [hwire2.frame.max_write_n]; show ¬ (1 ≥ s.sp_max_write_n); omega)]
  refine ⟨s1, s3, h1, rfl, h2, ?_, ?_, ?_, rfl, ?_, rfl⟩
  · show s2.chan.tx = _
    rw [hwire2.tx]
    show s.chan.tx ++ _ = s.chan.tx ++ _
    have e0 : (s.sp_write_n_buf.set 0 v1).getD 0 0 = v1 := by
      rw [List.getD_eq_getElem?_getD, List.getElem?_set_eq_of_lt _ (by omega)]; rfl
    show s.chan.tx ++ oc.S_CMD_O_WRITEB ::
      (le24 (a % 2 ^ 32) ++ [(s.sp_write_n_buf.set 0 v1).getD 0 0]) = _
    rw [e0, Nat.mod_eq_of_lt ha]
    simp [le24]
  · show s2.sp_opbuf_usage = _
    rw [hu2]
  · show b % 2 ^ 32 = b
    exact Nat.mod_eq_of_lt hb
  · show (s2.sp_write_n_buf.set 0 v2).getD 0 0 = v2
    have hl : 0 < s2.sp_write_n_buf.length := by
      rw [hwire2.frame.buf]
      show 0 < (s.sp_write_n_buf.set 0 v1).length
      rw [List.length_set]; omega
    rw [List.getD_eq_getElem?_getD, List.getElem?_set_eq_of_lt _ hl]; rfl

/-- C3, evaluated: `writeb(0x100, 0x01)` then `writeb(0x200, 0x02)`. -/
theorem C3_noncontiguous_writes_witness :
    ∃ s1 s2, serprog_chip_writeb serprog_h 2 0x01 0x100 (init_state 16 300 256 []) = some s1 ∧
      s1.chan.tx = [] ∧
      serprog_chip_writeb serprog_h 2 0x02 0x200 s1 = some s2 ∧
      s2.chan.tx = s1.chan.tx ++
        [0x0C, 0x100 &&& 0xFF, (0x100 >>> 8) &&& 0xFF, (0x100 >>> 16) &&& 0xFF, 0x01] ∧
      s2.sp_opbuf_usage = s1.sp_opbuf_usage + 5 ∧
      s2.sp_write_n_addr = 0x200 ∧ s2.sp_write_n_bytes = 1 ∧
      s2.sp_write_n_buf.getD 0 0 = 0x02 ∧ s2.sp_prev_was_write = true :=
  C3_noncontiguous_writes serprog_h 0 0x100 0x200 0x01 0x02 (init_state 16 300 256 [])
    (by decide) (List.length_replicate _ _) (StreamOK_init 16 300 256 [] (by decide))
    (by decide) rfl rfl
    (by decide) (Avail_init _ (by decide) _ _ _ _) rfl (by decide) (by decide) (by decide)

end Serprog

namespace Serprog

/-- Whatever the device does, `sp_execute_opbuf_noflush` without a pending run
returns and only appends to what has been written. -/
theorem sp_execute_opbuf_noflush_idle_tx (oc : Opcodes) (fuel : Nat) (s : State)
    (hidle : s.sp_max_write_n = 0 ∨ s.sp_write_n_bytes = 0) :
    ∃ r s' tail, sp_execute_opbuf_noflush oc (fuel + 1) s = some (r, s') ∧
      s'.chan.tx = s.chan.tx ++ tail := by
  rw [sp_execute_opbuf_noflush]
  have hc : ¬ (s.sp_max_write_n ≠ 0 ∧ s.sp_write_n_bytes ≠ 0) := by
    rcases hidle with h0 | h0 <;> simp [h0]
  simp only [hc, if_false]
  obtain ⟨tail, ht⟩ := sp_stream_buffer_op_tx oc.S_CMD_O_EXEC 0 [] OPID_EXEC_OPBUF s
  generalize sp_stream_buffer_op oc.S_CMD_O_EXEC 0 [] OPID_EXEC_OPBUF s = r at ht ⊢
  obtain ⟨ret, s1⟩ := r
  rcases ret with _ | ret
  · exact ⟨_, _, tail, rfl, ht⟩
  · exact ⟨_, _, tail, rfl, ht⟩

theorem poll_flags_pos (shift : Nat) (data_or_toggle : Int) (hshift : shift < 8)
    (hdot : 0 < data_or_toggle) :
    poll_flags (2 ^ shift) data_or_toggle (shift : Int) =
      (if data_or_toggle.toNat &&& 2 ^ shift ≠ 0 then 0x20 else 0) ||| shift := by
  unfold poll_flags
  simp only [gt_iff_lt, hdot, if_true, Int.toNat_ofNat]
  have h1 : ¬ (((data_or_toggle.toNat &&& 2 ^ shift : Nat) : Int) < 0) := by omega
  rw [if_neg h1]
  by_cases hb : data_or_toggle.toNat &&& 2 ^ shift = 0
  · rw [hb]
    simp only [Nat.cast_zero, lt_self_iff_false, if_false, ne_eq, not_true_eq_false]
    interval_cases shift <;> rfl
  · have h2 : (0 : Int) < ((data_or_toggle.toNat &&& 2 ^ shift : Nat) : Int) := by omega
    rw [if_pos h2, if_pos hb]
    interval_cases shift <;> rfl

/-- C5 (as amended): poll flag encoding for a positive `data_or_toggle`.  For
every single-bit mask `2 ^ shift` (shift 0..7), every `data_or_toggle > 0`, every
`addr`, and `delay = 0`, with `O_POLL` available, no write run pending, room in
the opbuf and a consistent, acknowledged stream: `serprog_chip_poll` returns and
has written `O_POLL`, a flags byte and `addr` as three little-endian bytes
(followed by nothing, or by what its closing execute writes).  The flags byte is
`0x20 | shift` when `data_or_toggle & mask` is non-zero and `shift` alone when
`data_or_toggle & mask` is zero: the driver masks `data_or_toggle` before it
decides on bit 5. -/
theorem C5_poll_flags (oc : Opcodes) (fallback : Nat → Nat → Int → Nat → State → Option State)
    (fuel addr shift : Nat) (data_or_toggle : Int) (s : State) (q : List Nat) (c : Nat)
    (hshift : shift < 8) (hdot : 0 < data_or_toggle)
    (havail : sp_check_commandavail oc.S_CMD_O_POLL s = 1)
    (hidle : s.sp_max_write_n = 0 ∨ s.sp_write_n_bytes = 0)
    (hu : s.sp_opbuf_usage + 5 < s.sp_device_opbuf_size)
    (hstream : StreamOK s q) (hcap : 2 ≤ s.sp_device_serbuf_size)
    (hw : s.chan.wfail = []) (hacks : Acks c s.chan.rx) (hqc : q.length ≤ c) :
    ∃ s' flags tail,
      serprog_chip_poll oc fallback (fuel + 1) addr (2 ^ shift) data_or_toggle 0 s = some s' ∧
      s'.chan.tx = s.chan.tx ++ [oc.S_CMD_O_POLL, flags, addr &&& 0xFF, (addr >>> 8) &&& 0xFF,
        (addr >>> 16) &&& 0xFF] ++ tail ∧
      (data_or_toggle.toNat &&& 2 ^ shift ≠ 0 → flags = 0x20 ||| shift) ∧
      (data_or_toggle.toNat &&& 2 ^ shift = 0 → flags = shift) := by
  have hm : 2 ^ shift < 256 := by interval_cases shift <;> norm_num
  have hps : poll_shift (2 ^ shift) = (shift : Int) :=
    (poll_shift_spec (2 ^ shift) hm).2 shift hshift rfl
  have hfl := poll_flags_pos shift data_or_toggle hshift hdot
  obtain ⟨j, s3, hj, he3, hwire3, hOK3, hu3, hn3, hp3⟩ :=
    sp_stream_buffer_op_acked hstream oc.S_CMD_O_POLL 4
      [poll_flags (2 ^ shift) data_or_toggle (shift : Int),
       (addr >>> 0) &&& 0xFF, (addr >>> 8) &&& 0xFF, (addr >>> 16) &&& 0xFF] OPID_POLL
      (Or.inr havail) hw (by norm_num) hacks hqc (drained_room hstream (1 + 4) (by norm_num) hcap)
  let s4 : State := { s3 with sp_opbuf_usage := s3.sp_opbuf_usage + 5 }
  have htx4 : s4.chan.tx = s.chan.tx ++ [oc.S_CMD_O_POLL,
      (if data_or_toggle.toNat &&& 2 ^ shift ≠ 0 then 0x20 else 0) ||| shift,
      addr &&& 0xFF, (addr >>> 8) &&& 0xFF, (addr >>> 16) &&& 0xFF] := by
    show s3.chan.tx = _
    rw [hwire3.tx, hfl]; simp
  have hidle4 : s4.sp_max_write_n = 0 ∨ s4.sp_write_n_bytes = 0 := by
    show s3.sp_max_write_n = 0 ∨ s3.sp_write_n_bytes = 0
    rw [hwire3.frame.max_write_n, hn3]; exact hidle
  have hcall : ∃ s' tail,
      serprog_chip_poll oc fallback (fuel + 1) addr (2 ^ shift) data_or_toggle 0 s = some s' ∧
      s'.chan.tx = s4.chan.tx ++ tail := by
    unfold serprog_chip_poll
    dsimp only
    have hc1 : ¬ (sp_check_commandavail
        (if (0 : Nat) ≠ 0 then oc.S_CMD_O_POLL_DLY else oc.S_CMD_O_POLL) s = 0 ∨
        poll_shift (2 ^ shift) < 0) := by
      rw [if_neg (by simp), havail, hps]; omega
    have hc2 : ¬ (s.sp_max_write_n ≠ 0 ∧ s.sp_write_n_bytes ≠ 0) := by
      rcases hidle with h0 | h0 <;> simp [h0]
    rw [if_neg hc1, if_neg hc2]
    dsimp only
    rw [if_neg (by simp), sp_check_opbuf_usage_skip oc fuel 5 s hu]
    dsimp only
    rw [hps, he3]
    dsimp only
    by_cases hx : s4.sp_opbuf_usage ≥ ((s4.sp_device_opbuf_size / 3 : Nat) : Int)
    · rw [if_pos hx]
      obtain ⟨r, s5, tail, he5, ht5⟩ := sp_execute_opbuf_noflush_idle_tx oc fuel s4 hidle4
      rw [he5]
      exact ⟨s5, tail, rfl, ht5⟩
    · rw [if_neg hx]
      exact ⟨s4, [], rfl, by simp⟩
  obtain ⟨s', tail, hs', htx'⟩ := hcall
  refine ⟨s', _, tail, hs', by rw [htx', htx4], ?_, ?_⟩
  · intro h; rw [if_pos h]
  · intro h; rw [if_neg (by simp [h])]; simp

/-- C5, evaluated on the corrected input: `chip_poll(0x1234, 0x08, 0x08, 0)`
writes `O_POLL, 23, 34 12 00`. -/
theorem C5_poll_flags_witness :
    ∃ s' flags tail,
      serprog_chip_poll serprog_h fallback_none 1 0x1234 (2 ^ 3) 0x08 0
        (init_state 16 300 256 []) = some s' ∧
      s'.chan.tx = [] ++ [0x16, flags, 0x1234 &&& 0xFF, (0x1234 >>> 8) &&& 0xFF,
        (0x1234 >>> 16) &&& 0xFF] ++ tail ∧
      ((0x08 : Int).toNat &&& 2 ^ 3 ≠ 0 → flags = 0x20 ||| 3) ∧
      ((0x08 : Int).toNat &&& 2 ^ 3 = 0 → flags = 3) :=
  C5_poll_flags serprog_h fallback_none 0 0x1234 3 0x08 (init_state 16 300 256 []) [] 0
    (by decide) (by decide) (by decide) (Or.inr rfl) (by decide)
    (StreamOK_init 16 300 256 [] (by decide)) (by decide) rfl (Acks_zero _) (Nat.le_refl _)

/-- C5 as stated fails on the spec's own input: `chip_poll(addr = 0x1234,
mask = 0x08, data_or_toggle = 1, delay = 0)` writes `O_POLL, 03, 34 12 00`, and
not a flags byte `0x23`, because `1 & 0x08 = 0`. -/
theorem C5_counterexample :
    (serprog_chip_poll serprog_h fallback_none 1 0x1234 0x08 1 0
        (init_state 16 300 256 [])).map (fun s' => s'.chan.tx) =
      some [0x16, 0x03, 0x34, 0x12, 0x00] ∧
    (serprog_chip_poll serprog_h fallback_none 1 0x1234 0x08 1 0
        (init_state 16 300 256 [])).map (fun s' => s'.chan.tx) ≠
      some [0x16, 0x23, 0x34, 0x12, 0x00] := by
  constructor
  · rfl
  · decide

end Serprog

namespace Serprog

theorem serialport_read_ok (data : List Nat) :
    ∀ (rest : List (Option Nat)) (s : State), s.chan.rx = data.map some ++ rest →
      serialport_read data.length s = (0, data, { s with chan := { s.chan with rx := rest } }) := by
  induction data with
  | nil =>
    intro rest s h
    simp only [List.map_nil, List.nil_append] at h
    simp only [List.length_nil, serialport_read]
    cases s with
    | mk _ _ _ _ _ _ _ _ _ _ _ _ _ _ _ _ chan _ =>
      cases chan
      simp_all
  | cons b data ih =>
    intro rest s h
    simp only [List.map_cons, List.cons_append] at h
    simp only [List.length_cons, serialport_read, serialport_read1, h]
    have := ih rest ({ s with chan := { s.chan with rx := data.map some ++ rest } } : State) rfl
    dsimp only at this ⊢
    rw [this]

/-- C7: SPI command wire format and reply.  For `writecnt`, `readcnt` below
`2 ^ 24` and `writearr` of length `writecnt`, with nothing queued in the opbuf or
the coalescer, `O_SPIOP` available, a working write channel and a consistent
stream with `q` in flight, whose acknowledgements (and the one of the SPI
operation) are followed on the channel by the bytes `data`:
`serprog_spi_send_command` writes exactly `O_SPIOP`, `writecnt` and `readcnt` as
three little-endian bytes each, and `writearr` (`writecnt + 7` bytes).  If
`readcnt > 0` it then reads every outstanding acknowledgement (nothing stays in
flight), stores exactly the next `readcnt` bytes `data` in `readarr` and returns
0.  If `readcnt = 0` it returns 0 having read at most the acknowledgements of
earlier operations and no payload, the SPI operation staying in flight. -/
theorem C7_spi_send_command (oc : Opcodes) (fuel : Nat) (writecnt readcnt : Nat)
    (writearr data : List Nat) (rest : List (Option Nat)) (s : State) (q : List Nat)
    (hwc : writecnt < 2 ^ 24) (_hrc : readcnt < 2 ^ 24) (hlen : writearr.length = writecnt)
    (hdata : data.length = readcnt)
    (husage : s.sp_opbuf_usage = 0)
    (hidle : s.sp_max_write_n = 0 ∨ s.sp_write_n_bytes = 0)
    (hstream : StreamOK s q) (hcap : 2 ≤ s.sp_device_serbuf_size)
    (havail : Avail oc.S_CMD_O_SPIOP s) (hw : s.chan.wfail = [])
    (hrx : s.chan.rx = List.replicate (q.length + 1) (some S_ACK) ++ (data.map some ++ rest)) :
    (oc.S_CMD_O_SPIOP :: (le24 writecnt ++ le24 readcnt ++ writearr)).length = writecnt + 7 ∧
    (readcnt ≠ 0 → ∃ s',
      serprog_spi_send_command oc fuel writecnt readcnt writearr s = some (0, data, s') ∧
      s'.chan.tx = s.chan.tx ++ oc.S_CMD_O_SPIOP :: (le24 writecnt ++ le24 readcnt ++ writearr) ∧
      s'.chan.rx = rest ∧ s'.sp_streamed_transmit_ops = 0 ∧ StreamOK s' []) ∧
    (readcnt = 0 → ∃ j s', j ≤ q.length ∧
      serprog_spi_send_command oc fuel writecnt readcnt writearr s = some (0, [], s') ∧
      s'.chan.tx = s.chan.tx ++ oc.S_CMD_O_SPIOP :: (le24 writecnt ++ le24 readcnt ++ writearr) ∧
      s'.chan.rx = s.chan.rx.drop j ∧
      StreamOK s' (q.drop j ++ [streamop OPID_SPIOP (writecnt + 7)])) := by
  have hacks : Acks (q.length + 1) s.chan.rx := ⟨_, hrx⟩
  obtain ⟨j, s2, hj, he2, hwire2, hOK2, hu2, hn2, hp2⟩ :=
    sp_stream_buffer_op_acked hstream oc.S_CMD_O_SPIOP (writecnt + 6)
      ([(writecnt >>> 0) &&& 0xFF, (writecnt >>> 8) &&& 0xFF, (writecnt >>> 16) &&& 0xFF,
        (readcnt >>> 0) &&& 0xFF, (readcnt >>> 8) &&& 0xFF, (readcnt >>> 16) &&& 0xFF]
        ++ writearr.take writecnt) OPID_SPIOP
      havail hw (by omega) hacks (by omega)
      (drained_room hstream (1 + (writecnt + 6)) (by omega) hcap)
  have hbytes : oc.S_CMD_O_SPIOP :: List.take (writecnt + 6)
      ([(writecnt >>> 0) &&& 0xFF, (writecnt >>> 8) &&& 0xFF, (writecnt >>> 16) &&& 0xFF,
        (readcnt >>> 0) &&& 0xFF, (readcnt >>> 8) &&& 0xFF, (readcnt >>> 16) &&& 0xFF]
        ++ writearr.take writecnt) =
      oc.S_CMD_O_SPIOP :: (le24 writecnt ++ le24 readcnt ++ writearr) := by
    rw [List.take_of_length_le (by simp [hlen]), List.take_of_length_le (by omega)]
    simp [le24]
  have htx2 : s2.chan.tx =
      s.chan.tx ++ oc.S_CMD_O_SPIOP :: (le24 writecnt ++ le24 readcnt ++ writearr) := by
    rw [hwire2.tx, hbytes]
  have hw76 : 1 + (writecnt + 6) = writecnt + 7 := by omega
  rw [hw76] at hOK2
  have hpre : sp_execute_before_read oc fuel s = some (0, s) := by
    unfold sp_execute_before_read
    rw [if_neg]
    rw [husage]
    rcases hidle with h0 | h0 <;> simp [h0]
  refine ⟨by simp [le24, hlen], ?_, ?_⟩
  · intro hr
    have hacks2 := Acks_of_Wire hwire2 hacks (by omega)
    have hlen2 : (q.drop j ++ [streamop OPID_SPIOP (writecnt + 7)]).length
        = q.length + 1 - j := by simp; omega
    obtain ⟨s3, he3, hwire3, hOK3, hops3, -, -, -, -⟩ :=
      sp_flush_stream_acked hOK2 hacks2 (by omega)
    have hrx3 : s3.chan.rx = data.map some ++ rest := by
      rw [hwire3.rx, hwire2.rx, List.drop_drop, hlen2, hrx]
      have e : j + (q.length + 1 - j) = q.length + 1 := by omega
      rw [e, List.drop_left' (by simp)]
    have hread := serialport_read_ok data rest s3 hrx3
    rw [hdata] at hread
    refine ⟨{ s3 with chan := { s3.chan with rx := rest } }, ?_, ?_, rfl, hops3, hOK3⟩
    · unfold serprog_spi_send_command
      rw [hpre]
      dsimp only
      rw [he2]
      dsimp only
      rw [if_pos hr, he3]
      dsimp only
      rw [hread]
    · show s3.chan.tx = _
      rw [hwire3.tx, htx2]; simp
  · intro hr
    refine ⟨j, s2, hj, ?_, htx2, hwire2.rx, hOK2⟩
    unfold serprog_spi_send_command
    rw [hpre]
    dsimp only
    rw [he2]
    dsimp only
    rw [if_neg (by simp [hr])]

/-- C7, evaluated: `spi_send_command(writecnt = 2, readcnt = 3, [0x9F, 0x00])`
writes `O_SPIOP 02 00 00 03 00 00 9F 00` and reads three bytes. -/
theorem C7_spi_send_command_witness :
    (0x13 :: (le24 2 ++ le24 3 ++ [0x9F, 0x00])).length = 2 + 7 ∧
    ((3 : Nat) ≠ 0 → ∃ s',
      serprog_spi_send_command serprog_h 0 2 3 [0x9F, 0x00]
        (init_state 16 300 256 [some 0x06, some 0xC2, some 0x20, some 0x18]) =
        some (0, [0xC2, 0x20, 0x18], s') ∧
      s'.chan.tx = [] ++ 0x13 :: (le24 2 ++ le24 3 ++ [0x9F, 0x00]) ∧
      s'.chan.rx = [] ∧ s'.sp_streamed_transmit_ops = 0 ∧ StreamOK s' []) ∧
    ((3 : Nat) = 0 → ∃ j s', j ≤ 0 ∧
      serprog_spi_send_command serprog_h 0 2 3 [0x9F, 0x00]
        (init_state 16 300 256 [some 0x06, some 0xC2, some 0x20, some 0x18]) =
        some (0, [], s') ∧
      s'.chan.tx = [] ++ 0x13 :: (le24 2 ++ le24 3 ++ [0x9F, 0x00]) ∧
      s'.chan.rx = ([some 0x06, some 0xC2, some 0x20, some 0x18] : List (Option Nat)).drop j ∧
      StreamOK s' (([] : List Nat).drop j ++ [streamop OPID_SPIOP (2 + 7)])) :=
  C7_spi_send_command serprog_h 0 2 3 [0x9F, 0x00] [0xC2, 0x20, 0x18] []
    (init_state 16 300 256 [some 0x06, some 0xC2, some 0x20, some 0x18]) []
    (by decide) (by decide) rfl rfl rfl (Or.inr rfl)
    (StreamOK_init 16 300 256 _ (by decide)) (by decide) (Avail_init _ (by decide) _ _ _ _) rfl rfl

end Serprog

namespace Serprog

theorem buf_fill_length (vs : List Nat) : ∀ (buf : List Nat) (m : Nat),
    (buf_fill buf m vs).length = buf.length := by
  induction vs with
  | nil => intro buf m; rfl
  | cons v vs ih => intro buf m; rw [buf_fill, ih, List.length_set]

theorem take_succ_set (buf : List Nat) (m v : Nat) (h : m < buf.length) :
    (buf.set m v).take (m + 1) = buf.take m ++ [v] := by
  induction buf generalizing m with
  | nil => simp at h
  | cons x buf ih =>
    cases m with
    | zero => simp
    | succ m =>
      simp only [List.length_cons] at h
      simp only [List.set_cons_succ, List.take_succ_cons, List.cons_append]
      rw [ih m (by omega)]

theorem buf_fill_take (vs : List Nat) : ∀ (buf : List Nat) (m : Nat),
    m + vs.length ≤ buf.length →
    (buf_fill buf m vs).take (m + vs.length) = buf.take m ++ vs := by
  induction vs with
  | nil => intro buf m _; simp [buf_fill]
  | cons v vs ih =>
    intro buf m h
    simp only [List.length_cons] at h
    rw [buf_fill]
    have e : m + (v :: vs).length = (m + 1) + vs.length := by simp; omega
    rw [e, ih (buf.set m v) (m + 1) (by rw [List.length_set]; omega),
      take_succ_set buf m v (by omega)]
    simp

/-- A run of contiguous writes that continues the pending run is only
buffered. -/
theorem writeb_seq_append (oc : Opcodes) (fuel : Nat) (vs : List Nat) :
    ∀ (s : State), s.sp_prev_was_write = true →
      s.sp_write_n_addr + s.sp_write_n_bytes + vs.length ≤ 2 ^ 32 →
      s.sp_write_n_bytes + vs.length < s.sp_max_write_n →
      s.sp_opbuf_usage + 7 + s.sp_write_n_bytes + vs.length < s.sp_device_opbuf_size →
      writeb_seq oc (fuel + 1) (s.sp_write_n_addr + s.sp_write_n_bytes) vs s =
        some { s with
          sp_write_n_bytes := s.sp_write_n_bytes + vs.length
          sp_write_n_buf := buf_fill s.sp_write_n_buf s.sp_write_n_bytes vs } := by
  induction vs with
  | nil => intro s _ _ _ _; simp [writeb_seq, buf_fill]
  | cons v vs ih =>
    intro s hprev haddr hmax hu
    simp only [List.length_cons] at haddr hmax hu
    let s1 : State := { s with
      sp_write_n_buf := s.sp_write_n_buf.set s.sp_write_n_bytes v
      sp_write_n_bytes := s.sp_write_n_bytes + 1 }
    have h1 : serprog_chip_writeb oc (fuel + 1) v (s.sp_write_n_addr + s.sp_write_n_bytes) s
        = some s1 := by
      unfold serprog_chip_writeb
      rw [if_pos (by omega), if_pos ⟨hprev, (Nat.mod_eq_of_lt (by omega)).symm⟩]
      dsimp only
      rw [sp_check_opbuf_usage_skip oc fuel _ _ (by
        show s.sp_opbuf_usage + ((7 + (s.sp_write_n_bytes + 1) : Nat) : Int)
          < (s.sp_device_opbuf_size : Int)
        push_cast; omega)]
      dsimp only
      rw [if_neg (by
        show ¬ (s.sp_write_n_bytes + 1 ≥ s.sp_max_write_n); omega)]
    rw [writeb_seq, h1]
    dsimp only
    have e1 : s.sp_write_n_addr + s.sp_write_n_bytes + 1 = s1.sp_write_n_addr + s1.sp_write_n_bytes :=
      by show _ = s.sp_write_n_addr + (s.sp_write_n_bytes + 1); omega
    rw [e1, ih s1 hprev (by show s.sp_write_n_addr + (s.sp_write_n_bytes + 1) + _ ≤ _; omega)
      (by show s.sp_write_n_bytes + 1 + _ < s.sp_max_write_n; omega)
      (by show s.sp_opbuf_usage + 7 + ((s.sp_write_n_bytes + 1 : Nat) : Int) + _
            < (s.sp_device_opbuf_size : Int)
          push_cast; omega)]
    have e2 : s.sp_write_n_bytes + 1 + vs.length = s.sp_write_n_bytes + (vs.length + 1) := by
      omega
    show some ({ s with
      sp_write_n_bytes := s.sp_write_n_bytes + 1 + vs.length
      sp_write_n_buf := buf_fill (s.sp_write_n_buf.set s.sp_write_n_bytes v)
        (s.sp_write_n_bytes + 1) vs } : State) = _
    rw [e2]
    rfl

/-- A run of contiguous writes on a coalescer that holds nothing is only
buffered. -/
theorem writeb_seq_fresh (oc : Opcodes) (fuel : Nat) (a v : Nat) (vs : List Nat) (s : State)
    (hprev : s.sp_prev_was_write = false) (haddr : a + (vs.length + 1) ≤ 2 ^ 32)
    (hmax : vs.length + 1 < s.sp_max_write_n)
    (hu : s.sp_opbuf_usage + 7 + (vs.length + 1 : Nat) < s.sp_device_opbuf_size) :
    writeb_seq oc (fuel + 1) a (v :: vs) s =
      some { s with
        sp_prev_was_write := true
        sp_write_n_addr := a
        sp_write_n_bytes := vs.length + 1
        sp_write_n_buf := buf_fill s.sp_write_n_buf 0 (v :: vs) } := by
  let s1 : State := { s with
    sp_prev_was_write := true, sp_write_n_addr := a % 2 ^ 32, sp_write_n_bytes := 1,
    sp_write_n_buf := s.sp_write_n_buf.set 0 v }
  have h1 : serprog_chip_writeb oc (fuel + 1) v a s = some s1 := by
    unfold serprog_chip_writeb
    rw [if_pos (by omega)]
    simp only [hprev, Bool.false_eq_true, false_and, if_false]
    rw [sp_check_opbuf_usage_skip oc fuel _ _ (by push_cast at hu ⊢; omega)]
    simp only [ge_iff_le]
    rw [if_neg (by omega)]
  have ha : a % 2 ^ 32 = a := Nat.mod_eq_of_lt (by omega)
  rw [writeb_seq, h1]
  dsimp only
  have e1 : a + 1 = s1.sp_write_n_addr + s1.sp_write_n_bytes := by
    show a + 1 = a % 2 ^ 32 + 1; rw [ha]
  rw [e1, writeb_seq_append oc fuel vs s1 rfl
    (by show a % 2 ^ 32 + 1 + vs.length ≤ _; rw [ha]; omega)
    (by show 1 + vs.length < s.sp_max_write_n; omega)
    (by show s.sp_opbuf_usage + 7 + ((1 : Nat) : Int) + _ < (s.sp_device_opbuf_size : Int)
        push_cast at hu ⊢; omega)]
  show some ({ s with
    sp_prev_was_write := true, sp_write_n_addr := a % 2 ^ 32,
    sp_write_n_bytes := 1 + vs.length
    sp_write_n_buf := buf_fill (s.sp_write_n_buf.set 0 v) 1 vs } : State) = _
  rw [ha, Nat.add_comm 1 vs.length]
  rfl

end Serprog

namespace Serprog

/-- C2: contiguous writes coalesce into one `O_WRITEN` that is emitted only when
a read forces it.  With `sp_max_write_n = 256`, `sp_device_opbuf_size = 1024`, an
empty stream and opbuf, a coalescer holding nothing, the commands available and
a working channel on which three `S_ACK` and then the byte `d` arrive: for every
`k` values `vs` with `2 <= k < 256` and every base address `a` (the run staying
within the 32-bit address space), the calls `writeb(a + i, v_i)` write no byte
and read none, and the following `chip_readb(r)` writes exactly `O_WRITEN`, `k`
and `a` as three little-endian bytes each, the `k` values, then `O_EXEC`, then
`R_BYTE` and `r` as three little-endian bytes; it reads the three
acknowledgements (nothing stays in flight) and returns `d`. -/
theorem C2_contiguous_writes_coalesce (oc : Opcodes) (fuel : Nat) (a r d : Nat) (vs : List Nat)
    (rest : List (Option Nat)) (s : State)
    (hk : 2 ≤ vs.length) (hk2 : vs.length < 256) (haddr : a + vs.length ≤ 2 ^ 32)
    (hmax : s.sp_max_write_n = 256) (hbuf : s.sp_write_n_buf.length = 256)
    (hopbuf : s.sp_device_opbuf_size = 1024)
    (hstream : StreamOK s []) (hcap : 2 ≤ s.sp_device_serbuf_size)
    (husage : s.sp_opbuf_usage = 0) (hprev : s.sp_prev_was_write = false)
    (havw : Avail oc.S_CMD_O_WRITEB s) (have_ : Avail oc.S_CMD_O_EXEC s)
    (havr : Avail oc.S_CMD_R_BYTE s) (hw : s.chan.wfail = [])
    (hrx : s.chan.rx = some S_ACK :: some S_ACK :: some S_ACK :: some d :: rest) :
    ∃ s1 s2, writeb_seq oc (fuel + 3) a vs s = some s1 ∧
      s1.chan.tx = s.chan.tx ∧ s1.chan.rx = s.chan.rx ∧
      serprog_chip_readb oc (fuel + 3) r s1 = some (some d, s2) ∧
      s2.chan.tx = s.chan.tx ++ (oc.S_CMD_O_WRITEN :: (le24 vs.length ++ le24 a ++ vs))
        ++ [oc.S_CMD_O_EXEC] ++ (oc.S_CMD_R_BYTE :: le24 r) ∧
      s2.chan.rx = rest ∧ s2.sp_streamed_transmit_ops = 0 := by
  obtain ⟨v, vs', rfl⟩ : ∃ v vs', vs = v :: vs' := by
    cases vs with
    | nil => simp at hk
    | cons v vs' => exact ⟨v, vs', rfl⟩
  simp only [List.length_cons] at hk hk2 haddr
  let s1 : State := { s with
    sp_prev_was_write := true, sp_write_n_addr := a, sp_write_n_bytes := vs'.length + 1,
    sp_write_n_buf := buf_fill s.sp_write_n_buf 0 (v :: vs') }
  have h1 : writeb_seq oc (fuel + 3) a (v :: vs') s = some s1 :=
    writeb_seq_fresh oc (fuel + 2) a v vs' s hprev haddr (by omega)
      (by rw [husage, hopbuf]; push_cast; omega)
  have hOK1 : StreamOK s1 [] := hstream
  have hacks1 : Acks 3 s1.chan.rx := ⟨some d :: rest, by show s.chan.rx = _; rw [hrx]; rfl⟩
  have hn1 : s1.sp_write_n_bytes ≠ 1 := by show vs'.length + 1 ≠ 1; omega
  have hcost : run_cost s1 = 7 + (vs'.length + 1) := by
    unfold run_cost; rw [if_neg hn1]
  have hrun : run_wire oc s1 =
      oc.S_CMD_O_WRITEN :: (le24 (vs'.length + 1) ++ le24 a ++ (v :: vs')) := by
    unfold run_wire; rw [if_neg hn1]
    show oc.S_CMD_O_WRITEN :: (le24 (vs'.length + 1) ++ le24 a ++
      (buf_fill s.sp_write_n_buf 0 (v :: vs')).take (vs'.length + 1)) = _
    have := buf_fill_take (v :: vs') s.sp_write_n_buf 0 (by simp; omega)
    simp only [List.length_cons, Nat.zero_add, List.take_zero, List.nil_append] at this
    rw [this]
  -- the read first executes the opbuf
  obtain ⟨j2, s2, hj2, he2, hwire2, hOK2, hu2, hn2, hp2⟩ :=
    sp_execute_opbuf_noflush_pending oc fuel hOK1
      (by show s.sp_max_write_n ≠ 0; omega) (by show vs'.length + 1 ≠ 0; omega)
      (by show 7 + (vs'.length + 1) < 2 ^ 26; omega)
      (by rw [hcost]; show s.sp_opbuf_usage + _ < (s.sp_device_opbuf_size : Int)
          rw [husage, hopbuf]; push_cast; omega)
      havw have_ hw hcap hacks1 (by simp)
  have hacks2 := Acks_of_Wire hwire2 hacks1 (by simp at hj2; omega)
  have hlen2 : (([] ++ [run_word s1]).drop j2 ++ [streamop OPID_EXEC_OPBUF 1]).length = 2 - j2 := by
    simp at hj2 ⊢; omega
  -- then submits the read
  obtain ⟨j3, s3, hj3, he3, hwire3, hOK3, hu3, hn3, hp3⟩ :=
    sp_stream_buffer_op_acked hOK2 oc.S_CMD_R_BYTE 3
      [(r >>> 0) &&& 0xFF, (r >>> 8) &&& 0xFF, (r >>> 16) &&& 0xFF] OPID_READB
      (Avail_of_Frame hwire2.frame havr) (by rw [hwire2.frame.wfail]; exact hw) (by norm_num)
      hacks2 (by rw [hlen2]; omega)
      (drained_room hOK2 (1 + 3) (by norm_num) (by rw [hwire2.frame.serbuf]; exact hcap))
  rw [hlen2] at hj3
  have hacks3 := Acks_of_Wire hwire3 hacks2 (by simp at hj2; omega)
  have hlen3 : ((([] ++ [run_word s1]).drop j2 ++ [streamop OPID_EXEC_OPBUF 1]).drop j3 ++
      [streamop OPID_READB (1 + 3)]).length = 3 - j2 - j3 := by
    rw [List.length_append, List.length_drop, hlen2]; simp at hj2 ⊢; omega
  -- then waits for every acknowledgement
  obtain ⟨s4, he4, hwire4, hOK4, hops4, -, -, -, -⟩ :=
    sp_flush_stream_acked hOK3 hacks3 (by rw [hlen3])
  rw [hlen3] at hwire4
  have hrx4 : s4.chan.rx = some d :: rest := by
    rw [hwire4.rx, hwire3.rx, hwire2.rx, List.drop_drop, List.drop_drop]
    show List.drop _ s.chan.rx = _
    have e : j2 + (j3 + (3 - j2 - j3)) = 3 := by simp at hj2; omega
    rw [e, hrx]; rfl
  let s5 : State := { s4 with chan := { s4.chan with rx := rest } }
  have he5 : serialport_read1 s4 = (0, some d, s5) := by
    unfold serialport_read1; rw [hrx4]
  refine ⟨s1, s5, h1, rfl, rfl, ?_, ?_, rfl, hops4⟩
  · unfold serprog_chip_readb sp_execute_before_read
    rw [if_pos (Or.inr ⟨by show s.sp_max_write_n ≠ 0; omega,
      by show vs'.length + 1 ≠ 0; omega⟩), he2]
    dsimp only
    rw [he3]
    dsimp only
    rw [he4]
    dsimp only
    rw [he5]
  · show s4.chan.tx = _
    rw [hwire4.tx, hwire3.tx, hwire2.tx, hrun]
    show s.chan.tx ++ _ ++ _ ++ [] = _
    simp [le24]

/-- C2, evaluated on the spec's input: `writeb(0x100, 1)`, `writeb(0x101, 2)`,
`writeb(0x102, 3)`, then a read at `0x1234`: the wire carries
`O_WRITEN 03 00 00 00 01 00 01 02 03`, `O_EXEC`, `R_BYTE 34 12 00`. -/
theorem C2_contiguous_writes_coalesce_witness :
    ∃ s1 s2, writeb_seq serprog_h 3 0x100 [1, 2, 3]
        (init_state 16 1024 256 [some 0x06, some 0x06, some 0x06, some 0x77]) = some s1 ∧
      s1.chan.tx = [] ∧ s1.chan.rx = [some 0x06, some 0x06, some 0x06, some 0x77] ∧
      serprog_chip_readb serprog_h 3 0x1234 s1 = some (some 0x77, s2) ∧
      s2.chan.tx = [] ++ (0x0D :: (le24 3 ++ le24 0x100 ++ [1, 2, 3]))
        ++ [0x0F] ++ (0x09 :: le24 0x1234) ∧
      s2.chan.rx = [] ∧ s2.sp_streamed_transmit_ops = 0 :=
  C2_contiguous_writes_coalesce serprog_h 0 0x100 0x1234 0x77 [1, 2, 3] []
    (init_state 16 1024 256 [some 0x06, some 0x06, some 0x06, some 0x77])
    (by decide) (by decide) (by decide) rfl (List.length_replicate _ _) rfl
    (StreamOK_init 16 1024 256 _ (by decide)) (by decide) rfl rfl
    (Avail_init _ (by decide) _ _ _ _) (Avail_init _ (by decide) _ _ _ _)
    (Avail_init _ (by decide) _ _ _ _) rfl rfl

end Serprog

namespace Serprog

theorem sp_check_stream_free_idle (len : Int) (s : State)
    (hops : s.sp_streamed_transmit_ops = 0) (hbytes : s.sp_streamed_transmit_bytes = 0) :
    sp_check_stream_free len s = (0, s) := by
  unfold sp_check_stream_free
  simp only [hops, ne_eq, not_true_eq_false, and_false, if_false, hbytes, if_true]
  cases s
  simp_all

theorem Diverging_msg {s : State} (h : Diverging s) (e : Event) : Diverging (s.msg e) := h

/-- In a `Diverging` state neither `sp_pass_writen` nor
`sp_execute_opbuf_noflush` nor a reservation that triggers the early execute
returns, whatever the call depth allowed. -/
theorem diverging_never_returns (oc : Opcodes) : ∀ (fuel : Nat) (s : State), Diverging s →
    sp_pass_writen oc fuel s = none ∧ sp_execute_opbuf_noflush oc fuel s = none ∧
    (∀ b : Int, (s.sp_device_opbuf_size : Int) ≤ s.sp_opbuf_usage + b →
      sp_check_opbuf_usage oc fuel b s = none) := by
  intro fuel
  induction fuel with
  | zero =>
    intro s _
    refine ⟨by rw [sp_pass_writen], by rw [sp_execute_opbuf_noflush], ?_⟩
    intro b _; rw [sp_check_opbuf_usage]
  | succ f ih =>
    intro s hd
    obtain ⟨hmax, hops, hbytes, hcase⟩ := hd
    have hd : Diverging s := ⟨hmax, hops, hbytes, hcase⟩
    have hn0 : s.sp_write_n_bytes ≠ 0 := by
      rcases hcase with h | h
      · rw [h.1]; decide
      · exact h.2.1
    refine ⟨?_, ?_, ?_⟩
    · rw [sp_pass_writen, sp_check_stream_free_idle _ s hops hbytes]
      dsimp only
      rcases hcase with h | h
      · rw [if_pos h.1, (ih s hd).2.2 5 h.2]
      · rw [if_neg h.1, (ih s hd).2.2 _ h.2.2]
    · rw [sp_execute_opbuf_noflush]
      simp only [hmax, hn0, ne_eq, not_false_eq_true, and_self, if_true]
      rw [(ih s hd).1]
    · intro b hb
      rw [sp_check_opbuf_usage, if_pos hb, (ih _ (Diverging_msg hd _)).2.1]

theorem s4_state_Diverging : Diverging s4_state := by
  refine ⟨by decide, rfl, rfl, Or.inr ⟨by decide, by decide, by decide⟩⟩

/-- C8 (failing input): with `sp_device_opbuf_size = 10` and write-n enabled
(`sp_max_write_n = 256`), after `writeb(0x100, 1)`, `writeb(0x101, 2)` the third
contiguous `writeb(0x102, 3)` reserves `7 + 3 = 10` bytes with
`sp_opbuf_usage = 0`, which breaches the threshold.  `sp_check_opbuf_usage(10)`
then never returns, however deep the calls may go: `sp_execute_opbuf_noflush`
calls `sp_pass_writen`, which makes the same reservation again before it has
emitted or cleared the pending run.  So no `O_EXEC` is emitted and
`sp_opbuf_usage` is never reset. -/
theorem C8_early_execute_never_returns :
    (∀ fuel, sp_check_opbuf_usage serprog_h fuel 10 s4_state = none) ∧
    (∀ fuel, writeb_seq serprog_h fuel 0x100 [1, 2, 3] (init_state 16 10 256 []) = none) := by
  constructor
  · intro fuel
    exact (diverging_never_returns serprog_h fuel s4_state s4_state_Diverging).2.2 10 (by decide)
  · intro fuel
    cases fuel with
    | zero => rfl
    | succ f =>
      have h2 := writeb_seq_fresh serprog_h f 0x100 1 [2] (init_state 16 10 256 []) rfl
        (by decide) (by decide) (by decide)
      -- the first two calls only buffer
      have hsplit : ∀ s, writeb_seq serprog_h (f + 1) 0x100 [1, 2, 3] s =
          match writeb_seq serprog_h (f + 1) 0x100 [1, 2] s with
          | none => none
          | some s2 => serprog_chip_writeb serprog_h (f + 1) 3 0x102 s2 |>.bind
              (fun s3 => some s3) := by
        intro s
        simp only [writeb_seq]
        cases serprog_chip_writeb serprog_h (f + 1) 1 0x100 s with
        | none => rfl
        | some s1 =>
          dsimp only
          cases serprog_chip_writeb serprog_h (f + 1) 2 (0x100 + 1) s1 with
          | none => rfl
          | some s2 =>
            dsimp only
            cases serprog_chip_writeb serprog_h (f + 1) 3 (0x100 + 1 + 1) s2 <;> rfl
      rw [hsplit, h2]
      dsimp only
      -- the third call stores its byte and reserves
      unfold serprog_chip_writeb
      rw [if_pos (by decide), if_pos (by decide)]
      dsimp only
      have hs : ({ ({ init_state 16 10 256 [] with
            sp_prev_was_write := true, sp_write_n_addr := 0x100,
            sp_write_n_bytes := [2].length + 1,
            sp_write_n_buf := buf_fill (init_state 16 10 256 []).sp_write_n_buf 0 [1, 2] } : State) with
          sp_write_n_buf := (buf_fill (init_state 16 10 256 []).sp_write_n_buf 0 [1, 2]).set
            ([2].length + 1) 3
          sp_write_n_bytes := [2].length + 1 + 1 } : State) = s4_state := by
        rfl
      dsimp only at hs
      rw [hs]
      rw [(diverging_never_returns serprog_h (f + 1) s4_state s4_state_Diverging).2.2 _ (by decide)]
      rfl

end Serprog

namespace Serprog

/-- What `serprog_chip_readb`, `sp_do_read_n` and `serprog_spi_send_command` do
first, on a consistent stream with an acknowledging device and a working write
channel: the pending run (if any) and `O_EXEC` go out, after which the opbuf is
empty and no run is pending. -/
theorem sp_execute_before_read_ok (oc : Opcodes) (fuel : Nat) {s : State} {q : List Nat}
    (h : StreamOK s q) (hcap : 2 ≤ s.sp_device_serbuf_size) (hw : s.chan.wfail = [])
    (havw : Avail oc.S_CMD_O_WRITEB s) (have_ : Avail oc.S_CMD_O_EXEC s)
    (hn26 : 7 + s.sp_write_n_bytes < 2 ^ 26)
    (hu : Pending s → s.sp_opbuf_usage + (run_cost s : Int) < s.sp_device_opbuf_size)
    (hlast : ¬ Pending s → ∀ w, q.getLast? = some w → 2 ≤ STREAMOP_SIZE w)
    {c : Nat} (hacks : Acks c s.chan.rx) (hqc : q.length + queued_cmds s ≤ c) :
    ∃ j s1 q1, j ≤ q.length + queued_cmds s ∧ q1.length = q.length + queued_cmds s - j ∧
      sp_execute_before_read oc (fuel + 3) s = some (0, s1) ∧
      Wire s s1 j (queued_wire oc s) ∧ StreamOK s1 q1 ∧
      s1.sp_opbuf_usage = 0 ∧ ¬ Pending s1 := by
  by_cases hp : Pending s
  · have hqc' : queued_cmds s = 2 := by unfold queued_cmds; rw [if_pos hp]
    have hqw : queued_wire oc s = run_wire oc s ++ [oc.S_CMD_O_EXEC] := by
      unfold queued_wire; rw [if_pos hp]
    obtain ⟨j, s1, hj, he, hwire, hOK, hu1, hn1, hp1⟩ :=
      sp_execute_opbuf_noflush_pending oc fuel h hp.1 hp.2 hn26 (hu hp) havw have_ hw hcap
        hacks (by omega)
    refine ⟨j, s1, _, by omega, ?_, ?_, hqw ▸ hwire, hOK, hu1, ?_⟩
    · rw [List.length_append, List.length_drop, List.length_append]
      simp only [List.length_singleton]; omega
    · unfold sp_execute_before_read
      rw [if_pos (show s.sp_opbuf_usage ≠ 0 ∨ (s.sp_max_write_n ≠ 0 ∧ s.sp_write_n_bytes ≠ 0)
        from Or.inr hp), he]
    · intro hp'; exact hp'.2 hn1
  · by_cases hu0 : s.sp_opbuf_usage ≠ 0
    · have hqc' : queued_cmds s = 1 := by unfold queued_cmds; rw [if_neg hp, if_pos hu0]
      have hqw : queued_wire oc s = [oc.S_CMD_O_EXEC] := by
        unfold queued_wire; rw [if_neg hp, if_pos hu0]
      have hidle : s.sp_max_write_n = 0 ∨ s.sp_write_n_bytes = 0 := by
        unfold Pending at hp
        by_cases hm : s.sp_max_write_n = 0
        · exact Or.inl hm
        · right; by_contra hn; exact hp ⟨hm, hn⟩
      obtain ⟨j, s1, hj, he, hwire, hOK, hu1, hn1, hp1⟩ :=
        sp_execute_opbuf_noflush_idle oc (fuel + 2) h hidle have_ hw hcap (hlast hp) hacks
          (by omega)
      refine ⟨j, s1, _, by omega, ?_, ?_, hqw ▸ hwire, hOK, hu1, ?_⟩
      · rw [List.length_append, List.length_drop]
        simp only [List.length_singleton]; omega
      · unfold sp_execute_before_read
        rw [if_pos (show s.sp_opbuf_usage ≠ 0 ∨ (s.sp_max_write_n ≠ 0 ∧ s.sp_write_n_bytes ≠ 0)
          from Or.inl hu0), he]
      · intro hp'; apply hp
        exact ⟨by rw [← hwire.frame.max_write_n]; exact hp'.1, by rw [← hn1]; exact hp'.2⟩
    · have hqc' : queued_cmds s = 0 := by unfold queued_cmds; rw [if_neg hp, if_neg hu0]
      have hqw : queued_wire oc s = [] := by
        unfold queued_wire; rw [if_neg hp, if_neg hu0]
      refine ⟨0, s, q, by omega, by omega, ?_, hqw ▸ Wire_refl s, h, by simpa using hu0, hp⟩
      unfold sp_execute_before_read
      rw [if_neg (show ¬ (s.sp_opbuf_usage ≠ 0 ∨ (s.sp_max_write_n ≠ 0 ∧ s.sp_write_n_bytes ≠ 0))
        from fun hc => hc.elim hu0 hp)]

/-- C9 (as amended): no chip read is issued while a queued op remains on the
device, when the execute and the flush succeed.  For every driver state with a
consistent stream (`q` in flight), the commands available, a working write
channel and a device that acknowledges every operation, and in which the
execute is not itself blocked (a pending run fits in the opbuf; without a
pending run the newest entry in flight is not a one-byte command):
the state `s1` in which `serprog_chip_readb` and `sp_do_read_n` submit `R_BYTE` /
`R_NBYTES` has `sp_opbuf_usage = 0` and no pending run, everything queued
before having been followed on the wire by `O_EXEC`; and the data is read by
`serialport_read` in a state `s4` reached after the flush, in which nothing is
in flight (`sp_streamed_transmit_ops = 0`). -/
theorem C9_reads_follow_execute (oc : Opcodes) (fuel : Nat) (addr len : Nat) (s : State)
    (q : List Nat) (c : Nat)
    (h : StreamOK s q) (hcap : 2 ≤ s.sp_device_serbuf_size) (hw : s.chan.wfail = [])
    (havw : Avail oc.S_CMD_O_WRITEB s) (have_ : Avail oc.S_CMD_O_EXEC s)
    (havr : Avail oc.S_CMD_R_BYTE s) (havn : Avail oc.S_CMD_R_NBYTES s)
    (hn26 : 7 + s.sp_write_n_bytes < 2 ^ 26)
    (hu : Pending s → s.sp_opbuf_usage + (run_cost s : Int) < s.sp_device_opbuf_size)
    (hlast : ¬ Pending s → ∀ w, q.getLast? = some w → 2 ≤ STREAMOP_SIZE w)
    (hacks : Acks c s.chan.rx) (hqc : q.length + queued_cmds s + 1 ≤ c) :
    ∃ s1, sp_execute_before_read oc (fuel + 3) s = some (0, s1) ∧
      s1.sp_opbuf_usage = 0 ∧ ¬ Pending s1 ∧
      s1.chan.tx = s.chan.tx ++ queued_wire oc s ∧
      (∃ s3 s4, sp_stream_buffer_op oc.S_CMD_R_BYTE 3 (le24 addr) OPID_READB s1 = (0, s3) ∧
        s3.chan.tx = s1.chan.tx ++ oc.S_CMD_R_BYTE :: le24 addr ∧
        sp_flush_stream s3 = (0, s4) ∧ s4.sp_streamed_transmit_ops = 0 ∧
        serprog_chip_readb oc (fuel + 3) addr s =
          (match serialport_read1 s4 with
           | (0, b, s5) => some (b, s5)
           | (_, b, s5) => some (b, s5.msg Event.readb_byteread))) ∧
      (∃ s3 s4, sp_stream_buffer_op oc.S_CMD_R_NBYTES 6 (le24 addr ++ le24 len) OPID_READN s1
          = (0, s3) ∧
        s3.chan.tx = s1.chan.tx ++ oc.S_CMD_R_NBYTES :: (le24 addr ++ le24 len) ∧
        sp_flush_stream s3 = (0, s4) ∧ s4.sp_streamed_transmit_ops = 0 ∧
        sp_do_read_n oc (fuel + 3) addr len s =
          (match serialport_read len s4 with
           | (0, data, s5) => some (0, data, s5)
           | (_, data, s5) => some (1, data, s5.msg Event.cannot_read_readn_data))) := by
  obtain ⟨j, s1, q1, hj, hq1, he1, hwire1, hOK1, hu1, hp1⟩ :=
    sp_execute_before_read_ok oc fuel h hcap hw havw have_ hn26 hu hlast hacks (by omega)
  have hacks1 := Acks_of_Wire hwire1 hacks (by omega)
  have hw1 : s1.chan.wfail = [] := by rw [hwire1.frame.wfail, hw]
  have hcap1 : 2 ≤ s1.sp_device_serbuf_size := by rw [hwire1.frame.serbuf]; exact hcap
  refine ⟨s1, he1, hu1, hp1, hwire1.tx, ?_, ?_⟩
  · obtain ⟨j3, s3, hj3, he3, hwire3, hOK3, -, -, -⟩ :=
      sp_stream_buffer_op_acked hOK1 oc.S_CMD_R_BYTE 3 (le24 addr) OPID_READB
        (Avail_of_Frame hwire1.frame havr) hw1 (by norm_num) hacks1 (by omega)
        (drained_room hOK1 (1 + 3) (by norm_num) hcap1)
    have hacks3 := Acks_of_Wire hwire3 hacks1 (by omega)
    obtain ⟨s4, he4, -, -, hops4, -, -, -, -⟩ :=
      sp_flush_stream_acked hOK3 hacks3 (by
        rw [List.length_append, List.length_drop]; simp only [List.length_singleton]; omega)
    refine ⟨s3, s4, he3, ?_, he4, hops4, ?_⟩
    · rw [hwire3.tx]; rfl
    · unfold serprog_chip_readb
      rw [he1]
      dsimp only
      have he3' : sp_stream_buffer_op oc.S_CMD_R_BYTE 3
          [(addr >>> 0) &&& 0xFF, (addr >>> 8) &&& 0xFF, (addr >>> 16) &&& 0xFF] OPID_READB s1
          = (0, s3) := he3
      rw [he3']
      dsimp only
      rw [he4] <;> rfl
  · obtain ⟨j3, s3, hj3, he3, hwire3, hOK3, -, -, -⟩ :=
      sp_stream_buffer_op_acked hOK1 oc.S_CMD_R_NBYTES 6 (le24 addr ++ le24 len) OPID_READN
        (Avail_of_Frame hwire1.frame havn) hw1 (by norm_num) hacks1 (by omega)
        (drained_room hOK1 (1 + 6) (by norm_num) hcap1)
    have hacks3 := Acks_of_Wire hwire3 hacks1 (by omega)
    obtain ⟨s4, he4, -, -, hops4, -, -, -, -⟩ :=
      sp_flush_stream_acked hOK3 hacks3 (by
        rw [List.length_append, List.length_drop]; simp only [List.length_singleton]; omega)
    refine ⟨s3, s4, he3, ?_, he4, hops4, ?_⟩
    · rw [hwire3.tx]; rfl
    · unfold sp_do_read_n
      rw [he1]
      dsimp only
      have he3' : sp_stream_buffer_op oc.S_CMD_R_NBYTES 6
          [(addr >>> 0) &&& 0xFF, (addr >>> 8) &&& 0xFF, (addr >>> 16) &&& 0xFF,
           (len >>> 0) &&& 0xFF, (len >>> 8) &&& 0xFF, (len >>> 16) &&& 0xFF] OPID_READN s1
          = (0, s3) := he3
      rw [he3']
      dsimp only
      rw [he4] <;> rfl

/-- C9, evaluated: a fresh session with a pending run of three bytes, on which
`chip_readb` and `sp_do_read_n` are well acknowledged. -/
theorem C9_reads_follow_execute_witness :
    ∃ s1, sp_execute_before_read serprog_h 3 s4_state_acked = some (0, s1) ∧
      s1.sp_opbuf_usage = 0 ∧ ¬ Pending s1 ∧
      s1.chan.tx = s4_state_acked.chan.tx ++ queued_wire serprog_h s4_state_acked ∧
      (∃ s3 s4, sp_stream_buffer_op serprog_h.S_CMD_R_BYTE 3 (le24 0x1234) OPID_READB s1
          = (0, s3) ∧
        s3.chan.tx = s1.chan.tx ++ serprog_h.S_CMD_R_BYTE :: le24 0x1234 ∧
        sp_flush_stream s3 = (0, s4) ∧ s4.sp_streamed_transmit_ops = 0 ∧
        serprog_chip_readb serprog_h 3 0x1234 s4_state_acked =
          (match serialport_read1 s4 with
           | (0, b, s5) => some (b, s5)
           | (_, b, s5) => some (b, s5.msg Event.readb_byteread))) ∧
      (∃ s3 s4, sp_stream_buffer_op serprog_h.S_CMD_R_NBYTES 6 (le24 0x1234 ++ le24 2)
          OPID_READN s1 = (0, s3) ∧
        s3.chan.tx = s1.chan.tx ++ serprog_h.S_CMD_R_NBYTES :: (le24 0x1234 ++ le24 2) ∧
        sp_flush_stream s3 = (0, s4) ∧ s4.sp_streamed_transmit_ops = 0 ∧
        sp_do_read_n serprog_h 3 0x1234 2 s4_state_acked =
          (match serialport_read 2 s4 with
           | (0, data, s5) => some (0, data, s5)
           | (_, data, s5) => some (1, data, s5.msg Event.cannot_read_readn_data))) :=
  C9_reads_follow_execute serprog_h 0 0x1234 2 s4_state_acked [] 3
    (StreamOK_empty (List.replicate 16 0) rfl (List.length_replicate _ _) (by decide) rfl rfl rfl)
    (by decide) rfl (Or.inr (by decide)) (Or.inr (by decide)) (Or.inr (by decide))
    (Or.inr (by decide)) (by decide) (fun _ => by decide)
    (fun hp => absurd (show Pending s4_state_acked by decide) hp)
    ⟨[some 0x77, some 0x78], rfl⟩ (by decide)

/-- C9 as stated ("for every transport behaviour") fails: after
`writeb(0x100, 1)` on a session without write-n, let the write of `O_EXEC` fail.
`sp_execute_opbuf_noflush` then returns 1 with `sp_opbuf_usage` still 5, the
driver ignores that, and `chip_readb(0x1234)` nevertheless writes `R_BYTE` and
returns the byte `0x77`: the wire carries `O_WRITEB 00 01 00 01`,
`R_BYTE 34 12 00` and no `O_EXEC`. -/
theorem C9_counterexample :
    (serprog_chip_writeb serprog_h 1 1 0x100 failing_write_state).bind
        (fun s1 => (sp_execute_before_read serprog_h 1 s1).map
          (fun p => (p.1, p.2.sp_opbuf_usage))) = some (1, 5) ∧
    (serprog_chip_writeb serprog_h 1 1 0x100 failing_write_state).bind
        (fun s1 => (serprog_chip_readb serprog_h 1 0x1234 s1).map
          (fun p => (p.1, p.2.chan.tx, p.2.sp_opbuf_usage))) =
      some (some 0x77, [0x0C, 0x00, 0x01, 0x00, 0x01, 0x09, 0x34, 0x12, 0x00], 5) := by
  constructor <;> rfl

end Serprog

namespace Serprog

/-! ## Decoding what the driver encodes -/

theorem byte_of (x k : Nat) : (x >>> k) &&& 0xFF = x / 2 ^ k % 256 := by
  have h1 : (0xFF : Nat) = 2 ^ 8 - 1 := by norm_num
  rw [h1, Nat.and_pow_two_sub_one_eq_mod, Nat.shiftRight_eq_div_pow]

theorem of_le24_le24 (x : Nat) (h : x < 2 ^ 24) :
    of_le24 ((x >>> 0) &&& 0xFF) ((x >>> 8) &&& 0xFF) ((x >>> 16) &&& 0xFF) = x := by
  rw [byte_of, byte_of, byte_of]
  unfold of_le24
  norm_num at h ⊢
  omega

theorem of_le32_le32 (x : Nat) (h : x < 2 ^ 32) :
    of_le32 ((x >>> 0) &&& 0xFF) ((x >>> 8) &&& 0xFF) ((x >>> 16) &&& 0xFF)
      ((x >>> 24) &&& 0xFF) = x := by
  rw [byte_of, byte_of, byte_of, byte_of]
  unfold of_le32
  norm_num at h ⊢
  omega

theorem decode_wire_succ (oc : Opcodes) (fuel c : Nat) (bs : List Nat) :
    decode_wire oc (fuel + 1) (c :: bs) =
      if c = oc.S_CMD_O_WRITEB then
        match bs with
        | a0 :: a1 :: a2 :: v :: rest =>
          (decode_wire oc fuel rest).map (fun l => Call.writeb (of_le24 a0 a1 a2) v :: l)
        | _ => none
      else if c = oc.S_CMD_O_WRITEN then
        match bs with
        | l0 :: l1 :: l2 :: a0 :: a1 :: a2 :: rest =>
          if rest.length < of_le24 l0 l1 l2 then none
          else
            (decode_wire oc fuel (rest.drop (of_le24 l0 l1 l2))).map
              (fun l => stores (of_le24 a0 a1 a2) (rest.take (of_le24 l0 l1 l2)) ++ l)
        | _ => none
      else if c = oc.S_CMD_O_DELAY then
        match bs with
        | u0 :: u1 :: u2 :: u3 :: rest =>
          (decode_wire oc fuel rest).map (fun l => Call.delay (of_le32 u0 u1 u2 u3) :: l)
        | _ => none
      else none := rfl

theorem decode_wire_mono (oc : Opcodes) : ∀ (f : Nat) (bs : List Nat) (l : List Call),
    decode_wire oc f bs = some l → decode_wire oc (f + 1) bs = some l := by
  intro f
  induction f with
  | zero =>
    intro bs l h
    cases bs with
    | nil => simpa [decode_wire] using h
    | cons c bs => simp [decode_wire] at h
  | succ f ih =>
    intro bs l h
    cases bs with
    | nil => simpa [decode_wire] using h
    | cons c bs =>
      rw [decode_wire_succ] at h ⊢
      split at h
      · rw [if_pos ‹_›]
        split at h
        · obtain ⟨l', hl', rfl⟩ := Option.map_eq_some'.1 h
          rw [ih _ _ hl']; rfl
        · cases h
      · rw [if_neg ‹_›]
        split at h
        · rw [if_pos ‹_›]
          split at h
          · split at h
            · cases h
            · rw [if_neg ‹_›]
              obtain ⟨l', hl', rfl⟩ := Option.map_eq_some'.1 h
              rw [ih _ _ hl']; rfl
          · cases h
        · rw [if_neg ‹_›]
          split at h
          · rw [if_pos ‹_›]
            split at h
            · obtain ⟨l', hl', rfl⟩ := Option.map_eq_some'.1 h
              rw [ih _ _ hl']; rfl
            · cases h
          · cases h

theorem decode_wire_mono_le (oc : Opcodes) {f g : Nat} (hfg : f ≤ g) {bs : List Nat}
    {l : List Call} (h : decode_wire oc f bs = some l) : decode_wire oc g bs = some l := by
  induction hfg with
  | refl => exact h
  | step _ ih => exact decode_wire_mono oc _ _ _ ih

theorem decode_wire_append (oc : Opcodes) : ∀ (f : Nat) (a : List Nat) (l : List Call),
    decode_wire oc f a = some l → ∀ (g : Nat) (b : List Nat) (m : List Call),
    decode_wire oc g b = some m → decode_wire oc (f + g) (a ++ b) = some (l ++ m) := by
  intro f
  induction f with
  | zero =>
    intro a l h g b m hb
    cases a with
    | nil =>
      simp only [decode_wire, Option.some.injEq] at h
      subst h
      simpa using hb
    | cons c bs => simp [decode_wire] at h
  | succ f ih =>
    intro a l h g b m hb
    cases a with
    | nil =>
      simp only [decode_wire, Option.some.injEq] at h
      subst h
      have hb' : decode_wire oc g ([] ++ b) = some ([] ++ m) := by simpa using hb
      exact @decode_wire_mono_le oc g (f + 1 + g) (by omega) _ _ hb'
    | cons c bs =>
      have e : f + 1 + g = (f + g) + 1 := by omega
      rw [e, List.cons_append, decode_wire_succ]
      rw [decode_wire_succ] at h
      split at h
      · rw [if_pos ‹_›]
        split at h
        · obtain ⟨l', hl', rfl⟩ := Option.map_eq_some'.1 h
          simp only [List.cons_append]
          rw [ih _ _ hl' g b m hb]; rfl
        · cases h
      · rw [if_neg ‹_›]
        split at h
        · rw [if_pos ‹_›]
          split at h
          · rename_i l0 l1 l2 a0 a1 a2 rest
            split at h
            · cases h
            · rename_i hlen
              obtain ⟨l', hl', rfl⟩ := Option.map_eq_some'.1 h
              simp only [List.cons_append]
              have hlen' : ¬ (rest ++ b).length < of_le24 l0 l1 l2 := by
                rw [List.length_append]; omega
              rw [if_neg hlen', List.drop_append_of_le_length (by omega),
                List.take_append_of_le_length (by omega), ih _ _ hl' g b m hb]
              simp
          · cases h
        · rw [if_neg ‹_›]
          split at h
          · rw [if_pos ‹_›]
            split at h
            · obtain ⟨l', hl', rfl⟩ := Option.map_eq_some'.1 h
              simp only [List.cons_append]
              rw [ih _ _ hl' g b m hb]; rfl
            · cases h
          · cases h

theorem decode_append (oc : Opcodes) {a b : List Nat} {l m : List Call}
    (ha : decode oc a = some l) (hb : decode oc b = some m) :
    decode oc (a ++ b) = some (l ++ m) := by
  unfold decode at *
  rw [List.length_append]
  exact decode_wire_append oc _ _ _ ha _ _ _ hb

theorem decode_nil (oc : Opcodes) : decode oc [] = some [] := rfl

theorem decode_writeb (oc : Opcodes) (a v : Nat) (ha : a < 2 ^ 24) :
    decode oc (oc.S_CMD_O_WRITEB :: (le24 a ++ [v])) = some [Call.writeb a v] := by
  simp only [decode, le24, List.cons_append, List.nil_append, List.length_cons, List.length_nil,
    decode_wire, if_true, of_le24_le24 a ha]
  rfl

theorem decode_delay (oc : Opcodes) (u : Nat) (hu : u < 2 ^ 32)
    (h1 : oc.S_CMD_O_DELAY ≠ oc.S_CMD_O_WRITEB) (h2 : oc.S_CMD_O_DELAY ≠ oc.S_CMD_O_WRITEN) :
    decode oc (oc.S_CMD_O_DELAY :: le32 u) = some [Call.delay u] := by
  simp only [decode, le32, List.length_cons, List.length_nil, decode_wire, if_true, h1, h2,
    if_false, of_le32_le32 u hu]
  rfl

theorem decode_writen (oc : Opcodes) (a : Nat) (data : List Nat) (ha : a < 2 ^ 24)
    (hlen : data.length < 2 ^ 24) (h1 : oc.S_CMD_O_WRITEN ≠ oc.S_CMD_O_WRITEB) :
    decode oc (oc.S_CMD_O_WRITEN :: (le24 data.length ++ le24 a ++ data)) =
      some (stores a data) := by
  simp only [decode, le24, List.cons_append, List.nil_append, List.length_cons, decode_wire,
    h1, if_false, if_true, of_le24_le24 a ha, of_le24_le24 data.length hlen, lt_self_iff_false,
    List.drop_length, List.take_length]
  simp [decode_wire]

end Serprog

namespace Serprog

theorem avail_of_cmdmap {s s' : State} (e : s'.sp_cmdmap = s.sp_cmdmap) (cmd : Nat) :
    sp_check_commandavail cmd s' = sp_check_commandavail cmd s := by
  unfold sp_check_commandavail; rw [e]

/-- `Session` only looks at the stream fields, the channel, the ring size and
the command map. -/
theorem Session_update {oc : Opcodes} {s : State} {q : List Nat} {c : Nat}
    (h : Session oc s q c) (t : State)
    (e1 : t.sp_device_serbuf_size = s.sp_device_serbuf_size)
    (e2 : t.sp_cmdmap = s.sp_cmdmap) (e3 : t.chan = s.chan)
    (e4 : t.sp_streamed_ops_info = s.sp_streamed_ops_info)
    (e5 : t.sp_streamed_ops_woff = s.sp_streamed_ops_woff)
    (e6 : t.sp_streamed_ops_roff = s.sp_streamed_ops_roff)
    (e7 : t.sp_streamed_transmit_ops = s.sp_streamed_transmit_ops)
    (e8 : t.sp_streamed_transmit_bytes = s.sp_streamed_transmit_bytes) : Session oc t q c := by
  refine ⟨?_, by rw [e3]; exact h.acks, by rw [e1]; exact h.serbuf, by rw [e3]; exact h.wfail,
    by rw [avail_of_cmdmap e2]; exact h.av_writeb, by rw [avail_of_cmdmap e2]; exact h.av_delay,
    by rw [avail_of_cmdmap e2]; exact h.av_exec, by rw [avail_of_cmdmap e2]; exact h.av_rbyte,
    by rw [avail_of_cmdmap e2]; exact h.av_rnbytes, by rw [avail_of_cmdmap e2]; exact h.av_spiop⟩
  have := h.stream
  unfold StreamOK at this ⊢
  rw [e1, e4, e5, e6, e7, e8]; exact this

/-- A `Session` after a step that reads `j` acknowledgements. -/
theorem Session_step {oc : Opcodes} {s s' : State} {q q' : List Nat} {c j : Nat} {bs : List Nat}
    (h : Session oc s q c) (hwire : Wire s s' j bs) (hOK : StreamOK s' q') (hj : j ≤ c) :
    Session oc s' q' (c - j) :=
  ⟨hOK, Acks_of_Wire hwire h.acks hj, by rw [hwire.frame.serbuf]; exact h.serbuf,
   by rw [hwire.frame.wfail]; exact h.wfail,
   by rw [avail_of_cmdmap hwire.frame.cmdmap]; exact h.av_writeb,
   by rw [avail_of_cmdmap hwire.frame.cmdmap]; exact h.av_delay,
   by rw [avail_of_cmdmap hwire.frame.cmdmap]; exact h.av_exec,
   by rw [avail_of_cmdmap hwire.frame.cmdmap]; exact h.av_rbyte,
   by rw [avail_of_cmdmap hwire.frame.cmdmap]; exact h.av_rnbytes,
   by rw [avail_of_cmdmap hwire.frame.cmdmap]; exact h.av_spiop⟩

/-- The pending run goes out (no early execute due). -/
theorem emit_run (oc : Opcodes) (fuel : Nat) {s : State} {q : List Nat} {c : Nat}
    (hS : Session oc s q c) (hqc : q.length ≤ c) (hn : 7 + s.sp_write_n_bytes < 2 ^ 26)
    (hu : s.sp_opbuf_usage + (run_cost s : Int) < s.sp_device_opbuf_size) :
    ∃ j s', j ≤ q.length ∧ sp_pass_writen oc (fuel + 2) s = some (0, s') ∧
      Session oc s' (q.drop j ++ [run_word s]) (c - j) ∧ Wire s s' j (run_wire oc s) ∧
      2 ≤ STREAMOP_SIZE (run_word s) ∧
      s'.sp_opbuf_usage = s.sp_opbuf_usage + (run_cost s : Int) ∧ s'.sp_write_n_bytes = 0 ∧
      s'.sp_prev_was_write = (s.sp_prev_was_write && decide (s.sp_write_n_bytes = 1)) := by
  obtain ⟨j, s', hj, he, hwire, hOK, hbig, hu', hn', hp'⟩ :=
    sp_pass_writen_ok oc fuel hS.stream hn hu (Or.inr hS.av_writeb) hS.wfail hS.serbuf hS.acks hqc
  exact ⟨j, s', hj, he, Session_step hS hwire hOK (by omega), hwire, hbig, hu', hn', hp'⟩

/-- A command of at least two bytes goes out through the stream. -/
theorem submit (oc : Opcodes) {s : State} {q : List Nat} {c : Nat}
    (hS : Session oc s q c) (hqc : q.length ≤ c) (cmd parmlen : Nat) (parms : List Nat)
    (opid : Nat) (hav : sp_check_commandavail cmd s = 1) (hlen : 1 ≤ parmlen)
    (hlen2 : 1 + parmlen < 2 ^ 26) :
    ∃ j s', j ≤ q.length ∧ sp_stream_buffer_op cmd parmlen parms opid s = (0, s') ∧
      Session oc s' (q.drop j ++ [streamop opid (1 + parmlen)]) (c - j) ∧
      Wire s s' j (cmd :: parms.take parmlen) ∧
      s'.sp_opbuf_usage = s.sp_opbuf_usage ∧ s'.sp_write_n_bytes = s.sp_write_n_bytes ∧
      s'.sp_prev_was_write = s.sp_prev_was_write := by
  obtain ⟨j, s', hj, he, hwire, hOK, hu', hn', hp'⟩ :=
    sp_stream_buffer_op_acked hS.stream cmd parmlen parms opid (Or.inr hav) hS.wfail hlen2
      hS.acks hqc (drained_room hS.stream (1 + parmlen) (by omega) hS.serbuf)
  exact ⟨j, s', hj, he, Session_step hS hwire hOK (by omega), hwire, hu', hn', hp'⟩

theorem stores_append (a : Nat) (ds es : List Nat) :
    stores a (ds ++ es) = stores a ds ++ stores (a + ds.length) es := by
  induction ds generalizing a with
  | nil => simp [stores]
  | cons d ds ih =>
    have e : a + 1 + ds.length = a + (ds.length + 1) := by omega
    rw [List.cons_append, stores, stores, ih (a + 1), List.length_cons, e]
    rfl

/-- What the pending run puts on the wire decodes to the pending stores. -/
theorem decode_run_wire (oc : Opcodes) (s : State)
    (h1 : oc.S_CMD_O_WRITEN ≠ oc.S_CMD_O_WRITEB)
    (hlen : s.sp_write_n_bytes ≤ s.sp_write_n_buf.length)
    (hn24 : s.sp_write_n_bytes < 2 ^ 24) (ha : s.sp_write_n_addr < 2 ^ 24) :
    decode oc (run_wire oc s) = some (pending_stores s) := by
  unfold run_wire pending_stores
  by_cases hone : s.sp_write_n_bytes = 1
  · rw [if_pos hone, hone, decode_writeb oc _ _ ha]
    cases hb : s.sp_write_n_buf with
    | nil => rw [hb] at hlen; simp at hlen; omega
    | cons x xs => simp [stores]
  · rw [if_neg hone]
    have hl : (s.sp_write_n_buf.take s.sp_write_n_bytes).length = s.sp_write_n_bytes := by
      rw [List.length_take]; omega
    have := decode_writen oc s.sp_write_n_addr (s.sp_write_n_buf.take s.sp_write_n_bytes) ha
      (by rw [hl]; exact hn24) h1
    rw [hl] at this
    exact this

end Serprog

namespace Serprog

theorem pending_stores_zero (s : State) (h : s.sp_write_n_bytes = 0) : pending_stores s = [] := by
  unfold pending_stores; rw [h]; rfl

theorem run_cost_le (s : State) : run_cost s ≤ 7 + s.sp_write_n_bytes := by
  unfold run_cost; split <;> omega

/-- The end of `serprog_chip_writeb` with write-n: the reservation, and the
emission of the run when it has reached `sp_max_write_n`. -/
theorem writeb_finish (oc : Opcodes) (fuel : Nat) (hd : oc.S_CMD_O_WRITEN ≠ oc.S_CMD_O_WRITEB)
    {s1 : State} {done : List Call} {rem : Nat}
    (h : CoalInv oc s1 done rem) (hn1 : 1 ≤ s1.sp_write_n_bytes) :
    ∃ s', (match sp_check_opbuf_usage oc (fuel + 2) ((7 + s1.sp_write_n_bytes : Nat) : Int) s1 with
        | none => none
        | some (_, s2) =>
          if s2.sp_write_n_bytes ≥ s2.sp_max_write_n then
            match sp_pass_writen oc (fuel + 2) s2 with
            | none => none
            | some (_, s3) => some s3
          else some s2) = some s' ∧
      CoalInv oc s' done rem ∧ s'.sp_write_n_bytes < s'.sp_max_write_n := by
  obtain ⟨q, c, hS, hqc⟩ := h.sess
  have hne : s1.sp_write_n_bytes ≠ 0 := by omega
  have husage := h.usage
  have hopbuf := h.opbuf
  have hopbuf16 := h.opbuf16
  have hnle := h.nle
  rw [if_neg hne] at husage hqc
  have hskip : s1.sp_opbuf_usage + ((7 + s1.sp_write_n_bytes : Nat) : Int)
      < (s1.sp_device_opbuf_size : Int) := by
    have : (8 * (done.length + rem) : Int) < s1.sp_device_opbuf_size := by exact_mod_cast hopbuf
    omega
  rw [sp_check_opbuf_usage_skip oc (fuel + 1) _ s1 hskip]
  dsimp only
  by_cases hfull : s1.sp_write_n_bytes ≥ s1.sp_max_write_n
  · rw [if_pos hfull]
    have hrc := run_cost_le s1
    obtain ⟨j, s2, hj, he, hS2, hwire, -, hu2, hn2, hp2⟩ :=
      emit_run oc fuel hS (by omega) (by omega) (by omega)
    rw [he]
    refine ⟨s2, rfl, ?_, ?_⟩
    · obtain ⟨l, hl, hdone⟩ := h.wire
      have hprev1 : s1.sp_prev_was_write = true := h.prev_of_n hne
      have haddr := h.addr hprev1
      refine ⟨⟨_, _, hS2, ?_⟩, by rw [hwire.frame.max_write_n]; exact h.maxw,
        by rw [hwire.frame.buf, hwire.frame.max_write_n]; exact h.buflen,
        by rw [hwire.frame.opbuf]; exact hopbuf, by rw [hwire.frame.opbuf]; exact hopbuf16,
        ?_, by rw [hn2]; omega, by rw [hn2]; omega, fun hc => absurd hn2 hc, ?_, ?_⟩
      · rw [hn2, if_pos rfl, List.length_append, List.length_drop]
        simp only [List.length_singleton]; omega
      · rw [hn2, if_pos rfl, hu2]; omega
      · intro _
        rw [hn2, hwire.frame.addr]; exact ⟨by omega, haddr.2⟩
      · refine ⟨l ++ pending_stores s1, ?_, ?_⟩
        · rw [hwire.tx]
          exact decode_append oc hl (decode_run_wire oc s1 hd (by rw [h.buflen]; exact h.nmax)
            (by omega) haddr.2)
        · rw [pending_stores_zero s2 hn2, List.append_nil, hdone]
    · rw [hn2, hwire.frame.max_write_n]
      have := h.maxw; omega
  · rw [if_neg hfull]
    exact ⟨s1, rfl, h, by omega⟩

/-- One `serprog_chip_writeb` call keeps the invariant. -/
theorem writeb_step (oc : Opcodes) (fuel : Nat) (hd : oc.S_CMD_O_WRITEN ≠ oc.S_CMD_O_WRITEB)
    {s : State} {done : List Call} {rem : Nat} (a v : Nat)
    (h : CoalInv oc s done (rem + 1)) (hlt : s.sp_write_n_bytes < s.sp_max_write_n)
    (ha : a < 2 ^ 24) :
    ∃ s', serprog_chip_writeb oc (fuel + 2) v a s = some s' ∧
      CoalInv oc s' (done ++ [Call.writeb a v]) rem ∧
      s'.sp_write_n_bytes < s'.sp_max_write_n := by
  obtain ⟨q, c, hS, hqc⟩ := h.sess
  obtain ⟨l, hl, hdone⟩ := h.wire
  have husage := h.usage
  have hopbuf := h.opbuf
  have hopbuf16 := h.opbuf16
  have hnle := h.nle
  have hbuflen := h.buflen
  have hmaxw := h.maxw
  have hopbufZ : (8 * (done.length + (rem + 1)) : Int) < s.sp_device_opbuf_size := by
    exact_mod_cast hopbuf
  unfold serprog_chip_writeb
  rw [if_pos hmaxw]
  dsimp only
  by_cases hc : s.sp_prev_was_write = true ∧
      a = (s.sp_write_n_addr + s.sp_write_n_bytes) % 2 ^ 32
  · -- the byte continues the pending run
    rw [if_pos hc]
    dsimp only
    have haddr := h.addr hc.1
    have hmod : (s.sp_write_n_addr + s.sp_write_n_bytes) % 2 ^ 32 =
        s.sp_write_n_addr + s.sp_write_n_bytes := Nat.mod_eq_of_lt (by omega)
    have ha' : a = s.sp_write_n_addr + s.sp_write_n_bytes := by rw [← hmod]; exact hc.2
    apply writeb_finish oc fuel hd _ (by show 1 ≤ s.sp_write_n_bytes + 1; omega)
    refine ⟨⟨q, c, Session_update hS _ rfl rfl rfl rfl rfl rfl rfl rfl, ?_⟩, hmaxw,
      by show (s.sp_write_n_buf.set _ _).length = _; rw [List.length_set]; exact hbuflen,
      by rw [List.length_append]; simp only [List.length_singleton]; omega, hopbuf16, ?_,
      by show s.sp_write_n_bytes + 1 ≤ s.sp_max_write_n; omega,
      by show s.sp_write_n_bytes + 1 ≤ _; rw [List.length_append]; simp; omega,
      fun _ => hc.1, ?_, ?_⟩
    · show q.length + (if s.sp_write_n_bytes + 1 = 0 then 0 else 1) + rem ≤ c
      rw [if_neg (by omega)]
      split at hqc <;> omega
    · show s.sp_opbuf_usage + (if s.sp_write_n_bytes + 1 = 0 then (0 : Int)
        else ((7 + (s.sp_write_n_bytes + 1) : Nat) : Int)) ≤ 8 * ((done ++ [Call.writeb a v]).length : Int)
      rw [if_neg (by omega), List.length_append]
      simp only [List.length_singleton]
      push_cast
      split at husage <;> push_cast at husage <;> omega
    · intro _
      show s.sp_write_n_addr + (s.sp_write_n_bytes + 1) ≤ 2 ^ 24 ∧ s.sp_write_n_addr < 2 ^ 24
      exact ⟨by omega, haddr.2⟩
    · refine ⟨l, hl, ?_⟩
      show l ++ stores s.sp_write_n_addr
        ((s.sp_write_n_buf.set s.sp_write_n_bytes v).take (s.sp_write_n_bytes + 1)) = _
      rw [take_succ_set _ _ _ (by omega), stores_append, List.length_take,
        Nat.min_eq_left (by omega), ← ha', ← hdone, List.append_assoc]
      rfl
  · -- the byte starts a new run
    rw [if_neg hc]
    have hstart : ∀ s0 : State, (∃ q0 c0, Session oc s0 q0 c0 ∧ q0.length + 1 + rem ≤ c0) →
        s0.sp_max_write_n = s.sp_max_write_n → s0.sp_write_n_buf.length = s.sp_max_write_n →
        s0.sp_device_opbuf_size = s.sp_device_opbuf_size →
        s0.sp_opbuf_usage ≤ 8 * (done.length : Int) →
        decode oc s0.chan.tx = some done →
        CoalInv oc ({ s0 with
          sp_prev_was_write := true, sp_write_n_addr := a % 2 ^ 32, sp_write_n_bytes := 1,
          sp_write_n_buf := s0.sp_write_n_buf.set 0 v } : State) (done ++ [Call.writeb a v]) rem := by
      intro s0 ⟨q0, c0, hS0, hqc0⟩ hm0 hb0 ho0 hu0 hw0
      have hamod : a % 2 ^ 32 = a := Nat.mod_eq_of_lt (by omega)
      refine ⟨⟨q0, c0, Session_update hS0 _ rfl rfl rfl rfl rfl rfl rfl rfl, hqc0⟩,
        by show s0.sp_max_write_n ≠ 0; rw [hm0]; exact hmaxw,
        by show (s0.sp_write_n_buf.set _ _).length = s0.sp_max_write_n
           rw [List.length_set, hb0, hm0],
        by show _ < s0.sp_device_opbuf_size
           rw [ho0, List.length_append]; simp only [List.length_singleton]; omega,
        by show s0.sp_device_opbuf_size < _; rw [ho0]; exact hopbuf16, ?_,
        by show 1 ≤ s0.sp_max_write_n; rw [hm0]; omega,
        by rw [List.length_append]; simp,
        fun _ => rfl, ?_, ?_⟩
      · show s0.sp_opbuf_usage + ((7 + 1 : Nat) : Int) ≤ 8 * ((done ++ [Call.writeb a v]).length : Int)
        rw [List.length_append]; simp only [List.length_singleton]; push_cast; omega
      · intro _
        show a % 2 ^ 32 + 1 ≤ 2 ^ 24 ∧ a % 2 ^ 32 < 2 ^ 24
        rw [hamod]; exact ⟨by omega, ha⟩
      · refine ⟨done, hw0, ?_⟩
        show done ++ stores (a % 2 ^ 32) ((s0.sp_write_n_buf.set 0 v).take 1) = _
        rw [hamod]
        cases hb : s0.sp_write_n_buf with
        | nil => rw [hb] at hb0; simp at hb0; omega
        | cons x xs => simp [stores]
    by_cases hp : s.sp_prev_was_write = true ∧ s.sp_write_n_bytes ≠ 0
    · rw [if_pos hp]
      have hrc := run_cost_le s
      rw [if_neg hp.2] at husage hqc
      have haddr := h.addr hp.1
      obtain ⟨j, s0, hj, he, hS0, hwire, -, hu0, hn0, hp0⟩ :=
        emit_run oc fuel hS (by omega) (by omega) (by omega)
      rw [he]
      dsimp only
      apply writeb_finish oc fuel hd _ (Nat.le_refl 1)
      apply hstart s0 ⟨_, _, hS0, ?_⟩ hwire.frame.max_write_n
        (by rw [hwire.frame.buf]; exact hbuflen) hwire.frame.opbuf (by rw [hu0]; omega)
      · rw [hwire.tx, ← hdone]
        exact decode_append oc hl (decode_run_wire oc s hd (by rw [hbuflen]; exact h.nmax)
          (by omega) haddr.2)
      · rw [List.length_append, List.length_drop]
        simp only [List.length_singleton]; omega
    · rw [if_neg hp]
      dsimp only
      have hn0 : s.sp_write_n_bytes = 0 := by
        by_contra hn
        exact hp ⟨h.prev_of_n hn, hn⟩
      rw [if_pos hn0] at husage hqc
      apply writeb_finish oc fuel hd _ (Nat.le_refl 1)
      apply hstart s ⟨q, c, hS, by omega⟩ rfl hbuflen rfl (by omega)
      rw [← hdone, pending_stores_zero s hn0, List.append_nil]; exact hl

end Serprog

namespace Serprog

/-- One `serprog_delay` call keeps the invariant. -/
theorem delay_step (oc : Opcodes) (fuel : Nat) (hd1 : oc.S_CMD_O_WRITEN ≠ oc.S_CMD_O_WRITEB)
    (hd2 : oc.S_CMD_O_DELAY ≠ oc.S_CMD_O_WRITEB) (hd3 : oc.S_CMD_O_DELAY ≠ oc.S_CMD_O_WRITEN)
    {s : State} {done : List Call} {rem : Nat} (u : Nat)
    (h : CoalInv oc s done (rem + 1)) (hu32 : u < 2 ^ 32) :
    ∃ s', serprog_delay oc (fuel + 2) u s = some s' ∧
      CoalInv oc s' (done ++ [Call.delay u]) rem ∧
      s'.sp_write_n_bytes < s'.sp_max_write_n := by
  obtain ⟨q, c, hS, hqc⟩ := h.sess
  obtain ⟨l, hl, hdone⟩ := h.wire
  have husage := h.usage
  have hopbuf := h.opbuf
  have hopbuf16 := h.opbuf16
  have hnle := h.nle
  have hbuflen := h.buflen
  have hmaxw := h.maxw
  have hopbufZ : (8 * (done.length + (rem + 1)) : Int) < s.sp_device_opbuf_size := by
    exact_mod_cast hopbuf
  -- what happens once no run is pending
  have hfinish : ∀ s0 : State, (∃ q0 c0, Session oc s0 q0 c0 ∧ q0.length + 1 + rem ≤ c0) →
      s0.sp_max_write_n = s.sp_max_write_n → s0.sp_write_n_buf.length = s.sp_max_write_n →
      s0.sp_device_opbuf_size = s.sp_device_opbuf_size →
      s0.sp_opbuf_usage ≤ 8 * (done.length : Int) → s0.sp_write_n_bytes = 0 →
      decode oc s0.chan.tx = some done →
      ∃ s', (match some ({ s0 with sp_prev_was_write := false } : State) with
        | none => none
        | some s0 =>
          let s1 : State := { s0 with sp_prev_was_write := false }
          if sp_check_commandavail oc.S_CMD_O_DELAY s1 = 0 then
            let r2 : Option State :=
              if s1.sp_opbuf_usage ≠ 0 then
                match sp_execute_opbuf oc (fuel + 2) s1 with
                | none => none
                | some (_, s2) => some s2
              else some s1
            match r2 with
            | none => none
            | some s2 => some (s2.msg (Event.internal_delay u))
          else
            match sp_check_opbuf_usage oc (fuel + 2) 5 s1 with
            | none => none
            | some (_, s2) =>
              let buf := [(u >>> 0) &&& 0xFF, (u >>> 8) &&& 0xFF,
                          (u >>> 16) &&& 0xFF, (u >>> 24) &&& 0xFF]
              match sp_stream_buffer_op oc.S_CMD_O_DELAY 4 buf OPID_UDELAY s2 with
              | (_, s3) => some { s3 with sp_opbuf_usage := s3.sp_opbuf_usage + 5 }) = some s' ∧
        CoalInv oc s' (done ++ [Call.delay u]) rem ∧
        s'.sp_write_n_bytes < s'.sp_max_write_n := by
    intro s0 ⟨q0, c0, hS0, hqc0⟩ hm0 hb0 ho0 hu0 hn0 hw0
    let s1 : State := { s0 with sp_prev_was_write := false }
    have hS1 : Session oc s1 q0 c0 := Session_update hS0 _ rfl rfl rfl rfl rfl rfl rfl rfl
    obtain ⟨j, s3, hj, he, hS3, hwire, hu3, hn3, hp3⟩ :=
      submit oc hS1 (by omega) oc.S_CMD_O_DELAY 4
        [(u >>> 0) &&& 0xFF, (u >>> 8) &&& 0xFF, (u >>> 16) &&& 0xFF, (u >>> 24) &&& 0xFF]
        OPID_UDELAY hS1.av_delay (by norm_num) (by norm_num)
    refine ⟨{ s3 with sp_opbuf_usage := s3.sp_opbuf_usage + 5 }, ?_, ?_, ?_⟩
    · dsimp only
      rw [if_neg (by rw [hS1.av_delay]; decide),
        sp_check_opbuf_usage_skip oc (fuel + 1) 5 _ (by
          show s0.sp_opbuf_usage + 5 < (s0.sp_device_opbuf_size : Int)
          rw [ho0]; omega)]
      dsimp only
      rw [he]
    · refine ⟨⟨_, _, Session_update hS3 _ rfl rfl rfl rfl rfl rfl rfl rfl, ?_⟩,
        by show s3.sp_max_write_n ≠ 0; rw [hwire.frame.max_write_n]; show s0.sp_max_write_n ≠ 0
           rw [hm0]; exact hmaxw,
        by show s3.sp_write_n_buf.length = s3.sp_max_write_n
           rw [hwire.frame.buf, hwire.frame.max_write_n]; show s0.sp_write_n_buf.length = s0.sp_max_write_n
           rw [hb0, hm0],
        by show _ < s3.sp_device_opbuf_size
           rw [hwire.frame.opbuf]; show _ < s0.sp_device_opbuf_size
           rw [ho0, List.length_append]; simp only [List.length_singleton]; omega,
        by show s3.sp_device_opbuf_size < _
           rw [hwire.frame.opbuf]; show s0.sp_device_opbuf_size < _; rw [ho0]; exact hopbuf16,
        ?_, ?_, ?_, ?_, ?_, ?_⟩
      · show (q0.drop j ++ _).length + (if s3.sp_write_n_bytes = 0 then 0 else 1) + rem ≤ c0 - j
        rw [hn3]; show _ + (if s0.sp_write_n_bytes = 0 then 0 else 1) + rem ≤ _
        rw [hn0, if_pos rfl, List.length_append, List.length_drop]
        simp only [List.length_singleton]; omega
      · show s3.sp_opbuf_usage + 5 + (if s3.sp_write_n_bytes = 0 then (0 : Int) else _) ≤ _
        rw [hn3]; show _ + (if s0.sp_write_n_bytes = 0 then (0 : Int) else _) ≤ _
        rw [hn0, if_pos rfl, hu3, List.length_append]
        show s0.sp_opbuf_usage + 5 + 0 ≤ _
        simp only [List.length_singleton]; push_cast; omega
      · show s3.sp_write_n_bytes ≤ s3.sp_max_write_n
        rw [hn3]; show s0.sp_write_n_bytes ≤ _; rw [hn0]; omega
      · show s3.sp_write_n_bytes ≤ _
        rw [hn3]; show s0.sp_write_n_bytes ≤ _; rw [hn0]; omega
      · intro hc; exfalso; apply hc
        show s3.sp_write_n_bytes = 0
        rw [hn3]; exact hn0
      · intro hc; exfalso
        have : s3.sp_prev_was_write = false := by rw [hp3]
        rw [this] at hc; cases hc
      · refine ⟨done ++ [Call.delay u], ?_, ?_⟩
        · show decode oc s3.chan.tx = _
          rw [hwire.tx]
          exact decode_append oc hw0 (decode_delay oc u hu32 hd2 hd3)
        · have : pending_stores ({ s3 with sp_opbuf_usage := s3.sp_opbuf_usage + 5 } : State) = [] :=
            pending_stores_zero _ (by show s3.sp_write_n_bytes = 0; rw [hn3]; exact hn0)
          rw [this, List.append_nil]
    · show s3.sp_write_n_bytes < s3.sp_max_write_n
      rw [hn3, hwire.frame.max_write_n]; show s0.sp_write_n_bytes < s0.sp_max_write_n
      rw [hn0, hm0]; omega
  unfold serprog_delay
  dsimp only
  by_cases hp : s.sp_max_write_n ≠ 0 ∧ s.sp_write_n_bytes ≠ 0
  · rw [if_pos hp]
    have hrc := run_cost_le s
    rw [if_neg hp.2] at husage hqc
    have haddr := h.addr (h.prev_of_n hp.2)
    obtain ⟨j, s0, hj, he, hS0, hwire, -, hu0, hn0, hp0⟩ :=
      emit_run oc fuel hS (by omega) (by omega) (by omega)
    rw [he]
    dsimp only
    apply hfinish s0 ⟨_, _, hS0, ?_⟩ hwire.frame.max_write_n
      (by rw [hwire.frame.buf]; exact hbuflen) hwire.frame.opbuf (by rw [hu0]; omega) hn0
    · rw [hwire.tx, ← hdone]
      exact decode_append oc hl (decode_run_wire oc s hd1 (by rw [hbuflen]; exact h.nmax)
        (by omega) haddr.2)
    · rw [List.length_append, List.length_drop]
      simp only [List.length_singleton]; omega
  · rw [if_neg hp]
    have hn0 : s.sp_write_n_bytes = 0 := by
      by_contra hn; exact hp ⟨hmaxw, hn⟩
    rw [if_pos hn0] at husage hqc
    apply hfinish s ⟨q, c, hS, by omega⟩ rfl hbuflen rfl (by omega) hn0
    rw [← hdone, pending_stores_zero s hn0, List.append_nil]; exact hl

end Serprog

namespace Serprog

/-- With write-n disabled, what one streamed 5-byte operation does to the
invariant. -/
theorem plain_finish (oc : Opcodes) (fuel : Nat) {s : State} {done : List Call} {rem : Nat}
    (h : PlainInv oc s done (rem + 1)) (s1 : State) (e1 : s1.chan = s.chan)
    (e2 : s1.sp_device_serbuf_size = s.sp_device_serbuf_size)
    (e3 : s1.sp_cmdmap = s.sp_cmdmap)
    (e4 : s1.sp_streamed_transmit_ops = s.sp_streamed_transmit_ops)
    (e5 : s1.sp_streamed_transmit_bytes = s.sp_streamed_transmit_bytes)
    (e6 : s1.sp_streamed_ops_info = s.sp_streamed_ops_info)
    (e7 : s1.sp_streamed_ops_woff = s.sp_streamed_ops_woff)
    (e8 : s1.sp_streamed_ops_roff = s.sp_streamed_ops_roff)
    (e9 : s1.sp_max_write_n = s.sp_max_write_n)
    (e10 : s1.sp_device_opbuf_size = s.sp_device_opbuf_size)
    (e11 : s1.sp_opbuf_usage = s.sp_opbuf_usage)
    (cmd : Nat) (parms : List Nat) (opid : Nat) (c : Call)
    (hav : sp_check_commandavail cmd s1 = 1)
    (hdec : decode oc (cmd :: parms.take 4) = some [c]) :
    ∃ s', (match sp_check_opbuf_usage oc (fuel + 2) 5 s1 with
      | none => none
      | some (_, s2) =>
        match sp_stream_buffer_op cmd 4 parms opid s2 with
        | (_, s3) => some ({ s3 with sp_opbuf_usage := s3.sp_opbuf_usage + 5 } : State)) = some s' ∧
      PlainInv oc s' (done ++ [c]) rem := by
  obtain ⟨q, c0, hS, hqc⟩ := h.sess
  have husage := h.usage
  have hopbuf := h.opbuf
  have hopbufZ : (8 * (done.length + (rem + 1)) : Int) < s.sp_device_opbuf_size := by
    exact_mod_cast hopbuf
  have hS1 : Session oc s1 q c0 := Session_update hS _ e2 e3 e1 e6 e7 e8 e4 e5
  obtain ⟨j, s3, hj, he, hS3, hwire, hu3, -, -⟩ :=
    submit oc hS1 (by omega) cmd 4 parms opid hav (by norm_num) (by norm_num)
  refine ⟨{ s3 with sp_opbuf_usage := s3.sp_opbuf_usage + 5 }, ?_, ?_⟩
  · rw [sp_check_opbuf_usage_skip oc (fuel + 1) 5 _ (by rw [e11, e10]; omega)]
    dsimp only
    rw [he]
  · refine ⟨⟨_, _, Session_update hS3 _ rfl rfl rfl rfl rfl rfl rfl rfl, ?_⟩, ?_, ?_, ?_, ?_⟩
    · rw [List.length_append, List.length_drop]
      simp only [List.length_singleton]; omega
    · show s3.sp_max_write_n = 0
      rw [hwire.frame.max_write_n, e9]; exact h.maxw
    · show _ < s3.sp_device_opbuf_size
      rw [hwire.frame.opbuf, e10, List.length_append]
      simp only [List.length_singleton]; omega
    · show s3.sp_opbuf_usage + 5 ≤ _
      rw [hu3, e11, List.length_append]
      simp only [List.length_singleton]; push_cast; omega
    · show decode oc s3.chan.tx = _
      rw [hwire.tx, e1]
      exact decode_append oc h.wire hdec

/-- One `serprog_chip_writeb` call with write-n disabled. -/
theorem plain_writeb_step (oc : Opcodes) (fuel : Nat) {s : State} {done : List Call}
    {rem : Nat} (a v : Nat) (h : PlainInv oc s done (rem + 1)) (ha : a < 2 ^ 24) :
    ∃ s', serprog_chip_writeb oc (fuel + 2) v a s = some s' ∧
      PlainInv oc s' (done ++ [Call.writeb a v]) rem := by
  obtain ⟨q, c0, hS, -⟩ := h.sess
  unfold serprog_chip_writeb
  rw [if_neg (by rw [h.maxw]; exact fun hc => hc rfl)]
  exact plain_finish oc fuel h s rfl rfl rfl rfl rfl rfl rfl rfl rfl rfl rfl
    oc.S_CMD_O_WRITEB _ OPID_WRITEB (Call.writeb a v) hS.av_writeb (decode_writeb oc a v ha)

/-- One `serprog_delay` call with write-n disabled. -/
theorem plain_delay_step (oc : Opcodes) (fuel : Nat)
    (hd2 : oc.S_CMD_O_DELAY ≠ oc.S_CMD_O_WRITEB) (hd3 : oc.S_CMD_O_DELAY ≠ oc.S_CMD_O_WRITEN)
    {s : State} {done : List Call} {rem : Nat} (u : Nat)
    (h : PlainInv oc s done (rem + 1)) (hu : u < 2 ^ 32) :
    ∃ s', serprog_delay oc (fuel + 2) u s = some s' ∧
      PlainInv oc s' (done ++ [Call.delay u]) rem := by
  obtain ⟨q, c0, hS, -⟩ := h.sess
  unfold serprog_delay
  dsimp only
  rw [if_neg (by rw [h.maxw]; exact fun hc => hc.1 rfl)]
  dsimp only
  have hav : sp_check_commandavail oc.S_CMD_O_DELAY
      ({ s with sp_prev_was_write := false } : State) = 1 := hS.av_delay
  rw [if_neg (by rw [hav]; decide)]
  exact plain_finish oc fuel h { s with sp_prev_was_write := false }
    rfl rfl rfl rfl rfl rfl rfl rfl rfl rfl rfl
    oc.S_CMD_O_DELAY _ OPID_UDELAY (Call.delay u) hav (decode_delay oc u hu hd2 hd3)

/-- A whole call sequence under the coalescing invariant. -/
theorem run_calls_coal (oc : Opcodes) (fuel : Nat) (hd1 : oc.S_CMD_O_WRITEN ≠ oc.S_CMD_O_WRITEB)
    (hd2 : oc.S_CMD_O_DELAY ≠ oc.S_CMD_O_WRITEB) (hd3 : oc.S_CMD_O_DELAY ≠ oc.S_CMD_O_WRITEN)
    (calls : List Call) :
    ∀ (s : State) (done : List Call), CoalInv oc s done calls.length →
      s.sp_write_n_bytes < s.sp_max_write_n → (∀ c ∈ calls, c.Fits) →
      ∃ s', run_calls oc (fuel + 2) calls s = some s' ∧ CoalInv oc s' (done ++ calls) 0 := by
  induction calls with
  | nil =>
    intro s done h _ _
    exact ⟨s, rfl, by rw [List.append_nil]; exact h⟩
  | cons c cs ih =>
    intro s done h hlt hfits
    have hc : c.Fits := hfits c (List.mem_cons_self _ _)
    have hcs : ∀ x ∈ cs, x.Fits := fun x hx => hfits x (List.mem_cons_of_mem _ hx)
    cases c with
    | writeb a v =>
      obtain ⟨s1, he, h1, hlt1⟩ := writeb_step oc fuel hd1 a v h hlt hc
      obtain ⟨s2, he2, h2⟩ := ih s1 _ h1 hlt1 hcs
      refine ⟨s2, ?_, by rw [List.append_assoc] at h2; exact h2⟩
      show (match serprog_chip_writeb oc (fuel + 2) v a s with
        | none => none
        | some s1 => run_calls oc (fuel + 2) cs s1) = _
      rw [he]; exact he2
    | delay u =>
      obtain ⟨s1, he, h1, hlt1⟩ := delay_step oc fuel hd1 hd2 hd3 u h hc
      obtain ⟨s2, he2, h2⟩ := ih s1 _ h1 hlt1 hcs
      refine ⟨s2, ?_, by rw [List.append_assoc] at h2; exact h2⟩
      show (match serprog_delay oc (fuel + 2) u s with
        | none => none
        | some s1 => run_calls oc (fuel + 2) cs s1) = _
      rw [he]; exact he2

/-- A whole call sequence with write-n disabled. -/
theorem run_calls_plain (oc : Opcodes) (fuel : Nat)
    (hd2 : oc.S_CMD_O_DELAY ≠ oc.S_CMD_O_WRITEB) (hd3 : oc.S_CMD_O_DELAY ≠ oc.S_CMD_O_WRITEN)
    (calls : List Call) :
    ∀ (s : State) (done : List Call), PlainInv oc s done calls.length →
      (∀ c ∈ calls, c.Fits) →
      ∃ s', run_calls oc (fuel + 2) calls s = some s' ∧ PlainInv oc s' (done ++ calls) 0 := by
  induction calls with
  | nil =>
    intro s done h _
    exact ⟨s, rfl, by rw [List.append_nil]; exact h⟩
  | cons c cs ih =>
    intro s done h hfits
    have hc : c.Fits := hfits c (List.mem_cons_self _ _)
    have hcs : ∀ x ∈ cs, x.Fits := fun x hx => hfits x (List.mem_cons_of_mem _ hx)
    cases c with
    | writeb a v =>
      obtain ⟨s1, he, h1⟩ := plain_writeb_step oc fuel a v h hc
      obtain ⟨s2, he2, h2⟩ := ih s1 _ h1 hcs
      refine ⟨s2, ?_, by rw [List.append_assoc] at h2; exact h2⟩
      show (match serprog_chip_writeb oc (fuel + 2) v a s with
        | none => none
        | some s1 => run_calls oc (fuel + 2) cs s1) = _
      rw [he]; exact he2
    | delay u =>
      obtain ⟨s1, he, h1⟩ := plain_delay_step oc fuel hd2 hd3 u h hc
      obtain ⟨s2, he2, h2⟩ := ih s1 _ h1 hcs
      refine ⟨s2, ?_, by rw [List.append_assoc] at h2; exact h2⟩
      show (match serprog_delay oc (fuel + 2) u s with
        | none => none
        | some s1 => run_calls oc (fuel + 2) cs s1) = _
      rw [he]; exact he2

end Serprog

namespace Serprog

/-- A fresh session supports every command of the chip operations. -/
theorem Session_init (serbuf opbuf maxw c : Nat) (rest : List (Option Nat))
    (h : 2 ≤ serbuf) :
    Session serprog_h (init_state serbuf opbuf maxw (List.replicate c (some S_ACK) ++ rest))
      [] c :=
  ⟨StreamOK_init serbuf opbuf maxw _ (by omega), ⟨rest, rfl⟩, h, rfl,
    (Avail_init _ (by decide) _ _ _ _).resolve_left (by simp [init_state]),
    (Avail_init _ (by decide) _ _ _ _).resolve_left (by simp [init_state]),
    (Avail_init _ (by decide) _ _ _ _).resolve_left (by simp [init_state]),
    (Avail_init _ (by decide) _ _ _ _).resolve_left (by simp [init_state]),
    (Avail_init _ (by decide) _ _ _ _).resolve_left (by simp [init_state]),
    (Avail_init _ (by decide) _ _ _ _).resolve_left (by simp [init_state])⟩

/-- C1 (write coalescing preserves the store sequence): for every finite list
`calls` of `serprog_chip_writeb` / `serprog_delay` calls made from a fresh
state (empty stream, nothing sent, `sp_opbuf_usage = 0`, `sp_write_n_bytes = 0`,
`sp_prev_was_write = false`) with `sp_max_write_n > 0` and an allocated write-n
buffer, every command available, writes that succeed and an acknowledgement
for every streamed operation, addresses below `2 ^ 24`, delays of 32 bits and
an opbuf with room for eight bytes per call (so that no early execute
triggers), the calls all return, the bytes written to the channel decode to a
list `l` with `l ++ pending_stores s' = calls`, and the same calls with
`sp_max_write_n = 0` return and put exactly `calls` on the wire. -/
theorem C1_coalescing_preserves_stores (oc : Opcodes) (fuel : Nat) (calls : List Call)
    (s : State) (hd1 : oc.S_CMD_O_WRITEN ≠ oc.S_CMD_O_WRITEB)
    (hd2 : oc.S_CMD_O_DELAY ≠ oc.S_CMD_O_WRITEB) (hd3 : oc.S_CMD_O_DELAY ≠ oc.S_CMD_O_WRITEN)
    (hS : Session oc s [] calls.length) (htx : s.chan.tx = [])
    (husage : s.sp_opbuf_usage = 0) (hn : s.sp_write_n_bytes = 0)
    (hprev : s.sp_prev_was_write = false) (hmax : 0 < s.sp_max_write_n)
    (hbuf : s.sp_write_n_buf.length = s.sp_max_write_n)
    (hopbuf : 8 * calls.length < s.sp_device_opbuf_size)
    (hopbuf16 : s.sp_device_opbuf_size < 2 ^ 16)
    (hfits : ∀ c ∈ calls, c.Fits) :
    ∃ s' s'' l, run_calls oc (fuel + 2) calls s = some s' ∧
      decode oc s'.chan.tx = some l ∧ l ++ pending_stores s' = calls ∧
      run_calls oc (fuel + 2) calls { s with sp_max_write_n := 0 } = some s'' ∧
      decode oc s''.chan.tx = some calls := by
  have hc : CoalInv oc s [] calls.length := by
    refine ⟨⟨[], calls.length, hS, by rw [hn]; simp⟩, by omega, hbuf, by simpa using hopbuf,
      hopbuf16, (by rw [hn, husage]; simp), (by omega), (by omega), fun h => absurd hn h,
      (fun h => by rw [hprev] at h; cases h), [], ?_, ?_⟩
    · rw [htx]; exact decode_nil oc
    · rw [pending_stores_zero s hn]; rfl
  have hp : PlainInv oc ({ s with sp_max_write_n := 0 } : State) [] calls.length := by
    refine ⟨⟨[], calls.length, Session_update hS _ rfl rfl rfl rfl rfl rfl rfl rfl, by simp⟩,
      rfl, by simpa using hopbuf, ?_, ?_⟩
    · show s.sp_opbuf_usage ≤ _
      rw [husage]; simp
    · show decode oc s.chan.tx = _
      rw [htx]; exact decode_nil oc
  obtain ⟨s', he, h'⟩ := run_calls_coal oc fuel hd1 hd2 hd3 calls s [] hc (by omega) hfits
  obtain ⟨s'', he2, h''⟩ := run_calls_plain oc fuel hd2 hd3 calls _ [] hp hfits
  obtain ⟨l, hl, hdone⟩ := h'.wire
  exact ⟨s', s'', l, he, hl, by simpa using hdone, he2, by simpa using h''.wire⟩

/-- Two contiguous stores, a delay and a store elsewhere: with write-n the wire
carries the run of two, the delay, and the last store is still pending; without
write-n the wire carries the four calls. -/
theorem C1_coalescing_preserves_stores_witness :
    ∃ s' s'' l,
      run_calls serprog_h 2
        [Call.writeb 0x100 1, Call.writeb 0x101 2, Call.delay 10, Call.writeb 0x200 3]
        (init_state 16 1024 256 (List.replicate 4 (some S_ACK) ++ [])) = some s' ∧
      decode serprog_h s'.chan.tx = some l ∧
      l ++ pending_stores s' =
        [Call.writeb 0x100 1, Call.writeb 0x101 2, Call.delay 10, Call.writeb 0x200 3] ∧
      run_calls serprog_h 2
        [Call.writeb 0x100 1, Call.writeb 0x101 2, Call.delay 10, Call.writeb 0x200 3]
        { init_state 16 1024 256 (List.replicate 4 (some S_ACK) ++ []) with
          sp_max_write_n := 0 } = some s'' ∧
      decode serprog_h s''.chan.tx =
        some [Call.writeb 0x100 1, Call.writeb 0x101 2, Call.delay 10, Call.writeb 0x200 3] :=
  C1_coalescing_preserves_stores serprog_h 0
    [Call.writeb 0x100 1, Call.writeb 0x101 2, Call.delay 10, Call.writeb 0x200 3]
    (init_state 16 1024 256 (List.replicate 4 (some S_ACK) ++ []))
    (by decide) (by decide) (by decide) (Session_init 16 1024 256 4 [] (by decide))
    rfl rfl rfl rfl (by decide) (List.length_replicate _ _) (by decide) (by decide)
    (by
      intro c hc
      simp only [List.mem_cons, List.mem_singleton, List.not_mem_nil, or_false] at hc
      rcases hc with rfl | rfl | rfl | rfl <;> simp [Call.Fits])

end Serprog

namespace Serprog

theorem Keeps_refl (s : State) : Keeps s s := ⟨rfl, rfl, rfl, rfl, rfl, [], by simp⟩

theorem Keeps_trans {a b c : State} (h1 : Keeps a b) (h2 : Keeps b c) : Keeps a c := by
  obtain ⟨e1, he1⟩ := h1.log
  obtain ⟨e2, he2⟩ := h2.log
  exact ⟨h2.opbuf.trans h1.opbuf, h2.maxw.trans h1.maxw, h2.maxr.trans h1.maxr,
    h2.usage.trans h1.usage,
    h2.n.trans h1.n, e1 ++ e2, by rw [he2, he1, List.append_assoc]⟩

theorem Grows_refl (s : State) : Grows s s := ⟨rfl, rfl, rfl, [], by simp⟩

theorem Grows_trans {a b c : State} (h1 : Grows a b) (h2 : Grows b c) : Grows a c := by
  obtain ⟨e1, he1⟩ := h1.log
  obtain ⟨e2, he2⟩ := h2.log
  exact ⟨h2.opbuf.trans h1.opbuf, h2.maxw.trans h1.maxw, h2.maxr.trans h1.maxr, e1 ++ e2,
    by rw [he2, he1, List.append_assoc]⟩

theorem Grows_of_Keeps {a b : State} (h : Keeps a b) : Grows a b :=
  ⟨h.opbuf, h.maxw, h.maxr, h.log⟩

theorem NoExecFailure_of_Grows {a b : State} (h : Grows a b) (hb : NoExecFailure b) :
    NoExecFailure a := by
  obtain ⟨e, he⟩ := h.log
  intro x hx
  exact hb x (by rw [he]; exact List.mem_append_left _ hx)

theorem Keeps_msg (s : State) (e : Event) : Keeps s (s.msg e) := ⟨rfl, rfl, rfl, rfl, rfl, [e], rfl⟩

theorem NoExecFailure_msg {s : State} {e : Event} (h : NoExecFailure (s.msg e)) :
    e.exec_failed = false :=
  h e (by show e ∈ s.log ++ [e]; simp)

theorem serialport_write_keeps (buf : List Nat) (s : State) :
    Keeps s (serialport_write buf s).2 := by
  unfold serialport_write
  split <;> exact ⟨rfl, rfl, rfl, rfl, rfl, [], by simp⟩

theorem serialport_read1_keeps (s : State) : Keeps s (serialport_read1 s).2.2 := by
  unfold serialport_read1
  split <;> exact ⟨rfl, rfl, rfl, rfl, rfl, [], by simp⟩

theorem serialport_read_keeps (len : Nat) : ∀ s : State, Keeps s (serialport_read len s).2.2 := by
  induction len with
  | zero => intro s; exact Keeps_refl s
  | succ len ih =>
    intro s
    have h1 := serialport_read1_keeps s
    unfold serialport_read
    generalize serialport_read1 s = r at h1
    rcases r with ⟨ret, c, s1⟩
    rcases ret with _ | ret
    · rcases c with _ | b
      · exact h1
      · exact Keeps_trans h1 (ih s1)
    · exact h1

theorem sp_automatic_cmdcheck_keeps (cmd : Nat) (s : State) :
    Keeps s (sp_automatic_cmdcheck cmd s).2 := by
  unfold sp_automatic_cmdcheck
  split
  · exact Keeps_msg s _
  · exact Keeps_refl s

theorem sp_streamop_put_keeps (id len : Nat) (s : State) :
    Keeps s (sp_streamop_put id len s) := by
  unfold sp_streamop_put
  split
  · exact Keeps_msg s _
  · exact ⟨rfl, rfl, rfl, rfl, rfl, [], by simp⟩

theorem sp_streamop_get_keeps (s : State) : Keeps s (sp_streamop_get s).2 := by
  unfold sp_streamop_get
  split
  · exact Keeps_msg s _
  · split
    · exact Keeps_msg s _
    · exact ⟨rfl, rfl, rfl, rfl, rfl, [], by simp⟩

theorem sp_check_stream_free_loop_keeps (target : Int) (rx : List (Option Nat)) :
    ∀ s : State, Keeps s (sp_check_stream_free_loop target rx s).2 := by
  induction rx with
  | nil => intro s; exact Keeps_msg s _
  | cons c r ih =>
    intro s
    rcases c with _ | c
    · exact Keeps_trans (⟨rfl, rfl, rfl, rfl, rfl, [], by simp⟩ :
        Keeps s { s with chan := { s.chan with rx := r } }) (Keeps_msg _ _)
    · have h0 : Keeps s { s with chan := { s.chan with rx := r } } :=
        ⟨rfl, rfl, rfl, rfl, rfl, [], by simp⟩
      have h1 := Keeps_trans h0 (sp_streamop_get_keeps { s with chan := { s.chan with rx := r } })
      have e : sp_check_stream_free_loop target (some c :: r) s =
          (match sp_streamop_get { s with chan := { s.chan with rx := r } } with
          | (op, s2) =>
            if c = S_NAK then (1, s2.msg (Event.stream_nak (STREAMOP_TYPE op)))
            else if c ≠ S_ACK then
              (1, s2.msg (Event.stream_invalid_reply c (STREAMOP_TYPE op)))
            else if s2.sp_streamed_transmit_bytes ≤ target then (0, s2)
            else if s2.sp_streamed_transmit_ops ≠ 0 then
              sp_check_stream_free_loop target r s2
            else (0, s2)) := rfl
      rw [e]
      generalize sp_streamop_get { s with chan := { s.chan with rx := r } } = g at h1
      rcases g with ⟨op, s2⟩
      dsimp only at h1 ⊢
      split
      · exact Keeps_trans h1 (Keeps_msg _ _)
      · split
        · exact Keeps_trans h1 (Keeps_msg _ _)
        · split
          · exact h1
          · split
            · exact Keeps_trans h1 (ih s2)
            · exact h1

theorem Keeps_bytes (s : State) (b : Int) :
    Keeps s { s with sp_streamed_transmit_bytes := b } := ⟨rfl, rfl, rfl, rfl, rfl, [], by simp⟩

theorem sp_check_stream_free_keeps (len : Int) (s : State) :
    Keeps s (sp_check_stream_free len s).2 := by
  unfold sp_check_stream_free
  dsimp only
  generalize (if (s.sp_device_serbuf_size : Int) - len < 0 then 0
        else (s.sp_device_serbuf_size : Int) - len) = tg
  have h1 : Keeps s (if tg < s.sp_streamed_transmit_bytes ∧
        s.sp_streamed_transmit_ops ≠ 0 then
      sp_check_stream_free_loop tg s.chan.rx s
      else (0, s)).2 := by
    by_cases hc : tg < s.sp_streamed_transmit_bytes ∧ s.sp_streamed_transmit_ops ≠ 0
    · rw [if_pos hc]; exact sp_check_stream_free_loop_keeps _ _ s
    · rw [if_neg hc]; exact Keeps_refl s
  generalize (if tg < s.sp_streamed_transmit_bytes ∧
        s.sp_streamed_transmit_ops ≠ 0 then
      sp_check_stream_free_loop tg s.chan.rx s
      else (0, s)) = r at h1
  rcases r with ⟨ret, s1⟩
  rcases ret with _ | ret
  · dsimp only at h1 ⊢
    by_cases h0 : s1.sp_streamed_transmit_ops = 0
    · rw [if_pos h0]
      by_cases hb : s1.sp_streamed_transmit_bytes ≠ 0
      · rw [if_pos hb]
        exact Keeps_trans (Keeps_trans h1 (Keeps_msg _ _)) (Keeps_bytes _ _)
      · rw [if_neg hb]
        exact Keeps_trans h1 (Keeps_bytes _ _)
    · rw [if_neg h0]; exact h1
  · exact h1

theorem sp_flush_stream_keeps (s : State) : Keeps s (sp_flush_stream s).2 :=
  sp_check_stream_free_keeps _ s

theorem sp_stream_buffer_op_keeps (cmd parmlen : Nat) (parms : List Nat) (opid : Nat)
    (s : State) : Keeps s (sp_stream_buffer_op cmd parmlen parms opid s).2 := by
  unfold sp_stream_buffer_op
  have h0 := sp_automatic_cmdcheck_keeps cmd s
  generalize sp_automatic_cmdcheck cmd s = r0 at h0
  rcases r0 with ⟨ret0, s0⟩
  rcases ret0 with _ | ret0
  · dsimp only at h0 ⊢
    have h1 := Keeps_trans h0 (sp_check_stream_free_keeps ((1 + parmlen : Nat) : Int) s0)
    generalize sp_check_stream_free ((1 + parmlen : Nat) : Int) s0 = r1 at h1
    rcases r1 with ⟨ret1, s1⟩
    rcases ret1 with _ | ret1
    · dsimp only at h1 ⊢
      have h2 := Keeps_trans h1 (serialport_write_keeps (cmd :: parms.take parmlen) s1)
      generalize serialport_write (cmd :: parms.take parmlen) s1 = r2 at h2
      rcases r2 with ⟨ret2, s2⟩
      rcases ret2 with _ | ret2
      · exact Keeps_trans h2 (sp_streamop_put_keeps _ _ _)
      · exact Keeps_trans h2 (Keeps_msg _ _)
    · exact h1
  · exact h0

end Serprog

namespace Serprog

theorem OpbufOK_of_Keeps {lo : Nat} {a b : State} (h : Keeps a b) (ha : OpbufOK lo a) :
    OpbufOK lo b := by
  unfold OpbufOK at *
  rw [h.opbuf, h.usage]; exact ha

theorem NoExecFailure_of_log {a b : State} (h : ∃ evs, b.log = a.log ++ evs)
    (hb : NoExecFailure b) : NoExecFailure a := by
  obtain ⟨e, he⟩ := h
  intro x hx
  exact hb x (by rw [he]; exact List.mem_append_left _ hx)

/-- What `sp_execute_opbuf_noflush` does after the pending run is out of the
way: it returns success with the usage reset, or it reports the failure. -/
theorem exec_tail (oc : Opcodes) (s s1 : State) (g : Grows s s1)
    (hn : s.sp_max_write_n ≠ 0 → s1.sp_write_n_bytes = 0) (r : Nat) (s' : State)
    (h : (match sp_stream_buffer_op oc.S_CMD_O_EXEC 0 [] OPID_EXEC_OPBUF s1 with
      | (0, s2) => some (0, ({ s2 with sp_opbuf_usage := 0, sp_prev_was_write := false } : State))
      | (_, s2) => some (1, s2.msg Event.could_not_execute_command_buffer)) = some (r, s'))
    (hclean : NoExecFailure s') :
    r = 0 ∧ s'.sp_opbuf_usage = 0 ∧ (s.sp_max_write_n ≠ 0 → s'.sp_write_n_bytes = 0) ∧
      Grows s s' := by
  have k2 := sp_stream_buffer_op_keeps oc.S_CMD_O_EXEC 0 [] OPID_EXEC_OPBUF s1
  generalize sp_stream_buffer_op oc.S_CMD_O_EXEC 0 [] OPID_EXEC_OPBUF s1 = r2 at h k2
  rcases r2 with ⟨ret2, s2⟩
  rcases ret2 with _ | ret2
  · simp only [Option.some.injEq, Prod.mk.injEq] at h
    obtain ⟨rfl, rfl⟩ := h
    refine ⟨rfl, rfl, fun hm => ?_, ?_⟩
    · show s2.sp_write_n_bytes = 0
      rw [k2.n]; exact hn hm
    · exact Grows_trans g (Grows_trans (Grows_of_Keeps k2) ⟨rfl, rfl, rfl, [], by simp⟩)
  · simp only [Option.some.injEq, Prod.mk.injEq] at h
    obtain ⟨rfl, rfl⟩ := h
    have := NoExecFailure_msg hclean
    cases this

/-- What the three mutually recursive functions of the opbuf manager guarantee
when they return and no execute has been reported failed. -/
theorem opbuf_core (oc : Opcodes) (fuel : Nat) :
    (∀ s r s', s.sp_max_write_n ≠ 0 → OpbufOK 8 s → sp_pass_writen oc fuel s = some (r, s') →
      NoExecFailure s' →
        OpbufOK 8 s' ∧ Grows s s' ∧ (r = 0 → s'.sp_write_n_bytes = 0)) ∧
    (∀ s r s', OpbufOK 8 s → sp_execute_opbuf_noflush oc fuel s = some (r, s') →
      NoExecFailure s' →
        r = 0 ∧ s'.sp_opbuf_usage = 0 ∧ (s.sp_max_write_n ≠ 0 → s'.sp_write_n_bytes = 0) ∧
          Grows s s') ∧
    (∀ s bytes r s', OpbufOK 8 s → sp_check_opbuf_usage oc fuel bytes s = some (r, s') →
      NoExecFailure s' →
        r = 0 ∧ Grows s s' ∧
          ((s'.sp_opbuf_usage = s.sp_opbuf_usage ∧ s'.sp_write_n_bytes = s.sp_write_n_bytes ∧
              s.sp_opbuf_usage + bytes < (s.sp_device_opbuf_size : Int)) ∨
           (s'.sp_opbuf_usage = 0 ∧ (s.sp_max_write_n ≠ 0 → s'.sp_write_n_bytes = 0)))) := by
  induction fuel with
  | zero =>
    refine ⟨?_, ?_, ?_⟩
    · intro s r s' _ _ h; rw [sp_pass_writen] at h; cases h
    · intro s r s' _ h; rw [sp_execute_opbuf_noflush] at h; cases h
    · intro s bytes r s' _ h; rw [sp_check_opbuf_usage] at h; cases h
  | succ fuel ih =>
    obtain ⟨ihA, ihB, ihC⟩ := ih
    refine ⟨?_, ?_, ?_⟩
    · intro s r s' hmax hok h hclean
      rw [sp_pass_writen] at h
      have k1 := sp_check_stream_free_keeps ((7 + s.sp_write_n_bytes : Nat) : Int) s
      generalize sp_check_stream_free ((7 + s.sp_write_n_bytes : Nat) : Int) s = r1 at h k1
      rcases r1 with ⟨ret1, s1⟩
      have hok1 : OpbufOK 8 s1 := OpbufOK_of_Keeps k1 hok
      have hmax1 : s1.sp_max_write_n ≠ 0 := by rw [k1.maxw]; exact hmax
      rcases ret1 with _ | ret1
      · dsimp only at h k1
        by_cases hn1 : s1.sp_write_n_bytes = 1
        · rw [if_pos hn1] at h
          cases hc : sp_check_opbuf_usage oc fuel 5 s1 with
          | none => rw [hc] at h; cases h
          | some p =>
            obtain ⟨rc, s2⟩ := p
            rw [hc] at h
            dsimp only at h
            generalize hg : sp_stream_buffer_op oc.S_CMD_O_WRITEB 4 _ OPID_WRITEB _ = r4 at h
            have k4 : Keeps ({ s2 with sp_write_n_bytes := 0 } : State) r4.2 := by
              rw [← hg]; exact sp_stream_buffer_op_keeps _ _ _ _ _
            have o4 : r4.2.sp_device_opbuf_size = s2.sp_device_opbuf_size := k4.opbuf
            have m4 : r4.2.sp_max_write_n = s2.sp_max_write_n := k4.maxw
            have u4 : r4.2.sp_opbuf_usage = s2.sp_opbuf_usage := k4.usage
            have n4 : r4.2.sp_write_n_bytes = 0 := k4.n
            have l4 : ∃ evs, r4.2.log = s2.log ++ evs := k4.log
            have g24 : Grows s2 r4.2 := ⟨o4, m4, k4.maxr, l4⟩
            clear hg k4
            rcases r4 with ⟨ret4, s4⟩
            dsimp only at o4 m4 u4 n4 l4 g24
            rcases ret4 with _ | ret4
            · simp only [Option.some.injEq, Prod.mk.injEq] at h
              obtain ⟨rfl, rfl⟩ := h
              have hc4 : NoExecFailure s4 := hclean
              obtain ⟨-, g12, hcase⟩ := ihC s1 5 rc s2 hok1 hc (NoExecFailure_of_Grows g24 hc4)
              refine ⟨?_, Grows_trans (Grows_of_Keeps k1) (Grows_trans g12
                (Grows_trans g24 ⟨rfl, rfl, rfl, [], by simp⟩)), fun _ => n4⟩
              unfold OpbufOK at hok1 ⊢
              show 8 ≤ s4.sp_device_opbuf_size ∧
                s4.sp_opbuf_usage + 5 < (s4.sp_device_opbuf_size : Int)
              rw [o4, u4, g12.opbuf]
              rcases hcase with ⟨hu, -, hlt⟩ | ⟨hu, -⟩
              · rw [hu]; exact ⟨hok1.1, hlt⟩
              · rw [hu]; exact ⟨hok1.1, by have := hok1.1; omega⟩
            · simp only [Option.some.injEq, Prod.mk.injEq] at h
              obtain ⟨rfl, rfl⟩ := h
              obtain ⟨-, g12, hcase⟩ := ihC s1 5 rc s2 hok1 hc (NoExecFailure_of_Grows g24 hclean)
              refine ⟨?_, Grows_trans (Grows_of_Keeps k1) (Grows_trans g12 g24),
                fun hz => by cases hz⟩
              unfold OpbufOK at hok1 ⊢
              rw [o4, u4, g12.opbuf]
              rcases hcase with ⟨hu, -, hlt⟩ | ⟨hu, -⟩
              · rw [hu]; exact hok1
              · rw [hu]; exact ⟨hok1.1, by have := hok1.1; omega⟩
        · rw [if_neg hn1] at h
          cases hc : sp_check_opbuf_usage oc fuel ((7 + s1.sp_write_n_bytes : Nat) : Int) s1 with
          | none => rw [hc] at h; cases h
          | some p =>
            obtain ⟨rc, s2⟩ := p
            rw [hc] at h
            dsimp only at h
            generalize hg3 : serialport_write _ s2 = r3 at h
            have k3 : Keeps s2 r3.2 := by rw [← hg3]; exact serialport_write_keeps _ _
            clear hg3
            rcases r3 with ⟨ret3, s3⟩
            dsimp only at k3
            have hfin : NoExecFailure s2 →
                8 ≤ s2.sp_device_opbuf_size ∧
                (s2.sp_opbuf_usage + ((7 + s2.sp_write_n_bytes : Nat) : Int)
                    < (s2.sp_device_opbuf_size : Int)) ∧
                s2.sp_opbuf_usage < (s2.sp_device_opbuf_size : Int) ∧ Grows s s2 := by
              intro hc2
              obtain ⟨-, g12, hcase⟩ := ihC s1 _ rc s2 hok1 hc hc2
              unfold OpbufOK at hok1
              rw [g12.opbuf]
              refine ⟨hok1.1, ?_, ?_, Grows_trans (Grows_of_Keeps k1) g12⟩
              · rcases hcase with ⟨hu, hn, hlt⟩ | ⟨hu, hn⟩
                · rw [hu, hn]; exact hlt
                · rw [hu, hn hmax1]; have := hok1.1; push_cast; omega
              · rcases hcase with ⟨hu, -, hlt⟩ | ⟨hu, -⟩
                · rw [hu]; exact hok1.2
                · rw [hu]; have := hok1.1; omega
            rcases ret3 with _ | ret3
            · dsimp only at h
              generalize hg4 : serialport_write _ s3 = r4 at h
              have k4 : Keeps s3 r4.2 := by rw [← hg4]; exact serialport_write_keeps _ _
              clear hg4
              rcases r4 with ⟨ret4, s4⟩
              dsimp only at k4
              rcases ret4 with _ | ret4
              · dsimp only at h
                have k5 := sp_streamop_put_keeps OPID_WRITEN (7 + s4.sp_write_n_bytes) s4
                generalize sp_streamop_put OPID_WRITEN (7 + s4.sp_write_n_bytes) s4 = s5 at h k5
                simp only [Option.some.injEq, Prod.mk.injEq] at h
                obtain ⟨rfl, rfl⟩ := h
                have k25 := Keeps_trans k3 (Keeps_trans k4 k5)
                have hc5 : NoExecFailure s5 := hclean
                obtain ⟨h8, hlt, -, g2⟩ := hfin (NoExecFailure_of_Grows (Grows_of_Keeps k25) hc5)
                refine ⟨?_, Grows_trans g2 (Grows_trans (Grows_of_Keeps k25)
                  ⟨rfl, rfl, rfl, [], by simp⟩), fun _ => rfl⟩
                unfold OpbufOK
                show 8 ≤ s5.sp_device_opbuf_size ∧
                  s5.sp_opbuf_usage + ((7 + s5.sp_write_n_bytes : Nat) : Int)
                    < (s5.sp_device_opbuf_size : Int)
                rw [k25.opbuf, k25.usage, k25.n]
                exact ⟨h8, hlt⟩
              · simp only [Option.some.injEq, Prod.mk.injEq] at h
                obtain ⟨rfl, rfl⟩ := h
                have k2' := Keeps_trans k3 (Keeps_trans k4 (Keeps_msg s4 Event.cannot_write_writen_data))
                obtain ⟨h8, -, hlt, g2⟩ := hfin (NoExecFailure_of_Grows (Grows_of_Keeps k2') hclean)
                refine ⟨?_, Grows_trans g2 (Grows_of_Keeps k2'), fun hz => by cases hz⟩
                unfold OpbufOK
                rw [k2'.opbuf, k2'.usage]
                exact ⟨h8, hlt⟩
            · simp only [Option.some.injEq, Prod.mk.injEq] at h
              obtain ⟨rfl, rfl⟩ := h
              have k2' := Keeps_trans k3 (Keeps_msg s3 Event.cannot_write_writen_command)
              obtain ⟨h8, -, hlt, g2⟩ := hfin (NoExecFailure_of_Grows (Grows_of_Keeps k2') hclean)
              refine ⟨?_, Grows_trans g2 (Grows_of_Keeps k2'), fun hz => by cases hz⟩
              unfold OpbufOK
              rw [k2'.opbuf, k2'.usage]
              exact ⟨h8, hlt⟩
      · simp only [Option.some.injEq, Prod.mk.injEq] at h
        obtain ⟨rfl, rfl⟩ := h
        exact ⟨hok1, Grows_of_Keeps k1, fun hz => by cases hz⟩
    · intro s r s' hok h hclean
      rw [sp_execute_opbuf_noflush] at h
      by_cases hp : s.sp_max_write_n ≠ 0 ∧ s.sp_write_n_bytes ≠ 0
      · rw [if_pos hp] at h
        cases hpw : sp_pass_writen oc fuel s with
        | none => rw [hpw] at h; cases h
        | some p =>
          obtain ⟨r1, s1⟩ := p
          rw [hpw] at h
          rcases r1 with _ | r1
          · dsimp only at h
            have k2 := sp_stream_buffer_op_keeps oc.S_CMD_O_EXEC 0 [] OPID_EXEC_OPBUF s1
            have hc1 : NoExecFailure s1 := by
              generalize sp_stream_buffer_op oc.S_CMD_O_EXEC 0 [] OPID_EXEC_OPBUF s1 = r2 at h k2
              rcases r2 with ⟨ret2, s2⟩
              rcases ret2 with _ | ret2
              · simp only [Option.some.injEq, Prod.mk.injEq] at h
                obtain ⟨rfl, rfl⟩ := h
                have hc2 : NoExecFailure s2 := hclean
                exact NoExecFailure_of_Grows (Grows_of_Keeps k2) hc2
              · simp only [Option.some.injEq, Prod.mk.injEq] at h
                obtain ⟨rfl, rfl⟩ := h
                exact NoExecFailure_of_Grows (Grows_of_Keeps (Keeps_trans k2 (Keeps_msg _ _)))
                  hclean
            obtain ⟨-, g1, hn1⟩ := ihA s 0 s1 hp.1 hok hpw hc1
            exact exec_tail oc s s1 g1 (fun _ => hn1 rfl) r s' h hclean
          · simp only [Option.some.injEq, Prod.mk.injEq] at h
            obtain ⟨rfl, rfl⟩ := h
            have := NoExecFailure_msg hclean
            cases this
      · rw [if_neg hp] at h
        exact exec_tail oc s s (Grows_refl s)
          (fun hm => by by_contra hn; exact hp ⟨hm, hn⟩) r s' h hclean
    · intro s bytes r s' hok h hclean
      rw [sp_check_opbuf_usage] at h
      by_cases hb : (s.sp_device_opbuf_size : Int) ≤ s.sp_opbuf_usage + bytes
      · rw [if_pos hb] at h
        cases he : sp_execute_opbuf_noflush oc fuel (s.msg Event.early_execute_warning) with
        | none => rw [he] at h; cases h
        | some p =>
          obtain ⟨r1, s1⟩ := p
          rw [he] at h
          have hs1 : s' = s1 := by
            rcases r1 with _ | r1 <;>
            · simp only [Option.some.injEq, Prod.mk.injEq] at h
              exact h.2.symm
          subst hs1
          obtain ⟨hr, hu, hn, g⟩ := ihB _ r1 s' (OpbufOK_of_Keeps (Keeps_msg s _) hok) he hclean
          subst hr
          simp only [Option.some.injEq, Prod.mk.injEq] at h
          exact ⟨h.1.symm, Grows_trans (Grows_of_Keeps (Keeps_msg s _)) g, Or.inr ⟨hu, hn⟩⟩
      · rw [if_neg hb] at h
        simp only [Option.some.injEq, Prod.mk.injEq] at h
        obtain ⟨rfl, rfl⟩ := h
        exact ⟨rfl, Grows_refl _, Or.inl ⟨rfl, rfl, by omega⟩⟩

end Serprog

namespace Serprog

theorem Grows_set_usage (s : State) (u : Int) (n : Nat) (p : Bool) :
    Grows s { s with sp_opbuf_usage := u, sp_write_n_bytes := n, sp_prev_was_write := p } :=
  ⟨rfl, rfl, rfl, [], by simp⟩

/-- The three mutually recursive functions of the opbuf manager only append to
the log and leave the opbuf size and the write-n limit alone. -/
theorem grows_core (oc : Opcodes) (fuel : Nat) :
    (∀ s r s', sp_pass_writen oc fuel s = some (r, s') → Grows s s') ∧
    (∀ s r s', sp_execute_opbuf_noflush oc fuel s = some (r, s') → Grows s s') ∧
    (∀ s bytes r s', sp_check_opbuf_usage oc fuel bytes s = some (r, s') → Grows s s') := by
  induction fuel with
  | zero =>
    refine ⟨?_, ?_, ?_⟩
    · intro s r s' h; rw [sp_pass_writen] at h; cases h
    · intro s r s' h; rw [sp_execute_opbuf_noflush] at h; cases h
    · intro s bytes r s' h; rw [sp_check_opbuf_usage] at h; cases h
  | succ fuel ih =>
    obtain ⟨ihA, ihB, ihC⟩ := ih
    refine ⟨?_, ?_, ?_⟩
    · intro s r s' h
      rw [sp_pass_writen] at h
      have k1 := sp_check_stream_free_keeps ((7 + s.sp_write_n_bytes : Nat) : Int) s
      generalize sp_check_stream_free ((7 + s.sp_write_n_bytes : Nat) : Int) s = r1 at h k1
      rcases r1 with ⟨ret1, s1⟩
      rcases ret1 with _ | ret1
      · dsimp only at h k1
        by_cases hn1 : s1.sp_write_n_bytes = 1
        · rw [if_pos hn1] at h
          cases hc : sp_check_opbuf_usage oc fuel 5 s1 with
          | none => rw [hc] at h; cases h
          | some p =>
            obtain ⟨rc, s2⟩ := p
            rw [hc] at h
            dsimp only at h
            have g12 := ihC s1 5 rc s2 hc
            generalize hg : sp_stream_buffer_op oc.S_CMD_O_WRITEB 4 _ OPID_WRITEB _ = r4 at h
            have k4 : Keeps ({ s2 with sp_write_n_bytes := 0 } : State) r4.2 := by
              rw [← hg]; exact sp_stream_buffer_op_keeps _ _ _ _ _
            have g24 : Grows s2 r4.2 := ⟨k4.opbuf, k4.maxw, k4.maxr, k4.log⟩
            clear hg k4
            rcases r4 with ⟨ret4, s4⟩
            dsimp only at g24
            rcases ret4 with _ | ret4
            · simp only [Option.some.injEq, Prod.mk.injEq] at h
              obtain ⟨rfl, rfl⟩ := h
              exact Grows_trans (Grows_of_Keeps k1) (Grows_trans g12
                (Grows_trans g24 ⟨rfl, rfl, rfl, [], by simp⟩))
            · simp only [Option.some.injEq, Prod.mk.injEq] at h
              obtain ⟨rfl, rfl⟩ := h
              exact Grows_trans (Grows_of_Keeps k1) (Grows_trans g12 g24)
        · rw [if_neg hn1] at h
          cases hc : sp_check_opbuf_usage oc fuel ((7 + s1.sp_write_n_bytes : Nat) : Int) s1 with
          | none => rw [hc] at h; cases h
          | some p =>
            obtain ⟨rc, s2⟩ := p
            rw [hc] at h
            dsimp only at h
            have g2 := Grows_trans (Grows_of_Keeps k1) (ihC s1 _ rc s2 hc)
            generalize hg3 : serialport_write _ s2 = r3 at h
            have k3 : Keeps s2 r3.2 := by rw [← hg3]; exact serialport_write_keeps _ _
            clear hg3
            rcases r3 with ⟨ret3, s3⟩
            dsimp only at k3
            rcases ret3 with _ | ret3
            · dsimp only at h
              generalize hg4 : serialport_write _ s3 = r4 at h
              have k4 : Keeps s3 r4.2 := by rw [← hg4]; exact serialport_write_keeps _ _
              clear hg4
              rcases r4 with ⟨ret4, s4⟩
              dsimp only at k4
              rcases ret4 with _ | ret4
              · dsimp only at h
                have k5 := sp_streamop_put_keeps OPID_WRITEN (7 + s4.sp_write_n_bytes) s4
                generalize sp_streamop_put OPID_WRITEN (7 + s4.sp_write_n_bytes) s4 = s5 at h k5
                simp only [Option.some.injEq, Prod.mk.injEq] at h
                obtain ⟨rfl, rfl⟩ := h
                exact Grows_trans g2 (Grows_trans
                  (Grows_of_Keeps (Keeps_trans k3 (Keeps_trans k4 k5))) ⟨rfl, rfl, rfl, [], by simp⟩)
              · simp only [Option.some.injEq, Prod.mk.injEq] at h
                obtain ⟨rfl, rfl⟩ := h
                exact Grows_trans g2 (Grows_of_Keeps (Keeps_trans k3 (Keeps_trans k4
                  (Keeps_msg s4 Event.cannot_write_writen_data))))
            · simp only [Option.some.injEq, Prod.mk.injEq] at h
              obtain ⟨rfl, rfl⟩ := h
              exact Grows_trans g2 (Grows_of_Keeps (Keeps_trans k3
                (Keeps_msg s3 Event.cannot_write_writen_command)))
      · simp only [Option.some.injEq, Prod.mk.injEq] at h
        obtain ⟨rfl, rfl⟩ := h
        exact Grows_of_Keeps k1
    · intro s r s' h
      rw [sp_execute_opbuf_noflush] at h
      have htail : ∀ s1 : State, Grows s s1 →
          (match sp_stream_buffer_op oc.S_CMD_O_EXEC 0 [] OPID_EXEC_OPBUF s1 with
          | (0, s2) =>
            some (0, ({ s2 with sp_opbuf_usage := 0, sp_prev_was_write := false } : State))
          | (_, s2) => some (1, s2.msg Event.could_not_execute_command_buffer)) = some (r, s') →
          Grows s s' := by
        intro s1 g1 h
        have k2 := sp_stream_buffer_op_keeps oc.S_CMD_O_EXEC 0 [] OPID_EXEC_OPBUF s1
        generalize sp_stream_buffer_op oc.S_CMD_O_EXEC 0 [] OPID_EXEC_OPBUF s1 = r2 at h k2
        rcases r2 with ⟨ret2, s2⟩
        rcases ret2 with _ | ret2
        · simp only [Option.some.injEq, Prod.mk.injEq] at h
          obtain ⟨rfl, rfl⟩ := h
          exact Grows_trans g1 (Grows_trans (Grows_of_Keeps k2) ⟨rfl, rfl, rfl, [], by simp⟩)
        · simp only [Option.some.injEq, Prod.mk.injEq] at h
          obtain ⟨rfl, rfl⟩ := h
          exact Grows_trans g1 (Grows_of_Keeps (Keeps_trans k2 (Keeps_msg _ _)))
      by_cases hp : s.sp_max_write_n ≠ 0 ∧ s.sp_write_n_bytes ≠ 0
      · rw [if_pos hp] at h
        cases hpw : sp_pass_writen oc fuel s with
        | none => rw [hpw] at h; cases h
        | some p =>
          obtain ⟨r1, s1⟩ := p
          rw [hpw] at h
          have g1 := ihA s r1 s1 hpw
          rcases r1 with _ | r1
          · exact htail s1 g1 h
          · simp only [Option.some.injEq, Prod.mk.injEq] at h
            obtain ⟨rfl, rfl⟩ := h
            exact Grows_trans g1 (Grows_of_Keeps (Keeps_msg _ _))
      · rw [if_neg hp] at h
        exact htail s (Grows_refl s) h
    · intro s bytes r s' h
      rw [sp_check_opbuf_usage] at h
      by_cases hb : (s.sp_device_opbuf_size : Int) ≤ s.sp_opbuf_usage + bytes
      · rw [if_pos hb] at h
        cases he : sp_execute_opbuf_noflush oc fuel (s.msg Event.early_execute_warning) with
        | none => rw [he] at h; cases h
        | some p =>
          obtain ⟨r1, s1⟩ := p
          rw [he] at h
          have hs1 : s' = s1 := by
            rcases r1 with _ | r1 <;>
            · simp only [Option.some.injEq, Prod.mk.injEq] at h
              exact h.2.symm
          subst hs1
          exact Grows_trans (Grows_of_Keeps (Keeps_msg s _)) (ihB _ r1 s' he)
      · rw [if_neg hb] at h
        simp only [Option.some.injEq, Prod.mk.injEq] at h
        obtain ⟨rfl, rfl⟩ := h
        exact Grows_refl _

theorem exec_grows (oc : Opcodes) (fuel : Nat) {s s' : State} {r : Nat}
    (h : sp_execute_opbuf_noflush oc fuel s = some (r, s')) : Grows s s' :=
  (grows_core oc fuel).2.1 s r s' h

end Serprog

namespace Serprog

theorem exec_ok (oc : Opcodes) (fuel : Nat) {s s' : State} {r : Nat} (hok : OpbufOK 8 s)
    (h : sp_execute_opbuf_noflush oc fuel s = some (r, s')) (hclean : NoExecFailure s') :
    r = 0 ∧ OpbufOK 8 s' ∧ s'.sp_opbuf_usage = 0 ∧
      (s.sp_max_write_n ≠ 0 → s'.sp_write_n_bytes = 0) ∧ Grows s s' := by
  obtain ⟨hr, hu, hn, g⟩ := (opbuf_core oc fuel).2.1 s r s' hok h hclean
  refine ⟨hr, ?_, hu, hn, g⟩
  unfold OpbufOK at hok ⊢
  rw [g.opbuf, hu]
  exact ⟨hok.1, by have := hok.1; omega⟩

end Serprog

namespace Serprog

end Serprog

namespace Serprog

/-- The first statement of the read operations: it only appends to the log,
and keeps the opbuf bound when no execute is reported failed. -/
theorem execute_before_read_ok (oc : Opcodes) (fuel : Nat) {s s' : State} {r : Nat}
    (h : sp_execute_before_read oc fuel s = some (r, s')) :
    Grows s s' ∧ (OpbufOK 8 s → NoExecFailure s' → r = 0 ∧ OpbufOK 8 s') := by
  unfold sp_execute_before_read at h
  by_cases hc : s.sp_opbuf_usage ≠ 0 ∨ (s.sp_max_write_n ≠ 0 ∧ s.sp_write_n_bytes ≠ 0)
  · rw [if_pos hc] at h
    exact ⟨exec_grows oc fuel h, fun hok hclean =>
      ⟨(exec_ok oc fuel hok h hclean).1, (exec_ok oc fuel hok h hclean).2.1⟩⟩
  · rw [if_neg hc] at h
    simp only [Option.some.injEq, Prod.mk.injEq] at h
    obtain ⟨rfl, rfl⟩ := h
    exact ⟨Grows_refl _, fun hok _ => ⟨rfl, hok⟩⟩

theorem sp_do_read_n_ok (oc : Opcodes) (fuel : Nat) (addr len : Nat) {s s' : State} {r : Nat}
    {data : List Nat} (h : sp_do_read_n oc fuel addr len s = some (r, data, s')) :
    Grows s s' ∧ (OpbufOK 8 s → NoExecFailure s' → OpbufOK 8 s') := by
  unfold sp_do_read_n at h
  cases he : sp_execute_before_read oc fuel s with
  | none => rw [he] at h; cases h
  | some p =>
    obtain ⟨r1, s1⟩ := p
    rw [he] at h
    dsimp only at h
    obtain ⟨g1, h1⟩ := execute_before_read_ok oc fuel he
    generalize hg2 : sp_stream_buffer_op oc.S_CMD_R_NBYTES 6 _ OPID_READN s1 = r2 at h
    have k2 : Keeps s1 r2.2 := by rw [← hg2]; exact sp_stream_buffer_op_keeps _ _ _ _ _
    clear hg2
    rcases r2 with ⟨ret2, s2⟩
    dsimp only at h k2
    have k3 := sp_flush_stream_keeps s2
    generalize sp_flush_stream s2 = r3 at h k3
    rcases r3 with ⟨ret3, s3⟩
    dsimp only at k3
    have k : Keeps s1 s' := by
      rcases ret3 with _ | ret3
      · dsimp only at h
        have k4 := serialport_read_keeps len s3
        generalize serialport_read len s3 = r4 at h k4
        rcases r4 with ⟨ret4, d4, s4⟩
        dsimp only at k4
        rcases ret4 with _ | ret4
        · simp only [Option.some.injEq, Prod.mk.injEq] at h
          obtain ⟨-, -, rfl⟩ := h
          exact Keeps_trans k2 (Keeps_trans k3 k4)
        · simp only [Option.some.injEq, Prod.mk.injEq] at h
          obtain ⟨-, -, rfl⟩ := h
          exact Keeps_trans k2 (Keeps_trans k3 (Keeps_trans k4 (Keeps_msg _ _)))
      · simp only [Option.some.injEq, Prod.mk.injEq] at h
        obtain ⟨-, -, rfl⟩ := h
        exact Keeps_trans k2 k3
    exact ⟨Grows_trans g1 (Grows_of_Keeps k), fun hok hclean =>
      OpbufOK_of_Keeps k (h1 hok (NoExecFailure_of_Grows (Grows_of_Keeps k) hclean)).2⟩

end Serprog

namespace Serprog

end Serprog

namespace Serprog

end Serprog

namespace Serprog

end Serprog

namespace Serprog

theorem STREAMOP_TYPE_streamop (id len : Nat) (hid : id < 64) (hlen : len < 2 ^ 26) :
    STREAMOP_TYPE (streamop id len) = id := by
  unfold STREAMOP_TYPE streamop
  have hor : id <<< 26 ||| len = 2 ^ 26 * id + len := by
    rw [Nat.shiftLeft_eq, Nat.mul_comm id]
    exact (Nat.mul_add_lt_is_or hlen id).symm
  rw [hor, Nat.mod_eq_of_lt (by omega), Nat.shiftRight_eq_div_pow]
  rw [Nat.add_comm, Nat.add_mul_div_left _ _ (by norm_num : 0 < 2 ^ 26),
    Nat.div_eq_of_lt hlen, Nat.zero_add]

end Serprog

namespace Serprog

theorem drain_count_cons_pos {target : Int} {w : Nat} {q : List Nat}
    (h : target < sizes_sum (w :: q)) :
    drain_count target (w :: q) = drain_count target q + 1 := by
  have e : drain_count target (w :: q) =
      if sizes_sum (w :: q) ≤ target then 0 else 1 + drain_count target q := rfl
  rw [e, if_neg (by omega)]; omega

theorem drain_count_pos {target : Int} {q : List Nat} (h : 0 < drain_count target q) :
    q ≠ [] ∧ target < sizes_sum q := by
  cases q with
  | nil => exact absurd h (by simp [drain_count])
  | cons w q =>
    refine ⟨by simp, ?_⟩
    by_contra hc
    have e : drain_count target (w :: q) =
        if sizes_sum (w :: q) ≤ target then 0 else 1 + drain_count target q := rfl
    rw [e, if_pos (by omega)] at h
    exact absurd h (by decide)

/-- Before the count of `drain_count` is reached, what is left exceeds the
target. -/
theorem drain_count_min (target : Int) : ∀ (q : List Nat) (i : Nat),
    i < drain_count target q → target < sizes_sum (q.drop i) := by
  intro q
  induction q with
  | nil => intro i h; simp [drain_count] at h
  | cons w q ih =>
    intro i h
    have hpos := (drain_count_pos (Nat.lt_of_le_of_lt (Nat.zero_le i) h)).2
    cases i with
    | zero => simpa using hpos
    | succ i =>
      rw [drain_count_cons_pos hpos] at h
      rw [List.drop_succ_cons]
      exact ih i (by omega)

theorem sizes_sum_drop_drain_count (target : Int) (ht : 0 ≤ target) (q : List Nat) :
    sizes_sum (q.drop (drain_count target q)) ≤ target := by
  rcases drain_count_spec target q with h | h
  · rw [h, sizes_sum_nil]; exact ht
  · exact h

/-- C16 (drain_to_free postcondition and minimality): from a stream state that
satisfies the accounting invariant with the words `q` in flight, with
`j = drain_count (stream_target s len) q` acknowledgements at the head of the
channel, `sp_check_stream_free len` returns 0, has read exactly those `j` bytes
and popped exactly the `j` oldest entries; what stays in flight sums to at most
`max(0, serbuf_size - len)`, no smaller number of entries popped would do, the
bytes in flight are at most `serbuf_size - len` when `len <= serbuf_size`, and
nothing is read when the bound already holds. -/
theorem C16_drain_to_free {s : State} {q : List Nat} (h : StreamOK s q) (len : Int)
    (rest : List (Option Nat))
    (hrx : s.chan.rx =
      List.replicate (drain_count (stream_target s len) q) (some S_ACK) ++ rest) :
    sp_check_stream_free len s =
      (0, s.drained (drain_count (stream_target s len) q)
        (q.drop (drain_count (stream_target s len) q))) ∧
    (sp_check_stream_free len s).2.chan.rx = rest ∧
    StreamOK (sp_check_stream_free len s).2 (q.drop (drain_count (stream_target s len) q)) ∧
    sizes_sum (q.drop (drain_count (stream_target s len) q)) ≤ stream_target s len ∧
    (∀ i, i < drain_count (stream_target s len) q →
      stream_target s len < sizes_sum (q.drop i)) ∧
    (len ≤ s.sp_device_serbuf_size →
      (sp_check_stream_free len s).2.sp_streamed_transmit_bytes
        ≤ (s.sp_device_serbuf_size : Int) - len) ∧
    (sizes_sum q ≤ stream_target s len →
      drain_count (stream_target s len) q = 0 ∧ (sp_check_stream_free len s).2.chan.rx = s.chan.rx)
    := by
  have he := sp_check_stream_free_ok h len rest hrx
  have hsum := sizes_sum_drop_drain_count (stream_target s len) (stream_target_nonneg s len) q
  rw [he]
  refine ⟨rfl, ?_, StreamOK_nil_drop h _ (drain_count_le _ _), hsum,
    drain_count_min _ q, ?_, ?_⟩
  · show s.chan.rx.drop _ = rest
    rw [hrx, List.drop_left' (List.length_replicate _ _)]
  · intro hle
    show sizes_sum _ ≤ _
    have : stream_target s len = (s.sp_device_serbuf_size : Int) - len := by
      unfold stream_target; rw [if_neg (by omega)]
    rw [← this]; exact hsum
  · intro hle
    have h0 := drain_count_eq_zero (Or.inr hle : q = [] ∨ sizes_sum q ≤ stream_target s len)
    refine ⟨h0, ?_⟩
    show s.chan.rx.drop _ = _
    rw [h0]; rfl

theorem StreamOK_two (rx : List (Option Nat)) :
    StreamOK (sp_streamop_put OPID_READN 7 (sp_streamop_put OPID_WRITEB 5
        (init_state 16 300 0 rx)))
      [streamop OPID_WRITEB 5, streamop OPID_READN 7] :=
  sp_streamop_put_ok (sp_streamop_put_ok (StreamOK_init 16 300 0 rx (by decide))
    OPID_WRITEB 5 (by decide) (by decide) (by simp [init_state])) OPID_READN 7 (by decide)
    (by decide) (by simp [init_state])

/-- An `O_WRITEB` (5 bytes) and an `R_NBYTES` (7 bytes) in flight, 16 bytes of
serial buffer, 7 bytes to send: one acknowledgement is read and the `O_WRITEB`
entry popped, which leaves 7 bytes in flight. -/
theorem C16_drain_to_free_witness :
    sp_check_stream_free 7 (sp_streamop_put OPID_READN 7 (sp_streamop_put OPID_WRITEB 5
        (init_state 16 300 0 [some S_ACK, some 0x77]))) =
      (0, (sp_streamop_put OPID_READN 7 (sp_streamop_put OPID_WRITEB 5
        (init_state 16 300 0 [some S_ACK, some 0x77]))).drained 1 [streamop OPID_READN 7]) ∧
    (sp_check_stream_free 7 (sp_streamop_put OPID_READN 7 (sp_streamop_put OPID_WRITEB 5
        (init_state 16 300 0 [some S_ACK, some 0x77])))).2.chan.rx = [some 0x77] :=
  ⟨(C16_drain_to_free (StreamOK_two [some S_ACK, some 0x77]) 7 [some 0x77] rfl).1,
    (C16_drain_to_free (StreamOK_two [some S_ACK, some 0x77]) 7 [some 0x77] rfl).2.1⟩

end Serprog

namespace Serprog

/-- C15 (what the code does): from a session with a pending run whose
reservation triggers no early execute, on a transport that accepts the writes
and has acknowledged what has to be drained, `sp_pass_writen` returns success
with `sp_write_n_bytes = 0`, the run on the wire (`O_WRITEB` for a run of one
byte, `O_WRITEN` with its 7-byte header otherwise) and `sp_opbuf_usage` raised
by 5 or by `7 + n`.  But `sp_prev_was_write` is cleared only on the `O_WRITEN`
path: after a run of exactly one byte it still has the value it had, so it is
`true` after a successful emission whenever it was `true` before. -/
theorem C15_single_byte_run_keeps_prev (oc : Opcodes) (fuel : Nat) {s : State} {q : List Nat}
    {c : Nat} (hS : Session oc s q c) (hqc : q.length ≤ c)
    (hn : 7 + s.sp_write_n_bytes < 2 ^ 26)
    (hu : s.sp_opbuf_usage + (run_cost s : Int) < s.sp_device_opbuf_size) :
    ∃ s', sp_pass_writen oc (fuel + 2) s = some (0, s') ∧
      s'.sp_write_n_bytes = 0 ∧
      s'.chan.tx = s.chan.tx ++ run_wire oc s ∧
      s'.sp_opbuf_usage = s.sp_opbuf_usage + (run_cost s : Int) ∧
      (s.sp_write_n_bytes ≠ 1 → s'.sp_prev_was_write = false) ∧
      (s.sp_write_n_bytes = 1 → s'.sp_prev_was_write = s.sp_prev_was_write) := by
  obtain ⟨j, s', -, he, -, hwire, -, hu', hn', hp'⟩ := emit_run oc fuel hS hqc hn hu
  refine ⟨s', he, hn', hwire.tx, hu', fun h1 => ?_, fun h1 => ?_⟩
  · rw [hp']; simp [h1]
  · rw [hp']; simp [h1]

theorem Session_one_byte : Session serprog_h one_byte_state [] 0 :=
  Session_update (Session_init 16 300 256 0 [] (by decide)) one_byte_state
    rfl rfl rfl rfl rfl rfl rfl rfl

/-- After `writeb(0x100, 1)` the emission of the one-byte run succeeds, writes
`O_WRITEB 00 01 00 01`, and leaves `sp_prev_was_write` set. -/
theorem C15_single_byte_run_keeps_prev_witness :
    ∃ s', sp_pass_writen serprog_h 2 one_byte_state = some (0, s') ∧
      s'.sp_write_n_bytes = 0 ∧
      s'.chan.tx = [] ++ [0x0C, 0x00, 0x01, 0x00, 0x01] ∧
      s'.sp_opbuf_usage = 0 + 5 ∧
      s'.sp_prev_was_write = true := by
  obtain ⟨s', he, hn, htx, hu, -, hp⟩ :=
    C15_single_byte_run_keeps_prev serprog_h 0 Session_one_byte (Nat.le_refl _)
      (by decide) (by decide)
  exact ⟨s', he, hn, htx, hu, hp rfl⟩

/-- C14 (failing input): `sp_max_write_n = 2`, the write of the `O_WRITEN`
header fails.  `writeb(0x100, 1)`, `writeb(0x101, 2)` fill the run; its emission
fails and `serprog_chip_writeb` ignores that, so the run stays pending with
`sp_write_n_bytes = 2 = sp_max_write_n`.  The next contiguous store,
`writeb(0x102, 3)`, takes the append branch (`sp_prev_was_write` is set and
`0x102 = sp_write_n_addr + sp_write_n_bytes`) and stores at index
`sp_write_n_bytes = 2`, the length of the buffer; it returns with
`sp_write_n_bytes = 3 > sp_max_write_n`. -/
theorem C14_store_past_buffer_end :
    writeb_seq serprog_h 3 0x100 [1, 2] failing_header_state = some full_run_state ∧
    full_run_state.sp_prev_was_write = true ∧
    0x102 = (full_run_state.sp_write_n_addr + full_run_state.sp_write_n_bytes) % 2 ^ 32 ∧
    full_run_state.sp_write_n_bytes = full_run_state.sp_write_n_buf.length ∧
    full_run_state.sp_write_n_bytes = full_run_state.sp_max_write_n ∧
    (serprog_chip_writeb serprog_h 3 3 0x102 full_run_state).map
        (fun s => (s.sp_write_n_bytes, s.sp_max_write_n, s.sp_write_n_buf.length)) =
      some (3, 2, 2) := by
  refine ⟨by rfl, rfl, by decide, rfl, rfl, by rfl⟩

/-- C27 (failing input, in general): in a session with write-n, nothing in
flight and a run of `n >= 1` bytes pending, a contiguous `writeb` whose
reservation `7 + (n + 1)` reaches `sp_device_opbuf_size` does not return,
whatever call depth is allowed: `sp_check_opbuf_usage` calls
`sp_execute_opbuf_noflush`, that calls `sp_pass_writen`, and that calls
`sp_check_opbuf_usage` again in a state with the same `sp_opbuf_usage` and the
same `sp_write_n_bytes`. -/
theorem C27_early_execute_cycle_never_ends (oc : Opcodes) (val addr : Nat) (s : State)
    (hmax : s.sp_max_write_n ≠ 0) (hops : s.sp_streamed_transmit_ops = 0)
    (hbytes : s.sp_streamed_transmit_bytes = 0) (hprev : s.sp_prev_was_write = true)
    (hn : s.sp_write_n_bytes ≠ 0)
    (haddr : addr = (s.sp_write_n_addr + s.sp_write_n_bytes) % 2 ^ 32)
    (hbreach : (s.sp_device_opbuf_size : Int)
      ≤ s.sp_opbuf_usage + ((7 + (s.sp_write_n_bytes + 1) : Nat) : Int)) :
    ∀ fuel, serprog_chip_writeb oc fuel val addr s = none := by
  intro fuel
  unfold serprog_chip_writeb
  rw [if_pos hmax]
  dsimp only
  rw [if_pos ⟨hprev, haddr⟩]
  dsimp only
  have hd : Diverging ({ s with
      sp_write_n_buf := s.sp_write_n_buf.set s.sp_write_n_bytes val
      sp_write_n_bytes := s.sp_write_n_bytes + 1 } : State) :=
    ⟨hmax, hops, hbytes, Or.inr ⟨by show s.sp_write_n_bytes + 1 ≠ 1; omega,
      by show s.sp_write_n_bytes + 1 ≠ 0; omega, hbreach⟩⟩
  rw [(diverging_never_returns oc fuel _ hd).2.2 _ hbreach]

/-- Scenario S4 with write-n enabled: after two contiguous stores the third,
`writeb(0x102, 3)`, does not return within a call depth of 1000. -/
theorem C27_early_execute_cycle_never_ends_witness :
    serprog_chip_writeb serprog_h 1000 3 0x102 s4_two_bytes = none :=
  C27_early_execute_cycle_never_ends serprog_h 3 0x102 s4_two_bytes (by decide) rfl rfl rfl
    (by decide) (by decide) (by decide) 1000

end Serprog

namespace Serprog

/-- C13 (failing input, in general): in a session with write-n and a run of
exactly one byte pending (so `sp_prev_was_write` is set), an accelerated
`serprog_chip_poll` emits the run through the single-byte path of
`sp_pass_writen`, queues `O_POLL` and, while the opbuf is less than a third
full, returns with `sp_prev_was_write` still set and `sp_write_n_bytes = 0`. -/
theorem C13_prev_set_with_empty_run (oc : Opcodes)
    (fallback : Nat → Nat → Int → Nat → State → Option State)
    (fuel addr shift : Nat) (data_or_toggle : Int) {s : State} {q : List Nat} {c : Nat}
    (hS : Session oc s q c) (hqc : q.length + 1 ≤ c) (hshift : shift < 8)
    (havail : sp_check_commandavail oc.S_CMD_O_POLL s = 1)
    (hmax : s.sp_max_write_n ≠ 0) (hn : s.sp_write_n_bytes = 1)
    (hprev : s.sp_prev_was_write = true)
    (hu : s.sp_opbuf_usage + 10 < ((s.sp_device_opbuf_size / 3 : Nat) : Int)) :
    ∃ s', serprog_chip_poll oc fallback (fuel + 2) addr (2 ^ shift) data_or_toggle 0 s
        = some s' ∧
      s'.sp_prev_was_write = true ∧ s'.sp_write_n_bytes = 0 ∧ s'.sp_max_write_n ≠ 0 := by
  have hm : 2 ^ shift < 256 := by interval_cases shift <;> norm_num
  have hps : poll_shift (2 ^ shift) = (shift : Int) :=
    (poll_shift_spec (2 ^ shift) hm).2 shift hshift rfl
  have hdiv : ((s.sp_device_opbuf_size / 3 : Nat) : Int) ≤ (s.sp_device_opbuf_size : Int) := by
    exact_mod_cast Nat.div_le_self _ _
  have hcost : run_cost s = 5 := by simp [run_cost, hn]
  obtain ⟨j, s1, hj, he1, hS1, hwire1, -, hu1, hn1, hp1⟩ :=
    emit_run oc fuel hS (by omega) (by rw [hn]; norm_num) (by rw [hcost]; push_cast; omega)
  rw [hcost] at hu1
  have hav1 : sp_check_commandavail oc.S_CMD_O_POLL s1 = 1 := by
    rw [avail_of_cmdmap hwire1.frame.cmdmap]; exact havail
  obtain ⟨j2, s3, -, he3, -, hwire3, hu3, hn3, hp3⟩ :=
    submit oc hS1 (by rw [List.length_append, List.length_drop]; simp only [List.length_singleton]
                      omega)
      oc.S_CMD_O_POLL 4
      [poll_flags (2 ^ shift) data_or_toggle (shift : Int),
       (addr >>> 0) &&& 0xFF, (addr >>> 8) &&& 0xFF, (addr >>> 16) &&& 0xFF] OPID_POLL
      hav1 (by norm_num) (by norm_num)
  refine ⟨{ s3 with sp_opbuf_usage := s3.sp_opbuf_usage + 5 }, ?_, ?_, ?_, ?_⟩
  · unfold serprog_chip_poll
    dsimp only
    have hc1 : ¬ (sp_check_commandavail
        (if (0 : Nat) ≠ 0 then oc.S_CMD_O_POLL_DLY else oc.S_CMD_O_POLL) s = 0 ∨
        poll_shift (2 ^ shift) < 0) := by
      rw [if_neg (by simp), havail, hps]; omega
    rw [if_neg hc1, if_pos ⟨hmax, by rw [hn]; decide⟩, he1]
    dsimp only
    rw [if_neg (by simp), sp_check_opbuf_usage_skip oc (fuel + 1) 5 s1
      (by rw [hu1, hwire1.frame.opbuf]; omega)]
    dsimp only
    rw [hps, he3]
    dsimp only
    rw [if_neg]
    show ¬ (s3.sp_opbuf_usage + 5 ≥ ((s3.sp_device_opbuf_size / 3 : Nat) : Int))
    rw [hu3, hu1, hwire3.frame.opbuf, hwire1.frame.opbuf]
    omega
  · show s3.sp_prev_was_write = true
    rw [hp3, hp1, hprev, hn]; rfl
  · show s3.sp_write_n_bytes = 0
    rw [hn3, hn1]
  · show s3.sp_max_write_n ≠ 0
    rw [hwire3.frame.max_write_n, hwire1.frame.max_write_n]; exact hmax

/-- After `writeb(0x100, 1)` (`sp_max_write_n = 256`, opbuf of 300 bytes),
`chip_poll(0x1234, 0x08, 0, 0)` returns with `sp_prev_was_write` set and no
byte buffered. -/
theorem C13_prev_set_with_empty_run_witness :
    ∃ s', serprog_chip_poll serprog_h fallback_none 2 0x1234 (2 ^ 3) 0 0
        { one_byte_state with chan := { rx := [some S_ACK], wfail := [], tx := [] } }
        = some s' ∧
      s'.sp_prev_was_write = true ∧ s'.sp_write_n_bytes = 0 ∧ s'.sp_max_write_n ≠ 0 :=
  C13_prev_set_with_empty_run serprog_h fallback_none 0 0x1234 3 0
    (Session_update (Session_init 16 300 256 1 [] (by decide))
      { one_byte_state with chan := { rx := [some S_ACK], wfail := [], tx := [] } }
      rfl rfl rfl rfl rfl rfl rfl rfl)
    (by decide) (by decide) (by decide) (by decide) rfl rfl (by decide)

end Serprog

namespace Serprog

/-- C25 (failing input): `sp_device_serbuf_size = 16`, `k = 16`.  After 16 calls
of `sp_streamop_put(OPID_WRITEB, 5)` on the empty FIFO `sp_streamed_ops_woff` has
wrapped to 0 and equals `sp_streamed_ops_roff`, so every one of the 16 calls of
`sp_streamop_get` finds the FIFO "empty": it returns 1 instead of the entry,
reports "attempt to get streamop from empty fifo" and leaves the counters at
16 entries and 80 bytes.  With `k = 15` the 15 entries come back in order and
the counters return to 0: the ring holds `serbuf_size - 1` entries. -/
theorem C25_full_ring_reads_as_empty :
    (put_seq (List.replicate 16 (OPID_WRITEB, 5)) (init_state 16 300 0 [])).sp_streamed_ops_woff
      = (put_seq (List.replicate 16 (OPID_WRITEB, 5))
          (init_state 16 300 0 [])).sp_streamed_ops_roff ∧
    (get_seq 16 (put_seq (List.replicate 16 (OPID_WRITEB, 5)) (init_state 16 300 0 []))).1
      = List.replicate 16 1 ∧
    (get_seq 16 (put_seq (List.replicate 16 (OPID_WRITEB, 5))
        (init_state 16 300 0 []))).2.sp_streamed_transmit_ops = 16 ∧
    (get_seq 16 (put_seq (List.replicate 16 (OPID_WRITEB, 5))
        (init_state 16 300 0 []))).2.sp_streamed_transmit_bytes = 80 ∧
    (get_seq 16 (put_seq (List.replicate 16 (OPID_WRITEB, 5))
        (init_state 16 300 0 []))).2.log = List.replicate 16 Event.get_empty_fifo ∧
    (get_seq 15 (put_seq (List.replicate 15 (OPID_WRITEB, 5)) (init_state 16 300 0 []))).1
      = List.replicate 15 (streamop OPID_WRITEB 5) ∧
    (get_seq 15 (put_seq (List.replicate 15 (OPID_WRITEB, 5))
        (init_state 16 300 0 []))).2.sp_streamed_transmit_ops = 0 ∧
    (get_seq 15 (put_seq (List.replicate 15 (OPID_WRITEB, 5))
        (init_state 16 300 0 []))).2.sp_streamed_transmit_bytes = 0 := by
  refine ⟨by decide, by decide, by decide, by decide, by decide, by decide, by decide,
    by decide⟩

end Serprog

namespace Serprog

theorem serialport_read_zero : ∀ (len : Nat) (s : State), (serialport_read len s).1 = 0 →
    ∃ (data : List Nat) (rest : List (Option Nat)),
      data.length = len ∧ s.chan.rx = data.map some ++ rest := by
  intro len
  induction len with
  | zero => intro s _; exact ⟨[], s.chan.rx, rfl, rfl⟩
  | succ len ih =>
    intro s h
    rw [serialport_read, serialport_read1] at h
    cases hrx : s.chan.rx with
    | nil => rw [hrx] at h; simp at h
    | cons c r =>
      rw [hrx] at h
      cases c with
      | none => simp at h
      | some b =>
        dsimp only at h
        obtain ⟨data, rest, hl, hr⟩ := ih _ h
        exact ⟨b :: data, rest, by simp [hl], by simpa using hr⟩

theorem serialport_write_rx (bs : List Nat) (s : State) :
    (serialport_write bs s).2.chan.rx = s.chan.rx := by
  unfold serialport_write
  split <;> rfl

theorem serialport_write_zero_tx (bs : List Nat) (s : State) (h : (serialport_write bs s).1 = 0) :
    (serialport_write bs s).2.chan.tx = s.chan.tx ++ bs := by
  unfold serialport_write at h ⊢
  cases bs with
  | nil => simp
  | cons b bs =>
    cases hw : s.chan.wfail with
    | nil => rfl
    | cons f w =>
      cases f with
      | true => rw [hw] at h; simp at h
      | false => rfl

end Serprog

namespace Serprog

theorem sp_docommand_body {command : Nat} {s : State} (hav : Avail command s)
    (parmlen : Nat) (params : List Nat) (retlen : Nat) :
    sp_docommand command parmlen params retlen s =
      match serialport_write [command] s with
      | (0, s1) =>
        match serialport_write (params.take parmlen) s1 with
        | (0, s2) =>
          match serialport_read1 s2 with
          | (0, some c, s3) =>
            if c = S_NAK then (1, [], s3)
            else if c ≠ S_ACK then (1, [], s3.msg (Event.invalid_response c command))
            else if retlen ≠ 0 then
              match serialport_read retlen s3 with
              | (0, data, s4) => (0, data, s4)
              | (_, data, s4) => (1, data, s4.msg Event.cannot_read_return_parameters)
            else (0, [], s3)
          | (_, _, s3) => (1, [], s3.msg Event.cannot_read_from_device)
        | (_, s2) => (1, [], s2.msg Event.cannot_write_parameters)
      | (_, s1) => (1, [], s1.msg Event.cannot_write_op_code) := by
  unfold sp_docommand
  rw [sp_automatic_cmdcheck_ok hav]
  all_goals rfl

/-- With both writes successful, `sp_docommand` is its reading half, run in the
state the writes leave. -/
theorem sp_docommand_written {command : Nat} {s : State} (hav : Avail command s)
    (parmlen : Nat) (params : List Nat) (retlen : Nat)
    (h1 : (serialport_write [command] s).1 = 0)
    (h2 : (serialport_write (params.take parmlen) (serialport_write [command] s).2).1 = 0) :
    sp_docommand command parmlen params retlen s =
      match serialport_read1
        (serialport_write (params.take parmlen) (serialport_write [command] s).2).2 with
      | (0, some c, s3) =>
        if c = S_NAK then (1, [], s3)
        else if c ≠ S_ACK then (1, [], s3.msg (Event.invalid_response c command))
        else if retlen ≠ 0 then
          match serialport_read retlen s3 with
          | (0, data, s4) => (0, data, s4)
          | (_, data, s4) => (1, data, s4.msg Event.cannot_read_return_parameters)
        else (0, [], s3)
      | (_, _, s3) => (1, [], s3.msg Event.cannot_read_from_device) := by
  rw [sp_docommand_body hav]
  generalize hw1 : serialport_write [command] s = r1 at h1 h2 ⊢
  obtain ⟨ret1, s1⟩ := r1
  dsimp only at h1 h2 ⊢
  subst h1
  dsimp only
  generalize hw2 : serialport_write (params.take parmlen) s1 = r2 at h2 ⊢
  obtain ⟨ret2, s2⟩ := r2
  dsimp only at h2 ⊢
  subst h2
  rfl

theorem sp_docommand_write1_failed {command : Nat} {s : State} (hav : Avail command s)
    (parmlen : Nat) (params : List Nat) (retlen : Nat)
    (h1 : (serialport_write [command] s).1 ≠ 0) :
    sp_docommand command parmlen params retlen s =
      (1, [], (serialport_write [command] s).2.msg Event.cannot_write_op_code) := by
  rw [sp_docommand_body hav]
  generalize hw1 : serialport_write [command] s = r1 at h1 ⊢
  obtain ⟨ret1, s1⟩ := r1
  dsimp only at h1 ⊢
  rcases ret1 with _ | ret1
  · exact absurd rfl h1
  · rfl

theorem sp_docommand_write2_failed {command : Nat} {s : State} (hav : Avail command s)
    (parmlen : Nat) (params : List Nat) (retlen : Nat)
    (h1 : (serialport_write [command] s).1 = 0)
    (h2 : (serialport_write (params.take parmlen) (serialport_write [command] s).2).1 ≠ 0) :
    sp_docommand command parmlen params retlen s =
      (1, [], (serialport_write (params.take parmlen)
        (serialport_write [command] s).2).2.msg Event.cannot_write_parameters) := by
  rw [sp_docommand_body hav]
  generalize hw1 : serialport_write [command] s = r1 at h1 h2 ⊢
  obtain ⟨ret1, s1⟩ := r1
  dsimp only at h1 h2 ⊢
  subst h1
  dsimp only
  generalize hw2 : serialport_write (params.take parmlen) s1 = r2 at h2 ⊢
  obtain ⟨ret2, s2⟩ := r2
  dsimp only at h2 ⊢
  rcases ret2 with _ | ret2
  · exact absurd rfl h2
  · rfl

theorem written_rx (command parmlen : Nat) (params : List Nat) (s : State) :
    (serialport_write (params.take parmlen) (serialport_write [command] s).2).2.chan.rx
      = s.chan.rx := by
  rw [serialport_write_rx, serialport_write_rx]

theorem written_tx (command parmlen : Nat) (params : List Nat) (s : State)
    (h1 : (serialport_write [command] s).1 = 0)
    (h2 : (serialport_write (params.take parmlen) (serialport_write [command] s).2).1 = 0) :
    (serialport_write (params.take parmlen) (serialport_write [command] s).2).2.chan.tx
      = s.chan.tx ++ command :: params.take parmlen := by
  rw [serialport_write_zero_tx _ _ h2, serialport_write_zero_tx _ _ h1]
  simp

theorem written_log (command parmlen : Nat) (params : List Nat) (s : State) :
    (serialport_write (params.take parmlen) (serialport_write [command] s).2).2.log = s.log := by
  have a : ∀ (bs : List Nat) (t : State), (serialport_write bs t).2.log = t.log := by
    intro bs t
    unfold serialport_write
    split <;> rfl
  rw [a, a]

theorem serialport_read1_some {s : State} {c : Nat} {rest : List (Option Nat)}
    (h : s.chan.rx = some c :: rest) :
    serialport_read1 s = (0, some c, { s with chan := { s.chan with rx := rest } }) := by
  unfold serialport_read1
  rw [h]

theorem serialport_read1_fail {s : State} (h : ∀ c rest, s.chan.rx ≠ some c :: rest) :
    (serialport_read1 s).1 = 1 ∧ (serialport_read1 s).2.1 = none := by
  unfold serialport_read1
  cases hrx : s.chan.rx with
  | nil => exact ⟨rfl, rfl⟩
  | cons c r =>
    cases c with
    | none => exact ⟨rfl, rfl⟩
    | some b => exact absurd hrx (h b r)

end Serprog

namespace Serprog

theorem sp_docommand_acked {command : Nat} {s : State} (hav : Avail command s)
    (parmlen : Nat) (params : List Nat) (data : List Nat) (rest : List (Option Nat))
    (h1 : (serialport_write [command] s).1 = 0)
    (h2 : (serialport_write (params.take parmlen) (serialport_write [command] s).2).1 = 0)
    (hs : s.chan.rx = some S_ACK :: (data.map some ++ rest)) :
    sp_docommand command parmlen params data.length s =
      (0, data,
        { (serialport_write (params.take parmlen) (serialport_write [command] s).2).2 with
          chan := { (serialport_write (params.take parmlen)
            (serialport_write [command] s).2).2.chan with rx := rest } }) := by
  rw [sp_docommand_written hav _ _ _ h1 h2]
  have hrx := written_rx command parmlen params s
  generalize (serialport_write (params.take parmlen) (serialport_write [command] s).2).2 = s2
    at hrx ⊢
  rw [serialport_read1_some (hrx.trans hs)]
  dsimp only
  rw [if_neg (by decide : ¬ S_ACK = S_NAK), if_neg (by simp)]
  by_cases h0 : data.length ≠ 0
  · rw [if_pos h0]
    rw [serialport_read_ok data rest _ rfl]
  · rw [if_neg h0]
    have hd : data = [] := List.length_eq_zero.1 (by omega)
    subst hd
    rfl

theorem sp_docommand_not_acked {command : Nat} {s : State} (hav : Avail command s)
    (parmlen : Nat) (params : List Nat) (retlen : Nat) (c : Nat) (rest : List (Option Nat))
    (h1 : (serialport_write [command] s).1 = 0)
    (h2 : (serialport_write (params.take parmlen) (serialport_write [command] s).2).1 = 0)
    (hs : s.chan.rx = some c :: rest) (hc : c ≠ S_ACK) :
    (sp_docommand command parmlen params retlen s).1 = 1 ∧
    (sp_docommand command parmlen params retlen s).2.1 = [] ∧
    (sp_docommand command parmlen params retlen s).2.2.chan.rx = rest ∧
    (sp_docommand command parmlen params retlen s).2.2.chan.tx
      = s.chan.tx ++ command :: params.take parmlen := by
  rw [sp_docommand_written hav _ _ _ h1 h2]
  have hrx := written_rx command parmlen params s
  have htx := written_tx command parmlen params s h1 h2
  generalize (serialport_write (params.take parmlen) (serialport_write [command] s).2).2 = s2
    at hrx htx ⊢
  rw [serialport_read1_some (hrx.trans hs)]
  dsimp only
  by_cases hn : c = S_NAK
  · rw [if_pos hn]
    exact ⟨rfl, rfl, rfl, htx⟩
  · rw [if_neg hn, if_pos hc]
    exact ⟨rfl, rfl, rfl, htx⟩

theorem sp_docommand_no_reply {command : Nat} {s : State} (hav : Avail command s)
    (parmlen : Nat) (params : List Nat) (retlen : Nat)
    (h1 : (serialport_write [command] s).1 = 0)
    (h2 : (serialport_write (params.take parmlen) (serialport_write [command] s).2).1 = 0)
    (hs : ∀ c rest, s.chan.rx ≠ some c :: rest) :
    (sp_docommand command parmlen params retlen s).1 = 1 := by
  rw [sp_docommand_written hav _ _ _ h1 h2]
  have hrx := written_rx command parmlen params s
  generalize (serialport_write (params.take parmlen) (serialport_write [command] s).2).2 = s2
    at hrx ⊢
  have hf := serialport_read1_fail (s := s2) (by rw [hrx]; exact hs)
  generalize serialport_read1 s2 = r at hf ⊢
  obtain ⟨ret, b, s3⟩ := r
  dsimp only at hf ⊢
  obtain ⟨hret, hb⟩ := hf
  subst hret hb
  rfl

theorem sp_docommand_short_reply {command : Nat} {s : State} (hav : Avail command s)
    (parmlen : Nat) (params : List Nat) (retlen : Nat) (rest : List (Option Nat))
    (h1 : (serialport_write [command] s).1 = 0)
    (h2 : (serialport_write (params.take parmlen) (serialport_write [command] s).2).1 = 0)
    (hs : s.chan.rx = some S_ACK :: rest)
    (hshort : ¬ ∃ (data : List Nat) (rest1 : List (Option Nat)),
      data.length = retlen ∧ rest = data.map some ++ rest1) :
    (sp_docommand command parmlen params retlen s).1 = 1 := by
  rw [sp_docommand_written hav _ _ _ h1 h2]
  have hrx := written_rx command parmlen params s
  generalize (serialport_write (params.take parmlen) (serialport_write [command] s).2).2 = s2
    at hrx ⊢
  rw [serialport_read1_some (hrx.trans hs)]
  dsimp only
  rw [if_neg (by decide : ¬ S_ACK = S_NAK), if_neg (by simp)]
  by_cases h0 : retlen ≠ 0
  · rw [if_pos h0]
    have hz : (serialport_read retlen
        ({ s2 with chan := { s2.chan with rx := rest } } : State)).1 ≠ 0 := by
      intro hz
      exact hshort (serialport_read_zero _ _ hz)
    generalize serialport_read retlen ({ s2 with chan := { s2.chan with rx := rest } } : State)
      = r at hz ⊢
    obtain ⟨ret, d, s4⟩ := r
    dsimp only at hz ⊢
    rcases ret with _ | ret
    · exact absurd rfl hz
    · rfl
  · exfalso
    apply hshort
    exact ⟨[], rest, by simp; omega, rfl⟩

/-- C20: the synchronous command path.  For every command, parameter block,
`retlen` and state in which the availability check does not refuse the command:
`sp_docommand` returns 0 if and only if the write of the command byte succeeds,
the write of the `parmlen` parameter bytes succeeds, the next byte on the
channel is `S_ACK` and `retlen` more bytes follow it.  In that case it has
written exactly the command byte followed by the parameter bytes, `retparms`
holds those `retlen` bytes and exactly `1 + retlen` bytes have been consumed.
If both writes succeed and the byte read is `S_NAK` or any other value, it
returns 1 with the same bytes written, exactly one byte consumed and nothing
stored in `retparms`. -/
theorem C20_docommand_sync (command parmlen : Nat) (params : List Nat) (retlen : Nat)
    (s : State) (hav : Avail command s) :
    ((sp_docommand command parmlen params retlen s).1 = 0 ↔
      ((serialport_write [command] s).1 = 0 ∧
       (serialport_write (params.take parmlen) (serialport_write [command] s).2).1 = 0 ∧
       ∃ (data : List Nat) (rest : List (Option Nat)), data.length = retlen ∧
         s.chan.rx = some S_ACK :: (data.map some ++ rest))) ∧
    (∀ (data : List Nat) (rest : List (Option Nat)),
      (serialport_write [command] s).1 = 0 →
      (serialport_write (params.take parmlen) (serialport_write [command] s).2).1 = 0 →
      data.length = retlen → s.chan.rx = some S_ACK :: (data.map some ++ rest) →
      (sp_docommand command parmlen params retlen s).1 = 0 ∧
      (sp_docommand command parmlen params retlen s).2.1 = data ∧
      (sp_docommand command parmlen params retlen s).2.2.chan.rx = rest ∧
      s.chan.rx.length = rest.length + (1 + retlen) ∧
      (sp_docommand command parmlen params retlen s).2.2.chan.tx
        = s.chan.tx ++ command :: params.take parmlen) ∧
    (∀ (c : Nat) (rest : List (Option Nat)),
      (serialport_write [command] s).1 = 0 →
      (serialport_write (params.take parmlen) (serialport_write [command] s).2).1 = 0 →
      s.chan.rx = some c :: rest → c ≠ S_ACK →
      (sp_docommand command parmlen params retlen s).1 = 1 ∧
      (sp_docommand command parmlen params retlen s).2.1 = [] ∧
      (sp_docommand command parmlen params retlen s).2.2.chan.rx = rest ∧
      (sp_docommand command parmlen params retlen s).2.2.chan.tx
        = s.chan.tx ++ command :: params.take parmlen) := by
  have hsucc : ∀ (data : List Nat) (rest : List (Option Nat)),
      (serialport_write [command] s).1 = 0 →
      (serialport_write (params.take parmlen) (serialport_write [command] s).2).1 = 0 →
      data.length = retlen → s.chan.rx = some S_ACK :: (data.map some ++ rest) →
      (sp_docommand command parmlen params retlen s).1 = 0 ∧
      (sp_docommand command parmlen params retlen s).2.1 = data ∧
      (sp_docommand command parmlen params retlen s).2.2.chan.rx = rest ∧
      s.chan.rx.length = rest.length + (1 + retlen) ∧
      (sp_docommand command parmlen params retlen s).2.2.chan.tx
        = s.chan.tx ++ command :: params.take parmlen := by
    intro data rest h1 h2 hl hs
    subst hl
    rw [sp_docommand_acked hav parmlen params data rest h1 h2 hs]
    refine ⟨rfl, rfl, rfl, ?_, written_tx command parmlen params s h1 h2⟩
    rw [hs]
    simp
    omega
  refine ⟨⟨fun h => ?_, fun h => ?_⟩, hsucc, fun c rest h1 h2 hs hc =>
    sp_docommand_not_acked hav parmlen params retlen c rest h1 h2 hs hc⟩
  · by_cases h1 : (serialport_write [command] s).1 = 0
    · by_cases h2 :
        (serialport_write (params.take parmlen) (serialport_write [command] s).2).1 = 0
      · refine ⟨h1, h2, ?_⟩
        by_cases hs : ∃ c rest, s.chan.rx = some c :: rest
        · obtain ⟨c, rest, hs⟩ := hs
          by_cases hc : c = S_ACK
          · subst hc
            by_cases hd : ∃ (data : List Nat) (rest1 : List (Option Nat)),
                data.length = retlen ∧ rest = data.map some ++ rest1
            · obtain ⟨data, rest1, hl, hr⟩ := hd
              exact ⟨data, rest1, hl, by rw [hs, hr]⟩
            · have := sp_docommand_short_reply hav parmlen params retlen rest h1 h2 hs hd
              omega
          · have := (sp_docommand_not_acked hav parmlen params retlen c rest h1 h2 hs hc).1
            omega
        · have := sp_docommand_no_reply hav parmlen params retlen h1 h2
            (fun c rest hcr => hs ⟨c, rest, hcr⟩)
          omega
      · rw [sp_docommand_write2_failed hav parmlen params retlen h1 h2] at h
        cases h
    · rw [sp_docommand_write1_failed hav parmlen params retlen h1] at h
      cases h
  · obtain ⟨h1, h2, data, rest, hl, hs⟩ := h
    exact (hsucc data rest h1 h2 hl hs).1

theorem C20_docommand_sync_witness :
    Avail 0x08 (init_state 16 300 0 [some 0x06, some 1, some 2, some 3, some 9]) ∧
    (sp_docommand 0x08 0 [] 3
      (init_state 16 300 0 [some 0x06, some 1, some 2, some 3, some 9])).1 = 0 ∧
    (sp_docommand 0x08 0 [] 3
      (init_state 16 300 0 [some 0x06, some 1, some 2, some 3, some 9])).2.1 = [1, 2, 3] ∧
    (sp_docommand 0x08 0 [] 3
      (init_state 16 300 0 [some 0x06, some 1, some 2, some 3, some 9])).2.2.chan.rx
        = [some 9] :=
  have h := (C20_docommand_sync 0x08 0 [] 3
    (init_state 16 300 0 [some 0x06, some 1, some 2, some 3, some 9])
    (Or.inr (by decide))).2.1 [1, 2, 3] [some 9] (by decide) (by decide) rfl rfl
  ⟨Or.inr (by decide), h.1, h.2.1, h.2.2.1⟩

end Serprog

namespace Serprog

/-- C21 (counterexample): the programmer answers `Q_WRNMAXLEN` with `ACK 00 00
00`.  The non-SPI branch of `serprog_init` does not leave `sp_max_write_n = 0`:
it sets it to `1 << 24 = 16777216`, so coalescing is enabled. -/
theorem C21_zero_reply_enables_coalescing :
    (init_query_wrnmaxlen 0x08
      (init_state 16 300 0 [some 0x06, some 0, some 0, some 0])).sp_max_write_n = 16777216 ∧
    (init_query_wrnmaxlen 0x08
      (init_state 16 300 0 [some 0x06, some 0, some 0, some 0])).sp_write_n_bytes = 0 := by
  refine ⟨by decide, by decide⟩

/-- C21 (amended): the parallel-mode interpretation of `Q_WRNMAXLEN`.  For every
state in which the query is not refused and the writes succeed: when the
programmer answers `ACK b0 b1 b2`, `sp_max_write_n` becomes
`b0 | b1 << 8 | b2 << 16` if that value is non-zero and `1 << 24` if it is zero;
in both cases it is non-zero (coalescing is enabled), the write-n buffer has
that many bytes and no run is pending.  When the first byte of the answer is
not `ACK` (a `NAK`, for one), `sp_max_write_n` is 0. -/
theorem C21_wrnmaxlen_parallel (S_CMD_Q_WRNMAXLEN : Nat) (s : State)
    (hav : Avail S_CMD_Q_WRNMAXLEN s) (hw : s.chan.wfail = []) :
    (∀ (b0 b1 b2 : Nat) (rest : List (Option Nat)),
      s.chan.rx = some S_ACK :: some b0 :: some b1 :: some b2 :: rest →
      (init_query_wrnmaxlen S_CMD_Q_WRNMAXLEN s).sp_max_write_n
        = (if (b0 <<< 0) ||| (b1 <<< 8) ||| (b2 <<< 16) = 0 then 2 ^ 24
           else (b0 <<< 0) ||| (b1 <<< 8) ||| (b2 <<< 16)) ∧
      (init_query_wrnmaxlen S_CMD_Q_WRNMAXLEN s).sp_max_write_n ≠ 0 ∧
      (init_query_wrnmaxlen S_CMD_Q_WRNMAXLEN s).sp_write_n_buf.length
        = (init_query_wrnmaxlen S_CMD_Q_WRNMAXLEN s).sp_max_write_n ∧
      (init_query_wrnmaxlen S_CMD_Q_WRNMAXLEN s).sp_write_n_bytes = 0) ∧
    (∀ (c : Nat) (rest : List (Option Nat)), s.chan.rx = some c :: rest → c ≠ S_ACK →
      (init_query_wrnmaxlen S_CMD_Q_WRNMAXLEN s).sp_max_write_n = 0) := by
  have h1 : (serialport_write [S_CMD_Q_WRNMAXLEN] s).1 = 0 := by
    rw [serialport_write_ok hw]
  have h2 : (serialport_write (([] : List Nat).take 0)
      (serialport_write [S_CMD_Q_WRNMAXLEN] s).2).1 = 0 := rfl
  refine ⟨fun b0 b1 b2 rest hrx => ?_, fun c rest hrx hc => ?_⟩
  · have hd := sp_docommand_acked hav 0 [] [b0, b1, b2] rest h1 h2 hrx
    have hd3 : sp_docommand S_CMD_Q_WRNMAXLEN 0 [] 3 s = _ := hd
    unfold init_query_wrnmaxlen
    rw [hd3]
    dsimp only
    simp only [List.getD_cons_zero, List.getD_cons_succ]
    by_cases hv : (b0 <<< 0) ||| (b1 <<< 8) ||| (b2 <<< 16) = 0
    · rw [if_pos hv, if_pos hv]
      refine ⟨by decide, by decide, ?_, trivial⟩
      rw [List.length_replicate]
    · rw [if_neg hv, if_neg hv]
      refine ⟨rfl, hv, ?_, trivial⟩
      rw [List.length_replicate]
  · have hn := sp_docommand_not_acked hav 0 [] 3 c rest h1 h2 hrx hc
    unfold init_query_wrnmaxlen
    generalize sp_docommand S_CMD_Q_WRNMAXLEN 0 [] 3 s = r at hn ⊢
    obtain ⟨ret, d, s1⟩ := r
    dsimp only at hn ⊢
    obtain ⟨hret, -⟩ := hn
    subst hret
    rfl

theorem C21_wrnmaxlen_parallel_witness :
    (init_query_wrnmaxlen 0x08
      (init_state 16 300 0 [some 0x06, some 0x00, some 0x01, some 0x00])).sp_max_write_n
        = 256 ∧
    (init_query_wrnmaxlen 0x08 (init_state 16 300 0 [some 0x15])).sp_max_write_n = 0 :=
  ⟨((C21_wrnmaxlen_parallel 0x08
      (init_state 16 300 0 [some 0x06, some 0x00, some 0x01, some 0x00])
      (Or.inr (by decide)) rfl).1 0 1 0 [] rfl).1,
   (C21_wrnmaxlen_parallel 0x08 (init_state 16 300 0 [some 0x15])
      (Or.inr (by decide)) rfl).2 0x15 [] rfl (by decide)⟩

/-- C24 (failing input): a session with `sp_max_write_n = 4`, nothing queued,
`S_PIN_STATE` available, `serprog_shutdown` called twice.  The first call
writes `S_PIN_STATE 00`, reads the `ACK`, frees the FIFO, closes the port and
frees `sp_write_n_buf`.  The second call is no no-op.  On a port that rejects
writes once it is closed (first part) it still attempts the write of
`S_PIN_STATE`, reports the failure, closes the port again and frees
`sp_write_n_buf` a second time.  On a channel that keeps accepting (second
part) it writes `S_PIN_STATE 00` again and reads a further byte before doing
the same.  Only the free of the FIFO, whose pointer was set to `NULL`, is not
repeated. -/
theorem C24_second_shutdown_repeats :
    ((serprog_shutdown serprog_h 0x15 3
        ({ init_state 16 300 4 [] with
          chan := { rx := [some 0x06], wfail := [false, false, true], tx := [] } } : State)).bind
        (fun p => serprog_shutdown serprog_h 0x15 3 p.2)).map
        (fun p => (p.1, p.2.chan.tx, p.2.chan.rx, p.2.sp_streamed_ops_info, p.2.log))
      = some (0, [0x15, 0x00], [], none,
          [Event.free_ops_info, Event.serialport_shutdown, Event.free_write_n_buf,
           Event.cannot_write_op_code, Event.could_not_disable_output_buffers,
           Event.serialport_shutdown, Event.free_write_n_buf]) ∧
    (serprog_shutdown serprog_h 0x15 3 (init_state 16 300 4 [some 0x06, some 0x06])).map
        (fun p => (p.1, p.2.chan.tx, p.2.chan.rx, p.2.sp_streamed_ops_info, p.2.log))
      = some (0, [0x15, 0x00], [some 0x06], none,
          [Event.free_ops_info, Event.serialport_shutdown, Event.free_write_n_buf]) ∧
    ((serprog_shutdown serprog_h 0x15 3 (init_state 16 300 4 [some 0x06, some 0x06])).bind
        (fun p => serprog_shutdown serprog_h 0x15 3 p.2)).map
        (fun p => (p.1, p.2.chan.tx, p.2.chan.rx, p.2.sp_streamed_ops_info, p.2.log))
      = some (0, [0x15, 0x00, 0x15, 0x00], [], none,
          [Event.free_ops_info, Event.serialport_shutdown, Event.free_write_n_buf,
           Event.serialport_shutdown, Event.free_write_n_buf]) :=
  ⟨rfl, rfl, rfl⟩

end Serprog

namespace Serprog

/-! ## `sp_check_stream_free` on every input -/

theorem StreamOK_congr {s s' : State} {q : List Nat} (h : StreamOK s q)
    (e1 : s'.sp_streamed_ops_info = s.sp_streamed_ops_info)
    (e2 : s'.sp_device_serbuf_size = s.sp_device_serbuf_size)
    (e3 : s'.sp_streamed_ops_roff = s.sp_streamed_ops_roff)
    (e4 : s'.sp_streamed_ops_woff = s.sp_streamed_ops_woff)
    (e5 : s'.sp_streamed_transmit_ops = s.sp_streamed_transmit_ops)
    (e6 : s'.sp_streamed_transmit_bytes = s.sp_streamed_transmit_bytes) : StreamOK s' q := by
  unfold StreamOK at *
  rw [e1, e2, e3, e4, e5, e6]
  exact h

theorem ack_run_nil : ack_run [] = 0 := rfl

theorem ack_run_none (r : List (Option Nat)) : ack_run (none :: r) = 0 := rfl

theorem ack_run_ack (r : List (Option Nat)) : ack_run (some S_ACK :: r) = ack_run r + 1 := by
  show (if S_ACK = S_ACK then ack_run r + 1 else 0) = _
  rw [if_pos rfl]

theorem ack_run_other {c : Nat} (hc : c ≠ S_ACK) (r : List (Option Nat)) :
    ack_run (some c :: r) = 0 := by
  show (if c = S_ACK then ack_run r + 1 else 0) = _
  rw [if_neg hc]

theorem ack_run_split : ∀ (rx : List (Option Nat)) (j : Nat), j ≤ ack_run rx →
    rx = List.replicate j (some S_ACK) ++ rx.drop j := by
  intro rx
  induction rx with
  | nil => intro j hj; rw [ack_run_nil] at hj; have : j = 0 := by omega
           subst this; rfl
  | cons c r ih =>
    intro j hj
    cases j with
    | zero => rfl
    | succ j =>
      cases c with
      | none => rw [ack_run_none] at hj; omega
      | some c =>
        by_cases hc : c = S_ACK
        · subst hc
          rw [ack_run_ack] at hj
          rw [List.replicate_succ, List.cons_append, List.drop_succ_cons]
          congr 1
          exact ih j (by omega)
        · rw [ack_run_other hc] at hj; omega

/-- The byte that ends the run of acknowledgements is not an `S_ACK`. -/
theorem ack_run_drop : ∀ (rx : List (Option Nat)) (c : Nat) (rest : List (Option Nat)),
    rx.drop (ack_run rx) = some c :: rest → c ≠ S_ACK := by
  intro rx
  induction rx with
  | nil => intro c rest h; simp at h
  | cons x r ih =>
    intro c rest h
    cases x with
    | none =>
      rw [ack_run_none] at h
      simp at h
    | some b =>
      by_cases hb : b = S_ACK
      · subst hb
        rw [ack_run_ack, List.drop_succ_cons] at h
        exact ih c rest h
      · rw [ack_run_other hb] at h
        simp only [List.drop_zero, List.cons.injEq, Option.some.injEq] at h
        rw [← h.1]; exact hb

theorem drained_drained (s : State) (q1 q2 : List Nat) (i j : Nat) :
    (s.drained i q1).drained j q2 = s.drained (i + j) q2 := by
  simp only [State.drained, List.drop_drop, Nat.mod_add_mod]
  congr 2
  omega

theorem drain_fail_step {s : State} {w : Nat} {q : List Nat} (k : Nat) :
    drain_fail (s.drained 1 q) q k = drain_fail s (w :: q) (k + 1) := by
  unfold drain_fail
  have e1 : (s.drained 1 q).chan.rx.drop k = s.chan.rx.drop (k + 1) := by
    simp [State.drained, List.drop_drop, Nat.add_comm]
  rw [e1]
  cases s.chan.rx.drop (k + 1) with
  | nil =>
    dsimp only
    rw [drained_drained, List.drop_succ_cons, Nat.add_comm 1 k]
  | cons c r =>
    cases c with
    | none =>
      dsimp only
      rw [drained_drained, List.drop_succ_cons, Nat.add_comm 1 k]
      congr 2
      simp [State.drained, List.drop_drop, Nat.add_comm, Nat.add_left_comm]
    | some c =>
      dsimp only
      rw [drained_drained, List.drop_succ_cons, Nat.add_comm 1 (k + 1), List.getD_cons_succ]

theorem StreamOK_drained_one {s : State} {w : Nat} {q : List Nat} (h : StreamOK s (w :: q)) :
    StreamOK (s.drained 1 q) q := by
  have := StreamOK_nil_drop h 1 (by simp)
  simpa using this

/-- The loop of `sp_check_stream_free` when the acknowledgements run out before
the target is met. -/
theorem sp_check_stream_free_loop_fail (target : Int) :
    ∀ (q : List Nat) (s : State), StreamOK s q →
      ack_run s.chan.rx < drain_count target q →
      sp_check_stream_free_loop target s.chan.rx s
        = (1, drain_fail s q (ack_run s.chan.rx)) := by
  intro q
  induction q with
  | nil => intro s _ h; simp [drain_count] at h
  | cons w q ih =>
    intro s hs hm
    have hpos := (drain_count_pos (Nat.lt_of_le_of_lt (Nat.zero_le _) hm)).2
    rw [drain_count_cons_pos hpos] at hm
    have hz := drained_zero hs
    cases hrx : s.chan.rx with
    | nil =>
      rw [ack_run_nil]
      unfold sp_check_stream_free_loop drain_fail
      rw [hrx]
      simp only [List.drop_zero]
      rw [hz]
    | cons c r =>
      have hs1 : StreamOK ({ s with chan := { s.chan with rx := r } } : State) (w :: q) :=
        StreamOK_congr hs rfl rfl rfl rfl rfl rfl
      have hg := sp_streamop_get_ok hs1
      have hd1 : ({ s with
          chan := { s.chan with rx := r }
          sp_streamed_ops_roff := (s.sp_streamed_ops_roff + 1) % s.sp_device_serbuf_size
          sp_streamed_transmit_ops := (q.length : Int)
          sp_streamed_transmit_bytes := sizes_sum q } : State) = s.drained 1 q := by
        simp [State.drained, hrx]
      dsimp only at hg hd1
      cases c with
      | none =>
        rw [ack_run_none]
        unfold sp_check_stream_free_loop drain_fail
        rw [hrx]
        simp only [List.drop_zero, List.drop_succ_cons]
        rw [hz]
      | some c =>
        unfold sp_check_stream_free_loop
        dsimp only
        rw [hg, hd1]
        dsimp only
        by_cases hnak : c = S_NAK
        · have hca : c ≠ S_ACK := by rw [hnak]; decide
          rw [if_pos hnak, ack_run_other hca]
          unfold drain_fail
          rw [hrx]
          simp only [List.drop_zero, List.drop_succ_cons, if_pos hnak, List.getD_cons_zero,
            Nat.zero_add]
        · rw [if_neg hnak]
          by_cases hca : c = S_ACK
          · subst hca
            rw [if_neg (by simp), ack_run_ack]
            rw [hrx, ack_run_ack] at hm
            have hm1 : ack_run r < drain_count target q := by omega
            have hpos1 := drain_count_pos (Nat.lt_of_le_of_lt (Nat.zero_le _) hm1)
            have hb : ¬ (s.drained 1 q).sp_streamed_transmit_bytes ≤ target := by
              simp only [drained_tbytes]; omega
            have hops : (s.drained 1 q).sp_streamed_transmit_ops ≠ 0 := by
              simp [State.drained, hpos1.1]
            rw [if_neg hb, if_pos hops]
            have hrx2 : (s.drained 1 q).chan.rx = r := by simp [State.drained, hrx]
            have := ih (s.drained 1 q) (StreamOK_drained_one hs) (by rw [hrx2]; exact hm1)
            rw [hrx2] at this
            rw [this, drain_fail_step]
          · rw [if_pos hca, ack_run_other hca]
            unfold drain_fail
            rw [hrx]
            simp only [List.drop_zero, List.drop_succ_cons, if_neg hnak, List.getD_cons_zero,
              Nat.zero_add]

/-- `sp_check_stream_free` on a consistent stream, whatever the device sends:
with `d` entries to drain and `m` acknowledgements at the head of the input, it
succeeds with exactly `d` bytes read and `d` entries popped when `d ≤ m`, and
fails in the state `drain_fail s q m` otherwise. -/
theorem sp_check_stream_free_char {s : State} {q : List Nat} (h : StreamOK s q) (len : Int) :
    sp_check_stream_free len s =
      if drain_count (stream_target s len) q ≤ ack_run s.chan.rx then
        (0, s.drained (drain_count (stream_target s len) q)
          (q.drop (drain_count (stream_target s len) q)))
      else (1, drain_fail s q (ack_run s.chan.rx)) := by
  by_cases hd : drain_count (stream_target s len) q ≤ ack_run s.chan.rx
  · rw [if_pos hd]
    exact sp_check_stream_free_ok h len _ (ack_run_split _ _ hd)
  · rw [if_neg hd]
    have hm : ack_run s.chan.rx < drain_count (stream_target s len) q := by omega
    have hpos := drain_count_pos (Nat.lt_of_le_of_lt (Nat.zero_le _) hm)
    unfold sp_check_stream_free
    have htgt : (if (s.sp_device_serbuf_size : Int) - len < 0 then (0 : Int)
        else (s.sp_device_serbuf_size : Int) - len) = stream_target s len := rfl
    simp only [htgt]
    have hc : stream_target s len < s.sp_streamed_transmit_bytes ∧
        s.sp_streamed_transmit_ops ≠ 0 := by
      refine ⟨by rw [h.2.2.2]; exact hpos.2, ?_⟩
      rw [h.2.2.1]
      intro h0
      exact hpos.1 (List.length_eq_zero.1 (by exact_mod_cast h0))
    rw [if_pos hc, sp_check_stream_free_loop_fail _ q s h hm]

end Serprog

namespace Serprog

theorem drain_count_zero_target : ∀ (q : List Nat), (∀ w ∈ q, 1 ≤ STREAMOP_SIZE w) →
    drain_count 0 q = q.length := by
  intro q
  induction q with
  | nil => intro _; rfl
  | cons w q ih =>
    intro h
    have h1 := length_le_sizes_sum (w :: q) h
    have hpos : (0 : Int) < sizes_sum (w :: q) := by
      simp only [List.length_cons, Nat.cast_add, Nat.cast_one] at h1
      omega
    rw [drain_count_cons_pos hpos, ih (fun x hx => h x (List.mem_cons_of_mem _ hx))]
    rfl

theorem stream_target_flush (s : State) :
    stream_target s (s.sp_device_serbuf_size : Int) = 0 := by
  unfold stream_target
  split <;> omega

theorem StreamOK_drain_fail_read {s : State} {q : List Nat} (h : StreamOK s q) {m : Nat}
    (hm : m ≤ q.length) (hrx : ∀ c rest, s.chan.rx.drop m ≠ some c :: rest) :
    StreamOK (drain_fail s q m) (q.drop m) ∧
    (drain_fail s q m).log = s.log ++ [Event.flush_read_error] := by
  have hd := StreamOK_nil_drop h m hm
  unfold drain_fail
  cases hx : s.chan.rx.drop m with
  | nil => exact ⟨StreamOK_congr hd rfl rfl rfl rfl rfl rfl, rfl⟩
  | cons c r =>
    cases c with
    | none => exact ⟨StreamOK_congr hd rfl rfl rfl rfl rfl rfl, rfl⟩
    | some c => exact absurd hx (hrx c r)

theorem StreamOK_drain_fail_byte {s : State} {q : List Nat} (h : StreamOK s q) {m : Nat}
    (hm : m + 1 ≤ q.length) {c : Nat} {rest : List (Option Nat)}
    (hrx : s.chan.rx.drop m = some c :: rest) :
    StreamOK (drain_fail s q m) (q.drop (m + 1)) ∧
    (drain_fail s q m).chan.rx = rest ∧
    (drain_fail s q m).log = s.log ++
      [if c = S_NAK then Event.stream_nak (STREAMOP_TYPE (q.getD m 0))
       else Event.stream_invalid_reply c (STREAMOP_TYPE (q.getD m 0))] := by
  have hd := StreamOK_nil_drop h (m + 1) hm
  have hr : s.chan.rx.drop (m + 1) = rest := by
    have : s.chan.rx.drop (m + 1) = (s.chan.rx.drop m).drop 1 := by
      rw [List.drop_drop, Nat.add_comm]
    rw [this, hrx]
    rfl
  unfold drain_fail
  rw [hrx]
  exact ⟨StreamOK_congr hd rfl rfl rfl rfl rfl rfl, hr, rfl⟩

/-- C17 (failing input): a FIFO filled with `serbuf_size` entries, then an
`S_NAK`.  First part: `sp_device_serbuf_size = 1`, a fresh session,
`serprog_chip_readb(0x1234)` answered with `S_NAK`.  The `R_BYTE` entry is put
at slot 0 and `woff` wraps onto `roff`; the flush reads the `S_NAK`,
`sp_streamop_get` finds `roff == woff`, reports an empty FIFO and returns 1,
and the diagnostic names the type of the word 1, `OPID_NONE`, not the
`OPID_READB` of the entry paired with the byte; the entry is not popped
(`sp_streamed_transmit_ops` stays 1, `roff` stays 0).  Second part:
`sp_device_serbuf_size = 16`, sixteen puts of an `OPID_WRITEB` entry from the
empty FIFO, then `sp_check_stream_free(5)` with an `S_NAK` on the channel: the
same happens. -/
theorem C17_nak_names_no_entry :
    (serprog_chip_readb serprog_h 1 0x1234 (init_state 1 300 0 [some S_NAK])).map
      (fun r => (r.2.log, r.2.sp_streamed_transmit_ops, r.2.sp_streamed_transmit_bytes,
        r.2.sp_streamed_ops_roff, r.2.sp_streamed_ops_woff,
        r.2.sp_streamed_ops_info.map (fun info => STREAMOP_TYPE (info.getD 0 0))))
      = some ([Event.get_empty_fifo, Event.stream_nak OPID_NONE, Event.readb_byteread],
          1, 4, 0, 0, some OPID_READB) ∧
    (sp_check_stream_free 5 (put_seq (List.replicate 16 (OPID_WRITEB, 5))
      (init_state 16 300 0 [some S_NAK]))).1 = 1 ∧
    (sp_check_stream_free 5 (put_seq (List.replicate 16 (OPID_WRITEB, 5))
      (init_state 16 300 0 [some S_NAK]))).2.log
      = [Event.get_empty_fifo, Event.stream_nak OPID_NONE] ∧
    (sp_check_stream_free 5 (put_seq (List.replicate 16 (OPID_WRITEB, 5))
      (init_state 16 300 0 [some S_NAK]))).2.sp_streamed_transmit_ops = 16 ∧
    (sp_check_stream_free 5 (put_seq (List.replicate 16 (OPID_WRITEB, 5))
      (init_state 16 300 0 [some S_NAK]))).2.sp_streamed_ops_roff = 0 := by
  refine ⟨rfl, by decide, by decide, by decide, by decide⟩

/-- On every stream state that satisfies the accounting invariant with the
words `q` in flight, for every `len` and every input, acknowledgements are
paired with FIFO entries in submission order and any non-ACK aborts:
let `d` be the number of entries to drain and `m` the number of `S_ACK` bytes
at the head of the input.  `sp_check_stream_free` fails exactly when `m < d`,
that is, when a read fails or a byte that is not `S_ACK` arrives before the
target is met.  When it succeeds it has read `d` bytes and popped the `d`
oldest entries.  When the read after `m` acknowledgements fails, it returns 1
with the `m` oldest entries popped and the others still in flight, in order.
When that read delivers a byte `c`, `c` is not `S_ACK`, it has been consumed,
the diagnostic names the type of `q[m]`, the entry paired with it, and exactly
the `m + 1` oldest entries have been popped, the others staying in flight in
order. -/
theorem sp_check_stream_free_pairs_acks {s : State} {q : List Nat} (h : StreamOK s q) (len : Int) :
    ((sp_check_stream_free len s).1 ≠ 0 ↔
      ack_run s.chan.rx < drain_count (stream_target s len) q) ∧
    (drain_count (stream_target s len) q ≤ ack_run s.chan.rx →
      sp_check_stream_free len s =
        (0, s.drained (drain_count (stream_target s len) q)
          (q.drop (drain_count (stream_target s len) q)))) ∧
    (ack_run s.chan.rx < drain_count (stream_target s len) q →
      (∀ c rest, s.chan.rx.drop (ack_run s.chan.rx) ≠ some c :: rest) →
      (sp_check_stream_free len s).1 = 1 ∧
      StreamOK (sp_check_stream_free len s).2 (q.drop (ack_run s.chan.rx)) ∧
      (sp_check_stream_free len s).2.log = s.log ++ [Event.flush_read_error]) ∧
    (∀ (c : Nat) (rest : List (Option Nat)),
      ack_run s.chan.rx < drain_count (stream_target s len) q →
      s.chan.rx.drop (ack_run s.chan.rx) = some c :: rest →
      c ≠ S_ACK ∧
      (sp_check_stream_free len s).1 = 1 ∧
      (sp_check_stream_free len s).2.chan.rx = rest ∧
      StreamOK (sp_check_stream_free len s).2 (q.drop (ack_run s.chan.rx + 1)) ∧
      (sp_check_stream_free len s).2.log = s.log ++
        [if c = S_NAK then Event.stream_nak (STREAMOP_TYPE (q.getD (ack_run s.chan.rx) 0))
         else Event.stream_invalid_reply c (STREAMOP_TYPE (q.getD (ack_run s.chan.rx) 0))]) := by
  have hchar := sp_check_stream_free_char h len
  have hle := drain_count_le (stream_target s len) q
  refine ⟨?_, ?_, ?_, ?_⟩
  · rw [hchar]
    by_cases hd : drain_count (stream_target s len) q ≤ ack_run s.chan.rx
    · rw [if_pos hd]
      constructor
      · intro h0; exact absurd rfl h0
      · intro hlt; omega
    · rw [if_neg hd]
      constructor
      · intro _; omega
      · intro _; exact Nat.one_ne_zero
  · intro hd
    rw [hchar, if_pos hd]
  · intro hm hrx
    rw [hchar, if_neg (by omega)]
    have := StreamOK_drain_fail_read h (by omega : ack_run s.chan.rx ≤ q.length) hrx
    exact ⟨rfl, this.1, this.2⟩
  · intro c rest hm hrx
    rw [hchar, if_neg (by omega)]
    have := StreamOK_drain_fail_byte h (by omega : ack_run s.chan.rx + 1 ≤ q.length) hrx
    exact ⟨ack_run_drop _ c rest hrx, rfl, this.2.1, this.1, this.2.2⟩

/-- An `O_WRITEB` and an `R_NBYTES` in flight, the serial buffer to be emptied,
`ACK NAK` on the channel: the `NAK` is paired with the second entry, the
diagnostic names `OPID_READN`, and both entries have been popped. -/
theorem sp_check_stream_free_pairs_acks_example :
    (sp_check_stream_free 16 (sp_streamop_put OPID_READN 7 (sp_streamop_put OPID_WRITEB 5
        (init_state 16 300 0 [some S_ACK, some S_NAK, some 0x77])))).1 = 1 ∧
    (sp_check_stream_free 16 (sp_streamop_put OPID_READN 7 (sp_streamop_put OPID_WRITEB 5
        (init_state 16 300 0 [some S_ACK, some S_NAK, some 0x77])))).2.chan.rx = [some 0x77] ∧
    (sp_check_stream_free 16 (sp_streamop_put OPID_READN 7 (sp_streamop_put OPID_WRITEB 5
        (init_state 16 300 0 [some S_ACK, some S_NAK, some 0x77])))).2.log
      = [] ++ [Event.stream_nak OPID_READN] :=
  have h := (sp_check_stream_free_pairs_acks (StreamOK_two [some S_ACK, some S_NAK, some 0x77]) 16).2.2.2
    S_NAK [some 0x77] (by decide) rfl
  ⟨h.2.1, h.2.2.1, h.2.2.2.2⟩

/-- C18: flush drains everything.  For every stream state that satisfies the
accounting invariant with the words `q` in flight (each of size at least 1):
when `sp_flush_stream` returns 0, then `sp_streamed_transmit_ops = 0`,
`sp_streamed_transmit_bytes = 0` and `roff = woff`, and it has read exactly
`q.length` bytes from the channel, the number of entries that were in flight,
all of them `S_ACK`. -/
theorem C18_flush_drains_everything {s : State} {q : List Nat} (h : StreamOK s q)
    (hret : (sp_flush_stream s).1 = 0) :
    (sp_flush_stream s).2.sp_streamed_transmit_ops = 0 ∧
    (sp_flush_stream s).2.sp_streamed_transmit_bytes = 0 ∧
    (sp_flush_stream s).2.sp_streamed_ops_roff = (sp_flush_stream s).2.sp_streamed_ops_woff ∧
    s.chan.rx = List.replicate q.length (some S_ACK) ++ (sp_flush_stream s).2.chan.rx ∧
    s.sp_streamed_transmit_ops = (q.length : Int) := by
  have hchar := sp_check_stream_free_char h (s.sp_device_serbuf_size : Int)
  have hd := drain_count_zero_target q h.2.1
  rw [stream_target_flush, hd] at hchar
  unfold sp_flush_stream at hret ⊢
  rw [hchar] at hret ⊢
  by_cases hm : q.length ≤ ack_run s.chan.rx
  · rw [if_pos hm]
    obtain ⟨⟨info, hinfo, hr⟩, -, hops, -⟩ := h
    refine ⟨?_, ?_, ?_, ?_, hops⟩
    · simp [State.drained]
    · simp [State.drained, sizes_sum_nil]
    · show (s.sp_streamed_ops_roff + q.length) % s.sp_device_serbuf_size = s.sp_streamed_ops_woff
      exact hr.2.2.2.1.symm
    · exact ack_run_split _ _ hm
  · rw [if_neg hm] at hret
    exact absurd hret Nat.one_ne_zero

theorem C18_flush_drains_everything_witness :
    (sp_flush_stream (sp_streamop_put OPID_READN 7 (sp_streamop_put OPID_WRITEB 5
        (init_state 16 300 0 [some S_ACK, some S_ACK, some 0x77])))).1 = 0 ∧
    (sp_flush_stream (sp_streamop_put OPID_READN 7 (sp_streamop_put OPID_WRITEB 5
        (init_state 16 300 0 [some S_ACK, some S_ACK, some 0x77])))).2.sp_streamed_transmit_ops
      = 0 ∧
    [some S_ACK, some S_ACK, some 0x77] = List.replicate 2 (some S_ACK) ++
      (sp_flush_stream (sp_streamop_put OPID_READN 7 (sp_streamop_put OPID_WRITEB 5
        (init_state 16 300 0 [some S_ACK, some S_ACK, some 0x77])))).2.chan.rx :=
  have h := C18_flush_drains_everything (StreamOK_two [some S_ACK, some S_ACK, some 0x77])
    (by decide)
  ⟨by decide, h.1, h.2.2.2.1⟩

end Serprog

namespace Serprog

/-! ## The accounting invariant on reachable stream states -/

theorem map_range_getD (q : List Nat) (f : Nat → Nat) :
    (List.range q.length).map (fun i => f (q.getD i 0)) = q.map f := by
  apply List.ext_getElem
  · simp
  · intro i h1 h2
    simp only [List.length_map, List.length_range] at h1
    simp [List.getD_eq_getElem?_getD, List.getElem?_eq_getElem h1]

theorem Accounted_of_StreamOK {s : State} {q : List Nat} (h : StreamOK s q) : Accounted s := by
  obtain ⟨⟨info, hinfo, hr⟩, _, hops, hbytes⟩ := h
  obtain ⟨_, hroff, hq, hwoff, hget⟩ := hr
  have hcnt : (s.sp_streamed_ops_woff + s.sp_device_serbuf_size - s.sp_streamed_ops_roff)
      % s.sp_device_serbuf_size = q.length := by
    by_cases hlt : s.sp_streamed_ops_roff + q.length < s.sp_device_serbuf_size
    · rw [Nat.mod_eq_of_lt hlt] at hwoff
      have e : s.sp_streamed_ops_woff + s.sp_device_serbuf_size - s.sp_streamed_ops_roff
          = q.length + s.sp_device_serbuf_size := by omega
      rw [e, Nat.add_mod_right, Nat.mod_eq_of_lt hq]
    · rw [Nat.mod_eq_sub_mod (by omega), Nat.mod_eq_of_lt (by omega)] at hwoff
      have e : s.sp_streamed_ops_woff + s.sp_device_serbuf_size - s.sp_streamed_ops_roff
          = q.length := by omega
      rw [e, Nat.mod_eq_of_lt hq]
  refine ⟨info, hinfo, ?_, ?_, ?_, ?_⟩
  · rw [hcnt, hops]
  · rw [hcnt, hbytes]
    unfold sizes_sum
    congr 2
    rw [← map_range_getD q STREAMOP_SIZE]
    apply List.map_congr_left
    intro i hi
    rw [hget i (by simpa using hi)]
  · rw [hops]; exact Int.natCast_nonneg _
  · rw [hbytes]; exact sizes_sum_nonneg q

theorem Accounted_iff {s : State} {info : List Nat} (hi : s.sp_streamed_ops_info = some info) :
    Accounted s ↔
      (s.sp_streamed_transmit_ops =
        (((s.sp_streamed_ops_woff + s.sp_device_serbuf_size - s.sp_streamed_ops_roff)
          % s.sp_device_serbuf_size : Nat) : Int) ∧
      s.sp_streamed_transmit_bytes =
        ((((List.range ((s.sp_streamed_ops_woff + s.sp_device_serbuf_size
              - s.sp_streamed_ops_roff) % s.sp_device_serbuf_size)).map
            (fun i => STREAMOP_SIZE
              (info.getD ((s.sp_streamed_ops_roff + i) % s.sp_device_serbuf_size) 0))).sum
          : Nat) : Int) ∧
      0 ≤ s.sp_streamed_transmit_ops ∧ 0 ≤ s.sp_streamed_transmit_bytes) := by
  constructor
  · rintro ⟨info1, h1, h⟩
    rw [hi] at h1
    cases h1
    exact h
  · intro h
    exact ⟨info, hi, h⟩

theorem put_ops_of_StreamOK {s : State} {q : List Nat} (h : StreamOK s q) (id len : Nat) :
    (sp_streamop_put id len s).sp_streamed_transmit_ops = (q.length : Int) + 1 := by
  obtain ⟨⟨info, hinfo, _⟩, _, hops, _⟩ := h
  unfold sp_streamop_put
  rw [hinfo]
  simp [hops]

theorem StreamOK_get {s : State} {q : List Nat} (h : StreamOK s q) :
    ∃ q1, StreamOK (sp_streamop_get s).2 q1 := by
  cases q with
  | nil =>
    obtain ⟨⟨info, hinfo, hr⟩, _, _, _⟩ := id h
    have hw : s.sp_streamed_ops_roff = s.sp_streamed_ops_woff := by
      have := hr.2.2.2.1
      simp only [List.length_nil, Nat.add_zero, Nat.mod_eq_of_lt hr.2.1] at this
      exact this.symm
    refine ⟨[], ?_⟩
    unfold sp_streamop_get
    rw [hinfo]
    dsimp only
    rw [if_pos hw]
    exact StreamOK_congr h rfl rfl rfl rfl rfl rfl
  | cons w q =>
    refine ⟨q, ?_⟩
    rw [sp_streamop_get_ok h]
    exact StreamOK_congr (StreamOK_drained_one h) rfl rfl rfl rfl rfl rfl

theorem sizes_sum_drop_le (q : List Nat) : ∀ k, sizes_sum (q.drop k) ≤ sizes_sum q := by
  induction q with
  | nil => intro k; simp
  | cons w q ih =>
    intro k
    cases k with
    | zero => simp
    | succ k =>
      rw [List.drop_succ_cons, sizes_sum_cons]
      have := ih k
      have : (0 : Int) ≤ (STREAMOP_SIZE w : Int) := Int.natCast_nonneg _
      omega

theorem StreamOK_drain_fail {s : State} {q : List Nat} (h : StreamOK s q) {m : Nat}
    (hm : m < q.length) : ∃ k, StreamOK (drain_fail s q m) (q.drop k) := by
  by_cases hx : ∃ c rest, s.chan.rx.drop m = some c :: rest
  · obtain ⟨c, rest, hx⟩ := hx
    exact ⟨_, (StreamOK_drain_fail_byte h (by omega) hx).1⟩
  · exact ⟨_, (StreamOK_drain_fail_read h (by omega)
      (fun c rest hcr => hx ⟨c, rest, hcr⟩)).1⟩

theorem drain_fail_serbuf (s : State) (q : List Nat) (m : Nat) :
    (drain_fail s q m).sp_device_serbuf_size = s.sp_device_serbuf_size := by
  unfold drain_fail
  cases s.chan.rx.drop m with
  | nil => rfl
  | cons c r =>
    cases c with
    | none => rfl
    | some c => rfl

/-- Whatever the device sends, `sp_check_stream_free` keeps the stream
consistent and never raises the bytes in flight; when it returns 0 they are at
most the target. -/
theorem StreamOK_check_free {s : State} {q : List Nat} (h : StreamOK s q) (len : Int) :
    ∃ q1, StreamOK (sp_check_stream_free len s).2 q1 ∧
      (sp_check_stream_free len s).2.sp_device_serbuf_size = s.sp_device_serbuf_size ∧
      (sp_check_stream_free len s).2.sp_streamed_transmit_bytes
        ≤ s.sp_streamed_transmit_bytes ∧
      ((sp_check_stream_free len s).1 = 0 →
        (sp_check_stream_free len s).2.sp_streamed_transmit_bytes ≤ stream_target s len) := by
  rw [sp_check_stream_free_char h len]
  have hle := drain_count_le (stream_target s len) q
  by_cases hd : drain_count (stream_target s len) q ≤ ack_run s.chan.rx
  · rw [if_pos hd]
    refine ⟨_, StreamOK_nil_drop h _ hle, rfl, ?_, fun _ => ?_⟩
    · show sizes_sum _ ≤ _
      rw [h.2.2.2]
      exact sizes_sum_drop_le q _
    · exact sizes_sum_drop_drain_count _ (stream_target_nonneg s len) q
  · rw [if_neg hd]
    obtain ⟨k, h1⟩ := StreamOK_drain_fail h (by omega : ack_run s.chan.rx < q.length)
    refine ⟨_, h1, drain_fail_serbuf s q _, ?_, fun h0 => absurd h0 Nat.one_ne_zero⟩
    rw [h1.2.2.2, h.2.2.2]
    exact sizes_sum_drop_le q k

theorem StreamOK_serialport_write {t : State} {q1 : List Nat} (ht : StreamOK t q1)
    (bs : List Nat) :
    StreamOK (serialport_write bs t).2 q1 ∧
    (serialport_write bs t).2.sp_device_serbuf_size = t.sp_device_serbuf_size := by
  unfold serialport_write
  split
  · exact ⟨ht, rfl⟩
  · exact ⟨StreamOK_congr ht rfl rfl rfl rfl rfl rfl, rfl⟩
  · exact ⟨StreamOK_congr ht rfl rfl rfl rfl rfl rfl, rfl⟩
  · exact ⟨StreamOK_congr ht rfl rfl rfl rfl rfl rfl, rfl⟩

theorem StreamOK_buffer_op {s : State} {q : List Nat} (h : StreamOK s q)
    (cmd parmlen : Nat) (parms : List Nat) (opid : Nat) (hlen : 1 + parmlen < 2 ^ 26)
    (hroom : (sp_stream_buffer_op cmd parmlen parms opid s).2.sp_streamed_transmit_ops
      < (s.sp_device_serbuf_size : Int)) :
    ∃ q1, StreamOK (sp_stream_buffer_op cmd parmlen parms opid s).2 q1 := by
  unfold sp_stream_buffer_op at hroom ⊢
  unfold sp_automatic_cmdcheck at hroom ⊢
  by_cases hc : s.sp_check_avail_automatic = true ∧ sp_check_commandavail cmd s = 0
  · rw [if_pos hc]
    exact ⟨q, StreamOK_congr h rfl rfl rfl rfl rfl rfl⟩
  · rw [if_neg hc] at hroom ⊢
    dsimp only at hroom ⊢
    obtain ⟨q1, h1, hser, -, -⟩ := StreamOK_check_free h ((1 + parmlen : Nat) : Int)
    generalize sp_check_stream_free ((1 + parmlen : Nat) : Int) s = r at h1 hroom hser ⊢
    obtain ⟨ret, s1⟩ := r
    dsimp only at h1 hroom hser ⊢
    rcases ret with _ | ret
    · dsimp only at hroom ⊢
      obtain ⟨h2, hser2⟩ := StreamOK_serialport_write h1 (cmd :: parms.take parmlen)
      generalize serialport_write (cmd :: parms.take parmlen) s1 = r2 at h2 hroom hser2 ⊢
      obtain ⟨ret2, s2⟩ := r2
      dsimp only at h2 hroom hser2 ⊢
      rcases ret2 with _ | ret2
      · dsimp only at hroom ⊢
        rw [put_ops_of_StreamOK h2] at hroom
        refine ⟨_, sp_streamop_put_ok h2 opid (1 + parmlen) (by omega) hlen ?_⟩
        rw [hser2, hser]
        omega
      · exact ⟨q1, StreamOK_congr h2 rfl rfl rfl rfl rfl rfl⟩
    · exact ⟨q1, h1⟩

theorem StreamOK_of_StreamReach {s0 : State} (h0 : StreamOK s0 []) {s : State}
    (h : StreamReach s0 s) : ∃ q, StreamOK s q := by
  induction h with
  | start => exact ⟨[], h0⟩
  | put s id len _ hl1 hl2 hroom ih =>
    obtain ⟨q, hq⟩ := ih
    rw [put_ops_of_StreamOK hq] at hroom
    exact ⟨_, sp_streamop_put_ok hq id len hl1 hl2 (by omega)⟩
  | get s _ ih =>
    obtain ⟨q, hq⟩ := ih
    exact StreamOK_get hq
  | check_free s len _ ih =>
    obtain ⟨q, hq⟩ := ih
    obtain ⟨q1, h1, -, -, -⟩ := StreamOK_check_free hq len
    exact ⟨q1, h1⟩
  | flush s _ ih =>
    obtain ⟨q, hq⟩ := ih
    obtain ⟨q1, h1, -, -, -⟩ := StreamOK_check_free hq (s.sp_device_serbuf_size : Int)
    exact ⟨q1, h1⟩
  | buffer_op s cmd parmlen parms opid _ hlen hroom ih =>
    obtain ⟨q, hq⟩ := ih
    exact StreamOK_buffer_op hq cmd parmlen parms opid hlen hroom

end Serprog

namespace Serprog

/-- C11 (counterexample): two states reached from the empty FIFO of a
16-entry ring by `sp_streamop_put` alone.  After sixteen puts of a 5-byte entry
`woff` has wrapped onto `roff`, so `(woff - roff) mod serbuf_size` is 0 while
`sp_streamed_transmit_ops` is 16.  After one put of an entry of `2 ^ 26` bytes
`sp_streamed_transmit_bytes` is `2 ^ 26` while the size field of the entry,
which has 26 bits, holds 0. -/
theorem C11_counters_differ_from_ring :
    ¬ Accounted (put_seq (List.replicate 16 (OPID_WRITEB, 5)) (init_state 16 300 0 [])) ∧
    (put_seq (List.replicate 16 (OPID_WRITEB, 5))
      (init_state 16 300 0 [])).sp_streamed_transmit_ops = 16 ∧
    (put_seq (List.replicate 16 (OPID_WRITEB, 5))
      (init_state 16 300 0 [])).sp_streamed_ops_woff = 0 ∧
    (put_seq (List.replicate 16 (OPID_WRITEB, 5))
      (init_state 16 300 0 [])).sp_streamed_ops_roff = 0 ∧
    ¬ Accounted (sp_streamop_put OPID_WRITEN (2 ^ 26) (init_state 16 300 0 [])) ∧
    (sp_streamop_put OPID_WRITEN (2 ^ 26)
      (init_state 16 300 0 [])).sp_streamed_transmit_bytes = 2 ^ 26 ∧
    ((sp_streamop_put OPID_WRITEN (2 ^ 26)
      (init_state 16 300 0 [])).sp_streamed_ops_info.map
        (fun info => STREAMOP_SIZE (info.getD 0 0))) = some 0 := by
  refine ⟨fun h => absurd ((Accounted_iff rfl).1 h).1 (by decide), by decide, by decide,
    by decide, fun h => absurd ((Accounted_iff rfl).1 h).2.1 (by decide), by decide, by decide⟩

/-- C11 (amended): the stream accounting invariant.  In every state reached
from the empty FIFO (allocated ring of `serbuf_size` words, `woff = roff = 0`,
`sp_streamed_transmit_ops = 0`, `sp_streamed_transmit_bytes = 0`) by
`sp_streamop_put`, `sp_streamop_get`, `sp_check_stream_free`, `sp_flush_stream`
and `sp_stream_buffer_op`, whatever the device sends, as long as every entry
put stands for 1 to `2 ^ 26 - 1` bytes and no put leaves `serbuf_size` entries
in flight: `sp_streamed_transmit_ops` is `(woff - roff) mod serbuf_size`, the
number of entries between `roff` and `woff`, `sp_streamed_transmit_bytes` is
the sum of the size fields of those entries, and both are non-negative. -/
theorem C11_stream_accounting {s0 s : State} (info0 : List Nat)
    (hinfo : s0.sp_streamed_ops_info = some info0)
    (hlen : info0.length = s0.sp_device_serbuf_size)
    (hcap : 0 < s0.sp_device_serbuf_size)
    (hwoff : s0.sp_streamed_ops_woff = 0) (hroff : s0.sp_streamed_ops_roff = 0)
    (hops : s0.sp_streamed_transmit_ops = 0) (hbytes : s0.sp_streamed_transmit_bytes = 0)
    (h : StreamReach s0 s) : Accounted s := by
  have h0 : StreamOK s0 [] :=
    StreamOK_empty info0 hinfo hlen (by rw [hroff]; exact hcap) (by rw [hwoff, hroff]) hops hbytes
  obtain ⟨q, hq⟩ := StreamOK_of_StreamReach h0 h
  exact Accounted_of_StreamOK hq

/-- A put of a 5-byte entry, a submission of a 7-byte command and a drain for
16 bytes on a device that answers `ACK NAK`: the state reached is accounted
for. -/
theorem C11_stream_accounting_witness :
    Accounted (sp_check_stream_free 16
      (sp_stream_buffer_op 0x0A 6 [0, 0, 0, 1, 0, 0] OPID_READN
        (sp_streamop_put OPID_WRITEB 5
          (init_state 16 300 0 [some S_ACK, some S_NAK]))).2).2 :=
  @C11_stream_accounting (init_state 16 300 0 [some S_ACK, some S_NAK]) _
    (List.replicate 16 0) rfl rfl (by decide) rfl rfl rfl rfl
    (StreamReach.check_free _ 16
      (StreamReach.buffer_op _ 0x0A 6 [0, 0, 0, 1, 0, 0] OPID_READN
        (StreamReach.put (init_state 16 300 0 [some S_ACK, some S_NAK]) OPID_WRITEB 5
          StreamReach.start (by decide) (by decide) (by decide))
        (by decide) (by decide)))

end Serprog

namespace Serprog

theorem put_tbytes_of_StreamOK {s : State} {q : List Nat} (h : StreamOK s q) (id len : Nat) :
    (sp_streamop_put id len s).sp_streamed_transmit_bytes
      = s.sp_streamed_transmit_bytes + (len : Int) := by
  obtain ⟨⟨info, hinfo, _⟩, _, _, _⟩ := h
  unfold sp_streamop_put
  rw [hinfo]

theorem serialport_write_tbytes (bs : List Nat) (t : State) :
    (serialport_write bs t).2.sp_streamed_transmit_bytes = t.sp_streamed_transmit_bytes := by
  unfold serialport_write
  split <;> rfl

/-- The bytes in flight after `sp_stream_buffer_op`, whatever the device does:
never more than before or than `max(0, serbuf_size - len) + len`. -/
theorem sp_stream_buffer_op_tbytes {s : State} {q : List Nat} (h : StreamOK s q)
    (cmd parmlen : Nat) (parms : List Nat) (opid : Nat) :
    ((sp_stream_buffer_op cmd parmlen parms opid s).1 = 0 →
      (sp_stream_buffer_op cmd parmlen parms opid s).2.sp_streamed_transmit_bytes
        ≤ stream_target s ((1 + parmlen : Nat) : Int) + ((1 + parmlen : Nat) : Int) ∧
      ((1 + parmlen : Nat) : Int)
        ≤ (sp_stream_buffer_op cmd parmlen parms opid s).2.sp_streamed_transmit_bytes) ∧
    ((sp_stream_buffer_op cmd parmlen parms opid s).1 ≠ 0 →
      (sp_stream_buffer_op cmd parmlen parms opid s).2.sp_streamed_transmit_bytes
        ≤ s.sp_streamed_transmit_bytes) := by
  unfold sp_stream_buffer_op
  unfold sp_automatic_cmdcheck
  by_cases hc : s.sp_check_avail_automatic = true ∧ sp_check_commandavail cmd s = 0
  · rw [if_pos hc]
    exact ⟨fun h0 => absurd h0 Nat.one_ne_zero, fun _ => Int.le_refl _⟩
  · rw [if_neg hc]
    dsimp only
    obtain ⟨q1, h1, -, hle, htg⟩ := StreamOK_check_free h ((1 + parmlen : Nat) : Int)
    generalize sp_check_stream_free ((1 + parmlen : Nat) : Int) s = r at h1 hle htg ⊢
    obtain ⟨ret, s1⟩ := r
    dsimp only at h1 hle htg ⊢
    rcases ret with _ | ret
    · dsimp only
      have htg1 := htg rfl
      obtain ⟨h2, -⟩ := StreamOK_serialport_write h1 (cmd :: parms.take parmlen)
      have hb2 := serialport_write_tbytes (cmd :: parms.take parmlen) s1
      generalize serialport_write (cmd :: parms.take parmlen) s1 = r2 at h2 hb2 ⊢
      obtain ⟨ret2, s2⟩ := r2
      dsimp only at h2 hb2 ⊢
      rcases ret2 with _ | ret2
      · dsimp only
        refine ⟨fun _ => ?_, fun h0 => absurd rfl h0⟩
        rw [put_tbytes_of_StreamOK h2, hb2]
        have hnn : 0 ≤ s1.sp_streamed_transmit_bytes := by
          rw [h1.2.2.2]; exact sizes_sum_nonneg q1
        constructor <;> omega
      · refine ⟨fun h0 => absurd h0 Nat.one_ne_zero, fun _ => ?_⟩
        show s2.sp_streamed_transmit_bytes ≤ _
        rw [hb2]; exact hle
    · exact ⟨fun h0 => absurd h0 Nat.one_ne_zero, fun _ => hle⟩

/-- The bytes in flight after the `O_WRITEN` path of `sp_pass_writen` when its
reservation triggers no early execute: the call returns, and they are never more
than before or than `max(0, serbuf_size - (7 + n)) + 7 + n`. -/
theorem sp_pass_writen_tbytes (oc : Opcodes) (fuel : Nat) {s : State} {q : List Nat}
    (h : StreamOK s q) (hn : s.sp_write_n_bytes ≠ 1)
    (hu : s.sp_opbuf_usage + ((7 + s.sp_write_n_bytes : Nat) : Int) < s.sp_device_opbuf_size) :
    ∃ ret s', sp_pass_writen oc (fuel + 2) s = some (ret, s') ∧
      (ret = 0 → s'.sp_streamed_transmit_bytes
        ≤ stream_target s ((7 + s.sp_write_n_bytes : Nat) : Int)
          + ((7 + s.sp_write_n_bytes : Nat) : Int)) ∧
      (ret ≠ 0 → s'.sp_streamed_transmit_bytes ≤ s.sp_streamed_transmit_bytes) := by
  rw [sp_pass_writen]
  obtain ⟨q1, h1, -, hle, htg⟩ := StreamOK_check_free h ((7 + s.sp_write_n_bytes : Nat) : Int)
  have hk := sp_check_stream_free_keeps ((7 + s.sp_write_n_bytes : Nat) : Int) s
  generalize sp_check_stream_free ((7 + s.sp_write_n_bytes : Nat) : Int) s = r
    at h1 hle htg hk ⊢
  obtain ⟨ret, s1⟩ := r
  dsimp only at h1 hle htg hk ⊢
  rcases ret with _ | ret
  · dsimp only
    have htg1 := htg rfl
    rw [if_neg (by rw [hk.n]; exact hn),
      sp_check_opbuf_usage_skip oc fuel _ s1 (by rw [hk.usage, hk.n, hk.opbuf]; exact hu)]
    dsimp only
    generalize ([oc.S_CMD_O_WRITEN, (s1.sp_write_n_bytes >>> 0) &&& 0xFF,
      (s1.sp_write_n_bytes >>> 8) &&& 0xFF, (s1.sp_write_n_bytes >>> 16) &&& 0xFF,
      (s1.sp_write_n_addr >>> 0) &&& 0xFF, (s1.sp_write_n_addr >>> 8) &&& 0xFF,
      (s1.sp_write_n_addr >>> 16) &&& 0xFF] : List Nat) = hdr
    obtain ⟨h3, -⟩ := StreamOK_serialport_write h1 hdr
    have hb3 := serialport_write_tbytes hdr s1
    have hk3 := serialport_write_keeps hdr s1
    generalize serialport_write hdr s1 = r3 at h3 hb3 hk3 ⊢
    obtain ⟨ret3, s3⟩ := r3
    dsimp only at h3 hb3 hk3 ⊢
    rcases ret3 with _ | ret3
    · dsimp only
      obtain ⟨h4, -⟩ := StreamOK_serialport_write h3 (s3.sp_write_n_buf.take s3.sp_write_n_bytes)
      have hb4 := serialport_write_tbytes (s3.sp_write_n_buf.take s3.sp_write_n_bytes) s3
      have hk4 := serialport_write_keeps (s3.sp_write_n_buf.take s3.sp_write_n_bytes) s3
      generalize serialport_write (s3.sp_write_n_buf.take s3.sp_write_n_bytes) s3 = r4
        at h4 hb4 hk4 ⊢
      obtain ⟨ret4, s4⟩ := r4
      dsimp only at h4 hb4 hk4 ⊢
      rcases ret4 with _ | ret4
      · dsimp only
        refine ⟨_, _, rfl, fun _ => ?_, fun h0 => absurd rfl h0⟩
        show (sp_streamop_put OPID_WRITEN (7 + s4.sp_write_n_bytes) s4).sp_streamed_transmit_bytes
          ≤ _
        rw [put_tbytes_of_StreamOK h4, hb4, hb3, hk4.n, hk3.n, hk.n]
        omega
      · refine ⟨_, _, rfl, fun h0 => absurd h0 (Nat.succ_ne_zero _), fun _ => ?_⟩
        show s4.sp_streamed_transmit_bytes ≤ _
        rw [hb4, hb3]; exact hle
    · refine ⟨_, _, rfl, fun h0 => absurd h0 (Nat.succ_ne_zero _), fun _ => ?_⟩
      show s3.sp_streamed_transmit_bytes ≤ _
      rw [hb3]; exact hle
  · exact ⟨_, _, rfl, fun h0 => absurd h0 (Nat.succ_ne_zero _), fun _ => hle⟩

theorem stream_target_add_le (s : State) (len : Nat) (hfit : len ≤ s.sp_device_serbuf_size) :
    stream_target s (len : Int) + (len : Int) ≤ (s.sp_device_serbuf_size : Int) := by
  unfold stream_target
  split <;> omega

theorem stream_target_long (s : State) (len : Nat) (hlong : s.sp_device_serbuf_size < len) :
    stream_target s (len : Int) = 0 := by
  unfold stream_target
  split <;> omega

/-- C12 (counterexample): `sp_device_serbuf_size = 16`, nothing in flight, an
`O_SPIOP` command of 27 bytes.  `sp_stream_buffer_op` returns 0 with
`sp_streamed_transmit_bytes = 27 > 16`: when the command is longer than the
serial buffer the target is clamped to 0, the FIFO is drained and the command
is sent whole. -/
theorem C12_long_command_exceeds_serbuf :
    (sp_stream_buffer_op 0x13 26 (List.replicate 26 0) OPID_SPIOP
      (init_state 16 300 0 [])).1 = 0 ∧
    (sp_stream_buffer_op 0x13 26 (List.replicate 26 0) OPID_SPIOP
      (init_state 16 300 0 [])).2.sp_streamed_transmit_bytes = 27 ∧
    (sp_stream_buffer_op 0x13 26 (List.replicate 26 0) OPID_SPIOP
      (init_state 16 300 0 [])).2.sp_device_serbuf_size = 16 := by
  refine ⟨by decide, by decide, by decide⟩

/-- C12 (amended): the in-flight byte bound.  From every stream state that
satisfies the accounting invariant with at most `serbuf_size` bytes in flight,
whatever the device does: after `sp_stream_buffer_op` with a command of
`1 + parmlen ≤ serbuf_size` bytes returns (with success or failure),
`sp_streamed_transmit_bytes ≤ serbuf_size`; after a successful
`sp_stream_buffer_op` with a longer command, `sp_streamed_transmit_bytes` is
exactly the length of that command, everything else having been drained; and
the `O_WRITEN` path of `sp_pass_writen`, when `7 + n ≤ serbuf_size` and its
reservation triggers no early execute, returns with
`sp_streamed_transmit_bytes ≤ serbuf_size`. -/
theorem C12_in_flight_bound {s : State} {q : List Nat} (h : StreamOK s q)
    (hb : s.sp_streamed_transmit_bytes ≤ (s.sp_device_serbuf_size : Int)) :
    (∀ (cmd parmlen : Nat) (parms : List Nat) (opid : Nat),
      1 + parmlen ≤ s.sp_device_serbuf_size →
      (sp_stream_buffer_op cmd parmlen parms opid s).2.sp_streamed_transmit_bytes
        ≤ (s.sp_device_serbuf_size : Int)) ∧
    (∀ (cmd parmlen : Nat) (parms : List Nat) (opid : Nat),
      s.sp_device_serbuf_size < 1 + parmlen →
      (sp_stream_buffer_op cmd parmlen parms opid s).1 = 0 →
      (sp_stream_buffer_op cmd parmlen parms opid s).2.sp_streamed_transmit_bytes
        = ((1 + parmlen : Nat) : Int)) ∧
    (∀ (oc : Opcodes) (fuel : Nat), s.sp_write_n_bytes ≠ 1 →
      s.sp_opbuf_usage + ((7 + s.sp_write_n_bytes : Nat) : Int) < s.sp_device_opbuf_size →
      7 + s.sp_write_n_bytes ≤ s.sp_device_serbuf_size →
      ∃ ret s', sp_pass_writen oc (fuel + 2) s = some (ret, s') ∧
        s'.sp_streamed_transmit_bytes ≤ (s.sp_device_serbuf_size : Int)) := by
  refine ⟨fun cmd parmlen parms opid hfit => ?_, fun cmd parmlen parms opid hlong h0 => ?_,
    fun oc fuel hn hu hfit => ?_⟩
  · have hsb := sp_stream_buffer_op_tbytes h cmd parmlen parms opid
    have ht := stream_target_add_le s (1 + parmlen) hfit
    by_cases h0 : (sp_stream_buffer_op cmd parmlen parms opid s).1 = 0
    · have := (hsb.1 h0).1
      omega
    · have := hsb.2 h0
      omega
  · have hsb := (sp_stream_buffer_op_tbytes h cmd parmlen parms opid).1 h0
    rw [stream_target_long s (1 + parmlen) hlong] at hsb
    omega
  · obtain ⟨ret, s', he, hz, hnz⟩ := sp_pass_writen_tbytes oc fuel h hn hu
    refine ⟨ret, s', he, ?_⟩
    have ht := stream_target_add_le s (7 + s.sp_write_n_bytes) hfit
    by_cases h0 : ret = 0
    · have := hz h0
      omega
    · have := hnz h0
      omega

/-- With an `O_WRITEB` and an `R_NBYTES` in flight (12 of 16 bytes), a further
7-byte command leaves at most 16 bytes in flight, here on a device that has not
answered yet. -/
theorem C12_in_flight_bound_witness :
    (sp_stream_buffer_op 0x0A 6 [0, 0, 0, 1, 0, 0] OPID_READN
      (sp_streamop_put OPID_READN 7 (sp_streamop_put OPID_WRITEB 5
        (init_state 16 300 0 [])))).2.sp_streamed_transmit_bytes ≤ ((16 : Nat) : Int) :=
  (C12_in_flight_bound (StreamOK_two []) (by decide)).1 0x0A 6 [0, 0, 0, 1, 0, 0] OPID_READN
    (by decide)

end Serprog

namespace Serprog

end Serprog

namespace Serprog

/-! ## `serprog_chip_readn` as a list of chunks -/

theorem read_chunks_small (a len m : Nat) (h : len < m) :
    read_chunks a len m = if len ≠ 0 then [(a, len)] else [] := by
  unfold read_chunks
  rw [Nat.div_eq_of_lt h, Nat.mod_eq_of_lt h]
  simp

theorem read_chunks_step (a len m : Nat) (hm : 0 < m) (h : m ≤ len) :
    read_chunks a len m = (a, m) :: read_chunks (a + m) (len - m) m := by
  unfold read_chunks
  have hd : len / m = (len - m) / m + 1 := by
    rw [Nat.div_eq_sub_div hm h]
  have hr : len % m = (len - m) % m := by
    rw [Nat.mod_eq_sub_mod h]
  rw [hd, hr, List.range_succ_eq_map, List.map_cons, List.map_map, List.cons_append]
  congr 1
  · simp
  · congr 1
    · apply List.map_congr_left
      intro i _
      simp only [Function.comp, Nat.succ_eq_add_one, Prod.mk.injEq, and_true]
      rw [Nat.add_mul]
      omega
    · congr 2
      rw [Nat.add_mul]
      simp only [Prod.mk.injEq, and_true]
      omega

theorem read_chunks_zero (a m : Nat) : read_chunks a 0 m = [] := by
  unfold read_chunks
  simp

theorem read_chunks_last (a len m : Nat) (h0 : len ≠ 0) (h : len ≤ m) :
    read_chunks a len m = [(a, len)] := by
  rcases Nat.lt_or_eq_of_le h with hlt | heq
  · rw [read_chunks_small a len m hlt, if_pos h0]
  · subst heq
    rw [read_chunks_step a len len (by omega) (Nat.le_refl _), Nat.sub_self, read_chunks_zero]

theorem run_chunks_nil (oc : Opcodes) (addr fuel : Nat) (buf : List Nat) (s : State) :
    run_chunks oc addr fuel [] buf s = some (buf, s) := by
  cases fuel <;> rfl

/-- The loop of `serprog_chip_readn` issues the reads of `read_chunks`, in
order. -/
theorem readn_loop_chunks (oc : Opcodes) (addr : Nat) :
    ∀ (fuel addrm lenm : Nat) (buf : List Nat) (s : State), 0 < s.sp_max_read_n →
      (fuel ≠ 0 ∨ lenm ≠ 0) →
      serprog_chip_readn_loop oc addr fuel addrm lenm buf s
        = run_chunks oc addr fuel (read_chunks addrm lenm s.sp_max_read_n) buf s := by
  intro fuel
  induction fuel with
  | zero =>
    intro addrm lenm buf s hm h
    have hl : lenm ≠ 0 := by
      rcases h with h | h
      · exact absurd rfl h
      · exact h
    rw [serprog_chip_readn_loop]
    by_cases hle : lenm ≤ s.sp_max_read_n
    · rw [read_chunks_last addrm lenm _ hl hle]; rfl
    · rw [read_chunks_step addrm lenm _ hm (by omega)]; rfl
  | succ fuel ih =>
    intro addrm lenm buf s hm _
    rw [serprog_chip_readn_loop]
    by_cases hc : s.sp_max_read_n ≠ 0 ∧ lenm > s.sp_max_read_n
    · rw [if_pos hc, read_chunks_step addrm lenm _ hm (by omega), run_chunks]
      cases hd : sp_do_read_n oc fuel addrm s.sp_max_read_n s with
      | none => rfl
      | some p =>
        obtain ⟨r1, data, s1⟩ := p
        dsimp only
        have hmax := (sp_do_read_n_ok oc fuel addrm _ hd).1.maxr
        rw [ih _ _ _ s1 (by rw [hmax]; exact hm) (Or.inr (by omega)), hmax]
    · rw [if_neg hc]
      have hle : lenm ≤ s.sp_max_read_n := by
        by_contra hgt
        exact hc ⟨by omega, by omega⟩
      by_cases hl : lenm ≠ 0
      · rw [if_pos hl, read_chunks_last addrm lenm _ hl hle, run_chunks]
        cases hd : sp_do_read_n oc fuel addrm lenm s with
        | none => rfl
        | some p =>
          obtain ⟨r1, data, s1⟩ := p
          dsimp only
          rw [run_chunks_nil]
      · rw [if_neg hl]
        have h0 : lenm = 0 := by omega
        rw [h0, read_chunks_zero, run_chunks_nil]

/-- Without a read-n limit the whole range is read by one command. -/
theorem readn_loop_unlimited (oc : Opcodes) (addr fuel addrm lenm : Nat) (buf : List Nat)
    (s : State) (hm : s.sp_max_read_n = 0) :
    serprog_chip_readn_loop oc addr (fuel + 1) addrm lenm buf s
      = run_chunks oc addr (fuel + 1) (if lenm ≠ 0 then [(addrm, lenm)] else []) buf s := by
  rw [serprog_chip_readn_loop, if_neg (by rw [hm]; simp)]
  by_cases hl : lenm ≠ 0
  · rw [if_pos hl, if_pos hl, run_chunks]
    cases hd : sp_do_read_n oc fuel addrm lenm s with
    | none => rfl
    | some p =>
      obtain ⟨r1, data, s1⟩ := p
      dsimp only
      rw [run_chunks_nil]
  · rw [if_neg hl, if_neg hl, run_chunks_nil]

theorem read_chunks_length (a len m : Nat) (hm : 0 < m) :
    (read_chunks a len m).length = (len + m - 1) / m := by
  unfold read_chunks
  rw [List.length_append, List.length_map, List.length_range]
  have hdm := Nat.div_add_mod len m
  have hlt := Nat.mod_lt len hm
  by_cases hr : len % m ≠ 0
  · rw [if_pos hr]
    symm
    apply Nat.div_eq_of_lt_le
    · show (len / m + 1) * m ≤ len + m - 1
      rw [Nat.add_mul, Nat.mul_comm (len / m) m]
      omega
    · show len + m - 1 < (len / m + 1 + 1) * m
      rw [Nat.add_mul, Nat.add_mul, Nat.mul_comm (len / m) m]
      omega
  · rw [if_neg hr]
    symm
    apply Nat.div_eq_of_lt_le
    · show (len / m) * m ≤ len + m - 1
      rw [Nat.mul_comm (len / m) m]
      omega
    · show len + m - 1 < (len / m + 1) * m
      rw [Nat.add_mul, Nat.mul_comm (len / m) m]
      omega

theorem read_chunks_sum (a len m : Nat) :
    ((read_chunks a len m).map Prod.snd).sum = len := by
  unfold read_chunks
  have hdm := Nat.div_add_mod len m
  rw [List.map_append, List.sum_append, List.map_map]
  have h1 : ((List.range (len / m)).map (Prod.snd ∘ fun i => (a + i * m, m))).sum
      = (len / m) * m := by
    have : (Prod.snd ∘ fun i => (a + i * m, m)) = fun _ : Nat => m := rfl
    rw [this, List.map_const', List.sum_replicate, List.length_range]
    rfl
  rw [h1, Nat.mul_comm]
  by_cases hr : len % m ≠ 0
  · rw [if_pos hr]
    simp only [List.map_cons, List.map_nil, List.sum_cons, List.sum_nil, Nat.add_zero]
    exact hdm
  · rw [if_neg hr]
    simp only [List.map_nil, List.sum_nil, Nat.add_zero]
    omega

theorem read_chunks_mem (a len m : Nat) (hm : 0 < m) :
    ∀ p ∈ read_chunks a len m, 1 ≤ p.2 ∧ p.2 ≤ m ∧ a ≤ p.1 ∧ p.1 + p.2 ≤ a + len := by
  intro p hp
  unfold read_chunks at hp
  have hdm := Nat.div_add_mod len m
  have hlt := Nat.mod_lt len hm
  rcases List.mem_append.1 hp with hp | hp
  · obtain ⟨i, hi, rfl⟩ := List.mem_map.1 hp
    rw [List.mem_range] at hi
    refine ⟨hm, Nat.le_refl _, by omega, ?_⟩
    show a + i * m + m ≤ a + len
    have : (i + 1) * m ≤ (len / m) * m := Nat.mul_le_mul_right m hi
    rw [Nat.add_mul, Nat.mul_comm (len / m) m] at this
    omega
  · by_cases hr : len % m ≠ 0
    · rw [if_pos hr, List.mem_singleton] at hp
      subst hp
      refine ⟨by show 1 ≤ len % m; omega, by show len % m ≤ m; omega, by show a ≤ a + _; omega, ?_⟩
      show a + len / m * m + len % m ≤ a + len
      rw [Nat.mul_comm (len / m) m]
      omega
    · rw [if_neg hr] at hp
      cases hp

theorem read_chunks_getD (a len m : Nat) (i : Nat) (hi : i < (read_chunks a len m).length) :
    ((read_chunks a len m).getD i (0, 0)).1 = a + i * m ∧
    (i + 1 < (read_chunks a len m).length → ((read_chunks a len m).getD i (0, 0)).2 = m) := by
  unfold read_chunks at hi ⊢
  rw [List.length_append, List.length_map, List.length_range] at hi ⊢
  by_cases hq : i < len / m
  · have e : ((List.range (len / m)).map (fun i => (a + i * m, m)) ++
        (if len % m ≠ 0 then [(a + (len / m) * m, len % m)] else [])).getD i (0, 0)
        = (a + i * m, m) := by
      rw [List.getD_eq_getElem?_getD, List.getElem?_append_left (by simpa using hq)]
      simp [List.getElem?_range hq]
    rw [e]
    exact ⟨rfl, fun _ => rfl⟩
  · by_cases hr : len % m ≠ 0
    · rw [if_pos hr] at hi ⊢
      simp only [List.length_singleton] at hi ⊢
      have hiq : i = len / m := by omega
      subst hiq
      have e : ((List.range (len / m)).map (fun i => (a + i * m, m)) ++
          [(a + (len / m) * m, len % m)]).getD (len / m) (0, 0)
          = (a + (len / m) * m, len % m) := by
        rw [List.getD_eq_getElem?_getD, List.getElem?_append_right (by simp)]
        simp
      rw [e]
      exact ⟨rfl, fun h => by omega⟩
    · rw [if_neg hr] at hi
      simp only [List.length_nil, Nat.add_zero] at hi
      omega

/-- With nothing queued, `sp_do_read_n` returns at every call depth and leaves
nothing queued. -/
theorem sp_do_read_n_idle (oc : Opcodes) (fuel a l : Nat) (s : State)
    (hu : s.sp_opbuf_usage = 0) (hp : ¬ Pending s) :
    ∃ r data s', sp_do_read_n oc fuel a l s = some (r, data, s') ∧
      s'.sp_opbuf_usage = 0 ∧ ¬ Pending s' := by
  have hidle : ∀ t : State, Keeps s t → t.sp_opbuf_usage = 0 ∧ ¬ Pending t := by
    intro t k
    refine ⟨by rw [k.usage]; exact hu, fun hpt => hp ⟨?_, ?_⟩⟩
    · rw [← k.maxw]; exact hpt.1
    · rw [← k.n]; exact hpt.2
  unfold sp_do_read_n sp_execute_before_read
  have hc : ¬ (s.sp_opbuf_usage ≠ 0 ∨ (s.sp_max_write_n ≠ 0 ∧ s.sp_write_n_bytes ≠ 0)) :=
    fun hc => hc.elim (fun h => h hu) hp
  rw [if_neg hc]
  dsimp only
  generalize hg2 : sp_stream_buffer_op oc.S_CMD_R_NBYTES 6 _ OPID_READN s = r2
  have k2 : Keeps s r2.2 := by rw [← hg2]; exact sp_stream_buffer_op_keeps _ _ _ _ _
  obtain ⟨ret2, s2⟩ := r2
  dsimp only at k2 ⊢
  have k3 : Keeps s2 (sp_flush_stream s2).2 := sp_flush_stream_keeps s2
  generalize sp_flush_stream s2 = r3 at k3 ⊢
  obtain ⟨ret3, s3⟩ := r3
  dsimp only at k3 ⊢
  rcases ret3 with _ | ret3
  · dsimp only
    have k4 : Keeps s3 (serialport_read l s3).2.2 := serialport_read_keeps l s3
    generalize serialport_read l s3 = r4 at k4 ⊢
    obtain ⟨ret4, data, s4⟩ := r4
    dsimp only at k4 ⊢
    rcases ret4 with _ | ret4
    · exact ⟨_, _, _, rfl, hidle _ (Keeps_trans k2 (Keeps_trans k3 k4))⟩
    · exact ⟨_, _, _, rfl, hidle _ (Keeps_trans k2 (Keeps_trans k3
        (Keeps_trans k4 (Keeps_msg _ _))))⟩
  · exact ⟨_, _, _, rfl, hidle _ (Keeps_trans k2 k3)⟩

/-- With nothing queued, a list of reads returns when the call depth allowed
is at least its length. -/
theorem run_chunks_idle (oc : Opcodes) (addr : Nat) :
    ∀ (cs : List (Nat × Nat)) (fuel : Nat) (buf : List Nat) (s : State),
      cs.length ≤ fuel → s.sp_opbuf_usage = 0 → ¬ Pending s →
      ∃ r, run_chunks oc addr fuel cs buf s = some r := by
  intro cs
  induction cs with
  | nil => intro fuel buf s _ _ _; exact ⟨_, run_chunks_nil oc addr fuel buf s⟩
  | cons c cs ih =>
    intro fuel buf s hf hu hp
    obtain ⟨a, l⟩ := c
    cases fuel with
    | zero => simp at hf
    | succ fuel =>
      obtain ⟨r, data, s1, he, hu1, hp1⟩ := sp_do_read_n_idle oc fuel a l s hu hp
      rw [run_chunks, he]
      dsimp only
      exact ih fuel _ s1 (by simpa using hf) hu1 hp1

end Serprog

namespace Serprog

/-- C22 (counterexample): no read-n limit (`sp_max_read_n = 0`) and
`len = 2 ^ 24 + 5`.  `serprog_chip_readn` issues one `R_NBYTES` whose 24-bit
length field is `05 00 00`; the device acknowledges and sends the 5 bytes asked
for; the host goes on reading for `2 ^ 24 + 5` bytes, finds no more and reports
that it cannot read the read-n data. -/
theorem C22_length_field_truncated :
    (serprog_chip_readn serprog_h 3 [] 0 (2 ^ 24 + 5)
      (init_state 16 300 0 [some S_ACK, some 1, some 2, some 3, some 4, some 5])).map
        (fun p => (p.2.chan.tx, p.2.chan.rx, p.2.log))
      = some ([0x0A, 0x00, 0x00, 0x00, 0x05, 0x00, 0x00], [],
          [Event.cannot_read_readn_data]) :=
  rfl

/-- C22 (amended): `serprog_chip_readn` chunking.  For every `addr`, `len` and
state: with a read-n limit `m = sp_max_read_n > 0`, `serprog_chip_readn` is one
`sp_do_read_n` per pair of `read_chunks addr len m`, in order, each storing its
data at `buf[a - addr ..]`, and with nothing queued it returns once the call
depth allowed exceeds the number of pairs; the pairs are `ceil(len / m)` in number, the `i`-th
starts at `addr + i * m`, all but the last have length `m`, every length is
between 1 and `m`, the lengths add up to `len` and every chunk lies in
`[addr, addr + len)`; and when `m < 2 ^ 24` the 24-bit length field of every
command decodes to the length the host reads.  Without a limit
(`sp_max_read_n = 0`) a non-zero `len` is read by one command, whose length
field decodes to `len` when `len < 2 ^ 24`.  For `len = 0` no command is
issued. -/
theorem C22_readn_chunking (oc : Opcodes) (fuel : Nat) (buf : List Nat) (addr len : Nat)
    (s : State) :
    (0 < s.sp_max_read_n →
      serprog_chip_readn oc (fuel + 1) buf addr len s
        = run_chunks oc addr (fuel + 1) (read_chunks addr len s.sp_max_read_n) buf s ∧
      (s.sp_opbuf_usage = 0 → ¬ Pending s →
        ∃ r, serprog_chip_readn oc ((read_chunks addr len s.sp_max_read_n).length + 1 + fuel)
          buf addr len s = some r) ∧
      (read_chunks addr len s.sp_max_read_n).length
        = (len + s.sp_max_read_n - 1) / s.sp_max_read_n ∧
      ((read_chunks addr len s.sp_max_read_n).map Prod.snd).sum = len ∧
      (∀ p ∈ read_chunks addr len s.sp_max_read_n,
        1 ≤ p.2 ∧ p.2 ≤ s.sp_max_read_n ∧ addr ≤ p.1 ∧ p.1 + p.2 ≤ addr + len) ∧
      (∀ i, i < (read_chunks addr len s.sp_max_read_n).length →
        ((read_chunks addr len s.sp_max_read_n).getD i (0, 0)).1 = addr + i * s.sp_max_read_n ∧
        (i + 1 < (read_chunks addr len s.sp_max_read_n).length →
          ((read_chunks addr len s.sp_max_read_n).getD i (0, 0)).2 = s.sp_max_read_n)) ∧
      (s.sp_max_read_n < 2 ^ 24 → ∀ p ∈ read_chunks addr len s.sp_max_read_n,
        of_le24 ((p.2 >>> 0) &&& 0xFF) ((p.2 >>> 8) &&& 0xFF) ((p.2 >>> 16) &&& 0xFF) = p.2)) ∧
    (s.sp_max_read_n = 0 →
      serprog_chip_readn oc (fuel + 1) buf addr len s
        = run_chunks oc addr (fuel + 1) (if len ≠ 0 then [(addr, len)] else []) buf s) ∧
    serprog_chip_readn oc (fuel + 1) buf addr 0 s = some (buf, s) ∧
    (len < 2 ^ 24 →
      of_le24 ((len >>> 0) &&& 0xFF) ((len >>> 8) &&& 0xFF) ((len >>> 16) &&& 0xFF) = len) := by
  refine ⟨fun hm => ⟨?_, fun hu hp => ?_, read_chunks_length addr len _ hm,
    read_chunks_sum addr len _,
    read_chunks_mem addr len _ hm, fun i hi => read_chunks_getD addr len _ i hi,
    fun h24 p hp => ?_⟩, fun hm => ?_, ?_, fun h => of_le24_le24 len h⟩
  · unfold serprog_chip_readn
    exact readn_loop_chunks oc addr (fuel + 1) addr len buf s hm (Or.inl (Nat.succ_ne_zero _))
  · unfold serprog_chip_readn
    have e : (read_chunks addr len s.sp_max_read_n).length + 1 + fuel
        = ((read_chunks addr len s.sp_max_read_n).length + fuel) + 1 := by omega
    rw [e, readn_loop_chunks oc addr _ addr len buf s hm (Or.inl (Nat.succ_ne_zero _))]
    exact run_chunks_idle oc addr _ _ buf s (by omega) hu hp
  · have := (read_chunks_mem addr len _ hm p hp).2.1
    exact of_le24_le24 p.2 (by omega)
  · unfold serprog_chip_readn
    exact readn_loop_unlimited oc addr fuel addr len buf s hm
  · unfold serprog_chip_readn
    rw [serprog_chip_readn_loop, if_neg (by simp), if_neg (by simp)]

/-- A read of 10 bytes at `0x100` with a read-n limit of 4: three commands, for
4, 4 and 2 bytes. -/
theorem C22_readn_chunking_witness :
    serprog_chip_readn serprog_h 1 [] 0x100 10
        ({ init_state 16 300 0 [] with sp_max_read_n := 4 } : State)
      = run_chunks serprog_h 0x100 1 (read_chunks 0x100 10 4) []
        ({ init_state 16 300 0 [] with sp_max_read_n := 4 } : State) ∧
    read_chunks 0x100 10 4 = [(0x100, 4), (0x104, 4), (0x108, 2)] ∧
    (read_chunks 0x100 10 4).length = (10 + 4 - 1) / 4 :=
  ⟨((C22_readn_chunking serprog_h 0 [] 0x100 10
      ({ init_state 16 300 0 [] with sp_max_read_n := 4 } : State)).1 (by decide)).1,
   by decide,
   ((C22_readn_chunking serprog_h 0 [] 0x100 10
      ({ init_state 16 300 0 [] with sp_max_read_n := 4 } : State)).1 (by decide)).2.2.1⟩

end Serprog

namespace Serprog

/-! ## `sp_synchronize` -/

theorem serialport_read_nonblock_spec (t : Nat) (ch : SyncChan) :
    ∃ r ch1, serialport_read_nonblock t ch = (r, ch1) ∧
      ch1.trace = ch.trace ++ [SyncEv.read r t] := by
  unfold serialport_read_nonblock
  cases ch.reads with
  | nil => exact ⟨_, _, rfl, rfl⟩
  | cons r rs => exact ⟨_, _, rfl, rfl⟩

theorem serialport_write_nonblock_spec (bs : List Nat) (ch : SyncChan) :
    ∃ ch1, (serialport_write_nonblock bs ch = (0, ch1) ∧
        ch1.trace = ch.trace ++ [SyncEv.wrote bs]) ∨
      (serialport_write_nonblock bs ch = (1, ch1) ∧
        ch1.trace = ch.trace ++ [SyncEv.write_failed bs]) := by
  unfold serialport_write_nonblock
  cases ch.wfail with
  | nil => exact ⟨_, Or.inl ⟨rfl, rfl⟩⟩
  | cons f w =>
    cases f with
    | true => exact ⟨_, Or.inr ⟨rfl, rfl⟩⟩
    | false => exact ⟨_, Or.inl ⟨rfl, rfl⟩⟩

/-- The inner loop of `sp_synchronize` with `n` iterations left: it adds at
most `2 * n + 3` events to the trace, writes `SYNCNOP` at most once, and ends
with `synced` only when the last five events are the reads of `NAK`, `ACK`, the
write of `SYNCNOP`, and the reads of `NAK`, `ACK`. -/
theorem sp_synchronize_inner_spec (SY : Nat) : ∀ (n : Nat) (ch : SyncChan),
    ∃ evs, (sp_synchronize_inner SY n ch).2.trace = ch.trace ++ evs ∧
      evs.length ≤ 2 * n + 3 ∧ evs.count (SyncEv.wrote [SY]) ≤ 1 ∧
      ((sp_synchronize_inner SY n ch).1 = SyncStep.synced →
        ∃ pre, evs = pre ++ [SyncEv.read (NbRead.byte S_NAK) 50,
          SyncEv.read (NbRead.byte S_ACK) 20, SyncEv.wrote [SY],
          SyncEv.read (NbRead.byte S_NAK) 500, SyncEv.read (NbRead.byte S_ACK) 100]) := by
  intro n
  induction n with
  | zero =>
    intro ch
    exact ⟨[], by simp [sp_synchronize_inner], by simp, by simp,
      fun h => by simp [sp_synchronize_inner] at h⟩
  | succ n ih =>
    intro ch
    -- an iteration that ends with `continue` after the events `es`
    have cont : ∀ (ch1 : SyncChan) (es : List SyncEv), ch1.trace = ch.trace ++ es →
        es.length ≤ 2 → es.count (SyncEv.wrote [SY]) = 0 →
        ∃ evs, (sp_synchronize_inner SY n ch1).2.trace = ch.trace ++ evs ∧
          evs.length ≤ 2 * (n + 1) + 3 ∧ evs.count (SyncEv.wrote [SY]) ≤ 1 ∧
          ((sp_synchronize_inner SY n ch1).1 = SyncStep.synced →
            ∃ pre, evs = pre ++ [SyncEv.read (NbRead.byte S_NAK) 50,
              SyncEv.read (NbRead.byte S_ACK) 20, SyncEv.wrote [SY],
              SyncEv.read (NbRead.byte S_NAK) 500, SyncEv.read (NbRead.byte S_ACK) 100]) := by
      intro ch1 es htr hlen hcnt
      obtain ⟨evs, h1, h2, h3, h4⟩ := ih ch1
      refine ⟨es ++ evs, by rw [h1, htr, List.append_assoc], ?_, ?_, fun hs => ?_⟩
      · rw [List.length_append]; omega
      · rw [List.count_append, hcnt]; omega
      · obtain ⟨pre, hpre⟩ := h4 hs
        exact ⟨es ++ pre, by rw [hpre, List.append_assoc]⟩
    -- an iteration that leaves the loop, without success, after the events `es`
    have stop : ∀ (st : SyncStep) (ch1 : SyncChan) (es : List SyncEv),
        st ≠ SyncStep.synced → ch1.trace = ch.trace ++ es →
        es.length ≤ 5 → es.count (SyncEv.wrote [SY]) ≤ 1 →
        ∃ evs, ((st, ch1) : SyncStep × SyncChan).2.trace = ch.trace ++ evs ∧
          evs.length ≤ 2 * (n + 1) + 3 ∧ evs.count (SyncEv.wrote [SY]) ≤ 1 ∧
          (((st, ch1) : SyncStep × SyncChan).1 = SyncStep.synced →
            ∃ pre, evs = pre ++ [SyncEv.read (NbRead.byte S_NAK) 50,
              SyncEv.read (NbRead.byte S_ACK) 20, SyncEv.wrote [SY],
              SyncEv.read (NbRead.byte S_NAK) 500, SyncEv.read (NbRead.byte S_ACK) 100]) := by
      intro st ch1 es hst htr hlen hcnt
      exact ⟨es, htr, by omega, hcnt, fun hs => absurd hs hst⟩
    rw [sp_synchronize_inner]
    obtain ⟨r1, ch1, hr1, ht1⟩ := serialport_read_nonblock_spec 50 ch
    rw [hr1]
    cases r1 with
    | error => exact stop _ ch1 _ (by decide) ht1 (by simp) (by simp)
    | timeout => exact cont ch1 _ ht1 (by simp) (by simp)
    | byte c1 =>
      dsimp only
      by_cases hc1 : c1 ≠ S_NAK
      · rw [if_pos hc1]
        exact cont ch1 _ ht1 (by simp) (by simp)
      · rw [if_neg hc1]
        have hc1' : c1 = S_NAK := by
          by_contra hne
          exact hc1 hne
        subst hc1'
        obtain ⟨r2, ch2, hr2, ht2⟩ := serialport_read_nonblock_spec 20 ch1
        rw [hr2]
        have ht2' : ch2.trace = ch.trace ++ [SyncEv.read (NbRead.byte S_NAK) 50,
            SyncEv.read r2 20] := by
          rw [ht2, ht1, List.append_assoc]; rfl
        cases r2 with
        | error => exact stop _ ch2 _ (by decide) ht2' (by simp) (by simp)
        | timeout => exact cont ch2 _ ht2' (by simp) (by simp)
        | byte c2 =>
          dsimp only
          by_cases hc2 : c2 ≠ S_ACK
          · rw [if_pos hc2]
            exact cont ch2 _ ht2' (by simp) (by simp)
          · rw [if_neg hc2]
            have hc2' : c2 = S_ACK := by
              by_contra hne
              exact hc2 hne
            subst hc2'
            obtain ⟨ch3, hw3 | hw3⟩ := serialport_write_nonblock_spec [SY] ch2
            · obtain ⟨hw3, ht3⟩ := hw3
              rw [hw3]
              dsimp only
              have ht3' : ch3.trace = ch.trace ++ [SyncEv.read (NbRead.byte S_NAK) 50,
                  SyncEv.read (NbRead.byte S_ACK) 20, SyncEv.wrote [SY]] := by
                rw [ht3, ht2', List.append_assoc]; rfl
              obtain ⟨r4, ch4, hr4, ht4⟩ := serialport_read_nonblock_spec 500 ch3
              rw [hr4]
              have ht4' : ch4.trace = ch.trace ++ [SyncEv.read (NbRead.byte S_NAK) 50,
                  SyncEv.read (NbRead.byte S_ACK) 20, SyncEv.wrote [SY],
                  SyncEv.read r4 500] := by
                rw [ht4, ht3', List.append_assoc]; rfl
              cases r4 with
              | error => exact stop _ ch4 _ (by decide) ht4' (by simp) (by simp)
              | timeout => exact stop _ ch4 _ (by decide) ht4' (by simp) (by simp)
              | byte c4 =>
                dsimp only
                by_cases hc4 : c4 ≠ S_NAK
                · rw [if_pos hc4]
                  exact stop _ ch4 _ (by decide) ht4' (by simp) (by simp)
                · rw [if_neg hc4]
                  have hc4' : c4 = S_NAK := by
                    by_contra hne
                    exact hc4 hne
                  subst hc4'
                  obtain ⟨r5, ch5, hr5, ht5⟩ := serialport_read_nonblock_spec 100 ch4
                  rw [hr5]
                  have ht5' : ch5.trace = ch.trace ++ [SyncEv.read (NbRead.byte S_NAK) 50,
                      SyncEv.read (NbRead.byte S_ACK) 20, SyncEv.wrote [SY],
                      SyncEv.read (NbRead.byte S_NAK) 500, SyncEv.read r5 100] := by
                    rw [ht5, ht4', List.append_assoc]; rfl
                  cases r5 with
                  | error => exact stop _ ch5 _ (by decide) ht5' (by simp) (by simp)
                  | timeout => exact stop _ ch5 _ (by decide) ht5' (by simp) (by simp)
                  | byte c5 =>
                    dsimp only
                    by_cases hc5 : c5 ≠ S_ACK
                    · rw [if_pos hc5]
                      exact stop _ ch5 _ (by decide) ht5' (by simp) (by simp)
                    · rw [if_neg hc5]
                      have hc5' : c5 = S_ACK := by
                        by_contra hne
                        exact hc5 hne
                      subst hc5'
                      exact ⟨_, ht5', by simp, by simp, fun _ => ⟨[], rfl⟩⟩
            · obtain ⟨hw3, ht3⟩ := hw3
              rw [hw3]
              dsimp only
              have ht3' : ch3.trace = ch.trace ++ [SyncEv.read (NbRead.byte S_NAK) 50,
                  SyncEv.read (NbRead.byte S_ACK) 20, SyncEv.write_failed [SY]] := by
                rw [ht3, ht2', List.append_assoc]; rfl
              exact stop _ ch3 _ (by decide) ht3' (by simp) (by simp)

end Serprog

namespace Serprog

/-- The outer loop of `sp_synchronize` with `i` attempts left: every attempt
adds at most 24 events to the trace and writes `SYNCNOP` at most twice; the
loop returns 0 only when the last five events are the reads of `NAK`, `ACK`,
the write of `SYNCNOP`, and the reads of `NAK`, `ACK`, and 1 after the
diagnostic in every other case. -/
theorem sp_synchronize_outer_spec (SY : Nat) : ∀ (i : Nat) (ch : SyncChan),
    ∃ evs, (sp_synchronize_outer SY i ch).2.trace = ch.trace ++ evs ∧
      evs.length ≤ 24 * i + 1 ∧ evs.count (SyncEv.wrote [SY]) ≤ 2 * i ∧
      ((sp_synchronize_outer SY i ch).1 = 0 ∨
        ((sp_synchronize_outer SY i ch).1 = 1 ∧
          evs.getLast? = some SyncEv.cannot_synchronize)) ∧
      ((sp_synchronize_outer SY i ch).1 = 0 →
        ∃ pre, evs = pre ++ [SyncEv.read (NbRead.byte S_NAK) 50,
          SyncEv.read (NbRead.byte S_ACK) 20, SyncEv.wrote [SY],
          SyncEv.read (NbRead.byte S_NAK) 500, SyncEv.read (NbRead.byte S_ACK) 100]) := by
  intro i
  induction i with
  | zero =>
    intro ch
    exact ⟨[SyncEv.cannot_synchronize], rfl, by simp, by simp, Or.inr ⟨rfl, rfl⟩,
      fun h => by simp [sp_synchronize_outer] at h⟩
  | succ i ih =>
    intro ch
    rw [sp_synchronize_outer]
    obtain ⟨ch1, hw | hw⟩ := serialport_write_nonblock_spec [SY] ch
    · obtain ⟨hw, ht1⟩ := hw
      rw [hw]
      dsimp only
      obtain ⟨evs1, h1, hl1, hc1, hs1⟩ := sp_synchronize_inner_spec SY 10 ch1
      generalize sp_synchronize_inner SY 10 ch1 = r at h1 hs1 ⊢
      obtain ⟨st, ch2⟩ := r
      dsimp only at h1 hs1 ⊢
      have ht2 : ch2.trace = ch.trace ++ (SyncEv.wrote [SY] :: evs1) := by
        rw [h1, ht1, List.append_assoc]; rfl
      cases st with
      | synced =>
        dsimp only
        obtain ⟨pre, hpre⟩ := hs1 rfl
        refine ⟨_, ht2, by simp; omega, ?_, Or.inl rfl,
          fun _ => ⟨SyncEv.wrote [SY] :: pre, by rw [hpre]; rfl⟩⟩
        rw [List.count_cons]
        simp only [beq_self_eq_true, if_true]
        omega
      | err_out =>
        dsimp only
        refine ⟨SyncEv.wrote [SY] :: evs1 ++ [SyncEv.cannot_synchronize], ?_, by simp; omega, ?_,
          Or.inr ⟨rfl, by
            rw [List.getLast?_append]
            rfl⟩, fun h => absurd h (by decide)⟩
        · show ch2.trace ++ _ = _
          rw [ht2, List.append_assoc]
        · rw [List.count_append, List.count_cons]
          simp only [beq_self_eq_true, if_true]
          have : List.count (SyncEv.wrote [SY]) [SyncEv.cannot_synchronize] = 0 := by
            simp
          omega
      | next_try =>
        dsimp only
        obtain ⟨evs2, h2, hl2, hc2, hr2, hs2⟩ := ih ch2
        refine ⟨SyncEv.wrote [SY] :: evs1 ++ evs2, ?_, by simp; omega, ?_, ?_, fun h => ?_⟩
        · rw [h2, ht2, List.append_assoc]
        · rw [List.count_append, List.count_cons]
          simp only [beq_self_eq_true, if_true]
          omega
        · rcases hr2 with h0 | ⟨h1', hlast⟩
          · exact Or.inl h0
          · refine Or.inr ⟨h1', ?_⟩
            rw [List.getLast?_append, hlast]
            rfl
        · obtain ⟨pre, hpre⟩ := hs2 h
          exact ⟨SyncEv.wrote [SY] :: evs1 ++ pre, by rw [hpre, List.append_assoc]⟩
    · obtain ⟨hw, ht1⟩ := hw
      rw [hw]
      dsimp only
      refine ⟨[SyncEv.write_failed [SY], SyncEv.cannot_synchronize], ?_, by simp; omega, by simp,
        Or.inr ⟨rfl, rfl⟩, fun h => absurd h (by decide)⟩
      show ch1.trace ++ _ = _
      rw [ht1, List.append_assoc]; rfl

/-- C23: synchronisation is declared only after `NAK, ACK` has been seen twice.
For every behaviour of the port (any bytes, timeouts and errors, failing
writes) and every value of the opcodes: the first thing `sp_synchronize` does
is the write of 8 `NOP` bytes; it returns 0 or 1; it returns 0 only if the last
five things it did were a read (50 ms) that delivered `NAK`, a read (20 ms)
that delivered `ACK`, the write of one `SYNCNOP`, a read (500 ms) that
delivered `NAK` and a read (100 ms) that delivered `ACK`; when it returns 1 its
last action is the diagnostic; and in all it writes `SYNCNOP` at most 16 times
and performs at most 196 port operations, which is what 8 attempts allow. -/
theorem C23_synchronize_after_two_nak_ack (S_CMD_NOP S_CMD_SYNCNOP : Nat) (ch : SyncChan) :
    ∃ evs, (sp_synchronize S_CMD_NOP S_CMD_SYNCNOP ch).2.trace = ch.trace ++ evs ∧
      (evs.head? = some (SyncEv.wrote (List.replicate 8 S_CMD_NOP)) ∨
        evs.head? = some (SyncEv.write_failed (List.replicate 8 S_CMD_NOP))) ∧
      ((sp_synchronize S_CMD_NOP S_CMD_SYNCNOP ch).1 = 0 ∨
        ((sp_synchronize S_CMD_NOP S_CMD_SYNCNOP ch).1 = 1 ∧
          evs.getLast? = some SyncEv.cannot_synchronize)) ∧
      ((sp_synchronize S_CMD_NOP S_CMD_SYNCNOP ch).1 = 0 →
        ∃ pre, evs = pre ++ [SyncEv.read (NbRead.byte S_NAK) 50,
          SyncEv.read (NbRead.byte S_ACK) 20, SyncEv.wrote [S_CMD_SYNCNOP],
          SyncEv.read (NbRead.byte S_NAK) 500, SyncEv.read (NbRead.byte S_ACK) 100]) ∧
      evs.count (SyncEv.wrote [S_CMD_SYNCNOP]) ≤ 16 ∧ evs.length ≤ 196 := by
  unfold sp_synchronize
  obtain ⟨ch1, hw | hw⟩ := serialport_write_nonblock_spec (List.replicate 8 S_CMD_NOP) ch
  · obtain ⟨hw, ht1⟩ := hw
    rw [hw]
    dsimp only
    obtain ⟨evs, h1, hl, hc, hr, hs⟩ := sp_synchronize_outer_spec S_CMD_SYNCNOP 8
      ((ch1.ev (SyncEv.delay (1000 * 1000))).ev SyncEv.flush_incoming)
    have ht : ((ch1.ev (SyncEv.delay (1000 * 1000))).ev SyncEv.flush_incoming).trace
        = ch.trace ++ [SyncEv.wrote (List.replicate 8 S_CMD_NOP), SyncEv.delay (1000 * 1000),
          SyncEv.flush_incoming] := by
      show (ch1.trace ++ _) ++ _ = _
      rw [ht1]
      simp
    have hne : SyncEv.wrote (List.replicate 8 S_CMD_NOP) ≠ SyncEv.wrote [S_CMD_SYNCNOP] := by
      intro he
      injection he with he
      have := congrArg List.length he
      simp at this
    refine ⟨[SyncEv.wrote (List.replicate 8 S_CMD_NOP), SyncEv.delay (1000 * 1000),
      SyncEv.flush_incoming] ++ evs, ?_, Or.inl rfl, ?_, fun h => ?_, ?_, ?_⟩
    · rw [h1, ht, List.append_assoc]
    · rcases hr with h0 | ⟨h1', hlast⟩
      · exact Or.inl h0
      · refine Or.inr ⟨h1', ?_⟩
        rw [List.getLast?_append, hlast]
        rfl
    · obtain ⟨pre, hpre⟩ := hs h
      exact ⟨[SyncEv.wrote (List.replicate 8 S_CMD_NOP), SyncEv.delay (1000 * 1000),
        SyncEv.flush_incoming] ++ pre, by rw [hpre, List.append_assoc]⟩
    · rw [List.count_append]
      have : List.count (SyncEv.wrote [S_CMD_SYNCNOP])
          [SyncEv.wrote (List.replicate 8 S_CMD_NOP), SyncEv.delay (1000 * 1000),
            SyncEv.flush_incoming] = 0 := by
        rw [List.count_eq_zero]
        intro hmem
        simp only [List.mem_cons, List.mem_singleton, List.mem_nil_iff, or_false] at hmem
        rcases hmem with h | h | h
        · exact hne h.symm
        · cases h
        · cases h
      omega
    · rw [List.length_append]
      simp only [List.length_cons, List.length_nil]
      omega
  · obtain ⟨hw, ht1⟩ := hw
    rw [hw]
    dsimp only
    refine ⟨[SyncEv.write_failed (List.replicate 8 S_CMD_NOP), SyncEv.cannot_synchronize], ?_,
      Or.inr rfl, Or.inr ⟨rfl, rfl⟩, fun h => absurd h (by decide), by simp, by simp⟩
    show ch1.trace ++ _ = _
    rw [ht1, List.append_assoc]; rfl

/-- A device that answers the first `SYNCNOP` with `NAK ACK` and the second one
as well: `sp_synchronize` returns 0, and what it did ends with those four reads
around the second `SYNCNOP`. -/
theorem C23_synchronize_after_two_nak_ack_witness :
    (sp_synchronize 0x00 0x10
      { reads := [NbRead.byte S_NAK, NbRead.byte S_ACK, NbRead.byte S_NAK, NbRead.byte S_ACK],
        wfail := [], trace := [] }).1 = 0 ∧
    ∃ evs pre, (sp_synchronize 0x00 0x10
      { reads := [NbRead.byte S_NAK, NbRead.byte S_ACK, NbRead.byte S_NAK, NbRead.byte S_ACK],
        wfail := [], trace := [] }).2.trace = [] ++ evs ∧
      evs = pre ++ [SyncEv.read (NbRead.byte S_NAK) 50,
        SyncEv.read (NbRead.byte S_ACK) 20, SyncEv.wrote [0x10],
        SyncEv.read (NbRead.byte S_NAK) 500, SyncEv.read (NbRead.byte S_ACK) 100] := by
  obtain ⟨evs, h1, -, -, h4, -, -⟩ := C23_synchronize_after_two_nak_ack 0x00 0x10
    { reads := [NbRead.byte S_NAK, NbRead.byte S_ACK, NbRead.byte S_NAK, NbRead.byte S_ACK],
      wfail := [], trace := [] }
  obtain ⟨pre, hpre⟩ := h4 (by decide)
  exact ⟨by decide, evs, pre, h1, hpre⟩

end Serprog

namespace Serprog

/-! ## The entries the driver stores in the FIFO -/

theorem sp_streamop_get_ring (s : State) :
    (sp_streamop_get s).2.sp_streamed_ops_info = s.sp_streamed_ops_info ∧
    (sp_streamop_get s).2.sp_streamed_ops_woff = s.sp_streamed_ops_woff := by
  unfold sp_streamop_get
  split
  · exact ⟨rfl, rfl⟩
  · rename_i info hinfo
    split
    · exact ⟨rfl, rfl⟩
    · exact ⟨rfl, rfl⟩

theorem sp_check_stream_free_loop_ring (target : Int) (rx : List (Option Nat)) :
    ∀ s : State,
      (sp_check_stream_free_loop target rx s).2.sp_streamed_ops_info = s.sp_streamed_ops_info ∧
      (sp_check_stream_free_loop target rx s).2.sp_streamed_ops_woff
        = s.sp_streamed_ops_woff := by
  induction rx with
  | nil => intro s; exact ⟨rfl, rfl⟩
  | cons c r ih =>
    intro s
    rcases c with _ | c
    · exact ⟨rfl, rfl⟩
    · have h1 := sp_streamop_get_ring { s with chan := { s.chan with rx := r } }
      have e : sp_check_stream_free_loop target (some c :: r) s =
          (match sp_streamop_get { s with chan := { s.chan with rx := r } } with
          | (op, s2) =>
            if c = S_NAK then (1, s2.msg (Event.stream_nak (STREAMOP_TYPE op)))
            else if c ≠ S_ACK then
              (1, s2.msg (Event.stream_invalid_reply c (STREAMOP_TYPE op)))
            else if s2.sp_streamed_transmit_bytes ≤ target then (0, s2)
            else if s2.sp_streamed_transmit_ops ≠ 0 then
              sp_check_stream_free_loop target r s2
            else (0, s2)) := rfl
      rw [e]
      generalize sp_streamop_get { s with chan := { s.chan with rx := r } } = g at h1
      rcases g with ⟨op, s2⟩
      dsimp only at h1 ⊢
      split
      · exact h1
      · split
        · exact h1
        · split
          · exact h1
          · split
            · exact ⟨(ih s2).1.trans h1.1, (ih s2).2.trans h1.2⟩
            · exact h1

/-- `sp_check_stream_free` writes no FIFO slot and leaves the write offset where
it is. -/
theorem sp_check_stream_free_ring (len : Int) (s : State) :
    (sp_check_stream_free len s).2.sp_streamed_ops_info = s.sp_streamed_ops_info ∧
    (sp_check_stream_free len s).2.sp_streamed_ops_woff = s.sp_streamed_ops_woff := by
  unfold sp_check_stream_free
  dsimp only
  generalize (if (s.sp_device_serbuf_size : Int) - len < 0 then 0
        else (s.sp_device_serbuf_size : Int) - len) = tg
  have h1 : (if tg < s.sp_streamed_transmit_bytes ∧ s.sp_streamed_transmit_ops ≠ 0 then
        sp_check_stream_free_loop tg s.chan.rx s
        else (0, s)).2.sp_streamed_ops_info = s.sp_streamed_ops_info ∧
      (if tg < s.sp_streamed_transmit_bytes ∧ s.sp_streamed_transmit_ops ≠ 0 then
        sp_check_stream_free_loop tg s.chan.rx s
        else (0, s)).2.sp_streamed_ops_woff = s.sp_streamed_ops_woff := by
    by_cases hc : tg < s.sp_streamed_transmit_bytes ∧ s.sp_streamed_transmit_ops ≠ 0
    · rw [if_pos hc]; exact sp_check_stream_free_loop_ring _ _ s
    · rw [if_neg hc]; exact ⟨rfl, rfl⟩
  generalize (if tg < s.sp_streamed_transmit_bytes ∧
        s.sp_streamed_transmit_ops ≠ 0 then
      sp_check_stream_free_loop tg s.chan.rx s
      else (0, s)) = r at h1
  rcases r with ⟨ret, s1⟩
  rcases ret with _ | ret
  · dsimp only at h1 ⊢
    by_cases h0 : s1.sp_streamed_transmit_ops = 0
    · rw [if_pos h0]
      by_cases hb : s1.sp_streamed_transmit_bytes ≠ 0
      · rw [if_pos hb]; exact h1
      · rw [if_neg hb]; exact h1
    · rw [if_neg h0]; exact h1
  · exact h1

theorem serialport_write_ring (bs : List Nat) (s : State) :
    (serialport_write bs s).2.sp_streamed_ops_info = s.sp_streamed_ops_info ∧
    (serialport_write bs s).2.sp_streamed_ops_woff = s.sp_streamed_ops_woff := by
  unfold serialport_write
  split <;> exact ⟨rfl, rfl⟩

theorem serialport_read_ring (len : Nat) : ∀ s : State,
    (serialport_read len s).2.2.sp_streamed_ops_info = s.sp_streamed_ops_info ∧
    (serialport_read len s).2.2.sp_streamed_ops_woff = s.sp_streamed_ops_woff := by
  induction len with
  | zero => intro s; exact ⟨rfl, rfl⟩
  | succ len ih =>
    intro s
    rw [serialport_read, serialport_read1]
    cases hrx : s.chan.rx with
    | nil => exact ⟨rfl, rfl⟩
    | cons c r =>
      cases c with
      | none => exact ⟨rfl, rfl⟩
      | some b =>
        dsimp only
        exact ih _

/-- The put site of `sp_stream_buffer_op`: whenever the call returns 0 it has
stored, at the write offset, the word of its own `opid` and of the length
`1 + parmlen`, and advanced nothing else in the ring. -/
theorem sp_stream_buffer_op_stores (cmd parmlen : Nat) (parms : List Nat) (opid : Nat)
    (s : State) (info : List Nat) (hinfo : s.sp_streamed_ops_info = some info)
    (h0 : (sp_stream_buffer_op cmd parmlen parms opid s).1 = 0) :
    (sp_stream_buffer_op cmd parmlen parms opid s).2.sp_streamed_ops_info
      = some (info.set s.sp_streamed_ops_woff (streamop opid (1 + parmlen))) := by
  unfold sp_stream_buffer_op at h0 ⊢
  unfold sp_automatic_cmdcheck at h0 ⊢
  by_cases hc : s.sp_check_avail_automatic = true ∧ sp_check_commandavail cmd s = 0
  · rw [if_pos hc] at h0
    exact absurd h0 Nat.one_ne_zero
  · rw [if_neg hc] at h0 ⊢
    dsimp only at h0 ⊢
    have hr := sp_check_stream_free_ring ((1 + parmlen : Nat) : Int) s
    generalize sp_check_stream_free ((1 + parmlen : Nat) : Int) s = r at hr h0 ⊢
    obtain ⟨ret, s1⟩ := r
    dsimp only at hr h0 ⊢
    rcases ret with _ | ret
    · dsimp only at h0 ⊢
      have hw := serialport_write_ring (cmd :: parms.take parmlen) s1
      generalize serialport_write (cmd :: parms.take parmlen) s1 = r2 at hw h0 ⊢
      obtain ⟨ret2, s2⟩ := r2
      dsimp only at hw h0 ⊢
      rcases ret2 with _ | ret2
      · dsimp only
        have hi2 : s2.sp_streamed_ops_info = some info := by rw [hw.1, hr.1, hinfo]
        unfold sp_streamop_put
        rw [hi2]
        dsimp only
        rw [hw.2, hr.2]
        rfl
      · exact absurd h0 Nat.one_ne_zero
    · exact absurd h0 Nat.one_ne_zero

/-- The put site of `sp_pass_writen` (the `O_WRITEN` path, when the reservation
triggers no early execute): the call returns, and when it returns 0 it has
stored the word of `OPID_WRITEN` and of the length `7 + sp_write_n_bytes`. -/
theorem sp_pass_writen_stores (oc : Opcodes) (fuel : Nat) (s : State) (info : List Nat)
    (hinfo : s.sp_streamed_ops_info = some info) (hn : s.sp_write_n_bytes ≠ 1)
    (hu : s.sp_opbuf_usage + ((7 + s.sp_write_n_bytes : Nat) : Int) < s.sp_device_opbuf_size) :
    ∃ ret s', sp_pass_writen oc (fuel + 2) s = some (ret, s') ∧
      (ret = 0 → s'.sp_streamed_ops_info
        = some (info.set s.sp_streamed_ops_woff
            (streamop OPID_WRITEN (7 + s.sp_write_n_bytes)))) := by
  rw [sp_pass_writen]
  have hr := sp_check_stream_free_ring ((7 + s.sp_write_n_bytes : Nat) : Int) s
  have hk := sp_check_stream_free_keeps ((7 + s.sp_write_n_bytes : Nat) : Int) s
  generalize sp_check_stream_free ((7 + s.sp_write_n_bytes : Nat) : Int) s = r at hr hk ⊢
  obtain ⟨ret, s1⟩ := r
  dsimp only at hr hk ⊢
  rcases ret with _ | ret
  · dsimp only
    rw [if_neg (by rw [hk.n]; exact hn),
      sp_check_opbuf_usage_skip oc fuel _ s1 (by rw [hk.usage, hk.n, hk.opbuf]; exact hu)]
    dsimp only
    generalize ([oc.S_CMD_O_WRITEN, (s1.sp_write_n_bytes >>> 0) &&& 0xFF,
      (s1.sp_write_n_bytes >>> 8) &&& 0xFF, (s1.sp_write_n_bytes >>> 16) &&& 0xFF,
      (s1.sp_write_n_addr >>> 0) &&& 0xFF, (s1.sp_write_n_addr >>> 8) &&& 0xFF,
      (s1.sp_write_n_addr >>> 16) &&& 0xFF] : List Nat) = hdr
    have hr3 := serialport_write_ring hdr s1
    have hk3 := serialport_write_keeps hdr s1
    generalize serialport_write hdr s1 = r3 at hr3 hk3 ⊢
    obtain ⟨ret3, s3⟩ := r3
    dsimp only at hr3 hk3 ⊢
    rcases ret3 with _ | ret3
    · dsimp only
      have hr4 := serialport_write_ring (s3.sp_write_n_buf.take s3.sp_write_n_bytes) s3
      have hk4 := serialport_write_keeps (s3.sp_write_n_buf.take s3.sp_write_n_bytes) s3
      generalize serialport_write (s3.sp_write_n_buf.take s3.sp_write_n_bytes) s3 = r4
        at hr4 hk4 ⊢
      obtain ⟨ret4, s4⟩ := r4
      dsimp only at hr4 hk4 ⊢
      rcases ret4 with _ | ret4
      · dsimp only
        refine ⟨_, _, rfl, fun _ => ?_⟩
        have hi4 : s4.sp_streamed_ops_info = some info := by
          rw [hr4.1, hr3.1, hr.1, hinfo]
        show (sp_streamop_put OPID_WRITEN (7 + s4.sp_write_n_bytes) s4).sp_streamed_ops_info = _
        unfold sp_streamop_put
        rw [hi4]
        dsimp only
        rw [hr4.2, hr3.2, hr.2, hk4.n, hk3.n, hk.n]
        rfl
      · exact ⟨_, _, rfl, fun h0 => absurd h0 (Nat.succ_ne_zero _)⟩
    · exact ⟨_, _, rfl, fun h0 => absurd h0 (Nat.succ_ne_zero _)⟩
  · exact ⟨_, _, rfl, fun h0 => absurd h0 (Nat.succ_ne_zero _)⟩

/-- The call site in `serprog_spi_send_command`, with nothing queued: the call
returns, and when it returns 0 the word it has stored is that of `OPID_SPIOP`
and of the length `1 + (writecnt + 6)`, whatever `writecnt` is. -/
theorem serprog_spi_send_command_stores (oc : Opcodes) (fuel : Nat) (writecnt readcnt : Nat)
    (writearr : List Nat) (s : State) (info : List Nat)
    (hinfo : s.sp_streamed_ops_info = some info)
    (hu : s.sp_opbuf_usage = 0) (hp : ¬ Pending s) :
    ∃ r, serprog_spi_send_command oc fuel writecnt readcnt writearr s = some r ∧
      (r.1 = 0 → r.2.2.sp_streamed_ops_info
        = some (info.set s.sp_streamed_ops_woff (streamop OPID_SPIOP (1 + (writecnt + 6))))) := by
  unfold serprog_spi_send_command sp_execute_before_read
  have hc : ¬ (s.sp_opbuf_usage ≠ 0 ∨ (s.sp_max_write_n ≠ 0 ∧ s.sp_write_n_bytes ≠ 0)) :=
    fun hc => hc.elim (fun h => h hu) hp
  rw [if_neg hc]
  dsimp only
  generalize hpb : ([(writecnt >>> 0) &&& 0xFF, (writecnt >>> 8) &&& 0xFF,
      (writecnt >>> 16) &&& 0xFF, (readcnt >>> 0) &&& 0xFF, (readcnt >>> 8) &&& 0xFF,
      (readcnt >>> 16) &&& 0xFF] ++ writearr.take writecnt : List Nat) = parmbuf
  have hst := sp_stream_buffer_op_stores oc.S_CMD_O_SPIOP (writecnt + 6) parmbuf OPID_SPIOP s
    info hinfo
  generalize sp_stream_buffer_op oc.S_CMD_O_SPIOP (writecnt + 6) parmbuf OPID_SPIOP s = r2
    at hst ⊢
  obtain ⟨ret2, s2⟩ := r2
  dsimp only at hst ⊢
  rcases ret2 with _ | ret2
  · dsimp only
    have hi2 := hst rfl
    by_cases hrc : readcnt ≠ 0
    · rw [if_pos hrc]
      have hr3 := sp_check_stream_free_ring (s2.sp_device_serbuf_size : Int) s2
      unfold sp_flush_stream
      generalize sp_check_stream_free (s2.sp_device_serbuf_size : Int) s2 = r3 at hr3 ⊢
      obtain ⟨ret3, s3⟩ := r3
      dsimp only at hr3 ⊢
      rcases ret3 with _ | ret3
      · dsimp only
        have hr4 := serialport_read_ring readcnt s3
        generalize serialport_read readcnt s3 = r4 at hr4 ⊢
        obtain ⟨ret4, data, s4⟩ := r4
        dsimp only at hr4 ⊢
        rcases ret4 with _ | ret4
        · exact ⟨_, rfl, fun _ => by
            show s4.sp_streamed_ops_info = _
            rw [hr4.1, hr3.1, hi2]⟩
        · exact ⟨_, rfl, fun h0 => absurd h0 Nat.one_ne_zero⟩
      · exact ⟨_, rfl, fun h0 => absurd h0 Nat.one_ne_zero⟩
    · rw [if_neg hrc]
      exact ⟨_, rfl, fun _ => hi2⟩
  · exact ⟨_, rfl, fun h0 => absurd h0 (Nat.succ_ne_zero _)⟩

/-- C28 (counterexample): an SPI command with `writecnt = 2 ^ 27` on a fresh
session.  `serprog_spi_send_command` passes `parmlen = writecnt + 6` to
`sp_stream_buffer_op`, which returns 0 and stores the word for
`(OPID_SPIOP, 2 ^ 27 + 7)`; the length does not fit the 26-bit size field, so
the word reads back as type 11, which is no operation id, and size 7, while
`sp_streamed_transmit_bytes` is `2 ^ 27 + 7`. -/
theorem C28_long_spi_write_corrupts_id :
    (serprog_spi_send_command serprog_h 1 (2 ^ 27) 0 (List.replicate (2 ^ 27) 0)
        (init_state 16 300 0 [])).map
      (fun r => (r.1, r.2.2.sp_streamed_transmit_bytes,
        r.2.2.sp_streamed_ops_info.map (fun info =>
          (STREAMOP_TYPE (info.getD 0 0), STREAMOP_SIZE (info.getD 0 0)))))
      = some (0, 134217735, some (11, 7)) :=
  rfl

/-- C28 (amended): stream entry packing round-trips.  For every operation id
below 64 and every length `len` below `2 ^ 26`: `sp_streamop_put id len` stores
the word `(id << 26) | len` (`streamop id len`) at `sp_streamed_ops_woff` of an
allocated FIFO, and that word has `STREAMOP_TYPE = id` and
`STREAMOP_SIZE = len`.  The places where the driver stores an entry pass these
lengths: `sp_stream_buffer_op`, whenever it returns 0, has stored the word of
its `opid` and of `1 + parmlen`; the `O_WRITEN` path of `sp_pass_writen` (when
its reservation triggers no early execute) returns, and when it returns 0 it
has stored the word of `OPID_WRITEN` and of `7 + sp_write_n_bytes`;
`serprog_spi_send_command` (with nothing queued) returns, and when it returns 0
it has stored the word of `OPID_SPIOP` and of `1 + (writecnt + 6)`.  So the id
field is intact whenever that length is `len < 2 ^ 26`: for every parameter
block of less than `2 ^ 26 - 1` bytes, every run of at most `2 ^ 24` bytes and
every SPI write count below `2 ^ 26 - 7`. -/
theorem C28_streamop_round_trip (id len : Nat) (hid : id < 64) (hlen : len < 2 ^ 26) :
    (∀ (s : State) (info : List Nat), s.sp_streamed_ops_info = some info →
      (sp_streamop_put id len s).sp_streamed_ops_info =
        some (info.set s.sp_streamed_ops_woff (streamop id len))) ∧
    STREAMOP_TYPE (streamop id len) = id ∧ STREAMOP_SIZE (streamop id len) = len ∧
    (∀ (cmd parmlen : Nat) (parms : List Nat) (s : State) (info : List Nat),
      1 + parmlen = len → s.sp_streamed_ops_info = some info →
      (sp_stream_buffer_op cmd parmlen parms id s).1 = 0 →
      (sp_stream_buffer_op cmd parmlen parms id s).2.sp_streamed_ops_info
        = some (info.set s.sp_streamed_ops_woff (streamop id len))) ∧
    (∀ (oc : Opcodes) (fuel : Nat) (s : State) (info : List Nat),
      id = OPID_WRITEN → 7 + s.sp_write_n_bytes = len →
      s.sp_streamed_ops_info = some info → s.sp_write_n_bytes ≠ 1 →
      s.sp_opbuf_usage + ((7 + s.sp_write_n_bytes : Nat) : Int) < s.sp_device_opbuf_size →
      ∃ ret s', sp_pass_writen oc (fuel + 2) s = some (ret, s') ∧
        (ret = 0 → s'.sp_streamed_ops_info
          = some (info.set s.sp_streamed_ops_woff (streamop id len)))) ∧
    (∀ (oc : Opcodes) (fuel writecnt readcnt : Nat) (writearr : List Nat) (s : State)
        (info : List Nat),
      id = OPID_SPIOP → 1 + (writecnt + 6) = len →
      s.sp_streamed_ops_info = some info → s.sp_opbuf_usage = 0 → ¬ Pending s →
      ∃ r, serprog_spi_send_command oc fuel writecnt readcnt writearr s = some r ∧
        (r.1 = 0 → r.2.2.sp_streamed_ops_info
          = some (info.set s.sp_streamed_ops_woff (streamop id len)))) := by
  refine ⟨?_, STREAMOP_TYPE_streamop id len hid hlen, STREAMOP_SIZE_streamop id len hlen,
    ?_, ?_, ?_⟩
  · intro s info hinfo
    unfold sp_streamop_put
    rw [hinfo]
    rfl
  · intro cmd parmlen parms s info hl hinfo h0
    rw [← hl]
    exact sp_stream_buffer_op_stores cmd parmlen parms id s info hinfo h0
  · intro oc fuel s info hi hl hinfo hn hu
    rw [← hl, hi]
    exact sp_pass_writen_stores oc fuel s info hinfo hn hu
  · intro oc fuel writecnt readcnt writearr s info hi hl hinfo hu hp
    rw [← hl, hi]
    exact serprog_spi_send_command_stores oc fuel writecnt readcnt writearr s info hinfo hu hp

/-- An SPI command with a write count of 4 on a fresh session: the call
returns, and the word it stores on success is that of `(OPID_SPIOP, 11)`, which
reads back as type `OPID_SPIOP` and size 11. -/
theorem C28_streamop_round_trip_witness :
    STREAMOP_TYPE (streamop OPID_SPIOP 11) = OPID_SPIOP ∧
    STREAMOP_SIZE (streamop OPID_SPIOP 11) = 11 ∧
    ∃ r, serprog_spi_send_command serprog_h 1 4 0 [1, 2, 3, 4] (init_state 16 300 0 [])
        = some r ∧
      (r.1 = 0 → r.2.2.sp_streamed_ops_info
        = some ((List.replicate 16 0).set 0 (streamop OPID_SPIOP 11))) :=
  ⟨(C28_streamop_round_trip OPID_SPIOP 11 (by decide) (by decide)).2.1,
   (C28_streamop_round_trip OPID_SPIOP 11 (by decide) (by decide)).2.2.1,
   (C28_streamop_round_trip OPID_SPIOP 11 (by decide) (by decide)).2.2.2.2.2
     serprog_h 1 4 0 [1, 2, 3, 4] (init_state 16 300 0 []) (List.replicate 16 0)
     rfl rfl rfl rfl (by decide)⟩

end Serprog
